import Mathlib

/-!
# easy_2d

A shallow embedding of `easy_2d.h`: the backend-agnostic object model (contexts,
surfaces, fonts, images and the callback table they dispatch through) and the
image pipeline of the GDI backend.

Conventions of the embedding

* A nullable C pointer is an `Option`; `none` is `NULL`.
* A function pointer is the address of backend code (`FnPtr`).  What that code does
  is not part of the core, so it is supplied by an environment `Env`: the value a
  hook returns, the world it leaves behind and the bytes it leaves in the entity's
  extra data.
* Every effect of a core function is recorded, in program order, in a trace of
  `Event`s (`malloc`, hook invocation, `free`).
* `assert` failures and writes outside an allocation are faults; a function that
  reaches one has no result.
* A `float` is a rational number, and every `float` operation of the geometry and text code
  (`+`, `-`, `/`, the conversion of an `int`) is rounded to binary32, round to nearest, ties
  to even (`FLT_EVAL_METHOD` 0).  Overflow to infinity and NaN are outside the model.  The
  texel arithmetic of the compositing and conversion loops, whose operands are bytes, is kept
  exact.
* `size_t` arithmetic is `Nat` arithmetic modulo `2 ^ size_t_bits`; the header of an entity
  occupies `sizeof(T) - sizeof(pExtraData)` bytes, the figure the allocation uses.  The
  array `pExtraData` itself starts at `offsetof(T, pExtraData)`, which is smaller when the
  struct ends in padding; `extra_capacity` counts the bytes of the block from there.
* The GDI backend's image pipeline returns the GDI calls it issues, in program order,
  together with the caller's argument struct and the image after the call.
-/

namespace Easy2D

/-- Address of backend code stored in the callback table. -/
abbrev FnPtr := Nat

/-- Address of a caller-owned memory cell (output parameters, argument structs). -/
abbrev Ptr := Nat

/-- An `unsigned char`. -/
abbrev easy2d_byte := Nat

/-- A C `float`: a rational number.  The values a `float` variable can hold are the binary32
values; the operations below round their exact result to one of them. -/
abbrev c_float := ℚ

/-- Nearest integer to a rational, a tie going to the even neighbour. -/
def round_half_even (q : ℚ) : Int :=
  if q - ⌊q⌋ < 1 / 2 then ⌊q⌋
  else if 1 / 2 < q - ⌊q⌋ then ⌊q⌋ + 1
  else if ⌊q⌋ % 2 = 0 then ⌊q⌋ else ⌊q⌋ + 1

/-- Exponent of the spacing of the binary32 values around a non-negative `x`: 24 significant
bits, and never below the subnormal spacing `2 ^ (-149)`. -/
def f32_ulp_exponent (x : ℚ) : Int := max (Int.log 2 x - 23) (-149)

/-- Rounding of a non-negative rational to binary32. -/
def f32_round_nonneg (x : ℚ) : ℚ :=
  (round_half_even (x / 2 ^ f32_ulp_exponent x) : ℚ) * 2 ^ f32_ulp_exponent x

/-- Rounding of a rational to binary32: round to nearest, ties to even.  Values beyond the
largest finite binary32 value are rounded like any other (no infinity). -/
def f32_round (x : ℚ) : c_float :=
  if 0 ≤ x then f32_round_nonneg x else - f32_round_nonneg (-x)

/-- The `float` sum `x + y`. -/
def f32_add (x y : c_float) : c_float := f32_round (x + y)

/-- The `float` difference `x - y`. -/
def f32_sub (x y : c_float) : c_float := f32_round (x - y)

/-- The `float` quotient `x / y`. -/
def f32_div (x y : c_float) : c_float := f32_round (x / y)

/-- The conversion `(float)n` of an `int`. -/
def f32_of_int (n : Int) : c_float := f32_round (n : ℚ)

/-- Structure representing an RGBA color. -/
structure easy2d_color where
  r : easy2d_byte
  g : easy2d_byte
  b : easy2d_byte
  a : easy2d_byte
deriving DecidableEq

inductive easy2d_font_weight where
  | medium
  | thin
  | extra_light
  | light
  | semi_bold
  | bold
  | extra_bold
  | heavy
deriving DecidableEq

inductive easy2d_font_slant where
  | none
  | italic
  | oblique
deriving DecidableEq

/-- The capability table: one optional function pointer per backend operation. -/
structure easy2d_drawing_callbacks where
  on_create_context : Option FnPtr
  on_delete_context : Option FnPtr
  on_create_surface : Option FnPtr
  on_delete_surface : Option FnPtr
  on_create_font : Option FnPtr
  on_delete_font : Option FnPtr
  on_create_image : Option FnPtr
  on_delete_image : Option FnPtr
  begin_draw : Option FnPtr
  end_draw : Option FnPtr
  clear : Option FnPtr
  draw_rect : Option FnPtr
  draw_rect_outline : Option FnPtr
  draw_rect_with_outline : Option FnPtr
  draw_round_rect : Option FnPtr
  draw_round_rect_outline : Option FnPtr
  draw_round_rect_with_outline : Option FnPtr
  draw_text : Option FnPtr
  draw_image : Option FnPtr
  set_clip : Option FnPtr
  get_clip : Option FnPtr
  get_font_metrics : Option FnPtr
  get_glyph_metrics : Option FnPtr
  measure_string : Option FnPtr
  get_text_cursor_position_from_point : Option FnPtr
  get_text_cursor_position_from_char : Option FnPtr
deriving DecidableEq

structure easy2d_context where
  drawingCallbacks : easy2d_drawing_callbacks
  imageExtraBytes : Nat
  fontExtraBytes : Nat
  surfaceExtraBytes : Nat
  contextExtraBytes : Nat
  pExtraData : List easy2d_byte
deriving DecidableEq

structure easy2d_surface where
  pContext : Option easy2d_context
  width : c_float
  height : c_float
  pExtraData : List easy2d_byte
deriving DecidableEq

structure easy2d_font where
  pContext : Option easy2d_context
  family : List Nat
  size : Nat
  weight : easy2d_font_weight
  slant : easy2d_font_slant
  rotation : c_float
  pExtraData : List easy2d_byte
deriving DecidableEq

structure easy2d_image where
  pContext : Option easy2d_context
  width : Nat
  height : Nat
  pExtraData : List easy2d_byte
deriving DecidableEq

/-- The value of `EASY2D_MAX_FONT_FAMILY_LENGTH`. -/
def EASY2D_MAX_FONT_FAMILY_LENGTH : Nat := 128

/-- The value of `sizeof(pExtraData)` for the one-byte trailing array every entity declares. -/
def sizeof_pExtraData : Nat := 1

/-- The compilation target: the `sizeof` of each entity struct, the offset of the member
`pExtraData` in each of them, and the width of `size_t`. -/
structure Target where
  sizeof_context : Nat
  sizeof_surface : Nat
  sizeof_font : Nat
  sizeof_image : Nat
  size_t_bits : Nat
  offsetof_context_pExtraData : Nat
  offsetof_surface_pExtraData : Nat
  offsetof_font_pExtraData : Nat
  offsetof_image_pExtraData : Nat

/-- One invocation of a backend callback, with the arguments it receives.  Entity pointers
that the core has already dereferenced are given by the value they point to. -/
inductive Call where
  | on_create_context (pContext : easy2d_context)
  | on_delete_context (pContext : easy2d_context)
  | on_create_surface (pSurface : easy2d_surface) (width height : c_float)
  | on_delete_surface (pSurface : easy2d_surface)
  | on_create_font (pFont : easy2d_font)
  | on_delete_font (pFont : easy2d_font)
  | on_create_image (pImage : easy2d_image) (stride : Nat) (pData : List Nat)
  | on_delete_image (pImage : easy2d_image)
  | begin_draw (pSurface : easy2d_surface)
  | end_draw (pSurface : easy2d_surface)
  | clear (pSurface : easy2d_surface) (color : easy2d_color)
  | draw_rect (pSurface : easy2d_surface) (left top right bottom : c_float) (color : easy2d_color)
  | draw_rect_outline (pSurface : easy2d_surface) (left top right bottom : c_float)
      (color : easy2d_color) (outlineWidth : c_float)
  | draw_rect_with_outline (pSurface : easy2d_surface) (left top right bottom : c_float)
      (color : easy2d_color) (outlineWidth : c_float) (outlineColor : easy2d_color)
  | draw_round_rect (pSurface : easy2d_surface) (left top right bottom : c_float)
      (color : easy2d_color) (radius : c_float)
  | draw_round_rect_outline (pSurface : easy2d_surface) (left top right bottom : c_float)
      (color : easy2d_color) (radius outlineWidth : c_float)
  | draw_round_rect_with_outline (pSurface : easy2d_surface) (left top right bottom : c_float)
      (color : easy2d_color) (radius outlineWidth : c_float) (outlineColor : easy2d_color)
  | draw_text (pSurface : easy2d_surface) (pFont : Option easy2d_font) (text : Option (List Nat))
      (textSizeInBytes : Nat) (posX posY : c_float) (color backgroundColor : easy2d_color)
  | draw_image (pSurface : easy2d_surface) (pImage : easy2d_image) (pArgs : Ptr)
  | set_clip (pSurface : easy2d_surface) (left top right bottom : c_float)
  | get_clip (pSurface : easy2d_surface) (pLeftOut pTopOut pRightOut pBottomOut : Option Ptr)
  | get_font_metrics (pFont : easy2d_font) (pMetricsOut : Option Ptr)
  | get_glyph_metrics (pFont : easy2d_font) (utf32 : Nat) (pMetricsOut : Option Ptr)
  | measure_string (pFont : easy2d_font) (text : Option (List Nat)) (textSizeInBytes : Nat)
      (pWidthOut pHeightOut : Option Ptr)
  | get_text_cursor_position_from_point (pFont : easy2d_font) (text : Option (List Nat))
      (textSizeInBytes : Nat) (maxWidth inputPosX : c_float)
      (pTextCursorPosXOut pCharacterIndexOut : Option Ptr)
  | get_text_cursor_position_from_char (pFont : easy2d_font) (text : Option (List Nat))
      (characterIndex : Nat) (pTextCursorPosXOut : Option Ptr)
deriving DecidableEq

/-- An allocated entity, as handed to `free`. -/
inductive Obj where
  | context (c : easy2d_context)
  | surface (s : easy2d_surface)
  | font (f : easy2d_font)
  | image (i : easy2d_image)
deriving DecidableEq

/-- The externally visible actions of the core, in program order. -/
inductive Event where
  | malloc (size : Nat)
  | invoke (f : FnPtr) (c : Call)
  | free (o : Obj)
deriving DecidableEq

/-- What a backend callback does when it is invoked: the value it returns (meaningful for
the `bool` callbacks), the world it leaves, and for each index and old byte of the entity's
extra data the byte it leaves there. -/
structure HookReply (σ : Type) where
  ret : Bool
  world : σ
  extra : Nat → easy2d_byte → easy2d_byte

/-- Everything outside the core: the allocator and the code behind the function pointers.
`malloc n w` is `none` for `NULL`, otherwise the indeterminate contents of the new block. -/
structure Env (σ : Type) where
  malloc : Nat → σ → Option (Nat → easy2d_byte)
  hook : FnPtr → Call → σ → HookReply σ

inductive Fault where
  | assertion
  | out_of_bounds
  | constraint_violation
deriving DecidableEq

/-- The result of a core function that ran to completion. -/
structure Step (σ : Type) (α : Type) where
  ret : α
  world : σ
  trace : List Event

abbrev Outcome (σ : Type) (α : Type) := Except Fault (Step σ α)

/-- The number of bytes `malloc(sizeof(T) - sizeof(pExtraData) + extraBytes)` asks for. -/
def alloc_request (T : Target) (sizeof_T extraBytes : Nat) : Nat :=
  (sizeof_T - sizeof_pExtraData + extraBytes) % 2 ^ T.size_t_bits

/-- The number of bytes of a block of `request` bytes that lie at or after the member
`pExtraData`, which starts `offsetof_pExtraData` bytes into the block: what the pointer
returned by the extra-data accessor can address. -/
def extra_capacity (offsetof_pExtraData request : Nat) : Nat :=
  request - offsetof_pExtraData

/-- The declared extra bytes `pExtraData[0 .. n)` of a fresh block of `request` bytes, as
`malloc` left them: `n` is what the request exceeds the `sizeof(T) - sizeof(pExtraData)` bytes
the allocation counts for the header by, and `pExtraData[i]` is the byte `offsetof(T,
pExtraData) + i` of the block.  When the struct ends in padding the block has more bytes
after them (see `extra_capacity`). -/
def extra_region (sizeof_T offsetof_pExtraData request : Nat) (garbage : Nat → easy2d_byte) :
    List easy2d_byte :=
  (List.range (request - (sizeof_T - sizeof_pExtraData))).map
    (fun i => garbage (offsetof_pExtraData + i))

/-- The effect of `memset(p, 0, n)` on a region of which `p` is the start. -/
def memset_zero (region : List easy2d_byte) (n : Nat) : List easy2d_byte :=
  List.replicate n 0 ++ region.drop n

/-- The extra data of an entity after a hook has run on it. -/
def after_hook {σ : Type} (r : HookReply σ) (extra : List easy2d_byte) : List easy2d_byte :=
  extra.mapIdx r.extra

def easy2d_create_context {σ : Type} (T : Target) (E : Env σ)
    (drawingCallbacks : easy2d_drawing_callbacks)
    (contextExtraBytes surfaceExtraBytes fontExtraBytes imageExtraBytes : Nat) (w : σ) :
    Outcome σ (Option easy2d_context) :=
  let request := alloc_request T T.sizeof_context contextExtraBytes
  match E.malloc request w with
  | none => .ok ⟨none, w, [.malloc request]⟩
  | some garbage =>
    if request < T.sizeof_context - sizeof_pExtraData then .error .out_of_bounds
    else
      let region := extra_region T.sizeof_context T.offsetof_context_pExtraData request garbage
      if region.length < contextExtraBytes then .error .out_of_bounds
      else
        let pContext : easy2d_context :=
          { drawingCallbacks := drawingCallbacks
            imageExtraBytes := imageExtraBytes
            fontExtraBytes := fontExtraBytes
            surfaceExtraBytes := surfaceExtraBytes
            contextExtraBytes := contextExtraBytes
            pExtraData := memset_zero region contextExtraBytes }
        match pContext.drawingCallbacks.on_create_context with
        | none => .ok ⟨some pContext, w, [.malloc request]⟩
        | some f =>
          let r := E.hook f (.on_create_context pContext) w
          let pContext1 := { pContext with pExtraData := after_hook r pContext.pExtraData }
          if r.ret then
            .ok ⟨some pContext1, r.world, [.malloc request, .invoke f (.on_create_context pContext)]⟩
          else
            .ok ⟨none, r.world,
              [.malloc request, .invoke f (.on_create_context pContext), .free (.context pContext1)]⟩

def easy2d_delete_context {σ : Type} (E : Env σ) (pContext : Option easy2d_context) (w : σ) :
    Outcome σ Unit :=
  match pContext with
  | none => .ok ⟨(), w, []⟩
  | some c =>
    match c.drawingCallbacks.on_delete_context with
    | some f =>
      let r := E.hook f (.on_delete_context c) w
      .ok ⟨(), r.world, [.invoke f (.on_delete_context c),
        .free (.context { c with pExtraData := after_hook r c.pExtraData })]⟩
    | none => .ok ⟨(), w, [.free (.context c)]⟩

def easy2d_create_surface {σ : Type} (T : Target) (E : Env σ) (pContext : Option easy2d_context)
    (width height : c_float) (w : σ) : Outcome σ (Option easy2d_surface) :=
  match pContext with
  | some c =>
    let request := alloc_request T T.sizeof_surface c.surfaceExtraBytes
    match E.malloc request w with
    | none => .ok ⟨none, w, [.malloc request]⟩
    | some garbage =>
      if request < T.sizeof_surface - sizeof_pExtraData then .error .out_of_bounds
      else
        let region := extra_region T.sizeof_surface T.offsetof_surface_pExtraData request garbage
        if region.length < c.surfaceExtraBytes then .error .out_of_bounds
        else
          let pSurface : easy2d_surface :=
            { pContext := some c
              width := width
              height := height
              pExtraData := memset_zero region c.surfaceExtraBytes }
          match c.drawingCallbacks.on_create_surface with
          | none => .ok ⟨some pSurface, w, [.malloc request]⟩
          | some f =>
            let r := E.hook f (.on_create_surface pSurface width height) w
            let pSurface1 := { pSurface with pExtraData := after_hook r pSurface.pExtraData }
            if r.ret then
              .ok ⟨some pSurface1, r.world,
                [.malloc request, .invoke f (.on_create_surface pSurface width height)]⟩
            else
              .ok ⟨none, r.world,
                [.malloc request, .invoke f (.on_create_surface pSurface width height),
                  .free (.surface pSurface1)]⟩
  | none => .ok ⟨none, w, []⟩

def easy2d_delete_surface {σ : Type} (E : Env σ) (pSurface : Option easy2d_surface) (w : σ) :
    Outcome σ Unit :=
  match pSurface with
  | none => .ok ⟨(), w, []⟩
  | some s =>
    match s.pContext with
    | none => .error .assertion
    | some c =>
      match c.drawingCallbacks.on_delete_surface with
      | some f =>
        let r := E.hook f (.on_delete_surface s) w
        .ok ⟨(), r.world, [.invoke f (.on_delete_surface s),
          .free (.surface { s with pExtraData := after_hook r s.pExtraData })]⟩
      | none => .ok ⟨(), w, [.free (.surface s)]⟩

/-- The call `strcpy_s(pFont->family, sizeof(pFont->family), family)`: the copy succeeds when
the string and its terminator fit the destination; otherwise the runtime-constraint handler
is invoked, which by default terminates the program. -/
def strcpy_s (destsz : Nat) (src : List Nat) : Except Fault (List Nat) :=
  if src.length < destsz then .ok src else .error .constraint_violation

def easy2d_create_font {σ : Type} (T : Target) (E : Env σ) (pContext : Option easy2d_context)
    (family : Option (List Nat)) (size : Nat) (weight : easy2d_font_weight)
    (slant : easy2d_font_slant) (rotation : c_float) (w : σ) : Outcome σ (Option easy2d_font) :=
  match pContext with
  | none => .ok ⟨none, w, []⟩
  | some c =>
    let request := alloc_request T T.sizeof_font c.fontExtraBytes
    match E.malloc request w with
    | none => .ok ⟨none, w, [.malloc request]⟩
    | some garbage =>
      if request < T.sizeof_font - sizeof_pExtraData then .error .out_of_bounds
      else
        let pFont0 : easy2d_font :=
          { pContext := some c
            family := []
            size := size
            weight := weight
            slant := slant
            rotation := rotation
            pExtraData := extra_region T.sizeof_font T.offsetof_font_pExtraData request garbage }
        let copied : Except Fault easy2d_font :=
          match family with
          | some name =>
            match strcpy_s EASY2D_MAX_FONT_FAMILY_LENGTH name with
            | .ok dst => .ok { pFont0 with family := dst }
            | .error e => .error e
          | none => .ok pFont0
        match copied with
        | .error e => .error e
        | .ok pFont =>
          match c.drawingCallbacks.on_create_font with
          | some f =>
            let r := E.hook f (.on_create_font pFont) w
            let pFont1 := { pFont with pExtraData := after_hook r pFont.pExtraData }
            if !r.ret then
              .ok ⟨none, r.world,
                [.malloc request, .invoke f (.on_create_font pFont), .free (.font pFont1)]⟩
            else
              .ok ⟨some pFont1, r.world, [.malloc request, .invoke f (.on_create_font pFont)]⟩
          | none => .ok ⟨some pFont, w, [.malloc request]⟩

def easy2d_delete_font {σ : Type} (E : Env σ) (pFont : Option easy2d_font) (w : σ) :
    Outcome σ Unit :=
  match pFont with
  | none => .ok ⟨(), w, []⟩
  | some ft =>
    match ft.pContext with
    | none => .error .assertion
    | some c =>
      match c.drawingCallbacks.on_delete_font with
      | some f =>
        let r := E.hook f (.on_delete_font ft) w
        .ok ⟨(), r.world, [.invoke f (.on_delete_font ft),
          .free (.font { ft with pExtraData := after_hook r ft.pExtraData })]⟩
      | none => .ok ⟨(), w, [.free (.font ft)]⟩

def easy2d_create_image {σ : Type} (T : Target) (E : Env σ) (pContext : Option easy2d_context)
    (width height stride : Nat) (pData : Option (List Nat)) (w : σ) :
    Outcome σ (Option easy2d_image) :=
  match pContext, pData with
  | some c, some data =>
    if width = 0 ∨ height = 0 then .ok ⟨none, w, []⟩
    else
      let request := alloc_request T T.sizeof_image c.imageExtraBytes
      match E.malloc request w with
      | none => .ok ⟨none, w, [.malloc request]⟩
      | some garbage =>
        if request < T.sizeof_image - sizeof_pExtraData then .error .out_of_bounds
        else
          let pImage : easy2d_image :=
            { pContext := some c
              width := width
              height := height
              pExtraData :=
                extra_region T.sizeof_image T.offsetof_image_pExtraData request garbage }
          match c.drawingCallbacks.on_create_image with
          | some f =>
            let r := E.hook f (.on_create_image pImage stride data) w
            let pImage1 := { pImage with pExtraData := after_hook r pImage.pExtraData }
            if !r.ret then
              .ok ⟨none, r.world,
                [.malloc request, .invoke f (.on_create_image pImage stride data),
                  .free (.image pImage1)]⟩
            else
              .ok ⟨some pImage1, r.world,
                [.malloc request, .invoke f (.on_create_image pImage stride data)]⟩
          | none => .ok ⟨some pImage, w, [.malloc request]⟩
  | _, _ => .ok ⟨none, w, []⟩

def easy2d_delete_image {σ : Type} (E : Env σ) (pImage : Option easy2d_image) (w : σ) :
    Outcome σ Unit :=
  match pImage with
  | none => .ok ⟨(), w, []⟩
  | some im =>
    match im.pContext with
    | none => .error .assertion
    | some c =>
      match c.drawingCallbacks.on_delete_image with
      | some f =>
        let r := E.hook f (.on_delete_image im) w
        .ok ⟨(), r.world, [.invoke f (.on_delete_image im),
          .free (.image { im with pExtraData := after_hook r im.pExtraData })]⟩
      | none => .ok ⟨(), w, [.free (.image im)]⟩

/-- The statement `if (cb != NULL) cb(args);` for a callback that returns nothing. -/
def call_void {σ : Type} (E : Env σ) (cb : Option FnPtr) (c : Call) (w : σ) : Step σ Unit :=
  match cb with
  | some f => ⟨(), (E.hook f c w).world, [.invoke f c]⟩
  | none => ⟨(), w, []⟩

/-- The statements `if (cb != NULL) return cb(args); return false;` of the query functions. -/
def call_bool {σ : Type} (E : Env σ) (cb : Option FnPtr) (c : Call) (w : σ) : Step σ Bool :=
  match cb with
  | some f => ⟨(E.hook f c w).ret, (E.hook f c w).world, [.invoke f c]⟩
  | none => ⟨false, w, []⟩

def easy2d_begin_draw {σ : Type} (E : Env σ) (pSurface : Option easy2d_surface) (w : σ) :
    Outcome σ Unit :=
  match pSurface with
  | none => .ok ⟨(), w, []⟩
  | some s =>
    match s.pContext with
    | none => .error .assertion
    | some c => .ok (call_void E c.drawingCallbacks.begin_draw (.begin_draw s) w)

def easy2d_end_draw {σ : Type} (E : Env σ) (pSurface : Option easy2d_surface) (w : σ) :
    Outcome σ Unit :=
  match pSurface with
  | none => .ok ⟨(), w, []⟩
  | some s =>
    match s.pContext with
    | none => .error .assertion
    | some c => .ok (call_void E c.drawingCallbacks.end_draw (.end_draw s) w)

def easy2d_clear {σ : Type} (E : Env σ) (pSurface : Option easy2d_surface) (color : easy2d_color)
    (w : σ) : Outcome σ Unit :=
  match pSurface with
  | none => .ok ⟨(), w, []⟩
  | some s =>
    match s.pContext with
    | none => .error .assertion
    | some c => .ok (call_void E c.drawingCallbacks.clear (.clear s color) w)

def easy2d_draw_rect {σ : Type} (E : Env σ) (pSurface : Option easy2d_surface)
    (left top right bottom : c_float) (color : easy2d_color) (w : σ) : Outcome σ Unit :=
  match pSurface with
  | none => .ok ⟨(), w, []⟩
  | some s =>
    match s.pContext with
    | none => .error .assertion
    | some c =>
      .ok (call_void E c.drawingCallbacks.draw_rect (.draw_rect s left top right bottom color) w)

def easy2d_draw_rect_outline {σ : Type} (E : Env σ) (pSurface : Option easy2d_surface)
    (left top right bottom : c_float) (color : easy2d_color) (outlineWidth : c_float) (w : σ) :
    Outcome σ Unit :=
  match pSurface with
  | none => .ok ⟨(), w, []⟩
  | some s =>
    match s.pContext with
    | none => .error .assertion
    | some c =>
      .ok (call_void E c.drawingCallbacks.draw_rect_outline
        (.draw_rect_outline s left top right bottom color outlineWidth) w)

def easy2d_draw_rect_with_outline {σ : Type} (E : Env σ) (pSurface : Option easy2d_surface)
    (left top right bottom : c_float) (color : easy2d_color) (outlineWidth : c_float)
    (outlineColor : easy2d_color) (w : σ) : Outcome σ Unit :=
  match pSurface with
  | none => .ok ⟨(), w, []⟩
  | some s =>
    match s.pContext with
    | none => .error .assertion
    | some c =>
      .ok (call_void E c.drawingCallbacks.draw_rect_with_outline
        (.draw_rect_with_outline s left top right bottom color outlineWidth outlineColor) w)

def easy2d_draw_round_rect {σ : Type} (E : Env σ) (pSurface : Option easy2d_surface)
    (left top right bottom : c_float) (color : easy2d_color) (radius : c_float) (w : σ) :
    Outcome σ Unit :=
  match pSurface with
  | none => .ok ⟨(), w, []⟩
  | some s =>
    match s.pContext with
    | none => .error .assertion
    | some c =>
      .ok (call_void E c.drawingCallbacks.draw_round_rect
        (.draw_round_rect s left top right bottom color radius) w)

def easy2d_draw_round_rect_outline {σ : Type} (E : Env σ) (pSurface : Option easy2d_surface)
    (left top right bottom : c_float) (color : easy2d_color) (radius outlineWidth : c_float)
    (w : σ) : Outcome σ Unit :=
  match pSurface with
  | none => .ok ⟨(), w, []⟩
  | some s =>
    match s.pContext with
    | none => .error .assertion
    | some c =>
      .ok (call_void E c.drawingCallbacks.draw_round_rect_outline
        (.draw_round_rect_outline s left top right bottom color radius outlineWidth) w)

def easy2d_draw_round_rect_with_outline {σ : Type} (E : Env σ)
    (pSurface : Option easy2d_surface) (left top right bottom : c_float) (color : easy2d_color)
    (radius outlineWidth : c_float) (outlineColor : easy2d_color) (w : σ) : Outcome σ Unit :=
  match pSurface with
  | none => .ok ⟨(), w, []⟩
  | some s =>
    match s.pContext with
    | none => .error .assertion
    | some c =>
      .ok (call_void E c.drawingCallbacks.draw_round_rect_with_outline
        (.draw_round_rect_with_outline s left top right bottom color radius outlineWidth
          outlineColor) w)

def easy2d_draw_text {σ : Type} (E : Env σ) (pSurface : Option easy2d_surface)
    (pFont : Option easy2d_font) (text : Option (List Nat)) (textSizeInBytes : Nat)
    (posX posY : c_float) (color backgroundColor : easy2d_color) (w : σ) : Outcome σ Unit :=
  match pSurface with
  | none => .ok ⟨(), w, []⟩
  | some s =>
    match s.pContext with
    | none => .error .assertion
    | some c =>
      .ok (call_void E c.drawingCallbacks.draw_text
        (.draw_text s pFont text textSizeInBytes posX posY color backgroundColor) w)

def easy2d_draw_image {σ : Type} (E : Env σ) (pSurface : Option easy2d_surface)
    (pImage : Option easy2d_image) (pArgs : Option Ptr) (w : σ) : Outcome σ Unit :=
  match pSurface, pImage, pArgs with
  | some s, some im, some a =>
    match s.pContext with
    | none => .error .assertion
    | some c => .ok (call_void E c.drawingCallbacks.draw_image (.draw_image s im a) w)
  | _, _, _ => .ok ⟨(), w, []⟩

def easy2d_set_clip {σ : Type} (E : Env σ) (pSurface : Option easy2d_surface)
    (left top right bottom : c_float) (w : σ) : Outcome σ Unit :=
  match pSurface with
  | none => .ok ⟨(), w, []⟩
  | some s =>
    match s.pContext with
    | none => .error .assertion
    | some c =>
      .ok (call_void E c.drawingCallbacks.set_clip (.set_clip s left top right bottom) w)

def easy2d_get_clip {σ : Type} (E : Env σ) (pSurface : Option easy2d_surface)
    (pLeftOut pTopOut pRightOut pBottomOut : Option Ptr) (w : σ) : Outcome σ Unit :=
  match pSurface with
  | none => .ok ⟨(), w, []⟩
  | some s =>
    match s.pContext with
    | none => .error .assertion
    | some c =>
      .ok (call_void E c.drawingCallbacks.get_clip
        (.get_clip s pLeftOut pTopOut pRightOut pBottomOut) w)

def easy2d_get_font_metrics {σ : Type} (E : Env σ) (pFont : Option easy2d_font)
    (pMetricsOut : Option Ptr) (w : σ) : Outcome σ Bool :=
  match pFont with
  | none => .ok ⟨false, w, []⟩
  | some ft =>
    match ft.pContext with
    | none => .error .assertion
    | some c =>
      .ok (call_bool E c.drawingCallbacks.get_font_metrics (.get_font_metrics ft pMetricsOut) w)

def easy2d_get_glyph_metrics {σ : Type} (E : Env σ) (pFont : Option easy2d_font) (utf32 : Nat)
    (pMetricsOut : Option Ptr) (w : σ) : Outcome σ Bool :=
  match pFont, pMetricsOut with
  | some ft, some out =>
    match ft.pContext with
    | none => .error .assertion
    | some c =>
      .ok (call_bool E c.drawingCallbacks.get_glyph_metrics
        (.get_glyph_metrics ft utf32 (some out)) w)
  | _, _ => .ok ⟨false, w, []⟩

def easy2d_measure_string {σ : Type} (E : Env σ) (pFont : Option easy2d_font)
    (text : Option (List Nat)) (textSizeInBytes : Nat) (pWidthOut pHeightOut : Option Ptr)
    (w : σ) : Outcome σ Bool :=
  match pFont with
  | none => .ok ⟨false, w, []⟩
  | some ft =>
    match ft.pContext with
    | none => .error .assertion
    | some c =>
      .ok (call_bool E c.drawingCallbacks.measure_string
        (.measure_string ft text textSizeInBytes pWidthOut pHeightOut) w)

def easy2d_get_text_cursor_position_from_point {σ : Type} (E : Env σ)
    (pFont : Option easy2d_font) (text : Option (List Nat)) (textSizeInBytes : Nat)
    (maxWidth inputPosX : c_float) (pTextCursorPosXOut pCharacterIndexOut : Option Ptr) (w : σ) :
    Outcome σ Bool :=
  match pFont with
  | none => .ok ⟨false, w, []⟩
  | some ft =>
    match ft.pContext with
    | none => .error .assertion
    | some c =>
      .ok (call_bool E c.drawingCallbacks.get_text_cursor_position_from_point
        (.get_text_cursor_position_from_point ft text textSizeInBytes maxWidth inputPosX
          pTextCursorPosXOut pCharacterIndexOut) w)

def easy2d_get_text_cursor_position_from_char {σ : Type} (E : Env σ)
    (pFont : Option easy2d_font) (text : Option (List Nat)) (characterIndex : Nat)
    (pTextCursorPosXOut : Option Ptr) (w : σ) : Outcome σ Bool :=
  match pFont with
  | none => .ok ⟨false, w, []⟩
  | some ft =>
    match ft.pContext with
    | none => .error .assertion
    | some c =>
      .ok (call_bool E c.drawingCallbacks.get_text_cursor_position_from_char
        (.get_text_cursor_position_from_char ft text characterIndex pTextCursorPosXOut) w)

/-! ## The GDI backend: drawing an image

`easy2d_draw_image_gdi` is embedded as a function from the caller's argument struct and the
image to the argument struct and the image after the call, together with the GDI calls the
function issues, in program order.  The values GDI returns to the function (`SaveDC`, the
first `SelectObject`) are supplied from outside. -/

def EASY2D_IMAGE_DRAW_BACKGROUND : Nat := 1 <<< 0

def EASY2D_IMAGE_DRAW_BOUNDS : Nat := 1 <<< 1

def EASY2D_IMAGE_CLIP_BOUNDS : Nat := 1 <<< 2

def EASY2D_IMAGE_ALIGN_CENTER : Nat := 1 <<< 3

def EASY2D_IMAGE_HINT_NO_ALPHA : Nat := 1 <<< 4

structure easy2d_draw_image_args where
  dstX : c_float
  dstY : c_float
  dstWidth : c_float
  dstHeight : c_float
  srcX : c_float
  srcY : c_float
  srcWidth : c_float
  srcHeight : c_float
  dstBoundsX : c_float
  dstBoundsY : c_float
  dstBoundsWidth : c_float
  dstBoundsHeight : c_float
  foregroundTint : easy2d_color
  backgroundColor : easy2d_color
  boundsColor : easy2d_color
  options : Nat
deriving DecidableEq

/-- A GDI handle (`HDC`, `HBITMAP`, `HGDIOBJ`). -/
abbrev Handle := Nat

/-- The fields of `gdi_surface_data` that image drawing reads. -/
structure gdi_surface_data where
  hDC : Handle
  hIntermediateDC : Handle
  hStockDCBrush : Handle
  hStockNullPen : Handle
deriving DecidableEq

/-- The extra data of an image of the GDI backend; the two bitmaps are given by their texels,
row after row. -/
structure gdi_image_data where
  hSrcBitmap : Handle
  pSrcBitmapData : List Nat
  hIntermediateBitmap : Handle
  pIntermediateBitmapData : List Nat
deriving DecidableEq

/-- An image as the GDI backend sees it: the header fields and the extra data. -/
structure gdi_image where
  pContext : Option easy2d_context
  width : Nat
  height : Nat
  data : gdi_image_data
deriving DecidableEq

structure POINT where
  x : Int
  y : Int
deriving DecidableEq

/-- The Win32 `BLENDFUNCTION` passed to `AlphaBlend`. -/
structure BLENDFUNCTION where
  BlendOp : Nat
  BlendFlags : Nat
  SourceConstantAlpha : Nat
  AlphaFormat : Nat
deriving DecidableEq

/-- The Win32 constant `AC_SRC_OVER`: the source is placed over the destination. -/
def AC_SRC_OVER : Nat := 0

/-- The Win32 constant `AC_SRC_ALPHA`: the source bitmap carries per-pixel alpha. -/
def AC_SRC_ALPHA : Nat := 1

/-- The Win32 raster operation `SRCCOPY`: the source rectangle replaces the destination. -/
def SRCCOPY : Nat := 0x00CC0020

/-- The GDI calls issued by the backend's drawing functions. -/
inductive GdiOp where
  | SaveDC (hDC : Handle)
  | RestoreDC (hDC : Handle) (nSavedDC : Int)
  | GdiFlush
  | SelectObject (hDC : Handle) (h : Handle)
  | SetDCBrushColor (hDC : Handle) (r g b : easy2d_byte)
  | PolyPolygon (hDC : Handle) (pPoints : List POINT) (polyCount : Nat)
  | StretchBlt (hDC : Handle) (x y w h : Int) (hSrcDC : Handle) (sx sy sw sh : Int)
      (rop : Nat)
  | AlphaBlend (hDC : Handle) (x y w h : Int) (hSrcDC : Handle) (sx sy sw sh : Int)
      (blend : BLENDFUNCTION)
  | SelectClipRgn (hDC : Handle) (hrgn : Option Handle)
  | IntersectClipRect (hDC : Handle) (left top right bottom : Int)
deriving DecidableEq

/-- What GDI returns to the pipeline: the result of `SaveDC` (0 on failure) and the bitmap
previously selected into the intermediate DC. -/
structure gdi_replies where
  SaveDC : Int
  hPrevBitmap : Handle

/-- The conversion `(int)x` and `(LONG)x` of a float: truncation toward zero. -/
def c_int (x : c_float) : Int :=
  if 0 ≤ x then ⌊x⌋ else ⌈x⌉

/-- The conversion `(unsigned int)x` of a non-negative float. -/
def c_uint (x : c_float) : Nat :=
  ⌊x⌋₊

/-- The block "Center the image if applicable". -/
def center_image (a : easy2d_draw_image_args) : easy2d_draw_image_args :=
  if a.options &&& EASY2D_IMAGE_ALIGN_CENTER ≠ 0 then
    { a with
      dstX := f32_add a.dstBoundsX (f32_div (f32_sub a.dstBoundsWidth a.dstWidth) 2)
      dstY := f32_add a.dstBoundsY (f32_div (f32_sub a.dstBoundsHeight a.dstHeight) 2) }
  else a

def clip_left (a : easy2d_draw_image_args) : easy2d_draw_image_args :=
  if a.dstX < a.dstBoundsX then
    { a with
      srcWidth := f32_sub a.srcWidth (f32_sub a.dstBoundsX a.dstX)
      srcX := f32_add a.srcX (f32_sub a.dstBoundsX a.dstX)
      dstWidth := f32_sub a.dstWidth (f32_sub a.dstBoundsX a.dstX)
      dstX := a.dstBoundsX }
  else a

def clip_top (a : easy2d_draw_image_args) : easy2d_draw_image_args :=
  if a.dstY < a.dstBoundsY then
    { a with
      srcHeight := f32_sub a.srcHeight (f32_sub a.dstBoundsY a.dstY)
      srcY := f32_add a.srcY (f32_sub a.dstBoundsY a.dstY)
      dstHeight := f32_sub a.dstHeight (f32_sub a.dstBoundsY a.dstY)
      dstY := a.dstBoundsY }
  else a

def clip_right (a : easy2d_draw_image_args) : easy2d_draw_image_args :=
  if f32_add a.dstX a.dstWidth > f32_add a.dstBoundsX a.dstBoundsWidth then
    { a with
      srcWidth := f32_sub a.srcWidth
        (f32_sub (f32_add a.dstX a.dstWidth) (f32_add a.dstBoundsX a.dstBoundsWidth))
      dstWidth := f32_sub a.dstWidth
        (f32_sub (f32_add a.dstX a.dstWidth) (f32_add a.dstBoundsX a.dstBoundsWidth)) }
  else a

def clip_bottom (a : easy2d_draw_image_args) : easy2d_draw_image_args :=
  if f32_add a.dstY a.dstHeight > f32_add a.dstBoundsY a.dstBoundsHeight then
    { a with
      srcHeight := f32_sub a.srcHeight
        (f32_sub (f32_add a.dstY a.dstHeight) (f32_add a.dstBoundsY a.dstBoundsHeight))
      dstHeight := f32_sub a.dstHeight
        (f32_sub (f32_add a.dstY a.dstHeight) (f32_add a.dstBoundsY a.dstBoundsHeight)) }
  else a

/-- How the block "Clip the image if applicable" ends: with an early `return`, or with the
adjusted arguments, the value of `prevDC` and the GDI calls made. -/
inductive clip_result where
  | abandoned (a : easy2d_draw_image_args)
  | proceed (a : easy2d_draw_image_args) (prevDC : Int) (ops : List GdiOp)

/-- The block "Clip the image if applicable". -/
def clip_image (R : gdi_replies) (s : gdi_surface_data) (a : easy2d_draw_image_args) :
    clip_result :=
  if a.options &&& EASY2D_IMAGE_CLIP_BOUNDS ≠ 0 then
    if a.dstX < a.dstBoundsX ∨
        f32_add a.dstX a.dstWidth > f32_add a.dstBoundsX a.dstBoundsWidth ∨
        a.dstY < a.dstBoundsY ∨
        f32_add a.dstY a.dstHeight > f32_add a.dstBoundsY a.dstBoundsHeight then
      if a.dstWidth ≠ a.srcWidth ∨ a.dstHeight ≠ a.srcHeight then
        .proceed a R.SaveDC [.SaveDC s.hDC]
      else
        let a4 := clip_bottom (clip_right (clip_top (clip_left a)))
        if a4.dstWidth ≤ 0 ∨ a4.dstHeight ≤ 0 then .abandoned a4
        else .proceed a4 0 []
    else .proceed a 0 []
  else .proceed a 0 []

/-- The body of the per-texel loop of the slow path: the texel stored in the intermediate
bitmap for the source texel `srcTexel`. -/
def composite_texel (a : easy2d_draw_image_args) (srcTexel : Nat) : Nat :=
  let srcTexelA := (srcTexel &&& 0xFF000000) >>> 24
  let srcTexelR := c_uint ((((srcTexel &&& 0x00FF0000) >>> 16 : Nat) : c_float)
    * ((a.foregroundTint.r : c_float) / 255))
  let srcTexelG := c_uint ((((srcTexel &&& 0x0000FF00) >>> 8 : Nat) : c_float)
    * ((a.foregroundTint.g : c_float) / 255))
  let srcTexelB := c_uint ((((srcTexel &&& 0x000000FF) >>> 0 : Nat) : c_float)
    * ((a.foregroundTint.b : c_float) / 255))
  let srcTexelR := if srcTexelR > 255 then 255 else srcTexelR
  let srcTexelG := if srcTexelG > 255 then 255 else srcTexelG
  let srcTexelB := if srcTexelB > 255 then 255 else srcTexelB
  if a.options &&& EASY2D_IMAGE_DRAW_BACKGROUND ≠ 0 then
    let srcTexelB := srcTexelB
      + c_uint ((a.backgroundColor.b : c_float) * (((255 - srcTexelA : Nat) : c_float) / 255))
    let srcTexelG := srcTexelG
      + c_uint ((a.backgroundColor.g : c_float) * (((255 - srcTexelA : Nat) : c_float) / 255))
    let srcTexelR := srcTexelR
      + c_uint ((a.backgroundColor.r : c_float) * (((255 - srcTexelA : Nat) : c_float) / 255))
    let srcTexelA := 0xFF
    ((srcTexelR <<< 16) ||| (srcTexelG <<< 8) ||| (srcTexelB <<< 0) ||| (srcTexelA <<< 24))
      % 2 ^ 32
  else
    ((srcTexelR <<< 16) ||| (srcTexelG <<< 8) ||| (srcTexelB <<< 0) ||| (srcTexelA <<< 24))
      % 2 ^ 32

/-- The two nested loops of the slow path: for every row below `height` and column below
`width`, texel `iRow * width + iCol` of the intermediate bitmap is overwritten with the
composited source texel at the same offset.  The offset's product is `unsigned int`.  Both
bitmaps are created with `width * height` texels; an offset outside a list, which in C would
be an access outside the bitmap, reads 0 and writes nothing. -/
def composite_bitmap (a : easy2d_draw_image_args) (width height : Nat)
    (pSrcBitmapData pDstBitmapData : List Nat) : List Nat :=
  (List.range height).foldl
    (fun dst iRow =>
      (List.range width).foldl
        (fun dst iCol =>
          dst.set ((iRow * width) % 2 ^ 32 + iCol)
            (composite_texel a (pSrcBitmapData.getD ((iRow * width) % 2 ^ 32 + iCol) 0)))
        dst)
    pDstBitmapData

/-- What the block that chooses the source bitmap leaves: the arguments, the image, the
bitmap to blit and the GDI calls made. -/
structure composite_result where
  args : easy2d_draw_image_args
  image : gdi_image
  hSrcBitmap : Handle
  ops : List GdiOp

/-- The block that chooses between the fast path (no tint, no background) and the slow
path. -/
def composite_image (im : gdi_image) (a : easy2d_draw_image_args) : composite_result :=
  if a.options &&& EASY2D_IMAGE_DRAW_BACKGROUND = 0 ∧ a.foregroundTint.r = 255 ∧
      a.foregroundTint.g = 255 ∧ a.foregroundTint.b = 255 then
    { args := a, image := im, hSrcBitmap := im.data.hSrcBitmap, ops := [] }
  else
    let pDstBitmapData := composite_bitmap a im.width im.height im.data.pSrcBitmapData
      im.data.pIntermediateBitmapData
    let data1 : gdi_image_data := { im.data with pIntermediateBitmapData := pDstBitmapData }
    let im1 : gdi_image := { im with data := data1 }
    let a1 : easy2d_draw_image_args :=
      if a.options &&& EASY2D_IMAGE_DRAW_BACKGROUND ≠ 0 then
        { a with options := a.options ||| EASY2D_IMAGE_HINT_NO_ALPHA }
      else a
    { args := a1, image := im1, hSrcBitmap := im.data.hIntermediateBitmap,
      ops := [.GdiFlush] }

/-- The quad on the left of the image, when the bounds extend past it there. -/
def bounds_left (a : easy2d_draw_image_args) : List POINT :=
  let boundsLeft := a.dstBoundsX
  let boundsTop := a.dstBoundsY
  let boundsBottom := f32_add boundsTop a.dstBoundsHeight
  let imageLeft := a.dstX
  let imageTop := a.dstY
  let imageBottom := f32_add imageTop a.dstHeight
  if boundsLeft < imageLeft then
    [⟨c_int boundsLeft, c_int boundsTop⟩,
     ⟨c_int boundsLeft, c_int boundsBottom⟩,
     ⟨c_int imageLeft, c_int (if imageBottom < boundsBottom then imageBottom else boundsBottom)⟩,
     ⟨c_int imageLeft, c_int (if imageTop > boundsTop then imageTop else boundsTop)⟩]
  else []

/-- The quad on the right of the image, when the bounds extend past it there. -/
def bounds_right (a : easy2d_draw_image_args) : List POINT :=
  let boundsLeft := a.dstBoundsX
  let boundsTop := a.dstBoundsY
  let boundsRight := f32_add boundsLeft a.dstBoundsWidth
  let boundsBottom := f32_add boundsTop a.dstBoundsHeight
  let imageLeft := a.dstX
  let imageTop := a.dstY
  let imageRight := f32_add imageLeft a.dstWidth
  let imageBottom := f32_add imageTop a.dstHeight
  if boundsRight > imageRight then
    [⟨c_int boundsRight, c_int boundsBottom⟩,
     ⟨c_int boundsRight, c_int boundsTop⟩,
     ⟨c_int imageRight, c_int (if imageTop > boundsTop then imageTop else boundsTop)⟩,
     ⟨c_int imageRight,
       c_int (if imageBottom < boundsBottom then imageBottom else boundsBottom)⟩]
  else []

/-- The quad above the image, when the bounds extend past it there. -/
def bounds_top (a : easy2d_draw_image_args) : List POINT :=
  let boundsLeft := a.dstBoundsX
  let boundsTop := a.dstBoundsY
  let boundsRight := f32_add boundsLeft a.dstBoundsWidth
  let imageLeft := a.dstX
  let imageTop := a.dstY
  let imageRight := f32_add imageLeft a.dstWidth
  if boundsTop < imageTop then
    [⟨c_int boundsRight, c_int boundsTop⟩,
     ⟨c_int boundsLeft, c_int boundsTop⟩,
     ⟨c_int (if imageLeft > boundsLeft then imageLeft else boundsLeft), c_int imageTop⟩,
     ⟨c_int (if imageRight < boundsRight then imageRight else boundsRight), c_int imageTop⟩]
  else []

/-- The quad below the image, when the bounds extend past it there. -/
def bounds_bottom (a : easy2d_draw_image_args) : List POINT :=
  let boundsLeft := a.dstBoundsX
  let boundsTop := a.dstBoundsY
  let boundsRight := f32_add boundsLeft a.dstBoundsWidth
  let boundsBottom := f32_add boundsTop a.dstBoundsHeight
  let imageLeft := a.dstX
  let imageTop := a.dstY
  let imageRight := f32_add imageLeft a.dstWidth
  let imageBottom := f32_add imageTop a.dstHeight
  if boundsBottom > imageBottom then
    [⟨c_int boundsLeft, c_int boundsBottom⟩,
     ⟨c_int boundsRight, c_int boundsBottom⟩,
     ⟨c_int (if imageRight < boundsRight then imageRight else boundsRight),
       c_int imageBottom⟩,
     ⟨c_int (if imageLeft > boundsLeft then imageLeft else boundsLeft), c_int imageBottom⟩]
  else []

/-- The block that draws the bounds: the points written to `pPoints`, in order, and the GDI
calls made.  `polyCount` is the number of quads written, one for every four points. -/
def draw_bounds (s : gdi_surface_data) (a : easy2d_draw_image_args) : List GdiOp :=
  if a.options &&& EASY2D_IMAGE_DRAW_BOUNDS ≠ 0 then
    let pPoints := bounds_left a ++ bounds_right a ++ bounds_top a ++ bounds_bottom a
    let polyCount := pPoints.length / 4
    if polyCount > 0 then
      [.SelectObject s.hDC s.hStockNullPen,
       .SelectObject s.hDC s.hStockDCBrush,
       .SetDCBrushColor s.hDC a.boundsColor.r a.boundsColor.g a.boundsColor.b,
       .PolyPolygon s.hDC pPoints polyCount]
    else []
  else []

/-- The final blit and the restoration of the saved DC. -/
def blit_image (R : gdi_replies) (s : gdi_surface_data) (a : easy2d_draw_image_args)
    (hSrcBitmap : Handle) (prevDC : Int) : List GdiOp :=
  [.SelectObject s.hIntermediateDC hSrcBitmap] ++
  (if a.options &&& EASY2D_IMAGE_HINT_NO_ALPHA ≠ 0 then
    [.StretchBlt s.hDC (c_int a.dstX) (c_int a.dstY) (c_int a.dstWidth) (c_int a.dstHeight)
      s.hIntermediateDC (c_int a.srcX) (c_int a.srcY) (c_int a.srcWidth) (c_int a.srcHeight)
      SRCCOPY]
  else
    [.AlphaBlend s.hDC (c_int a.dstX) (c_int a.dstY) (c_int a.dstWidth) (c_int a.dstHeight)
      s.hIntermediateDC (c_int a.srcX) (c_int a.srcY) (c_int a.srcWidth) (c_int a.srcHeight)
      { BlendOp := AC_SRC_OVER, BlendFlags := 0, SourceConstantAlpha := 255,
        AlphaFormat := AC_SRC_ALPHA }]) ++
  [.SelectObject s.hIntermediateDC R.hPrevBitmap] ++
  (if prevDC ≠ 0 then [.RestoreDC s.hDC prevDC] else [])

/-- The state after `easy2d_draw_image_gdi` returns: the caller's argument struct, the image
and the GDI calls issued. -/
structure draw_image_result where
  args : easy2d_draw_image_args
  image : Option gdi_image
  ops : List GdiOp

def easy2d_draw_image_gdi (R : gdi_replies) (pSurface : Option gdi_surface_data)
    (pImage : Option gdi_image) (pArgs : easy2d_draw_image_args) : draw_image_result :=
  match pImage with
  | none => { args := pArgs, image := none, ops := [] }
  | some im =>
    match pSurface with
    | none => { args := pArgs, image := some im, ops := [] }
    | some s =>
      match clip_image R s (center_image pArgs) with
      | .abandoned a => { args := a, image := some im, ops := [] }
      | .proceed a prevDC clipOps =>
        let c := composite_image im a
        { args := c.args
          image := some c.image
          ops := clipOps ++ c.ops ++ draw_bounds s c.args
            ++ blit_image R s c.args c.hSrcBitmap prevDC }

/-- The function `easy2d_set_clip_gdi`: the way the backend installs a clip rectangle on a
surface. -/
def easy2d_set_clip_gdi (pSurface : Option gdi_surface_data) (left top right bottom : c_float) :
    Except Fault (List GdiOp) :=
  match pSurface with
  | none => .error .assertion
  | some s =>
    .ok [.SelectClipRgn s.hDC none,
      .IntersectClipRect s.hDC (c_int left) (c_int top) (c_int right) (c_int bottom)]

/-- The GDI calls that change the clip region of a DC. -/
def is_clip_op : GdiOp → Bool
  | .SelectClipRgn _ _ => true
  | .IntersectClipRect _ _ _ _ _ => true
  | _ => false

/-- The GDI calls that transfer the image to the surface. -/
def is_blit : GdiOp → Bool
  | .StretchBlt _ _ _ _ _ _ _ _ _ _ _ => true
  | .AlphaBlend _ _ _ _ _ _ _ _ _ _ _ => true
  | _ => false

/-! ### Texels

A texel of a GDI bitmap is a 32-bit word: alpha in bits 24-31, red in bits 16-23, green in
bits 8-15, blue in bits 0-7.  The accessors below are the expressions with which
`easy2d_draw_image_gdi` reads the channels, `texel_pack` the expression with which it stores
them. -/

def texel_alpha (texel : Nat) : Nat := (texel &&& 0xFF000000) >>> 24

def texel_red (texel : Nat) : Nat := (texel &&& 0x00FF0000) >>> 16

def texel_green (texel : Nat) : Nat := (texel &&& 0x0000FF00) >>> 8

def texel_blue (texel : Nat) : Nat := (texel &&& 0x000000FF) >>> 0

def texel_pack (r g b a : Nat) : Nat :=
  ((r <<< 16) ||| (g <<< 8) ||| (b <<< 0) ||| (a <<< 24)) % 2 ^ 32

/-- The reference definition of one channel of the slow path, in integer arithmetic: the
channel scaled by the tint and clamped, `min(255, trunc(channel * tint / 255))`, plus, when
the background is drawn, `trunc(background * (255 - srcAlpha) / 255)`. -/
def reference_channel (channel tint background srcAlpha : Nat) (drawBackground : Bool) : Nat :=
  min 255 (channel * tint / 255)
    + (if drawBackground then background * (255 - srcAlpha) / 255 else 0)

/-- The reference definition of the slow path for one texel: every colour channel by
`reference_channel`; alpha 255 when the background is drawn, the source alpha otherwise. -/
def reference_texel (a : easy2d_draw_image_args) (srcTexel : Nat) : Nat :=
  let bg : Bool := decide (a.options &&& EASY2D_IMAGE_DRAW_BACKGROUND ≠ 0)
  texel_pack
    (reference_channel (texel_red srcTexel) a.foregroundTint.r a.backgroundColor.r
      (texel_alpha srcTexel) bg)
    (reference_channel (texel_green srcTexel) a.foregroundTint.g a.backgroundColor.g
      (texel_alpha srcTexel) bg)
    (reference_channel (texel_blue srcTexel) a.foregroundTint.b a.backgroundColor.b
      (texel_alpha srcTexel) bg)
    (if bg then 255 else texel_alpha srcTexel)

/-! ## The GDI backend: text

The text functions depend on three things outside the library: the UTF-8 to UTF-16
conversion `MultiByteToWideChar`, the allocator, and the layout `GetCharacterPlacementW`.
They are supplied as functions of the arguments the library passes. -/

/-- The fields of `gdi_context_data`: the DC, and the scratch buffer for wide strings together
with its recorded length.  A buffer is given by its contents. -/
structure gdi_context_data where
  hDC : Handle
  wcharBuffer : Option (List Nat)
  wcharBufferLength : Nat
deriving DecidableEq

structure easy2d_font_metrics where
  ascent : Int
  descent : Int
  lineHeight : Int
  spaceWidth : Int
deriving DecidableEq

structure gdi_font_data where
  hFont : Handle
  metrics : easy2d_font_metrics
deriving DecidableEq

/-- The Win32 functions and the allocator used by the text functions.

* `MultiByteToWideChar text cbMultiByte lpWideCharStr cchWideChar` (code page `CP_UTF8`, no
  flags) returns its result, an `int` that is never negative and is 0 on failure, and the
  destination buffer after the call.
* `malloc n` is `none` for `NULL`, otherwise the indeterminate contents of the new block.
* `GetCharacterPlacementW hDC hFont text nCount nMaxExtent dwFlags`, with `hFont` the font
  selected into `hDC` and only `lpCaretPos` requested, is `none` when the call returns 0,
  otherwise the caret positions `lpCaretPos[0 .. nGlyphs - 1]` for the value of `nGlyphs` the
  call leaves in the results. -/
structure win32_text where
  MultiByteToWideChar : List Nat → Int → Option (List Nat) → Nat → Nat × Option (List Nat)
  malloc : Nat → Option (Nat → Nat)
  GetCharacterPlacementW : Handle → Handle → List Nat → Nat → Int → Nat → Option (List Int)

def GCP_MAXEXTENT : Nat := 0x00100000

def GCP_USEKERNING : Nat := 0x0008

/-- The value of `sizeof(wchar_t)` on Windows. -/
def sizeof_wchar_t : Nat := 2

/-- The value of `sizeof(int)`. -/
def sizeof_int : Nat := 4

/-- The conversion `(int)n` of a `size_t`: reduction to 32 bits, two's complement. -/
def int_of_size_t (n : Nat) : Int :=
  if n % 2 ^ 32 < 2 ^ 31 then (n % 2 ^ 32 : Nat) else (n % 2 ^ 32 : Nat) - 2 ^ 32

/-- The conversion `(UINT)n` of a `size_t`. -/
def uint_of_size_t (n : Nat) : Nat :=
  n % 2 ^ 32

/-- The function `ceilf`. -/
def c_ceilf (x : c_float) : c_float :=
  ((⌈x⌉ : Int) : c_float)

/-- The state after `easy2d_to_wchar_gdi` returns: the returned pointer (`NULL`, or the
scratch buffer, given by its contents), the context data, and the cell behind
`characterCountOut`. -/
structure to_wchar_result where
  ret : Option (List Nat)
  ctx : Option gdi_context_data
  characterCountOut : Option Nat

def easy2d_to_wchar_gdi (W : win32_text) (pContext : Option gdi_context_data)
    (text : Option (List Nat)) (textSizeInBytes : Nat) (characterCountOut : Option Nat) :
    to_wchar_result :=
  match pContext, text with
  | some pGDIData, some txt =>
    let wcharCount := (W.MultiByteToWideChar txt (int_of_size_t textSizeInBytes) none 0).1
    if wcharCount = 0 then
      { ret := none, ctx := some pGDIData, characterCountOut := characterCountOut }
    else
      let pGDIData1 : gdi_context_data :=
        if pGDIData.wcharBufferLength < wcharCount + 1 then
          { pGDIData with
            wcharBuffer := (W.malloc (sizeof_wchar_t * (wcharCount + 1))).map
              (fun garbage => (List.range (wcharCount + 1)).map garbage)
            wcharBufferLength := wcharCount + 1 }
        else pGDIData
      let converted := W.MultiByteToWideChar txt (int_of_size_t textSizeInBytes)
        pGDIData1.wcharBuffer pGDIData1.wcharBufferLength
      let pGDIData2 : gdi_context_data := { pGDIData1 with wcharBuffer := converted.2 }
      if converted.1 = 0 then
        { ret := none, ctx := some pGDIData2, characterCountOut := characterCountOut }
      else
        { ret := pGDIData2.wcharBuffer, ctx := some pGDIData2,
          characterCountOut := characterCountOut.map (fun _ => converted.1) }
  | _, _ => { ret := none, ctx := pContext, characterCountOut := characterCountOut }

/-- The local variable `charBoundsLeft` of the hit-testing loop: `(float)lpCaretPos[iChar]`. -/
def char_bounds_left (lpCaretPos : List Int) (iChar : Nat) : c_float :=
  f32_of_int (lpCaretPos.getD iChar 0)

/-- The local variable `charBoundsRight` of the hit-testing loop: the next caret position,
or `maxWidth` for the last character. -/
def char_bounds_right (lpCaretPos : List Int) (maxWidth : c_float) (iChar : Nat) : c_float :=
  if iChar < lpCaretPos.length - 1 then f32_of_int (lpCaretPos.getD (iChar + 1) 0)
  else maxWidth

/-- The local variables `characterIndex` and `textCursorPosX` of the hit-testing loop. -/
structure cursor_state where
  characterIndex : Nat
  textCursorPosX : c_float
deriving DecidableEq

/-- One iteration of the hit-testing loop, for character `iChar`. -/
def cursor_step (lpCaretPos : List Int) (maxWidth inputPosX : c_float) (st : cursor_state)
    (iChar : Nat) : cursor_state :=
  let charBoundsLeft := char_bounds_left lpCaretPos iChar
  let charBoundsRight := char_bounds_right lpCaretPos maxWidth iChar
  if inputPosX ≥ charBoundsLeft ∧ inputPosX ≤ charBoundsRight then
    let charBoundsRightHalf :=
      f32_add charBoundsLeft (c_ceilf (f32_div (f32_sub charBoundsRight charBoundsLeft) 2))
    if inputPosX ≤ charBoundsRightHalf then
      { characterIndex := iChar, textCursorPosX := charBoundsLeft }
    else
      { characterIndex := iChar + 1, textCursorPosX := charBoundsRight }
  else st

/-- The hit-testing loop over the first `nGlyphs` characters, from the initial values
`characterIndex = 0`, `textCursorPosX = 0`. -/
def cursor_scan (lpCaretPos : List Int) (maxWidth inputPosX : c_float) (nGlyphs : Nat) :
    cursor_state :=
  (List.range nGlyphs).foldl (cursor_step lpCaretPos maxWidth inputPosX)
    { characterIndex := 0, textCursorPosX := 0 }

/-- The state after `easy2d_get_text_cursor_position_from_point_gdi` returns: its result,
the cells behind the two output pointers, and the context data. -/
structure cursor_from_point_result where
  successful : Bool
  pTextCursorPosXOut : Option c_float
  pCharacterIndexOut : Option Nat
  ctx : gdi_context_data

def easy2d_get_text_cursor_position_from_point_gdi (W : win32_text)
    (pFont : Option gdi_font_data) (pGDIContextData : gdi_context_data)
    (text : Option (List Nat)) (textSizeInBytes : Nat) (maxWidth inputPosX : c_float)
    (pTextCursorPosXOut : Option c_float) (pCharacterIndexOut : Option Nat) :
    Except Fault cursor_from_point_result :=
  match pFont with
  | none => .error .assertion
  | some pGDIFontData =>
    let nGlyphs := uint_of_size_t textSizeInBytes
    let converted := easy2d_to_wchar_gdi W (some pGDIContextData) text textSizeInBytes (some 0)
    let ctx1 := converted.ctx.getD pGDIContextData
    match converted.ret with
    | none => .ok ⟨false, pTextCursorPosXOut, pCharacterIndexOut, ctx1⟩
    | some textW =>
      match W.malloc (sizeof_int * nGlyphs) with
      | none => .ok ⟨false, pTextCursorPosXOut, pCharacterIndexOut, ctx1⟩
      | some _ =>
        match W.GetCharacterPlacementW ctx1.hDC pGDIFontData.hFont textW nGlyphs
            (c_int maxWidth) (GCP_MAXEXTENT ||| GCP_USEKERNING) with
        | none => .ok ⟨false, pTextCursorPosXOut, pCharacterIndexOut, ctx1⟩
        | some lpCaretPos =>
          let st := cursor_scan lpCaretPos maxWidth inputPosX lpCaretPos.length
          .ok ⟨true, pTextCursorPosXOut.map (fun _ => st.textCursorPosX),
            pCharacterIndexOut.map (fun _ => st.characterIndex), ctx1⟩

/-- The caret positions of a monospaced run of `n` characters of advance `w`:
`caret[i] = i * w`. -/
def mono_carets (n w : Nat) : List Int :=
  (List.range n).map (fun i => ((i * w : Nat) : Int))

/-- The dispatch contract of a mutating operation with table entry `cb`: when the entry is
set the outcome is one invocation of it on `call` and the world that invocation leaves; when
the entry is `NULL` nothing is invoked and the world is as it was. -/
def dispatches_void {σ : Type} (E : Env σ) (cb : Option FnPtr) (call : Call) (w : σ)
    (out : Outcome σ Unit) : Prop :=
  (∀ f, cb = some f → out = .ok ⟨(), (E.hook f call w).world, [.invoke f call]⟩) ∧
  (cb = none → out = .ok ⟨(), w, []⟩)

/-- The dispatch contract of a query operation with table entry `cb`: when the entry is set
the outcome is one invocation of it on `call`, whose boolean is returned; when the entry is
`NULL` the result is `false`, nothing is invoked and the world, which holds the output
parameters, is as it was. -/
def dispatches_bool {σ : Type} (E : Env σ) (cb : Option FnPtr) (call : Call) (w : σ)
    (out : Outcome σ Bool) : Prop :=
  (∀ f, cb = some f →
    out = .ok ⟨(E.hook f call w).ret, (E.hook f call w).world, [.invoke f call]⟩) ∧
  (cb = none → out = .ok ⟨false, w, []⟩)


/-- No function that takes the surface `s` fails its `assert(pSurface->pContext != NULL)`. -/
def surface_asserts_pass (s : easy2d_surface) : Prop :=
  ∀ (σ : Type) (E : Env σ) (w : σ),
    easy2d_delete_surface E (some s) w ≠ .error .assertion ∧
    easy2d_begin_draw E (some s) w ≠ .error .assertion ∧
    easy2d_end_draw E (some s) w ≠ .error .assertion ∧
    (∀ color, easy2d_clear E (some s) color w ≠ .error .assertion) ∧
    (∀ l t r b color, easy2d_draw_rect E (some s) l t r b color w ≠ .error .assertion) ∧
    (∀ l t r b color ow,
      easy2d_draw_rect_outline E (some s) l t r b color ow w ≠ .error .assertion) ∧
    (∀ l t r b color ow oc,
      easy2d_draw_rect_with_outline E (some s) l t r b color ow oc w ≠ .error .assertion) ∧
    (∀ l t r b color rad,
      easy2d_draw_round_rect E (some s) l t r b color rad w ≠ .error .assertion) ∧
    (∀ l t r b color rad ow,
      easy2d_draw_round_rect_outline E (some s) l t r b color rad ow w ≠ .error .assertion) ∧
    (∀ l t r b color rad ow oc,
      easy2d_draw_round_rect_with_outline E (some s) l t r b color rad ow oc w
        ≠ .error .assertion) ∧
    (∀ pFont text n x y color bg,
      easy2d_draw_text E (some s) pFont text n x y color bg w ≠ .error .assertion) ∧
    (∀ pImage pArgs, easy2d_draw_image E (some s) pImage pArgs w ≠ .error .assertion) ∧
    (∀ l t r b, easy2d_set_clip E (some s) l t r b w ≠ .error .assertion) ∧
    (∀ pl pt pr pb, easy2d_get_clip E (some s) pl pt pr pb w ≠ .error .assertion)

/-- No function that takes the font `ft` fails its `assert(pFont->pContext != NULL)`. -/
def font_asserts_pass (ft : easy2d_font) : Prop :=
  ∀ (σ : Type) (E : Env σ) (w : σ),
    easy2d_delete_font E (some ft) w ≠ .error .assertion ∧
    (∀ out, easy2d_get_font_metrics E (some ft) out w ≠ .error .assertion) ∧
    (∀ utf32 out, easy2d_get_glyph_metrics E (some ft) utf32 out w ≠ .error .assertion) ∧
    (∀ text n pw ph, easy2d_measure_string E (some ft) text n pw ph w ≠ .error .assertion) ∧
    (∀ text n maxWidth x px pi,
      easy2d_get_text_cursor_position_from_point E (some ft) text n maxWidth x px pi w
        ≠ .error .assertion) ∧
    (∀ text i px,
      easy2d_get_text_cursor_position_from_char E (some ft) text i px w ≠ .error .assertion)

/-- The function that takes the image `im` and asserts on its context,
`easy2d_delete_image`, does not fail its `assert(pImage->pContext != NULL)`. -/
def image_asserts_pass (im : easy2d_image) : Prop :=
  ∀ (σ : Type) (E : Env σ) (w : σ), easy2d_delete_image E (some im) w ≠ .error .assertion


/-! ## The GDI backend: the caret of a character -/

/-- The conversion `(int)n` of an `unsigned int`: two's complement. -/
def int_of_uint (n : Nat) : Int :=
  int_of_size_t n

/-- The conversion of an `int` to `size_t`, for a `size_t` of 64 bits: reduction modulo
`2 ^ 64`. -/
def size_t_of_int (z : Int) : Nat :=
  (z % 2 ^ 64).toNat

/-- The state after `easy2d_get_text_cursor_position_from_char_gdi` returns: its result, the
cell behind the output pointer, and the context data. -/
structure cursor_from_char_result where
  successful : Bool
  pTextCursorPosXOut : Option c_float
  ctx : gdi_context_data

/-- The function `easy2d_get_text_cursor_position_from_char_gdi`.  The caret array has
`nGlyphs = characterIndex + 1` elements (an `unsigned int` sum); the layout fills as many of
them as the glyphs it reports, the others keep what `malloc` left there, and an index past
the array is a fault. -/
def easy2d_get_text_cursor_position_from_char_gdi (W : win32_text)
    (pFont : Option gdi_font_data) (pGDIContextData : gdi_context_data)
    (text : Option (List Nat)) (characterIndex : Nat) (pTextCursorPosXOut : Option c_float) :
    Except Fault cursor_from_char_result :=
  match pFont with
  | none => .error .assertion
  | some pGDIFontData =>
    let nGlyphs := (characterIndex + 1) % 2 ^ 32
    let converted := easy2d_to_wchar_gdi W (some pGDIContextData) text
      (size_t_of_int (int_of_uint nGlyphs)) (some 0)
    let ctx1 := converted.ctx.getD pGDIContextData
    match converted.ret with
    | none => .ok ⟨false, pTextCursorPosXOut, ctx1⟩
    | some textW =>
      match W.malloc (sizeof_int * nGlyphs) with
      | none => .ok ⟨false, pTextCursorPosXOut, ctx1⟩
      | some garbage =>
        match W.GetCharacterPlacementW ctx1.hDC pGDIFontData.hFont textW nGlyphs 0
            GCP_USEKERNING with
        | none => .ok ⟨false, pTextCursorPosXOut, ctx1⟩
        | some lpCaretPos =>
          match pTextCursorPosXOut with
          | none => .ok ⟨true, none, ctx1⟩
          | some _ =>
            if characterIndex < nGlyphs then
              let caret : Int :=
                (lpCaretPos[characterIndex]?).getD (int_of_uint (garbage characterIndex))
              .ok ⟨true, some (f32_of_int caret), ctx1⟩
            else .error .out_of_bounds

/-- One call of `easy2d_to_wchar_gdi` on a context: the text, its size and the cell behind
`characterCountOut`. -/
structure to_wchar_call where
  text : Option (List Nat)
  textSizeInBytes : Nat
  characterCountOut : Option Nat

/-- The context data after a sequence of calls of `easy2d_to_wchar_gdi` on one context. -/
def to_wchar_calls (W : win32_text) (c : gdi_context_data) (calls : List to_wchar_call) :
    gdi_context_data :=
  calls.foldl
    (fun c call =>
      (easy2d_to_wchar_gdi W (some c) call.text call.textSizeInBytes
        call.characterCountOut).ctx.getD c)
    c

/-! ## The GDI backend: creating an image -/

/-- A DIB section as `CreateDIBSection` returns it: the bitmap handle and the texels behind
`ppvBits`, row after row. -/
structure dib_section where
  hBitmap : Handle
  bits : List Nat
deriving DecidableEq

/-- What GDI returns to `easy2d_on_create_image_gdi`: the results of the first and of the
second call of `CreateDIBSection`, `none` for `NULL`. -/
structure gdi_create_replies where
  srcSection : Option dib_section
  intermediateSection : Option dib_section

/-- The GDI calls issued by `easy2d_on_create_image_gdi`. -/
inductive DibOp where
  | CreateDIBSection (hDC : Handle) (biWidth biHeight biBitCount : Nat)
  | DeleteObject (h : Handle)
  | GdiFlush
deriving DecidableEq

/-- The body of the conversion loop of `easy2d_on_create_image_gdi`: the texel stored in the
source bitmap for the caller's pixel `srcTexel`. -/
def import_texel (srcTexel : Nat) : Nat :=
  let srcTexelA := (srcTexel &&& 0xFF000000) >>> 24
  let srcTexelB := (srcTexel &&& 0x00FF0000) >>> 16
  let srcTexelG := (srcTexel &&& 0x0000FF00) >>> 8
  let srcTexelR := (srcTexel &&& 0x000000FF) >>> 0
  let srcTexelB := c_uint ((srcTexelB : c_float) * ((srcTexelA : c_float) / 255))
  let srcTexelG := c_uint ((srcTexelG : c_float) * ((srcTexelA : c_float) / 255))
  let srcTexelR := c_uint ((srcTexelR : c_float) * ((srcTexelA : c_float) / 255))
  ((srcTexelR <<< 16) ||| (srcTexelG <<< 8) ||| (srcTexelB <<< 0) ||| (srcTexelA <<< 24))
    % 2 ^ 32

/-- The two nested loops of `easy2d_on_create_image_gdi`.  The caller's buffer is read as an
array of `unsigned int` at the `unsigned int` index `iRowSrc * (stride / 4) + iCol`; the
destination texel is at offset `iRowDst * width + iCol`.  An index outside a list, which in C
would be an access outside the buffer, reads 0 and writes nothing. -/
def import_bitmap (width height stride : Nat) (pData pDstBitmapData : List Nat) : List Nat :=
  (List.range height).foldl
    (fun dst iRow =>
      let iRowSrc := height - (iRow + 1)
      let iRowDst := iRow
      (List.range width).foldl
        (fun dst iCol =>
          dst.set ((iRowDst * width) % 2 ^ 32 + iCol)
            (import_texel (pData.getD ((iRowSrc * (stride / 4) + iCol) % 2 ^ 32) 0)))
        dst)
    pDstBitmapData

/-- The state after `easy2d_on_create_image_gdi` returns: its result, the image's extra data,
the caller's pixel buffer and the GDI calls issued. -/
structure create_image_result where
  ret : Bool
  data : gdi_image_data
  pData : List Nat
  ops : List DibOp

/-- The function `easy2d_on_create_image_gdi`.  `pGDIContextData` is the extra data of the
image's context, `none` when there is none; a `NULL` handle is 0. -/
def easy2d_on_create_image_gdi (G : gdi_create_replies) (pImage : Option gdi_image)
    (pGDIContextData : Option gdi_context_data) (stride : Nat) (pData : List Nat) :
    Except Fault create_image_result :=
  match pImage with
  | none => .error .assertion
  | some im =>
    match pGDIContextData with
    | none => .ok ⟨false, im.data, pData, []⟩
    | some ctx =>
      match G.srcSection with
      | none =>
        .ok ⟨false, { im.data with hSrcBitmap := 0, pSrcBitmapData := [] }, pData,
          [.CreateDIBSection ctx.hDC im.width im.height 32]⟩
      | some src =>
        match G.intermediateSection with
        | none =>
          .ok ⟨false,
            { hSrcBitmap := src.hBitmap, pSrcBitmapData := src.bits,
              hIntermediateBitmap := 0, pIntermediateBitmapData := [] },
            pData,
            [.CreateDIBSection ctx.hDC im.width im.height 32,
             .CreateDIBSection ctx.hDC im.width im.height 32, .DeleteObject src.hBitmap]⟩
        | some inter =>
          .ok ⟨true,
            { hSrcBitmap := src.hBitmap,
              pSrcBitmapData := import_bitmap im.width im.height stride pData src.bits,
              hIntermediateBitmap := inter.hBitmap, pIntermediateBitmapData := inter.bits },
            pData,
            [.CreateDIBSection ctx.hDC im.width im.height 32,
             .CreateDIBSection ctx.hDC im.width im.height 32, .GdiFlush]⟩

/-- The reference definition of the import of one RGBA pixel: alpha is bits 24-31 of the
pixel, kept in place; each colour channel is `trunc(channel * alpha / 255)`; the pixel's
bits 0-7 (red) go to bits 16-23, its bits 16-23 (blue) go to bits 0-7, and green stays in
bits 8-15. -/
def reference_import (pixel : Nat) : Nat :=
  let alpha := pixel / 2 ^ 24 % 2 ^ 8
  let red := pixel % 2 ^ 8
  let green := pixel / 2 ^ 8 % 2 ^ 8
  let blue := pixel / 2 ^ 16 % 2 ^ 8
  alpha * 2 ^ 24 + (red * alpha / 255) * 2 ^ 16 + (green * alpha / 255) * 2 ^ 8
    + blue * alpha / 255

/-- A texel whose colour channels do not exceed its alpha. -/
def premultiplied (texel : Nat) : Prop :=
  texel_red texel ≤ texel_alpha texel ∧ texel_green texel ≤ texel_alpha texel ∧
    texel_blue texel ≤ texel_alpha texel

/-! ## Vocabulary for the GDI calls of a draw -/

/-- The GDI call that saves the state of a DC. -/
def is_save : GdiOp → Bool
  | .SaveDC _ => true
  | _ => false

/-- The GDI call that restores a saved state of a DC. -/
def is_restore : GdiOp → Bool
  | .RestoreDC _ _ => true
  | _ => false

/-- The GDI call that fills polygons. -/
def is_fill : GdiOp → Bool
  | .PolyPolygon _ _ _ => true
  | _ => false

/-- The test of the clip block, "part of the destination rectangle falls outside of the
bounds", as the code evaluates it: the two sums on each axis are `float` sums. -/
def partly_outside (b : easy2d_draw_image_args) : Prop :=
  b.dstX < b.dstBoundsX ∨
  f32_add b.dstX b.dstWidth > f32_add b.dstBoundsX b.dstBoundsWidth ∨
  b.dstY < b.dstBoundsY ∨
  f32_add b.dstY b.dstHeight > f32_add b.dstBoundsY b.dstBoundsHeight

/-- The scaled clip case of `easy2d_draw_image_gdi`, on the arguments that enter the clip
block: clip-to-bounds set, destination partly outside the bounds, source and destination
sizes different. -/
def scaled_clip_case (b : easy2d_draw_image_args) : Prop :=
  b.options &&& EASY2D_IMAGE_CLIP_BOUNDS ≠ 0 ∧ partly_outside b ∧
  (b.dstWidth ≠ b.srcWidth ∨ b.dstHeight ≠ b.srcHeight)

/-- The non-scaled clip case of `easy2d_draw_image_gdi`, on the arguments that enter the clip
block: clip-to-bounds set, destination partly outside the bounds, source and destination
sizes equal. -/
def unscaled_clip_case (b : easy2d_draw_image_args) : Prop :=
  b.options &&& EASY2D_IMAGE_CLIP_BOUNDS ≠ 0 ∧ partly_outside b ∧
  ¬ (b.dstWidth ≠ b.srcWidth ∨ b.dstHeight ≠ b.srcHeight)

/-- The number of sides (left, right, top, bottom) on which the bounds rectangle extends
strictly past the destination rectangle, by the tests of the bounds block on its `float`
variables `boundsLeft < imageLeft`, `boundsRight > imageRight`, `boundsTop < imageTop`,
`boundsBottom > imageBottom`. -/
def bounds_sides (a : easy2d_draw_image_args) : Nat :=
  (if a.dstBoundsX < a.dstX then 1 else 0)
    + (if f32_add a.dstBoundsX a.dstBoundsWidth > f32_add a.dstX a.dstWidth then 1 else 0)
    + (if a.dstBoundsY < a.dstY then 1 else 0)
    + (if f32_add a.dstBoundsY a.dstBoundsHeight > f32_add a.dstY a.dstHeight then 1 else 0)

/-- The four `float` sums of the clip block and of the bounds block on a rectangle are finite:
none of them reaches `2 ^ 128`, where a `float` sum becomes an infinity. -/
def sums_finite (b : easy2d_draw_image_args) : Prop :=
  |f32_add b.dstX b.dstWidth| < 2 ^ 128 ∧
  |f32_add b.dstBoundsX b.dstBoundsWidth| < 2 ^ 128 ∧
  |f32_add b.dstY b.dstHeight| < 2 ^ 128 ∧
  |f32_add b.dstBoundsY b.dstBoundsHeight| < 2 ^ 128

/-! ## Exact arithmetic

The reference the `float` code is compared with: what the four edge adjustments of the
non-scaled clip compute when no operation rounds, and the inputs on which the code's
operations do not round. -/

/-- The value `x` is an integer of magnitude at most `B`. -/
def small_int (B : Int) (x : c_float) : Prop :=
  ∃ n : Int, x = (n : c_float) ∧ -B ≤ n ∧ n ≤ B

/-- The destination, source and bounds rectangles have integer coordinates and sizes of
magnitude at most `B`. -/
def small_int_rects (B : Int) (a : easy2d_draw_image_args) : Prop :=
  small_int B a.dstX ∧ small_int B a.dstY ∧ small_int B a.dstWidth ∧ small_int B a.dstHeight ∧
  small_int B a.srcX ∧ small_int B a.srcY ∧ small_int B a.srcWidth ∧ small_int B a.srcHeight ∧
  small_int B a.dstBoundsX ∧ small_int B a.dstBoundsY ∧ small_int B a.dstBoundsWidth ∧
  small_int B a.dstBoundsHeight

/-- The adjustment of `clip_left` in exact arithmetic. -/
def exact_clip_left (a : easy2d_draw_image_args) : easy2d_draw_image_args :=
  if a.dstX < a.dstBoundsX then
    { a with
      srcWidth := a.srcWidth - (a.dstBoundsX - a.dstX)
      srcX := a.srcX + (a.dstBoundsX - a.dstX)
      dstWidth := a.dstWidth - (a.dstBoundsX - a.dstX)
      dstX := a.dstBoundsX }
  else a

/-- The adjustment of `clip_top` in exact arithmetic. -/
def exact_clip_top (a : easy2d_draw_image_args) : easy2d_draw_image_args :=
  if a.dstY < a.dstBoundsY then
    { a with
      srcHeight := a.srcHeight - (a.dstBoundsY - a.dstY)
      srcY := a.srcY + (a.dstBoundsY - a.dstY)
      dstHeight := a.dstHeight - (a.dstBoundsY - a.dstY)
      dstY := a.dstBoundsY }
  else a

/-- The adjustment of `clip_right` in exact arithmetic. -/
def exact_clip_right (a : easy2d_draw_image_args) : easy2d_draw_image_args :=
  if a.dstX + a.dstWidth > a.dstBoundsX + a.dstBoundsWidth then
    { a with
      srcWidth := a.srcWidth - ((a.dstX + a.dstWidth) - (a.dstBoundsX + a.dstBoundsWidth))
      dstWidth := a.dstWidth - ((a.dstX + a.dstWidth) - (a.dstBoundsX + a.dstBoundsWidth)) }
  else a

/-- The adjustment of `clip_bottom` in exact arithmetic. -/
def exact_clip_bottom (a : easy2d_draw_image_args) : easy2d_draw_image_args :=
  if a.dstY + a.dstHeight > a.dstBoundsY + a.dstBoundsHeight then
    { a with
      srcHeight := a.srcHeight - ((a.dstY + a.dstHeight) - (a.dstBoundsY + a.dstBoundsHeight))
      dstHeight := a.dstHeight - ((a.dstY + a.dstHeight) - (a.dstBoundsY + a.dstBoundsHeight)) }
  else a

/-! ## UTF-16 -/

/-- The conversion `(unsigned short)x`. -/
def c_ushort (x : Nat) : Nat :=
  x % 2 ^ 16

/-- The state after `easy2d_utf32_to_utf16` returns: its result and the two cells of
`utf16`. -/
structure utf16_result where
  ret : Int
  utf16 : Option (Nat × Nat)
deriving DecidableEq

/-- The function `easy2d_utf32_to_utf16`; `utf16` is the array of two `unsigned short`,
`none` for `NULL`. -/
def easy2d_utf32_to_utf16 (utf32 : Nat) (utf16 : Option (Nat × Nat)) : utf16_result :=
  match utf16 with
  | none => { ret := 0, utf16 := none }
  | some cells =>
    if utf32 < 0xD800 ∨ (utf32 ≥ 0xE000 ∧ utf32 ≤ 0xFFFF) then
      { ret := 1, utf16 := some (c_ushort utf32, 0) }
    else if utf32 ≥ 0x10000 ∧ utf32 ≤ 0x10FFFF then
      { ret := 2
        utf16 := some (c_ushort (0xD7C0 + c_ushort (utf32 >>> 10)),
          c_ushort (0xDC00 + c_ushort (utf32 &&& 0x3FF))) }
    else
      { ret := 0, utf16 := some (0, cells.2) }

/-! ## Concrete inputs

A target, two callback tables, two environments and one entity of each kind, on which the
functions above can be evaluated. -/

/-- The 64-bit Windows ABI, for which the GDI backend is compiled. -/
def win64 : Target :=
  { sizeof_context := 248, sizeof_surface := 24, sizeof_font := 160, sizeof_image := 24,
    size_t_bits := 64,
    offsetof_context_pExtraData := 240, offsetof_surface_pExtraData := 16,
    offsetof_font_pExtraData := 152, offsetof_image_pExtraData := 16 }

/-- A table with every callback set; entry number `n` of the struct holds address `n`. -/
def full_callbacks : easy2d_drawing_callbacks :=
  { on_create_context := some 1, on_delete_context := some 2, on_create_surface := some 3,
    on_delete_surface := some 4, on_create_font := some 5, on_delete_font := some 6,
    on_create_image := some 7, on_delete_image := some 8, begin_draw := some 9,
    end_draw := some 10, clear := some 11, draw_rect := some 12, draw_rect_outline := some 13,
    draw_rect_with_outline := some 14, draw_round_rect := some 15,
    draw_round_rect_outline := some 16, draw_round_rect_with_outline := some 17,
    draw_text := some 18, draw_image := some 19, set_clip := some 20, get_clip := some 21,
    get_font_metrics := some 22, get_glyph_metrics := some 23, measure_string := some 24,
    get_text_cursor_position_from_point := some 25,
    get_text_cursor_position_from_char := some 26 }

/-- A table with no callback set. -/
def no_callbacks : easy2d_drawing_callbacks :=
  { on_create_context := none, on_delete_context := none, on_create_surface := none,
    on_delete_surface := none, on_create_font := none, on_delete_font := none,
    on_create_image := none, on_delete_image := none, begin_draw := none, end_draw := none,
    clear := none, draw_rect := none, draw_rect_outline := none, draw_rect_with_outline := none,
    draw_round_rect := none, draw_round_rect_outline := none,
    draw_round_rect_with_outline := none, draw_text := none, draw_image := none,
    set_clip := none, get_clip := none, get_font_metrics := none, get_glyph_metrics := none,
    measure_string := none, get_text_cursor_position_from_point := none,
    get_text_cursor_position_from_char := none }

/-- An environment whose allocator always succeeds and hands out blocks filled with `0xCD`,
and whose hooks all succeed, count their invocations in the world and store `0xAB` in every
byte of the extra data. -/
def env_ok : Env Nat :=
  { malloc := fun _ _ => some (fun _ => 0xCD)
    hook := fun _ _ w => { ret := true, world := w + 1, extra := fun _ _ => 0xAB } }

/-- Like `env_ok`, but every hook reports failure. -/
def env_fail : Env Nat :=
  { malloc := fun _ _ => some (fun _ => 0xCD)
    hook := fun _ _ w => { ret := false, world := w + 1, extra := fun _ _ => 0xAB } }

def ctx_full : easy2d_context :=
  { drawingCallbacks := full_callbacks, imageExtraBytes := 4, fontExtraBytes := 3,
    surfaceExtraBytes := 2, contextExtraBytes := 1, pExtraData := [0] }

def ctx_bare : easy2d_context :=
  { drawingCallbacks := no_callbacks, imageExtraBytes := 4, fontExtraBytes := 3,
    surfaceExtraBytes := 2, contextExtraBytes := 1, pExtraData := [0] }

def surface_full : easy2d_surface :=
  { pContext := some ctx_full, width := 640, height := 480, pExtraData := [0, 0] }

def font_full : easy2d_font :=
  { pContext := some ctx_full, family := [65], size := 12, weight := .bold, slant := .italic,
    rotation := 0, pExtraData := [0, 0, 0] }

def image_full : easy2d_image :=
  { pContext := some ctx_full, width := 2, height := 2, pExtraData := [0, 0, 0, 0] }

/-- A surface of the GDI backend. -/
def gdi_surface_1 : gdi_surface_data :=
  { hDC := 101, hIntermediateDC := 102, hStockDCBrush := 103, hStockNullPen := 104 }

/-- A 2 x 2 image of the GDI backend with four opaque texels. -/
def gdi_image_2x2 : gdi_image :=
  { pContext := some ctx_full, width := 2, height := 2,
    data :=
      { hSrcBitmap := 201, pSrcBitmapData := [0xFFFF0000, 0xFF00FF00, 0xFF0000FF, 0xFFFFFFFF],
        hIntermediateBitmap := 202, pIntermediateBitmapData := [0, 0, 0, 0] } }

/-- GDI replies: `SaveDC` succeeds with 1. -/
def gdi_replies_1 : gdi_replies :=
  { SaveDC := 1, hPrevBitmap := 203 }

/-- A 10 x 10 destination at (3, 4) to be centered in the 100 x 50 bounds at (0, 0). -/
def args_centered : easy2d_draw_image_args :=
  { dstX := 3, dstY := 4, dstWidth := 10, dstHeight := 10,
    srcX := 0, srcY := 0, srcWidth := 10, srcHeight := 10,
    dstBoundsX := 0, dstBoundsY := 0, dstBoundsWidth := 100, dstBoundsHeight := 50,
    foregroundTint := ⟨255, 255, 255, 255⟩, backgroundColor := ⟨0, 0, 0, 255⟩,
    boundsColor := ⟨0, 0, 0, 255⟩, options := EASY2D_IMAGE_ALIGN_CENTER }

/-- A 10 x 10 unscaled destination at (0, 0), clipped to the 10 x 10 bounds at (20, 0), which
lie entirely to its right. -/
def args_outside : easy2d_draw_image_args :=
  { dstX := 0, dstY := 0, dstWidth := 10, dstHeight := 10,
    srcX := 0, srcY := 0, srcWidth := 10, srcHeight := 10,
    dstBoundsX := 20, dstBoundsY := 0, dstBoundsWidth := 10, dstBoundsHeight := 10,
    foregroundTint := ⟨128, 0, 0, 255⟩, backgroundColor := ⟨0, 0, 0, 255⟩,
    boundsColor := ⟨0, 0, 0, 255⟩,
    options := EASY2D_IMAGE_CLIP_BOUNDS ||| EASY2D_IMAGE_DRAW_BOUNDS }

/-- Win32 replies for ASCII text laid out in a monospaced font of advance `w`: every byte
converts to one UTF-16 unit, allocation succeeds, and character `i` has caret position
`i * w`. -/
def win32_text_mono (w : Nat) : win32_text :=
  { MultiByteToWideChar := fun text _ dst _ =>
      (text.length, dst.map (fun buffer => text ++ buffer.drop text.length))
    malloc := fun _ => some (fun _ => 0xCDCD)
    GetCharacterPlacementW := fun _ _ _ nCount _ _ => some (mono_carets nCount w) }

/-- Win32 replies for ASCII text whose layout places character `i` at `carets[i]`: every byte
converts to one UTF-16 unit, allocation succeeds, and a layout of `nCount` characters reports
the first `nCount` of these caret positions. -/
def win32_text_carets (carets : List Int) : win32_text :=
  { MultiByteToWideChar := fun text _ dst _ =>
      (text.length, dst.map (fun buffer => text ++ buffer.drop text.length))
    malloc := fun _ => some (fun _ => 0xCDCD)
    GetCharacterPlacementW := fun _ _ _ nCount _ _ => some (carets.take nCount) }

/-- A font of the GDI backend. -/
def gdi_font_1 : gdi_font_data :=
  { hFont := 301, metrics := { ascent := 10, descent := 3, lineHeight := 13, spaceWidth := 4 } }

/-- The context data of the GDI backend before any text has been converted. -/
def gdi_context_1 : gdi_context_data :=
  { hDC := 100, wcharBuffer := none, wcharBufferLength := 0 }

/-- An unscaled 10 x 10 destination at (15, 2) that straddles the left edge of the 100 x 50
bounds at (20, 0) by 5. -/
def args_straddle : easy2d_draw_image_args :=
  { dstX := 15, dstY := 2, dstWidth := 10, dstHeight := 10,
    srcX := 0, srcY := 0, srcWidth := 10, srcHeight := 10,
    dstBoundsX := 20, dstBoundsY := 0, dstBoundsWidth := 100, dstBoundsHeight := 50,
    foregroundTint := ⟨255, 255, 255, 255⟩, backgroundColor := ⟨0, 0, 0, 255⟩,
    boundsColor := ⟨0, 0, 0, 255⟩, options := EASY2D_IMAGE_CLIP_BOUNDS }

/-- A 10 x 10 source stretched to the 20 x 20 destination at (-5, 0), to be clipped to the
10 x 10 bounds at (0, 0). -/
def args_scaled : easy2d_draw_image_args :=
  { dstX := -5, dstY := 0, dstWidth := 20, dstHeight := 20,
    srcX := 0, srcY := 0, srcWidth := 10, srcHeight := 10,
    dstBoundsX := 0, dstBoundsY := 0, dstBoundsWidth := 10, dstBoundsHeight := 10,
    foregroundTint := ⟨255, 255, 255, 255⟩, backgroundColor := ⟨0, 0, 0, 255⟩,
    boundsColor := ⟨0, 0, 0, 255⟩, options := EASY2D_IMAGE_CLIP_BOUNDS }

/-- The tint (128, 0, 0) on a 2 x 2 destination, no option set. -/
def args_tint : easy2d_draw_image_args :=
  { dstX := 0, dstY := 0, dstWidth := 2, dstHeight := 2,
    srcX := 0, srcY := 0, srcWidth := 2, srcHeight := 2,
    dstBoundsX := 0, dstBoundsY := 0, dstBoundsWidth := 2, dstBoundsHeight := 2,
    foregroundTint := ⟨128, 0, 0, 255⟩, backgroundColor := ⟨0, 0, 0, 255⟩,
    boundsColor := ⟨0, 0, 0, 255⟩, options := 0 }

/-- A white tint with the background drawn in (10, 20, 30) on a 2 x 2 destination. -/
def args_background : easy2d_draw_image_args :=
  { dstX := 0, dstY := 0, dstWidth := 2, dstHeight := 2,
    srcX := 0, srcY := 0, srcWidth := 2, srcHeight := 2,
    dstBoundsX := 0, dstBoundsY := 0, dstBoundsWidth := 2, dstBoundsHeight := 2,
    foregroundTint := ⟨255, 255, 255, 255⟩, backgroundColor := ⟨10, 20, 30, 255⟩,
    boundsColor := ⟨0, 0, 0, 255⟩, options := EASY2D_IMAGE_DRAW_BACKGROUND }

/-- A 2 x 1 image of the GDI backend: a half-transparent dark red texel and a fully
transparent texel; the intermediate bitmap holds leftovers of an earlier draw. -/
def gdi_image_translucent : gdi_image :=
  { pContext := some ctx_full, width := 2, height := 1,
    data :=
      { hSrcBitmap := 211, pSrcBitmapData := [0x80400000, 0x00000000],
        hIntermediateBitmap := 212, pIntermediateBitmapData := [0x12345678, 0x9ABCDEF0] } }

/-- A 2 x 2 image before its bitmaps are created; its extra data holds what the allocator
left there. -/
def gdi_image_blank : gdi_image :=
  { pContext := some ctx_full, width := 2, height := 2,
    data :=
      { hSrcBitmap := 0xCDCD, pSrcBitmapData := [], hIntermediateBitmap := 0xCDCD,
        pIntermediateBitmapData := [] } }

/-- GDI replies for the creation of a 2 x 2 image: both DIB sections are created, with four
texels each. -/
def gdi_create_replies_1 : gdi_create_replies :=
  { srcSection := some { hBitmap := 221, bits := [0, 0, 0, 0] }
    intermediateSection := some { hBitmap := 222, bits := [0, 0, 0, 0] } }

/-- A 2 x 2 RGBA pixel buffer with a stride of 12 bytes: two pixels and one padding word in
each row. -/
def pixels_2x2 : List Nat :=
  [0x80FF8040, 0x00FFFFFF, 0xDEADBEEF, 0xFF112233, 0xFF000000, 0xDEADBEEF]

/-- A 10 x 10 destination to be centered in the 13 x 10 bounds at (16777216, 0): the centre
16777217.5 is not a `float`. -/
def args_center_large : easy2d_draw_image_args :=
  { dstX := 0, dstY := 0, dstWidth := 10, dstHeight := 10,
    srcX := 0, srcY := 0, srcWidth := 10, srcHeight := 10,
    dstBoundsX := 16777216, dstBoundsY := 0, dstBoundsWidth := 13, dstBoundsHeight := 10,
    foregroundTint := ⟨255, 255, 255, 255⟩, backgroundColor := ⟨0, 0, 0, 255⟩,
    boundsColor := ⟨0, 0, 0, 255⟩, options := EASY2D_IMAGE_ALIGN_CENTER }

/-- An unscaled 1 x 1 destination at (16777220, 0), clipped to the 1 x 10 bounds at
(16777218, 0), which end at 16777219, to its left. -/
def args_right_large : easy2d_draw_image_args :=
  { dstX := 16777220, dstY := 0, dstWidth := 1, dstHeight := 1,
    srcX := 0, srcY := 0, srcWidth := 1, srcHeight := 1,
    dstBoundsX := 16777218, dstBoundsY := 0, dstBoundsWidth := 1, dstBoundsHeight := 10,
    foregroundTint := ⟨255, 255, 255, 255⟩, backgroundColor := ⟨0, 0, 0, 255⟩,
    boundsColor := ⟨0, 0, 0, 255⟩, options := EASY2D_IMAGE_CLIP_BOUNDS }

/-- An unscaled 16777218 x 10 destination at (-16777216, 0) that straddles the left edge of
the 100 x 10 bounds at (1, 0) by 16777217. -/
def args_straddle_large : easy2d_draw_image_args :=
  { dstX := -16777216, dstY := 0, dstWidth := 16777218, dstHeight := 10,
    srcX := 0, srcY := 0, srcWidth := 16777218, srcHeight := 10,
    dstBoundsX := 1, dstBoundsY := 0, dstBoundsWidth := 100, dstBoundsHeight := 10,
    foregroundTint := ⟨255, 255, 255, 255⟩, backgroundColor := ⟨0, 0, 0, 255⟩,
    boundsColor := ⟨0, 0, 0, 255⟩, options := EASY2D_IMAGE_CLIP_BOUNDS }

/-- An unscaled 1 x 1 destination at (16777216, 0), clipped to the 16777216 x 10 bounds at
(0, 0), which end where it starts. -/
def args_edge_large : easy2d_draw_image_args :=
  { dstX := 16777216, dstY := 0, dstWidth := 1, dstHeight := 1,
    srcX := 0, srcY := 0, srcWidth := 1, srcHeight := 1,
    dstBoundsX := 0, dstBoundsY := 0, dstBoundsWidth := 16777216, dstBoundsHeight := 10,
    foregroundTint := ⟨255, 255, 255, 255⟩, backgroundColor := ⟨0, 0, 0, 255⟩,
    boundsColor := ⟨0, 0, 0, 255⟩, options := EASY2D_IMAGE_CLIP_BOUNDS }

/-- A 10 x 10 destination at (30, 20) inside the 100 x 50 bounds at (0, 0), with the bounds
drawn in (1, 2, 3). -/
def args_border : easy2d_draw_image_args :=
  { dstX := 30, dstY := 20, dstWidth := 10, dstHeight := 10,
    srcX := 0, srcY := 0, srcWidth := 10, srcHeight := 10,
    dstBoundsX := 0, dstBoundsY := 0, dstBoundsWidth := 100, dstBoundsHeight := 50,
    foregroundTint := ⟨255, 255, 255, 255⟩, backgroundColor := ⟨0, 0, 0, 255⟩,
    boundsColor := ⟨1, 2, 3, 255⟩, options := EASY2D_IMAGE_DRAW_BOUNDS }

/-! ## Theorems -/

/-! ### Allocation arithmetic -/

theorem alloc_request_of_fit (T : Target) (sizeof_T n : Nat)
    (h : sizeof_T - 1 + n < 2 ^ T.size_t_bits) :
    alloc_request T sizeof_T n = sizeof_T - 1 + n := by
  unfold alloc_request sizeof_pExtraData
  exact Nat.mod_eq_of_lt h

theorem alloc_request_le (T : Target) (sizeof_T n : Nat) :
    alloc_request T sizeof_T n ≤ sizeof_T - 1 + n := by
  unfold alloc_request sizeof_pExtraData
  exact Nat.mod_le _ _

theorem extra_region_length (sizeof_T off request : Nat) (g : Nat → easy2d_byte) :
    (extra_region sizeof_T off request g).length = request - (sizeof_T - 1) := by
  simp [extra_region, sizeof_pExtraData]

theorem memset_zero_length (region : List easy2d_byte) (n : Nat) (h : n ≤ region.length) :
    (memset_zero region n).length = region.length := by
  simp [memset_zero]
  omega

theorem memset_zero_of_length (region : List easy2d_byte) (n : Nat) (h : region.length = n) :
    memset_zero region n = List.replicate n 0 := by
  simp [memset_zero, ← h]

theorem after_hook_length {σ : Type} (r : HookReply σ) (extra : List easy2d_byte) :
    (after_hook r extra).length = extra.length := by
  simp [after_hook]

/-- A wrapped request never leaves room for the header: if the block holds the header and
the declared size is a `size_t`, the region after the header has exactly the declared size. -/
theorem extra_region_exact (T : Target) (sizeof_T off n : Nat) (g : Nat → easy2d_byte)
    (hn : n < 2 ^ T.size_t_bits)
    (hfit : ¬ alloc_request T sizeof_T n < sizeof_T - 1) :
    (extra_region sizeof_T off (alloc_request T sizeof_T n) g).length = n := by
  rw [extra_region_length]
  have hle := alloc_request_le T sizeof_T n
  have hlt : alloc_request T sizeof_T n < 2 ^ T.size_t_bits := by
    unfold alloc_request
    exact Nat.mod_lt _ (by positivity)
  by_cases hw : sizeof_T - 1 + n < 2 ^ T.size_t_bits
  · rw [alloc_request_of_fit T sizeof_T n hw]
    omega
  · exfalso
    apply hfit
    have h2 : alloc_request T sizeof_T n = sizeof_T - 1 + n - 2 ^ T.size_t_bits := by
      unfold alloc_request sizeof_pExtraData
      rw [Nat.mod_eq_sub_mod (by omega)]
      apply Nat.mod_eq_of_lt
      omega
    omega

/-- When `memset` stays inside the block, the region after the header has exactly the
declared size. -/
theorem extra_region_exact_of_memset (T : Target) (sizeof_T off n : Nat)
    (g : Nat → easy2d_byte)
    (hfit : ¬ alloc_request T sizeof_T n < sizeof_T - 1)
    (hset : ¬ (extra_region sizeof_T off (alloc_request T sizeof_T n) g).length < n) :
    (extra_region sizeof_T off (alloc_request T sizeof_T n) g).length = n := by
  rw [extra_region_length] at hset ⊢
  have hle := alloc_request_le T sizeof_T n
  omega

/-! ### Dispatch through the callback table -/

theorem call_void_dispatches {σ : Type} (E : Env σ) (cb : Option FnPtr) (call : Call) (w : σ) :
    dispatches_void E cb call w (.ok (call_void E cb call w)) := by
  constructor
  · intro f hf
    subst hf
    rfl
  · intro hf
    subst hf
    rfl

theorem call_bool_dispatches {σ : Type} (E : Env σ) (cb : Option FnPtr) (call : Call) (w : σ) :
    dispatches_bool E cb call w (.ok (call_bool E cb call w)) := by
  constructor
  · intro f hf
    subst hf
    rfl
  · intro hf
    subst hf
    rfl

/-- C1 (as amended): every drawing and query operation dispatches on the presence of its
callback in the table of the owning context.  For a surface or font whose context is `c`,
each operation satisfies the dispatch contract of its table entry: entry set, exactly one
invocation with the caller's arguments (and, for a query, its boolean returned); entry
`NULL`, no invocation, world unchanged (and, for a query, `false`).  For `easy2d_draw_image`
this holds when the image and the argument struct are also non-null, and for
`easy2d_get_glyph_metrics` when the output buffer is also non-null. -/
theorem dispatch_on_callback_presence {σ : Type} (E : Env σ) (s : easy2d_surface)
    (ft : easy2d_font) (c : easy2d_context) (hs : s.pContext = some c)
    (hf : ft.pContext = some c) (w : σ) :
    dispatches_void E c.drawingCallbacks.begin_draw (.begin_draw s) w
      (easy2d_begin_draw E (some s) w) ∧
    dispatches_void E c.drawingCallbacks.end_draw (.end_draw s) w
      (easy2d_end_draw E (some s) w) ∧
    (∀ color, dispatches_void E c.drawingCallbacks.clear (.clear s color) w
      (easy2d_clear E (some s) color w)) ∧
    (∀ l t r b color, dispatches_void E c.drawingCallbacks.draw_rect
      (.draw_rect s l t r b color) w (easy2d_draw_rect E (some s) l t r b color w)) ∧
    (∀ l t r b color ow, dispatches_void E c.drawingCallbacks.draw_rect_outline
      (.draw_rect_outline s l t r b color ow) w
      (easy2d_draw_rect_outline E (some s) l t r b color ow w)) ∧
    (∀ l t r b color ow oc, dispatches_void E c.drawingCallbacks.draw_rect_with_outline
      (.draw_rect_with_outline s l t r b color ow oc) w
      (easy2d_draw_rect_with_outline E (some s) l t r b color ow oc w)) ∧
    (∀ l t r b color rad, dispatches_void E c.drawingCallbacks.draw_round_rect
      (.draw_round_rect s l t r b color rad) w
      (easy2d_draw_round_rect E (some s) l t r b color rad w)) ∧
    (∀ l t r b color rad ow, dispatches_void E c.drawingCallbacks.draw_round_rect_outline
      (.draw_round_rect_outline s l t r b color rad ow) w
      (easy2d_draw_round_rect_outline E (some s) l t r b color rad ow w)) ∧
    (∀ l t r b color rad ow oc,
      dispatches_void E c.drawingCallbacks.draw_round_rect_with_outline
        (.draw_round_rect_with_outline s l t r b color rad ow oc) w
        (easy2d_draw_round_rect_with_outline E (some s) l t r b color rad ow oc w)) ∧
    (∀ pFont text n x y color bg, dispatches_void E c.drawingCallbacks.draw_text
      (.draw_text s pFont text n x y color bg) w
      (easy2d_draw_text E (some s) pFont text n x y color bg w)) ∧
    (∀ im a, dispatches_void E c.drawingCallbacks.draw_image (.draw_image s im a) w
      (easy2d_draw_image E (some s) (some im) (some a) w)) ∧
    (∀ l t r b, dispatches_void E c.drawingCallbacks.set_clip (.set_clip s l t r b) w
      (easy2d_set_clip E (some s) l t r b w)) ∧
    (∀ pl pt pr pb, dispatches_void E c.drawingCallbacks.get_clip (.get_clip s pl pt pr pb) w
      (easy2d_get_clip E (some s) pl pt pr pb w)) ∧
    (∀ out, dispatches_bool E c.drawingCallbacks.get_font_metrics
      (.get_font_metrics ft out) w (easy2d_get_font_metrics E (some ft) out w)) ∧
    (∀ utf32 out, dispatches_bool E c.drawingCallbacks.get_glyph_metrics
      (.get_glyph_metrics ft utf32 (some out)) w
      (easy2d_get_glyph_metrics E (some ft) utf32 (some out) w)) ∧
    (∀ text n pw ph, dispatches_bool E c.drawingCallbacks.measure_string
      (.measure_string ft text n pw ph) w (easy2d_measure_string E (some ft) text n pw ph w)) ∧
    (∀ text n maxWidth x px pi,
      dispatches_bool E c.drawingCallbacks.get_text_cursor_position_from_point
        (.get_text_cursor_position_from_point ft text n maxWidth x px pi) w
        (easy2d_get_text_cursor_position_from_point E (some ft) text n maxWidth x px pi w)) ∧
    (∀ text i px,
      dispatches_bool E c.drawingCallbacks.get_text_cursor_position_from_char
        (.get_text_cursor_position_from_char ft text i px) w
        (easy2d_get_text_cursor_position_from_char E (some ft) text i px w)) := by
  refine ⟨?_, ?_, ?_, ?_, ?_, ?_, ?_, ?_, ?_, ?_, ?_, ?_, ?_, ?_, ?_, ?_, ?_, ?_⟩
  · simpa [easy2d_begin_draw, hs] using call_void_dispatches E _ _ w
  · simpa [easy2d_end_draw, hs] using call_void_dispatches E _ _ w
  · intro color
    simpa [easy2d_clear, hs] using call_void_dispatches E _ _ w
  · intro l t r b color
    simpa [easy2d_draw_rect, hs] using call_void_dispatches E _ _ w
  · intro l t r b color ow
    simpa [easy2d_draw_rect_outline, hs] using call_void_dispatches E _ _ w
  · intro l t r b color ow oc
    simpa [easy2d_draw_rect_with_outline, hs] using call_void_dispatches E _ _ w
  · intro l t r b color rad
    simpa [easy2d_draw_round_rect, hs] using call_void_dispatches E _ _ w
  · intro l t r b color rad ow
    simpa [easy2d_draw_round_rect_outline, hs] using call_void_dispatches E _ _ w
  · intro l t r b color rad ow oc
    simpa [easy2d_draw_round_rect_with_outline, hs] using call_void_dispatches E _ _ w
  · intro pFont text n x y color bg
    simpa [easy2d_draw_text, hs] using call_void_dispatches E _ _ w
  · intro im a
    simpa [easy2d_draw_image, hs] using call_void_dispatches E _ _ w
  · intro l t r b
    simpa [easy2d_set_clip, hs] using call_void_dispatches E _ _ w
  · intro pl pt pr pb
    simpa [easy2d_get_clip, hs] using call_void_dispatches E _ _ w
  · intro out
    simpa [easy2d_get_font_metrics, hf] using call_bool_dispatches E _ _ w
  · intro utf32 out
    simpa [easy2d_get_glyph_metrics, hf] using call_bool_dispatches E _ _ w
  · intro text n pw ph
    simpa [easy2d_measure_string, hf] using call_bool_dispatches E _ _ w
  · intro text n maxWidth x px pi
    simpa [easy2d_get_text_cursor_position_from_point, hf] using call_bool_dispatches E _ _ w
  · intro text i px
    simpa [easy2d_get_text_cursor_position_from_char, hf] using call_bool_dispatches E _ _ w

/-- C1, witness: on the fully populated context the theorem applies, and gives for
`easy2d_begin_draw` the single invocation of table entry 9. -/
theorem dispatch_on_callback_presence_witness :
    surface_full.pContext = some ctx_full ∧ font_full.pContext = some ctx_full ∧
    easy2d_begin_draw env_ok (some surface_full) 0 =
      .ok ⟨(), 1, [.invoke 9 (.begin_draw surface_full)]⟩ :=
  ⟨rfl, rfl,
    (dispatch_on_callback_presence env_ok surface_full font_full ctx_full rfl rfl 0).1.1 9 rfl⟩

/-- C1, counterexample to the claim as stated: with a non-null surface and the `draw_image`
callback present, `easy2d_draw_image` called with a null image invokes nothing; and with a
non-null font and the `get_glyph_metrics` callback present, `easy2d_get_glyph_metrics` called
with a null output buffer does not satisfy the dispatch contract of its table entry: it
returns `false` without invoking the callback, which would have returned `true`. -/
theorem dispatch_guards_beyond_presence :
    ctx_full.drawingCallbacks.draw_image = some 19 ∧
    easy2d_draw_image env_ok (some surface_full) none (some 64) 0 = .ok ⟨(), 0, []⟩ ∧
    ctx_full.drawingCallbacks.get_glyph_metrics = some 23 ∧
    easy2d_get_glyph_metrics env_ok (some font_full) 65 none 0 = .ok ⟨false, 0, []⟩ ∧
    ¬ dispatches_bool env_ok ctx_full.drawingCallbacks.get_glyph_metrics
      (.get_glyph_metrics font_full 65 none) 0
      (easy2d_get_glyph_metrics env_ok (some font_full) 65 none 0) := by
  refine ⟨rfl, rfl, rfl, rfl, ?_⟩
  intro h
  have h1 := h.1 23 rfl
  simp [easy2d_get_glyph_metrics, env_ok] at h1

/-! ### Creation and deletion -/

theorem create_context_run {σ : Type} (T : Target) (E : Env σ)
    (cbs : easy2d_drawing_callbacks) (nC nS nF nI : Nat) (w : σ) (g : Nat → easy2d_byte)
    (hfit : T.sizeof_context - 1 + nC < 2 ^ T.size_t_bits)
    (hm : E.malloc (T.sizeof_context - 1 + nC) w = some g) :
    easy2d_create_context T E cbs nC nS nF nI w =
      match cbs.on_create_context with
      | none => .ok ⟨some ⟨cbs, nI, nF, nS, nC, List.replicate nC 0⟩, w,
          [.malloc (T.sizeof_context - 1 + nC)]⟩
      | some f =>
        if (E.hook f (.on_create_context ⟨cbs, nI, nF, nS, nC, List.replicate nC 0⟩) w).ret then
          .ok ⟨some ⟨cbs, nI, nF, nS, nC,
              after_hook (E.hook f (.on_create_context ⟨cbs, nI, nF, nS, nC, List.replicate nC 0⟩) w)
                (List.replicate nC 0)⟩,
            (E.hook f (.on_create_context ⟨cbs, nI, nF, nS, nC, List.replicate nC 0⟩) w).world,
            [.malloc (T.sizeof_context - 1 + nC),
              .invoke f (.on_create_context ⟨cbs, nI, nF, nS, nC, List.replicate nC 0⟩)]⟩
        else
          .ok ⟨none,
            (E.hook f (.on_create_context ⟨cbs, nI, nF, nS, nC, List.replicate nC 0⟩) w).world,
            [.malloc (T.sizeof_context - 1 + nC),
              .invoke f (.on_create_context ⟨cbs, nI, nF, nS, nC, List.replicate nC 0⟩),
              .free (.context ⟨cbs, nI, nF, nS, nC,
                after_hook (E.hook f (.on_create_context ⟨cbs, nI, nF, nS, nC, List.replicate nC 0⟩) w)
                  (List.replicate nC 0)⟩)]⟩ := by
  have hreq := alloc_request_of_fit T T.sizeof_context nC hfit
  have hlen : (extra_region T.sizeof_context T.offsetof_context_pExtraData
      (T.sizeof_context - 1 + nC) g).length = nC := by
    rw [extra_region_length]
    omega
  have hz := memset_zero_of_length _ nC hlen
  unfold easy2d_create_context
  simp only [hreq, hm, sizeof_pExtraData, hlen, hz]
  have h1 : ¬ (T.sizeof_context - 1 + nC < T.sizeof_context - 1) := by omega
  simp only [h1, if_false, lt_irrefl]

theorem create_surface_run {σ : Type} (T : Target) (E : Env σ) (c : easy2d_context)
    (width height : c_float) (w : σ) (g : Nat → easy2d_byte)
    (hfit : T.sizeof_surface - 1 + c.surfaceExtraBytes < 2 ^ T.size_t_bits)
    (hm : E.malloc (T.sizeof_surface - 1 + c.surfaceExtraBytes) w = some g) :
    easy2d_create_surface T E (some c) width height w =
      match c.drawingCallbacks.on_create_surface with
      | none => .ok ⟨some ⟨some c, width, height, List.replicate c.surfaceExtraBytes 0⟩, w,
          [.malloc (T.sizeof_surface - 1 + c.surfaceExtraBytes)]⟩
      | some f =>
        if (E.hook f (.on_create_surface
            ⟨some c, width, height, List.replicate c.surfaceExtraBytes 0⟩ width height) w).ret then
          .ok ⟨some ⟨some c, width, height,
              after_hook (E.hook f (.on_create_surface
                ⟨some c, width, height, List.replicate c.surfaceExtraBytes 0⟩ width height) w)
                (List.replicate c.surfaceExtraBytes 0)⟩,
            (E.hook f (.on_create_surface
              ⟨some c, width, height, List.replicate c.surfaceExtraBytes 0⟩ width height) w).world,
            [.malloc (T.sizeof_surface - 1 + c.surfaceExtraBytes),
              .invoke f (.on_create_surface
                ⟨some c, width, height, List.replicate c.surfaceExtraBytes 0⟩ width height)]⟩
        else
          .ok ⟨none,
            (E.hook f (.on_create_surface
              ⟨some c, width, height, List.replicate c.surfaceExtraBytes 0⟩ width height) w).world,
            [.malloc (T.sizeof_surface - 1 + c.surfaceExtraBytes),
              .invoke f (.on_create_surface
                ⟨some c, width, height, List.replicate c.surfaceExtraBytes 0⟩ width height),
              .free (.surface ⟨some c, width, height,
                after_hook (E.hook f (.on_create_surface
                  ⟨some c, width, height, List.replicate c.surfaceExtraBytes 0⟩ width height) w)
                  (List.replicate c.surfaceExtraBytes 0)⟩)]⟩ := by
  have hreq := alloc_request_of_fit T T.sizeof_surface c.surfaceExtraBytes hfit
  have hlen : (extra_region T.sizeof_surface T.offsetof_surface_pExtraData (T.sizeof_surface - 1 + c.surfaceExtraBytes)
      g).length = c.surfaceExtraBytes := by
    rw [extra_region_length]
    omega
  have hz := memset_zero_of_length _ c.surfaceExtraBytes hlen
  unfold easy2d_create_surface
  simp only [hreq, hm, sizeof_pExtraData, hlen, hz]
  have h1 : ¬ (T.sizeof_surface - 1 + c.surfaceExtraBytes < T.sizeof_surface - 1) := by omega
  simp only [h1, if_false, lt_irrefl]

theorem create_font_run {σ : Type} (T : Target) (E : Env σ) (c : easy2d_context)
    (family : Option (List Nat)) (size : Nat) (weight : easy2d_font_weight)
    (slant : easy2d_font_slant) (rotation : c_float) (w : σ) (g : Nat → easy2d_byte)
    (hfam : ∀ name, family = some name → name.length < EASY2D_MAX_FONT_FAMILY_LENGTH)
    (hfit : T.sizeof_font - 1 + c.fontExtraBytes < 2 ^ T.size_t_bits)
    (hm : E.malloc (T.sizeof_font - 1 + c.fontExtraBytes) w = some g) :
    easy2d_create_font T E (some c) family size weight slant rotation w =
      match c.drawingCallbacks.on_create_font with
      | none => .ok ⟨some ⟨some c, family.getD [], size, weight, slant, rotation,
            extra_region T.sizeof_font T.offsetof_font_pExtraData (T.sizeof_font - 1 + c.fontExtraBytes) g⟩, w,
          [.malloc (T.sizeof_font - 1 + c.fontExtraBytes)]⟩
      | some f =>
        if (E.hook f (.on_create_font ⟨some c, family.getD [], size, weight, slant, rotation,
            extra_region T.sizeof_font T.offsetof_font_pExtraData (T.sizeof_font - 1 + c.fontExtraBytes) g⟩) w).ret then
          .ok ⟨some ⟨some c, family.getD [], size, weight, slant, rotation,
              after_hook (E.hook f (.on_create_font ⟨some c, family.getD [], size, weight, slant,
                rotation, extra_region T.sizeof_font T.offsetof_font_pExtraData (T.sizeof_font - 1 + c.fontExtraBytes) g⟩) w)
                (extra_region T.sizeof_font T.offsetof_font_pExtraData (T.sizeof_font - 1 + c.fontExtraBytes) g)⟩,
            (E.hook f (.on_create_font ⟨some c, family.getD [], size, weight, slant, rotation,
              extra_region T.sizeof_font T.offsetof_font_pExtraData (T.sizeof_font - 1 + c.fontExtraBytes) g⟩) w).world,
            [.malloc (T.sizeof_font - 1 + c.fontExtraBytes),
              .invoke f (.on_create_font ⟨some c, family.getD [], size, weight, slant, rotation,
                extra_region T.sizeof_font T.offsetof_font_pExtraData (T.sizeof_font - 1 + c.fontExtraBytes) g⟩)]⟩
        else
          .ok ⟨none,
            (E.hook f (.on_create_font ⟨some c, family.getD [], size, weight, slant, rotation,
              extra_region T.sizeof_font T.offsetof_font_pExtraData (T.sizeof_font - 1 + c.fontExtraBytes) g⟩) w).world,
            [.malloc (T.sizeof_font - 1 + c.fontExtraBytes),
              .invoke f (.on_create_font ⟨some c, family.getD [], size, weight, slant, rotation,
                extra_region T.sizeof_font T.offsetof_font_pExtraData (T.sizeof_font - 1 + c.fontExtraBytes) g⟩),
              .free (.font ⟨some c, family.getD [], size, weight, slant, rotation,
                after_hook (E.hook f (.on_create_font ⟨some c, family.getD [], size, weight,
                  slant, rotation,
                  extra_region T.sizeof_font T.offsetof_font_pExtraData (T.sizeof_font - 1 + c.fontExtraBytes) g⟩) w)
                  (extra_region T.sizeof_font T.offsetof_font_pExtraData (T.sizeof_font - 1 + c.fontExtraBytes) g)⟩)]⟩ := by
  have hreq := alloc_request_of_fit T T.sizeof_font c.fontExtraBytes hfit
  have h1 : ¬ (T.sizeof_font - 1 + c.fontExtraBytes < T.sizeof_font - 1) := by omega
  unfold easy2d_create_font
  simp only [hreq, hm, sizeof_pExtraData, h1, if_false]
  cases family with
  | none =>
    simp only [Option.getD_none]
    cases c.drawingCallbacks.on_create_font with
    | none => rfl
    | some f =>
      simp only
      cases (E.hook f _ w).ret <;> rfl
  | some name =>
    have hn := hfam name rfl
    simp only [Option.getD_some, strcpy_s, hn, if_true]
    cases c.drawingCallbacks.on_create_font with
    | none => rfl
    | some f =>
      simp only
      cases (E.hook f _ w).ret <;> rfl

theorem create_image_run {σ : Type} (T : Target) (E : Env σ) (c : easy2d_context)
    (width height stride : Nat) (data : List Nat) (w : σ) (g : Nat → easy2d_byte)
    (hw : width ≠ 0) (hh : height ≠ 0)
    (hfit : T.sizeof_image - 1 + c.imageExtraBytes < 2 ^ T.size_t_bits)
    (hm : E.malloc (T.sizeof_image - 1 + c.imageExtraBytes) w = some g) :
    easy2d_create_image T E (some c) width height stride (some data) w =
      match c.drawingCallbacks.on_create_image with
      | none => .ok ⟨some ⟨some c, width, height,
            extra_region T.sizeof_image T.offsetof_image_pExtraData (T.sizeof_image - 1 + c.imageExtraBytes) g⟩, w,
          [.malloc (T.sizeof_image - 1 + c.imageExtraBytes)]⟩
      | some f =>
        if (E.hook f (.on_create_image ⟨some c, width, height,
            extra_region T.sizeof_image T.offsetof_image_pExtraData (T.sizeof_image - 1 + c.imageExtraBytes) g⟩
            stride data) w).ret then
          .ok ⟨some ⟨some c, width, height,
              after_hook (E.hook f (.on_create_image ⟨some c, width, height,
                extra_region T.sizeof_image T.offsetof_image_pExtraData (T.sizeof_image - 1 + c.imageExtraBytes) g⟩
                stride data) w)
                (extra_region T.sizeof_image T.offsetof_image_pExtraData (T.sizeof_image - 1 + c.imageExtraBytes) g)⟩,
            (E.hook f (.on_create_image ⟨some c, width, height,
              extra_region T.sizeof_image T.offsetof_image_pExtraData (T.sizeof_image - 1 + c.imageExtraBytes) g⟩
              stride data) w).world,
            [.malloc (T.sizeof_image - 1 + c.imageExtraBytes),
              .invoke f (.on_create_image ⟨some c, width, height,
                extra_region T.sizeof_image T.offsetof_image_pExtraData (T.sizeof_image - 1 + c.imageExtraBytes) g⟩
                stride data)]⟩
        else
          .ok ⟨none,
            (E.hook f (.on_create_image ⟨some c, width, height,
              extra_region T.sizeof_image T.offsetof_image_pExtraData (T.sizeof_image - 1 + c.imageExtraBytes) g⟩
              stride data) w).world,
            [.malloc (T.sizeof_image - 1 + c.imageExtraBytes),
              .invoke f (.on_create_image ⟨some c, width, height,
                extra_region T.sizeof_image T.offsetof_image_pExtraData (T.sizeof_image - 1 + c.imageExtraBytes) g⟩
                stride data),
              .free (.image ⟨some c, width, height,
                after_hook (E.hook f (.on_create_image ⟨some c, width, height,
                  extra_region T.sizeof_image T.offsetof_image_pExtraData (T.sizeof_image - 1 + c.imageExtraBytes) g⟩
                  stride data) w)
                  (extra_region T.sizeof_image T.offsetof_image_pExtraData (T.sizeof_image - 1 + c.imageExtraBytes) g)⟩)]⟩ := by
  have hreq := alloc_request_of_fit T T.sizeof_image c.imageExtraBytes hfit
  have h1 : ¬ (T.sizeof_image - 1 + c.imageExtraBytes < T.sizeof_image - 1) := by omega
  unfold easy2d_create_image
  simp only [hreq, hm, sizeof_pExtraData, h1, if_false, hw, hh, or_self]
  cases c.drawingCallbacks.on_create_image with
  | none => rfl
  | some f =>
    simp only
    cases (E.hook f _ w).ret <;> rfl

/-- C2: for each of the four entity kinds, once the block has been allocated (the request
`sizeof - 1 + extra bytes` is a `size_t`, `malloc` succeeded, and the arguments are valid):
if the on-create hook is set and returns `false`, creation returns `NULL` and its trace is
exactly the allocation, the one invocation of that hook, and the release of the block, so no
other hook runs; if the hook is `NULL` or returns `true`, a non-null entity is returned and
nothing is released. -/
theorem create_hook_failure_unwinds {σ : Type} (T : Target) (E : Env σ) (w : σ)
    (g : Nat → easy2d_byte) :
    (∀ cbs nC nS nF nI, T.sizeof_context - 1 + nC < 2 ^ T.size_t_bits →
      E.malloc (T.sizeof_context - 1 + nC) w = some g →
      (∀ f, cbs.on_create_context = some f →
        (E.hook f (.on_create_context ⟨cbs, nI, nF, nS, nC, List.replicate nC 0⟩) w).ret = false →
        easy2d_create_context T E cbs nC nS nF nI w =
          .ok ⟨none,
            (E.hook f (.on_create_context ⟨cbs, nI, nF, nS, nC, List.replicate nC 0⟩) w).world,
            [.malloc (T.sizeof_context - 1 + nC),
              .invoke f (.on_create_context ⟨cbs, nI, nF, nS, nC, List.replicate nC 0⟩),
              .free (.context ⟨cbs, nI, nF, nS, nC,
                after_hook (E.hook f (.on_create_context
                  ⟨cbs, nI, nF, nS, nC, List.replicate nC 0⟩) w) (List.replicate nC 0)⟩)]⟩) ∧
      ((cbs.on_create_context = none ∨ ∃ f, cbs.on_create_context = some f ∧
          (E.hook f (.on_create_context ⟨cbs, nI, nF, nS, nC, List.replicate nC 0⟩) w).ret
            = true) →
        ∃ e wld tr, easy2d_create_context T E cbs nC nS nF nI w = .ok ⟨some e, wld, tr⟩ ∧
          ∀ o, Event.free o ∉ tr)) ∧
    (∀ c width height, T.sizeof_surface - 1 + c.surfaceExtraBytes < 2 ^ T.size_t_bits →
      E.malloc (T.sizeof_surface - 1 + c.surfaceExtraBytes) w = some g →
      (∀ f, c.drawingCallbacks.on_create_surface = some f →
        (E.hook f (.on_create_surface
          ⟨some c, width, height, List.replicate c.surfaceExtraBytes 0⟩ width height) w).ret
            = false →
        easy2d_create_surface T E (some c) width height w =
          .ok ⟨none,
            (E.hook f (.on_create_surface
              ⟨some c, width, height, List.replicate c.surfaceExtraBytes 0⟩ width height) w).world,
            [.malloc (T.sizeof_surface - 1 + c.surfaceExtraBytes),
              .invoke f (.on_create_surface
                ⟨some c, width, height, List.replicate c.surfaceExtraBytes 0⟩ width height),
              .free (.surface ⟨some c, width, height,
                after_hook (E.hook f (.on_create_surface
                  ⟨some c, width, height, List.replicate c.surfaceExtraBytes 0⟩ width height) w)
                  (List.replicate c.surfaceExtraBytes 0)⟩)]⟩) ∧
      ((c.drawingCallbacks.on_create_surface = none ∨
          ∃ f, c.drawingCallbacks.on_create_surface = some f ∧
          (E.hook f (.on_create_surface
            ⟨some c, width, height, List.replicate c.surfaceExtraBytes 0⟩ width height) w).ret
              = true) →
        ∃ e wld tr, easy2d_create_surface T E (some c) width height w = .ok ⟨some e, wld, tr⟩ ∧
          ∀ o, Event.free o ∉ tr)) ∧
    (∀ c family size weight slant rotation,
      (∀ name, family = some name → name.length < EASY2D_MAX_FONT_FAMILY_LENGTH) →
      T.sizeof_font - 1 + c.fontExtraBytes < 2 ^ T.size_t_bits →
      E.malloc (T.sizeof_font - 1 + c.fontExtraBytes) w = some g →
      (∀ f, c.drawingCallbacks.on_create_font = some f →
        (E.hook f (.on_create_font ⟨some c, family.getD [], size, weight, slant, rotation,
          extra_region T.sizeof_font T.offsetof_font_pExtraData (T.sizeof_font - 1 + c.fontExtraBytes) g⟩) w).ret = false →
        easy2d_create_font T E (some c) family size weight slant rotation w =
          .ok ⟨none,
            (E.hook f (.on_create_font ⟨some c, family.getD [], size, weight, slant, rotation,
              extra_region T.sizeof_font T.offsetof_font_pExtraData (T.sizeof_font - 1 + c.fontExtraBytes) g⟩) w).world,
            [.malloc (T.sizeof_font - 1 + c.fontExtraBytes),
              .invoke f (.on_create_font ⟨some c, family.getD [], size, weight, slant, rotation,
                extra_region T.sizeof_font T.offsetof_font_pExtraData (T.sizeof_font - 1 + c.fontExtraBytes) g⟩),
              .free (.font ⟨some c, family.getD [], size, weight, slant, rotation,
                after_hook (E.hook f (.on_create_font ⟨some c, family.getD [], size, weight,
                  slant, rotation,
                  extra_region T.sizeof_font T.offsetof_font_pExtraData (T.sizeof_font - 1 + c.fontExtraBytes) g⟩) w)
                  (extra_region T.sizeof_font T.offsetof_font_pExtraData (T.sizeof_font - 1 + c.fontExtraBytes) g)⟩)]⟩) ∧
      ((c.drawingCallbacks.on_create_font = none ∨
          ∃ f, c.drawingCallbacks.on_create_font = some f ∧
          (E.hook f (.on_create_font ⟨some c, family.getD [], size, weight, slant, rotation,
            extra_region T.sizeof_font T.offsetof_font_pExtraData (T.sizeof_font - 1 + c.fontExtraBytes) g⟩) w).ret
              = true) →
        ∃ e wld tr, easy2d_create_font T E (some c) family size weight slant rotation w
            = .ok ⟨some e, wld, tr⟩ ∧
          ∀ o, Event.free o ∉ tr)) ∧
    (∀ c width height stride data, width ≠ 0 → height ≠ 0 →
      T.sizeof_image - 1 + c.imageExtraBytes < 2 ^ T.size_t_bits →
      E.malloc (T.sizeof_image - 1 + c.imageExtraBytes) w = some g →
      (∀ f, c.drawingCallbacks.on_create_image = some f →
        (E.hook f (.on_create_image ⟨some c, width, height,
          extra_region T.sizeof_image T.offsetof_image_pExtraData (T.sizeof_image - 1 + c.imageExtraBytes) g⟩
          stride data) w).ret = false →
        easy2d_create_image T E (some c) width height stride (some data) w =
          .ok ⟨none,
            (E.hook f (.on_create_image ⟨some c, width, height,
              extra_region T.sizeof_image T.offsetof_image_pExtraData (T.sizeof_image - 1 + c.imageExtraBytes) g⟩
              stride data) w).world,
            [.malloc (T.sizeof_image - 1 + c.imageExtraBytes),
              .invoke f (.on_create_image ⟨some c, width, height,
                extra_region T.sizeof_image T.offsetof_image_pExtraData (T.sizeof_image - 1 + c.imageExtraBytes) g⟩
                stride data),
              .free (.image ⟨some c, width, height,
                after_hook (E.hook f (.on_create_image ⟨some c, width, height,
                  extra_region T.sizeof_image T.offsetof_image_pExtraData (T.sizeof_image - 1 + c.imageExtraBytes) g⟩
                  stride data) w)
                  (extra_region T.sizeof_image T.offsetof_image_pExtraData (T.sizeof_image - 1 + c.imageExtraBytes) g)⟩)]⟩) ∧
      ((c.drawingCallbacks.on_create_image = none ∨
          ∃ f, c.drawingCallbacks.on_create_image = some f ∧
          (E.hook f (.on_create_image ⟨some c, width, height,
            extra_region T.sizeof_image T.offsetof_image_pExtraData (T.sizeof_image - 1 + c.imageExtraBytes) g⟩
            stride data) w).ret = true) →
        ∃ e wld tr, easy2d_create_image T E (some c) width height stride (some data) w
            = .ok ⟨some e, wld, tr⟩ ∧
          ∀ o, Event.free o ∉ tr)) := by
  refine ⟨?_, ?_, ?_, ?_⟩
  · intro cbs nC nS nF nI hfit hm
    have hrun := create_context_run T E cbs nC nS nF nI w g hfit hm
    constructor
    · intro f hcb hret
      rw [hrun, hcb]
      simp [hret]
    · rintro (hcb | ⟨f, hcb, hret⟩)
      · rw [hrun, hcb]
        exact ⟨_, _, _, rfl, by simp⟩
      · rw [hrun, hcb]
        simp only [hret, if_true]
        exact ⟨_, _, _, rfl, by simp⟩
  · intro c width height hfit hm
    have hrun := create_surface_run T E c width height w g hfit hm
    constructor
    · intro f hcb hret
      rw [hrun, hcb]
      simp [hret]
    · rintro (hcb | ⟨f, hcb, hret⟩)
      · rw [hrun, hcb]
        exact ⟨_, _, _, rfl, by simp⟩
      · rw [hrun, hcb]
        simp only [hret, if_true]
        exact ⟨_, _, _, rfl, by simp⟩
  · intro c family size weight slant rotation hfam hfit hm
    have hrun := create_font_run T E c family size weight slant rotation w g hfam hfit hm
    constructor
    · intro f hcb hret
      rw [hrun, hcb]
      simp [hret]
    · rintro (hcb | ⟨f, hcb, hret⟩)
      · rw [hrun, hcb]
        exact ⟨_, _, _, rfl, by simp⟩
      · rw [hrun, hcb]
        simp only [hret, if_true]
        exact ⟨_, _, _, rfl, by simp⟩
  · intro c width height stride data hw hh hfit hm
    have hrun := create_image_run T E c width height stride data w g hw hh hfit hm
    constructor
    · intro f hcb hret
      rw [hrun, hcb]
      simp [hret]
    · rintro (hcb | ⟨f, hcb, hret⟩)
      · rw [hrun, hcb]
        exact ⟨_, _, _, rfl, by simp⟩
      · rw [hrun, hcb]
        simp only [hret, if_true]
        exact ⟨_, _, _, rfl, by simp⟩

/-- C2, witness: with hooks that fail, creating a surface on the fully populated context
allocates 25 bytes, invokes `on_create_surface` (entry 3) on the zeroed surface, releases the
block and returns `NULL`; with hooks that succeed the surface is returned. -/
theorem create_hook_failure_unwinds_witness :
    easy2d_create_surface win64 env_fail (some ctx_full) 640 480 0 =
      .ok ⟨none, 1,
        [.malloc 25, .invoke 3 (.on_create_surface ⟨some ctx_full, 640, 480, [0, 0]⟩ 640 480),
          .free (.surface ⟨some ctx_full, 640, 480, [0xAB, 0xAB]⟩)]⟩ ∧
    ∃ e wld tr, easy2d_create_surface win64 env_ok (some ctx_full) 640 480 0
      = .ok ⟨some e, wld, tr⟩ ∧ ∀ o, Event.free o ∉ tr :=
  ⟨((create_hook_failure_unwinds win64 env_fail 0 (fun _ => 0xCD)).2.1 ctx_full 640 480
      (by decide) rfl).1 3 rfl rfl,
   ((create_hook_failure_unwinds win64 env_ok 0 (fun _ => 0xCD)).2.1 ctx_full 640 480
      (by decide) rfl).2 (Or.inr ⟨3, rfl, rfl⟩)⟩

theorem create_context_inv {σ : Type} (T : Target) (E : Env σ) (cbs : easy2d_drawing_callbacks)
    (nC nS nF nI : Nat) (w : σ) (st : Step σ (Option easy2d_context))
    (h : easy2d_create_context T E cbs nC nS nF nI w = .ok st) :
    (∀ c, st.ret = some c → c.drawingCallbacks = cbs ∧ c.imageExtraBytes = nI ∧
      c.fontExtraBytes = nF ∧ c.surfaceExtraBytes = nS ∧ c.contextExtraBytes = nC ∧
      c.pExtraData.length = nC ∧
      (cbs.on_create_context = none → c.pExtraData = List.replicate nC 0)) ∧
    (∀ f call, Event.invoke f call ∈ st.trace → cbs.on_create_context = some f ∧
      call = .on_create_context ⟨cbs, nI, nF, nS, nC, List.replicate nC 0⟩) := by
  unfold easy2d_create_context at h
  simp only at h
  split at h
  · simp only [Except.ok.injEq] at h
    subst h
    simp
  · rename_i g hm
    split_ifs at h with h1 h2
    have hlen := extra_region_exact_of_memset T T.sizeof_context T.offsetof_context_pExtraData nC g h1 h2
    have hz := memset_zero_of_length _ nC hlen
    rw [hz] at h
    split at h
    · rename_i hcb
      simp only [Except.ok.injEq] at h
      subst h
      simp [hcb]
    · rename_i f hcb
      split_ifs at h with hret
      · simp only [Except.ok.injEq] at h
        subst h
        simp [hcb, after_hook_length]
      · simp only [Except.ok.injEq] at h
        subst h
        simp [hcb]

theorem create_surface_inv {σ : Type} (T : Target) (E : Env σ) (pContext : Option easy2d_context)
    (width height : c_float) (w : σ) (st : Step σ (Option easy2d_surface))
    (h : easy2d_create_surface T E pContext width height w = .ok st) :
    (∀ s, st.ret = some s → ∃ c, pContext = some c ∧ s.pContext = some c ∧ s.width = width ∧
      s.height = height ∧ s.pExtraData.length = c.surfaceExtraBytes ∧
      (c.drawingCallbacks.on_create_surface = none →
        s.pExtraData = List.replicate c.surfaceExtraBytes 0)) ∧
    (∀ f call, Event.invoke f call ∈ st.trace → ∃ c, pContext = some c ∧
      c.drawingCallbacks.on_create_surface = some f ∧
      call = .on_create_surface ⟨some c, width, height, List.replicate c.surfaceExtraBytes 0⟩
        width height) := by
  unfold easy2d_create_surface at h
  cases pContext with
  | none =>
    simp only [Except.ok.injEq] at h
    subst h
    simp
  | some c =>
    simp only at h
    split at h
    · simp only [Except.ok.injEq] at h
      subst h
      simp
    · rename_i g hm
      split_ifs at h with h1 h2
      have hlen := extra_region_exact_of_memset T T.sizeof_surface T.offsetof_surface_pExtraData c.surfaceExtraBytes g h1 h2
      have hz := memset_zero_of_length _ c.surfaceExtraBytes hlen
      rw [hz] at h
      split at h
      · rename_i hcb
        simp only [Except.ok.injEq] at h
        subst h
        simp [hcb]
      · rename_i f hcb
        split_ifs at h with hret
        · simp only [Except.ok.injEq] at h
          subst h
          simp [hcb, after_hook_length]
        · simp only [Except.ok.injEq] at h
          subst h
          simp [hcb]

theorem create_font_inv {σ : Type} (T : Target) (E : Env σ) (pContext : Option easy2d_context)
    (family : Option (List Nat)) (size : Nat) (weight : easy2d_font_weight)
    (slant : easy2d_font_slant) (rotation : c_float) (w : σ)
    (st : Step σ (Option easy2d_font))
    (h : easy2d_create_font T E pContext family size weight slant rotation w = .ok st) :
    (∀ ft, st.ret = some ft → ∃ c, pContext = some c ∧ ft.pContext = some c ∧
      ft.family = family.getD [] ∧ ft.size = size ∧ ft.weight = weight ∧ ft.slant = slant ∧
      ft.rotation = rotation ∧
      (c.fontExtraBytes < 2 ^ T.size_t_bits → ft.pExtraData.length = c.fontExtraBytes)) ∧
    (∀ f call, Event.invoke f call ∈ st.trace → ∃ c extra, pContext = some c ∧
      c.drawingCallbacks.on_create_font = some f ∧
      call = .on_create_font ⟨some c, family.getD [], size, weight, slant, rotation, extra⟩ ∧
      (c.fontExtraBytes < 2 ^ T.size_t_bits → extra.length = c.fontExtraBytes)) := by
  unfold easy2d_create_font at h
  cases pContext with
  | none =>
    simp only [Except.ok.injEq] at h
    subst h
    simp
  | some c =>
    simp only at h
    split at h
    · simp only [Except.ok.injEq] at h
      subst h
      simp
    · rename_i g hm
      split_ifs at h with h1
      have hlen := fun hn => extra_region_exact T T.sizeof_font T.offsetof_font_pExtraData c.fontExtraBytes g hn h1
      split at h
      · simp at h
      · rename_i pFont hcop
        have hp : pFont = ⟨some c, family.getD [], size, weight, slant, rotation,
            extra_region T.sizeof_font T.offsetof_font_pExtraData (alloc_request T T.sizeof_font c.fontExtraBytes) g⟩ := by
          cases family with
          | none => simpa using hcop.symm
          | some name =>
            simp only [strcpy_s] at hcop
            split_ifs at hcop
            simpa using hcop.symm
        subst hp
        split at h
        · rename_i f hcb
          split_ifs at h with hret
          · simp only [Except.ok.injEq] at h
            subst h
            simp [hcb]
            exact hlen
          · simp only [Except.ok.injEq] at h
            subst h
            simp [hcb, after_hook_length]
            exact hlen
        · rename_i hcb
          simp only [Except.ok.injEq] at h
          subst h
          simp [hcb]
          exact hlen

theorem create_image_inv {σ : Type} (T : Target) (E : Env σ) (pContext : Option easy2d_context)
    (width height stride : Nat) (pData : Option (List Nat)) (w : σ)
    (st : Step σ (Option easy2d_image))
    (h : easy2d_create_image T E pContext width height stride pData w = .ok st) :
    (∀ im, st.ret = some im → ∃ c, pContext = some c ∧ im.pContext = some c ∧
      im.width = width ∧ im.height = height ∧
      (c.imageExtraBytes < 2 ^ T.size_t_bits → im.pExtraData.length = c.imageExtraBytes)) ∧
    (∀ f call, Event.invoke f call ∈ st.trace → ∃ c data extra, pContext = some c ∧
      pData = some data ∧ c.drawingCallbacks.on_create_image = some f ∧
      call = .on_create_image ⟨some c, width, height, extra⟩ stride data ∧
      (c.imageExtraBytes < 2 ^ T.size_t_bits → extra.length = c.imageExtraBytes)) := by
  unfold easy2d_create_image at h
  split at h
  · rename_i c data
    split_ifs at h with h0
    · simp only [Except.ok.injEq] at h
      subst h
      simp
    · simp only at h
      split at h
      · simp only [Except.ok.injEq] at h
        subst h
        simp
      · rename_i g hm
        split_ifs at h with h1
        have hlen := fun hn => extra_region_exact T T.sizeof_image T.offsetof_image_pExtraData c.imageExtraBytes g hn h1
        split at h
        · rename_i f hcb
          split_ifs at h with hret
          · simp only [Except.ok.injEq] at h
            subst h
            simp [hcb]
            exact hlen
          · simp only [Except.ok.injEq] at h
            subst h
            simp [hcb, after_hook_length]
            exact hlen
        · rename_i hcb
          simp only [Except.ok.injEq] at h
          subst h
          simp [hcb]
          exact hlen
  · simp only [Except.ok.injEq] at h
    subst h
    simp

theorem surface_asserts_pass_of_context (s : easy2d_surface) (c : easy2d_context)
    (h : s.pContext = some c) : surface_asserts_pass s := by
  intro σ E w
  refine ⟨?_, ?_, ?_, ?_, ?_, ?_, ?_, ?_, ?_, ?_, ?_, ?_, ?_, ?_⟩
  · unfold easy2d_delete_surface
    simp only [h]
    split <;> simp
  · simp [easy2d_begin_draw, h]
  · simp [easy2d_end_draw, h]
  · simp [easy2d_clear, h]
  · simp [easy2d_draw_rect, h]
  · simp [easy2d_draw_rect_outline, h]
  · simp [easy2d_draw_rect_with_outline, h]
  · simp [easy2d_draw_round_rect, h]
  · simp [easy2d_draw_round_rect_outline, h]
  · simp [easy2d_draw_round_rect_with_outline, h]
  · simp [easy2d_draw_text, h]
  · intro pImage pArgs
    cases pImage <;> cases pArgs <;> simp [easy2d_draw_image, h]
  · simp [easy2d_set_clip, h]
  · simp [easy2d_get_clip, h]

theorem font_asserts_pass_of_context (ft : easy2d_font) (c : easy2d_context)
    (h : ft.pContext = some c) : font_asserts_pass ft := by
  intro σ E w
  refine ⟨?_, ?_, ?_, ?_, ?_, ?_⟩
  · unfold easy2d_delete_font
    simp only [h]
    split <;> simp
  · simp [easy2d_get_font_metrics, h]
  · intro utf32 out
    cases out <;> simp [easy2d_get_glyph_metrics, h]
  · simp [easy2d_measure_string, h]
  · simp [easy2d_get_text_cursor_position_from_point, h]
  · simp [easy2d_get_text_cursor_position_from_char, h]

theorem image_asserts_pass_of_context (im : easy2d_image) (c : easy2d_context)
    (h : im.pContext = some c) : image_asserts_pass im := by
  intro σ E w
  unfold easy2d_delete_image
  simp only [h]
  split <;> simp

/-- C3: deleting a non-null context, surface, font or image (whose context back-reference
is set) produces exactly this trace: if the entity's on-delete hook is set, one invocation
of that hook on the entity followed by the release of the entity; if it is `NULL`, the
release alone.  No other hook appears.  Deleting a null handle produces the empty trace. -/
theorem delete_invokes_hook_then_frees {σ : Type} (E : Env σ) (w : σ) :
    (∀ c : easy2d_context,
      (∀ f, c.drawingCallbacks.on_delete_context = some f →
        easy2d_delete_context E (some c) w =
          .ok ⟨(), (E.hook f (.on_delete_context c) w).world,
            [.invoke f (.on_delete_context c),
              .free (.context { c with pExtraData := after_hook (E.hook f (.on_delete_context c) w) c.pExtraData })]⟩) ∧
      (c.drawingCallbacks.on_delete_context = none →
        easy2d_delete_context E (some c) w = .ok ⟨(), w, [.free (.context c)]⟩)) ∧
    (∀ (s : easy2d_surface) (c : easy2d_context), s.pContext = some c →
      (∀ f, c.drawingCallbacks.on_delete_surface = some f →
        easy2d_delete_surface E (some s) w =
          .ok ⟨(), (E.hook f (.on_delete_surface s) w).world,
            [.invoke f (.on_delete_surface s),
              .free (.surface { s with pExtraData := after_hook (E.hook f (.on_delete_surface s) w) s.pExtraData })]⟩) ∧
      (c.drawingCallbacks.on_delete_surface = none →
        easy2d_delete_surface E (some s) w = .ok ⟨(), w, [.free (.surface s)]⟩)) ∧
    (∀ (ft : easy2d_font) (c : easy2d_context), ft.pContext = some c →
      (∀ f, c.drawingCallbacks.on_delete_font = some f →
        easy2d_delete_font E (some ft) w =
          .ok ⟨(), (E.hook f (.on_delete_font ft) w).world,
            [.invoke f (.on_delete_font ft),
              .free (.font { ft with pExtraData := after_hook (E.hook f (.on_delete_font ft) w) ft.pExtraData })]⟩) ∧
      (c.drawingCallbacks.on_delete_font = none →
        easy2d_delete_font E (some ft) w = .ok ⟨(), w, [.free (.font ft)]⟩)) ∧
    (∀ (im : easy2d_image) (c : easy2d_context), im.pContext = some c →
      (∀ f, c.drawingCallbacks.on_delete_image = some f →
        easy2d_delete_image E (some im) w =
          .ok ⟨(), (E.hook f (.on_delete_image im) w).world,
            [.invoke f (.on_delete_image im),
              .free (.image { im with pExtraData := after_hook (E.hook f (.on_delete_image im) w) im.pExtraData })]⟩) ∧
      (c.drawingCallbacks.on_delete_image = none →
        easy2d_delete_image E (some im) w = .ok ⟨(), w, [.free (.image im)]⟩)) ∧
    easy2d_delete_context E none w = .ok ⟨(), w, []⟩ ∧
    easy2d_delete_surface E none w = .ok ⟨(), w, []⟩ ∧
    easy2d_delete_font E none w = .ok ⟨(), w, []⟩ ∧
    easy2d_delete_image E none w = .ok ⟨(), w, []⟩ := by
  refine ⟨?_, ?_, ?_, ?_, rfl, rfl, rfl, rfl⟩
  · intro c
    constructor
    · intro f hcb
      simp [easy2d_delete_context, hcb]
    · intro hcb
      simp [easy2d_delete_context, hcb]
  · intro s c hs
    constructor
    · intro f hcb
      simp [easy2d_delete_surface, hs, hcb]
    · intro hcb
      simp [easy2d_delete_surface, hs, hcb]
  · intro ft c hs
    constructor
    · intro f hcb
      simp [easy2d_delete_font, hs, hcb]
    · intro hcb
      simp [easy2d_delete_font, hs, hcb]
  · intro im c hs
    constructor
    · intro f hcb
      simp [easy2d_delete_image, hs, hcb]
    · intro hcb
      simp [easy2d_delete_image, hs, hcb]

/-- C3, witness: deleting the sample image invokes `on_delete_image` (entry 8) once and then
releases the image; on the context without callbacks the release is the only event. -/
theorem delete_invokes_hook_then_frees_witness :
    easy2d_delete_image env_ok (some image_full) 0 =
      .ok ⟨(), 1, [.invoke 8 (.on_delete_image image_full),
        .free (.image ⟨some ctx_full, 2, 2, [0xAB, 0xAB, 0xAB, 0xAB]⟩)]⟩ ∧
    easy2d_delete_image env_ok (some ⟨some ctx_bare, 2, 2, [0, 0, 0, 0]⟩) 0 =
      .ok ⟨(), 0, [.free (.image ⟨some ctx_bare, 2, 2, [0, 0, 0, 0]⟩)]⟩ :=
  ⟨((delete_invokes_hook_then_frees env_ok 0).2.2.2.1 image_full ctx_full rfl).1 8 rfl,
   ((delete_invokes_hook_then_frees env_ok 0).2.2.2.1 ⟨some ctx_bare, 2, 2, [0, 0, 0, 0]⟩
      ctx_bare rfl).2 rfl⟩

/-- C4: every surface, font and image returned by its creation function carries the context
it was created on as its back-reference, which is therefore non-null, so that no function
taking the entity fails its context assertion; and whenever the on-create hook runs, the
entity it receives has that back-reference and header fields equal to the creation arguments:
surface width and height; font family (empty when the family is null), size, weight, slant
and rotation; image width and height.  The returned entity has the same header fields.
And such entities are returned: once the block has been allocated (the request
`sizeof - 1 + extra bytes` is a `size_t`, `malloc` succeeded, the arguments are valid) and
the on-create hook is `NULL` or returns `true`, the creation function returns an entity with
these fields, after invoking the hook, if set, on an entity with these fields. -/
theorem created_entities_reference_context {σ : Type} (T : Target) (E : Env σ) (w : σ) :
    (∀ pContext width height st,
      easy2d_create_surface T E pContext width height w = .ok st →
      (∀ s, st.ret = some s → s.pContext = pContext ∧ s.pContext ≠ none ∧
        surface_asserts_pass s ∧ s.width = width ∧ s.height = height) ∧
      (∀ f call, Event.invoke f call ∈ st.trace → pContext ≠ none ∧
        ∃ extra, call = .on_create_surface ⟨pContext, width, height, extra⟩ width height)) ∧
    (∀ pContext family size weight slant rotation st,
      easy2d_create_font T E pContext family size weight slant rotation w = .ok st →
      (∀ ft, st.ret = some ft → ft.pContext = pContext ∧ ft.pContext ≠ none ∧
        font_asserts_pass ft ∧ ft.family = family.getD [] ∧ ft.size = size ∧
        ft.weight = weight ∧ ft.slant = slant ∧ ft.rotation = rotation) ∧
      (∀ f call, Event.invoke f call ∈ st.trace → pContext ≠ none ∧
        ∃ extra, call = .on_create_font
          ⟨pContext, family.getD [], size, weight, slant, rotation, extra⟩)) ∧
    (∀ pContext width height stride pData st,
      easy2d_create_image T E pContext width height stride pData w = .ok st →
      (∀ im, st.ret = some im → im.pContext = pContext ∧ im.pContext ≠ none ∧
        image_asserts_pass im ∧ im.width = width ∧ im.height = height) ∧
      (∀ f call, Event.invoke f call ∈ st.trace → pContext ≠ none ∧
        ∃ extra data, pData = some data ∧
          call = .on_create_image ⟨pContext, width, height, extra⟩ stride data)) ∧
    (∀ (c : easy2d_context) (width height : c_float) (g : Nat → easy2d_byte),
      T.sizeof_surface - 1 + c.surfaceExtraBytes < 2 ^ T.size_t_bits →
      E.malloc (T.sizeof_surface - 1 + c.surfaceExtraBytes) w = some g →
      (∀ f, c.drawingCallbacks.on_create_surface = some f →
        (E.hook f (.on_create_surface
          ⟨some c, width, height, List.replicate c.surfaceExtraBytes 0⟩ width height) w).ret
          = true) →
      ∃ st s, easy2d_create_surface T E (some c) width height w = .ok st ∧
        st.ret = some s ∧ s.pContext = some c ∧ s.width = width ∧ s.height = height ∧
        surface_asserts_pass s ∧
        (∀ f, c.drawingCallbacks.on_create_surface = some f →
          Event.invoke f (.on_create_surface
            ⟨some c, width, height, List.replicate c.surfaceExtraBytes 0⟩ width height)
            ∈ st.trace)) ∧
    (∀ (c : easy2d_context) (family : Option (List Nat)) (size : Nat)
        (weight : easy2d_font_weight) (slant : easy2d_font_slant) (rotation : c_float)
        (g : Nat → easy2d_byte),
      (∀ name, family = some name → name.length < EASY2D_MAX_FONT_FAMILY_LENGTH) →
      T.sizeof_font - 1 + c.fontExtraBytes < 2 ^ T.size_t_bits →
      E.malloc (T.sizeof_font - 1 + c.fontExtraBytes) w = some g →
      (∀ f, c.drawingCallbacks.on_create_font = some f →
        (E.hook f (.on_create_font ⟨some c, family.getD [], size, weight, slant, rotation,
          extra_region T.sizeof_font T.offsetof_font_pExtraData (T.sizeof_font - 1 + c.fontExtraBytes) g⟩) w).ret = true) →
      ∃ st ft, easy2d_create_font T E (some c) family size weight slant rotation w = .ok st ∧
        st.ret = some ft ∧ ft.pContext = some c ∧ ft.family = family.getD [] ∧
        ft.size = size ∧ ft.weight = weight ∧ ft.slant = slant ∧ ft.rotation = rotation ∧
        font_asserts_pass ft ∧
        (∀ f, c.drawingCallbacks.on_create_font = some f →
          Event.invoke f (.on_create_font ⟨some c, family.getD [], size, weight, slant,
            rotation, extra_region T.sizeof_font T.offsetof_font_pExtraData (T.sizeof_font - 1 + c.fontExtraBytes) g⟩)
            ∈ st.trace)) ∧
    (∀ (c : easy2d_context) (width height stride : Nat) (data : List Nat)
        (g : Nat → easy2d_byte),
      width ≠ 0 → height ≠ 0 →
      T.sizeof_image - 1 + c.imageExtraBytes < 2 ^ T.size_t_bits →
      E.malloc (T.sizeof_image - 1 + c.imageExtraBytes) w = some g →
      (∀ f, c.drawingCallbacks.on_create_image = some f →
        (E.hook f (.on_create_image ⟨some c, width, height,
          extra_region T.sizeof_image T.offsetof_image_pExtraData (T.sizeof_image - 1 + c.imageExtraBytes) g⟩
          stride data) w).ret = true) →
      ∃ st im, easy2d_create_image T E (some c) width height stride (some data) w = .ok st ∧
        st.ret = some im ∧ im.pContext = some c ∧ im.width = width ∧ im.height = height ∧
        image_asserts_pass im ∧
        (∀ f, c.drawingCallbacks.on_create_image = some f →
          Event.invoke f (.on_create_image ⟨some c, width, height,
            extra_region T.sizeof_image T.offsetof_image_pExtraData (T.sizeof_image - 1 + c.imageExtraBytes) g⟩
            stride data) ∈ st.trace)) := by
  refine ⟨?_, ?_, ?_, ?_, ?_, ?_⟩
  · intro pContext width height st h
    obtain ⟨h1, h2⟩ := create_surface_inv T E pContext width height w st h
    constructor
    · intro s hs
      obtain ⟨c, hc, hsc, hw, hh, _⟩ := h1 s hs
      exact ⟨by rw [hsc, hc], by simp [hsc], surface_asserts_pass_of_context s c hsc, hw, hh⟩
    · intro f call hmem
      obtain ⟨c, hc, _, hcall⟩ := h2 f call hmem
      subst hc
      exact ⟨by simp, _, hcall⟩
  · intro pContext family size weight slant rotation st h
    obtain ⟨h1, h2⟩ := create_font_inv T E pContext family size weight slant rotation w st h
    constructor
    · intro ft hs
      obtain ⟨c, hc, hsc, hfam, hsz, hwt, hsl, hrot, _⟩ := h1 ft hs
      exact ⟨by rw [hsc, hc], by simp [hsc], font_asserts_pass_of_context ft c hsc, hfam, hsz,
        hwt, hsl, hrot⟩
    · intro f call hmem
      obtain ⟨c, extra, hc, _, hcall, _⟩ := h2 f call hmem
      subst hc
      exact ⟨by simp, _, hcall⟩
  · intro pContext width height stride pData st h
    obtain ⟨h1, h2⟩ := create_image_inv T E pContext width height stride pData w st h
    constructor
    · intro im hs
      obtain ⟨c, hc, hsc, hw, hh, _⟩ := h1 im hs
      exact ⟨by rw [hsc, hc], by simp [hsc], image_asserts_pass_of_context im c hsc, hw, hh⟩
    · intro f call hmem
      obtain ⟨c, data, extra, hc, hd, _, hcall, _⟩ := h2 f call hmem
      subst hc
      exact ⟨by simp, _, _, hd, hcall⟩
  · intro c width height g hfit hm hret
    have hrun := create_surface_run T E c width height w g hfit hm
    cases hcb : c.drawingCallbacks.on_create_surface with
    | none =>
      rw [hcb] at hrun
      exact ⟨_, _, hrun, rfl, rfl, rfl, rfl, surface_asserts_pass_of_context _ c rfl,
        fun f hf => by simp at hf⟩
    | some f =>
      rw [hcb] at hrun
      simp only [hret f hcb, if_true] at hrun
      refine ⟨_, _, hrun, rfl, rfl, rfl, rfl, surface_asserts_pass_of_context _ c rfl, ?_⟩
      intro f2 hf2
      cases hf2
      simp
  · intro c family size weight slant rotation g hfam hfit hm hret
    have hrun := create_font_run T E c family size weight slant rotation w g hfam hfit hm
    cases hcb : c.drawingCallbacks.on_create_font with
    | none =>
      rw [hcb] at hrun
      exact ⟨_, _, hrun, rfl, rfl, rfl, rfl, rfl, rfl, rfl,
        font_asserts_pass_of_context _ c rfl, fun f hf => by simp at hf⟩
    | some f =>
      rw [hcb] at hrun
      simp only [hret f hcb, if_true] at hrun
      refine ⟨_, _, hrun, rfl, rfl, rfl, rfl, rfl, rfl, rfl,
        font_asserts_pass_of_context _ c rfl, ?_⟩
      intro f2 hf2
      cases hf2
      simp
  · intro c width height stride data g hw hh hfit hm hret
    have hrun := create_image_run T E c width height stride data w g hw hh hfit hm
    cases hcb : c.drawingCallbacks.on_create_image with
    | none =>
      rw [hcb] at hrun
      exact ⟨_, _, hrun, rfl, rfl, rfl, rfl, image_asserts_pass_of_context _ c rfl,
        fun f hf => by simp at hf⟩
    | some f =>
      rw [hcb] at hrun
      simp only [hret f hcb, if_true] at hrun
      refine ⟨_, _, hrun, rfl, rfl, rfl, rfl, image_asserts_pass_of_context _ c rfl, ?_⟩
      intro f2 hf2
      cases hf2
      simp

/-- C4, witness: on the fully populated context, whose hooks succeed, a surface, a font and
an image are created; each refers to that context and carries the creation arguments, and
each was handed to its on-create hook with them. -/
theorem created_entities_reference_context_witness :
    (∃ st s, easy2d_create_surface win64 env_ok (some ctx_full) 640 480 0 = .ok st ∧
      st.ret = some s ∧ s.pContext = some ctx_full ∧ s.width = 640 ∧ s.height = 480 ∧
      surface_asserts_pass s ∧
      (∀ f, ctx_full.drawingCallbacks.on_create_surface = some f →
        Event.invoke f (.on_create_surface ⟨some ctx_full, 640, 480,
          List.replicate ctx_full.surfaceExtraBytes 0⟩ 640 480) ∈ st.trace)) ∧
    (∃ st ft, easy2d_create_font win64 env_ok (some ctx_full) (some [65]) 12 .bold .italic 0 0
        = .ok st ∧
      st.ret = some ft ∧ ft.pContext = some ctx_full ∧ ft.family = (some [65]).getD [] ∧
      ft.size = 12 ∧ ft.weight = .bold ∧ ft.slant = .italic ∧ ft.rotation = 0 ∧
      font_asserts_pass ft ∧
      (∀ f, ctx_full.drawingCallbacks.on_create_font = some f →
        Event.invoke f (.on_create_font ⟨some ctx_full, (some [65]).getD [], 12, .bold,
          .italic, 0, extra_region win64.sizeof_font win64.offsetof_font_pExtraData
            (win64.sizeof_font - 1 + ctx_full.fontExtraBytes) (fun _ => 0xCD)⟩) ∈ st.trace)) ∧
    (∃ st im, easy2d_create_image win64 env_ok (some ctx_full) 2 2 8 (some [1, 2, 3, 4]) 0
        = .ok st ∧
      st.ret = some im ∧ im.pContext = some ctx_full ∧ im.width = 2 ∧ im.height = 2 ∧
      image_asserts_pass im ∧
      (∀ f, ctx_full.drawingCallbacks.on_create_image = some f →
        Event.invoke f (.on_create_image ⟨some ctx_full, 2, 2,
          extra_region win64.sizeof_image win64.offsetof_image_pExtraData
            (win64.sizeof_image - 1 + ctx_full.imageExtraBytes) (fun _ => 0xCD)⟩
          8 [1, 2, 3, 4]) ∈ st.trace)) ∧
    easy2d_create_surface win64 env_ok (some ctx_full) 640 480 0 =
      .ok ⟨some ⟨some ctx_full, 640, 480, [0xAB, 0xAB]⟩, 1,
        [.malloc 25, .invoke 3 (.on_create_surface ⟨some ctx_full, 640, 480, [0, 0]⟩
          640 480)]⟩ :=
  ⟨(created_entities_reference_context win64 env_ok 0).2.2.2.1 ctx_full 640 480
      (fun _ => 0xCD) (by decide) rfl (fun _ _ => rfl),
   (created_entities_reference_context win64 env_ok 0).2.2.2.2.1 ctx_full (some [65]) 12
      .bold .italic 0 (fun _ => 0xCD)
      (fun name h => by cases h; decide) (by decide) rfl (fun _ _ => rfl),
   (created_entities_reference_context win64 env_ok 0).2.2.2.2.2 ctx_full 2 2 8 [1, 2, 3, 4]
      (fun _ => 0xCD) (by decide) (by decide) (by decide) rfl (fun _ _ => rfl),
   rfl⟩

/-- C5, counterexample: on the 64-bit target a context created with one declared extra byte
is a block of 248 bytes in which `pExtraData` starts at byte 240, so the buffer holds 8
bytes, not 1; and an image of a context that declares 4 extra bytes per image is a block of
27 bytes with `pExtraData` at byte 16: 11 bytes, not 4. -/
theorem extra_data_buffer_exceeds_declared_size :
    easy2d_create_context win64 env_ok full_callbacks 1 2 3 4 0 =
      .ok ⟨some ⟨full_callbacks, 4, 3, 2, 1, [0xAB]⟩, 1,
        [.malloc 248, .invoke 1 (.on_create_context ⟨full_callbacks, 4, 3, 2, 1, [0]⟩)]⟩ ∧
    extra_capacity win64.offsetof_context_pExtraData 248 = 8 ∧
    extra_capacity win64.offsetof_context_pExtraData 248 ≠ 1 ∧
    easy2d_create_image win64 env_ok (some ctx_full) 2 2 8 (some [1, 2, 3, 4]) 0 =
      .ok ⟨some ⟨some ctx_full, 2, 2, [0xAB, 0xAB, 0xAB, 0xAB]⟩, 1,
        [.malloc 27, .invoke 7 (.on_create_image
          ⟨some ctx_full, 2, 2, [0xCD, 0xCD, 0xCD, 0xCD]⟩ 8 [1, 2, 3, 4])]⟩ ∧
    ctx_full.imageExtraBytes = 4 ∧
    extra_capacity win64.offsetof_image_pExtraData 27 = 11 :=
  ⟨rfl, rfl, by decide, rfl, rfl, rfl⟩

/-- C5, amended: on a target where `pExtraData` lies within each struct
(`offsetof(T, pExtraData) ≤ sizeof(T) - 1`), once the block has been allocated and the
on-create hook is `NULL` or returns `true`, each creation function returns an instance whose
block is `malloc(sizeof(T) - 1 + n)` for the declared size `n` of its class, so that the
extra-data buffer, which starts at `offsetof(T, pExtraData)`, holds
`n + (sizeof(T) - 1 - offsetof(T, pExtraData))` bytes: at least `n`, and exactly `n` only
when nothing follows `pExtraData` in the struct.  The first `n` of them are the declared bytes
kept in the instance.  `easy2d_create_context` stores the four declared sizes (and the
callback table) unchanged, and every instance any creation function returns keeps `n`
declared bytes. -/
theorem extra_data_has_declared_size {σ : Type} (T : Target) (E : Env σ) (w : σ)
    (hlayout : T.offsetof_context_pExtraData ≤ T.sizeof_context - 1 ∧
      T.offsetof_surface_pExtraData ≤ T.sizeof_surface - 1 ∧
      T.offsetof_font_pExtraData ≤ T.sizeof_font - 1 ∧
      T.offsetof_image_pExtraData ≤ T.sizeof_image - 1) :
    (∀ cbs nC nS nF nI (g : Nat → easy2d_byte),
      T.sizeof_context - 1 + nC < 2 ^ T.size_t_bits →
      E.malloc (T.sizeof_context - 1 + nC) w = some g →
      (∀ f, cbs.on_create_context = some f →
        (E.hook f (.on_create_context ⟨cbs, nI, nF, nS, nC, List.replicate nC 0⟩) w).ret
          = true) →
      ∃ st c, easy2d_create_context T E cbs nC nS nF nI w = .ok st ∧ st.ret = some c ∧
        c.contextExtraBytes = nC ∧ c.surfaceExtraBytes = nS ∧ c.fontExtraBytes = nF ∧
        c.imageExtraBytes = nI ∧ c.drawingCallbacks = cbs ∧ c.pExtraData.length = nC ∧
        st.trace.head? = some (.malloc (T.sizeof_context - 1 + nC)) ∧
        extra_capacity T.offsetof_context_pExtraData (T.sizeof_context - 1 + nC)
          = nC + (T.sizeof_context - 1 - T.offsetof_context_pExtraData)) ∧
    (∀ (c : easy2d_context) (width height : c_float) (g : Nat → easy2d_byte),
      T.sizeof_surface - 1 + c.surfaceExtraBytes < 2 ^ T.size_t_bits →
      E.malloc (T.sizeof_surface - 1 + c.surfaceExtraBytes) w = some g →
      (∀ f, c.drawingCallbacks.on_create_surface = some f →
        (E.hook f (.on_create_surface
          ⟨some c, width, height, List.replicate c.surfaceExtraBytes 0⟩ width height) w).ret
          = true) →
      ∃ st s, easy2d_create_surface T E (some c) width height w = .ok st ∧ st.ret = some s ∧
        s.pExtraData.length = c.surfaceExtraBytes ∧
        st.trace.head? = some (.malloc (T.sizeof_surface - 1 + c.surfaceExtraBytes)) ∧
        extra_capacity T.offsetof_surface_pExtraData
            (T.sizeof_surface - 1 + c.surfaceExtraBytes)
          = c.surfaceExtraBytes + (T.sizeof_surface - 1 - T.offsetof_surface_pExtraData)) ∧
    (∀ (c : easy2d_context) (family : Option (List Nat)) (size : Nat)
        (weight : easy2d_font_weight) (slant : easy2d_font_slant) (rotation : c_float)
        (g : Nat → easy2d_byte),
      (∀ name, family = some name → name.length < EASY2D_MAX_FONT_FAMILY_LENGTH) →
      T.sizeof_font - 1 + c.fontExtraBytes < 2 ^ T.size_t_bits →
      E.malloc (T.sizeof_font - 1 + c.fontExtraBytes) w = some g →
      (∀ f, c.drawingCallbacks.on_create_font = some f →
        (E.hook f (.on_create_font ⟨some c, family.getD [], size, weight, slant, rotation,
          extra_region T.sizeof_font T.offsetof_font_pExtraData (T.sizeof_font - 1 + c.fontExtraBytes) g⟩) w).ret = true) →
      ∃ st ft, easy2d_create_font T E (some c) family size weight slant rotation w = .ok st ∧
        st.ret = some ft ∧ ft.pExtraData.length = c.fontExtraBytes ∧
        st.trace.head? = some (.malloc (T.sizeof_font - 1 + c.fontExtraBytes)) ∧
        extra_capacity T.offsetof_font_pExtraData (T.sizeof_font - 1 + c.fontExtraBytes)
          = c.fontExtraBytes + (T.sizeof_font - 1 - T.offsetof_font_pExtraData)) ∧
    (∀ (c : easy2d_context) (width height stride : Nat) (data : List Nat)
        (g : Nat → easy2d_byte),
      width ≠ 0 → height ≠ 0 →
      T.sizeof_image - 1 + c.imageExtraBytes < 2 ^ T.size_t_bits →
      E.malloc (T.sizeof_image - 1 + c.imageExtraBytes) w = some g →
      (∀ f, c.drawingCallbacks.on_create_image = some f →
        (E.hook f (.on_create_image ⟨some c, width, height,
          extra_region T.sizeof_image T.offsetof_image_pExtraData (T.sizeof_image - 1 + c.imageExtraBytes) g⟩
          stride data) w).ret = true) →
      ∃ st im, easy2d_create_image T E (some c) width height stride (some data) w = .ok st ∧
        st.ret = some im ∧ im.pExtraData.length = c.imageExtraBytes ∧
        st.trace.head? = some (.malloc (T.sizeof_image - 1 + c.imageExtraBytes)) ∧
        extra_capacity T.offsetof_image_pExtraData (T.sizeof_image - 1 + c.imageExtraBytes)
          = c.imageExtraBytes + (T.sizeof_image - 1 - T.offsetof_image_pExtraData)) ∧
    (∀ cbs nC nS nF nI st, easy2d_create_context T E cbs nC nS nF nI w = .ok st →
      ∀ c, st.ret = some c → c.pExtraData.length = nC ∧ c.contextExtraBytes = nC ∧
        c.surfaceExtraBytes = nS ∧ c.fontExtraBytes = nF ∧ c.imageExtraBytes = nI ∧
        c.drawingCallbacks = cbs) ∧
    (∀ c width height st, easy2d_create_surface T E (some c) width height w = .ok st →
      ∀ s, st.ret = some s → s.pExtraData.length = c.surfaceExtraBytes) ∧
    (∀ c family size weight slant rotation st, c.fontExtraBytes < 2 ^ T.size_t_bits →
      easy2d_create_font T E (some c) family size weight slant rotation w = .ok st →
      ∀ ft, st.ret = some ft → ft.pExtraData.length = c.fontExtraBytes) ∧
    (∀ c width height stride pData st, c.imageExtraBytes < 2 ^ T.size_t_bits →
      easy2d_create_image T E (some c) width height stride pData w = .ok st →
      ∀ im, st.ret = some im → im.pExtraData.length = c.imageExtraBytes) := by
  obtain ⟨hlc, hls, hlf, hli⟩ := hlayout
  have hregion : ∀ (sz off n : Nat) (g : Nat → easy2d_byte),
      (extra_region sz off (sz - 1 + n) g).length = n := by
    intro sz off n g
    rw [extra_region_length]
    omega
  refine ⟨?_, ?_, ?_, ?_, ?_, ?_, ?_, ?_⟩
  · intro cbs nC nS nF nI g hfit hm hret
    have hrun := create_context_run T E cbs nC nS nF nI w g hfit hm
    have hcap : extra_capacity T.offsetof_context_pExtraData (T.sizeof_context - 1 + nC)
        = nC + (T.sizeof_context - 1 - T.offsetof_context_pExtraData) := by
      unfold extra_capacity
      omega
    cases hcb : cbs.on_create_context with
    | none =>
      rw [hcb] at hrun
      exact ⟨_, _, hrun, rfl, rfl, rfl, rfl, rfl, rfl, by simp, rfl, hcap⟩
    | some f =>
      rw [hcb] at hrun
      simp only [hret f hcb, if_true] at hrun
      exact ⟨_, _, hrun, rfl, rfl, rfl, rfl, rfl, rfl, by simp [after_hook_length], rfl, hcap⟩
  · intro c width height g hfit hm hret
    have hrun := create_surface_run T E c width height w g hfit hm
    have hcap : extra_capacity T.offsetof_surface_pExtraData
        (T.sizeof_surface - 1 + c.surfaceExtraBytes)
        = c.surfaceExtraBytes + (T.sizeof_surface - 1 - T.offsetof_surface_pExtraData) := by
      unfold extra_capacity
      omega
    cases hcb : c.drawingCallbacks.on_create_surface with
    | none =>
      rw [hcb] at hrun
      exact ⟨_, _, hrun, rfl, by simp, rfl, hcap⟩
    | some f =>
      rw [hcb] at hrun
      simp only [hret f hcb, if_true] at hrun
      exact ⟨_, _, hrun, rfl, by simp [after_hook_length], rfl, hcap⟩
  · intro c family size weight slant rotation g hfam hfit hm hret
    have hrun := create_font_run T E c family size weight slant rotation w g hfam hfit hm
    have hcap : extra_capacity T.offsetof_font_pExtraData
        (T.sizeof_font - 1 + c.fontExtraBytes)
        = c.fontExtraBytes + (T.sizeof_font - 1 - T.offsetof_font_pExtraData) := by
      unfold extra_capacity
      omega
    cases hcb : c.drawingCallbacks.on_create_font with
    | none =>
      rw [hcb] at hrun
      exact ⟨_, _, hrun, rfl, hregion _ _ _ _, rfl, hcap⟩
    | some f =>
      rw [hcb] at hrun
      simp only [hret f hcb, if_true] at hrun
      exact ⟨_, _, hrun, rfl, by simp [after_hook_length, hregion], rfl, hcap⟩
  · intro c width height stride data g hw hh hfit hm hret
    have hrun := create_image_run T E c width height stride data w g hw hh hfit hm
    have hcap : extra_capacity T.offsetof_image_pExtraData
        (T.sizeof_image - 1 + c.imageExtraBytes)
        = c.imageExtraBytes + (T.sizeof_image - 1 - T.offsetof_image_pExtraData) := by
      unfold extra_capacity
      omega
    cases hcb : c.drawingCallbacks.on_create_image with
    | none =>
      rw [hcb] at hrun
      exact ⟨_, _, hrun, rfl, hregion _ _ _ _, rfl, hcap⟩
    | some f =>
      rw [hcb] at hrun
      simp only [hret f hcb, if_true] at hrun
      exact ⟨_, _, hrun, rfl, by simp [after_hook_length, hregion], rfl, hcap⟩
  · intro cbs nC nS nF nI st h c hc
    obtain ⟨h1, h2, h3, h4, h5, h6, _⟩ := (create_context_inv T E cbs nC nS nF nI w st h).1 c hc
    exact ⟨h6, h5, h4, h3, h2, h1⟩
  · intro c width height st h s hs
    obtain ⟨c1, hc, _, _, _, hlen, _⟩ := (create_surface_inv T E _ width height w st h).1 s hs
    cases hc
    exact hlen
  · intro c family size weight slant rotation st hn h ft hs
    obtain ⟨c1, hc, _, _, _, _, _, _, hlen⟩ :=
      (create_font_inv T E _ family size weight slant rotation w st h).1 ft hs
    cases hc
    exact hlen hn
  · intro c width height stride pData st hn h im hs
    obtain ⟨c1, hc, _, _, _, hlen⟩ :=
      (create_image_inv T E _ width height stride pData w st h).1 im hs
    cases hc
    exact hlen hn

/-- C5, witness: on the 64-bit target, creating a context that declares 1, 2, 3 and 4 extra
bytes returns a context that stores these four sizes and keeps 1 declared byte, in a block of
248 bytes whose extra-data buffer holds 1 + 7 bytes; and an image created on a context that
declares 4 bytes per image keeps 4 declared bytes in a buffer of 4 + 7 bytes. -/
theorem extra_data_has_declared_size_witness :
    (∃ st c, easy2d_create_context win64 env_ok full_callbacks 1 2 3 4 0 = .ok st ∧
      st.ret = some c ∧
      c.contextExtraBytes = 1 ∧ c.surfaceExtraBytes = 2 ∧ c.fontExtraBytes = 3 ∧
      c.imageExtraBytes = 4 ∧ c.drawingCallbacks = full_callbacks ∧ c.pExtraData.length = 1 ∧
      st.trace.head? = some (.malloc (win64.sizeof_context - 1 + 1)) ∧
      extra_capacity win64.offsetof_context_pExtraData (win64.sizeof_context - 1 + 1)
        = 1 + (win64.sizeof_context - 1 - win64.offsetof_context_pExtraData)) ∧
    (∃ st im, easy2d_create_image win64 env_ok (some ctx_full) 2 2 8 (some [1, 2, 3, 4]) 0
        = .ok st ∧
      st.ret = some im ∧ im.pExtraData.length = ctx_full.imageExtraBytes ∧
      st.trace.head? = some (.malloc (win64.sizeof_image - 1 + ctx_full.imageExtraBytes)) ∧
      extra_capacity win64.offsetof_image_pExtraData
          (win64.sizeof_image - 1 + ctx_full.imageExtraBytes)
        = ctx_full.imageExtraBytes
          + (win64.sizeof_image - 1 - win64.offsetof_image_pExtraData)) ∧
    win64.sizeof_context - 1 - win64.offsetof_context_pExtraData = 7 ∧
    win64.sizeof_image - 1 - win64.offsetof_image_pExtraData = 7 :=
  ⟨(extra_data_has_declared_size win64 env_ok 0 (by decide)).1 full_callbacks 1 2 3 4
      (fun _ => 0xCD) (by decide) rfl (fun _ _ => rfl),
   (extra_data_has_declared_size win64 env_ok 0 (by decide)).2.2.2.1 ctx_full 2 2 8
      [1, 2, 3, 4] (fun _ => 0xCD) (by decide) (by decide) (by decide) rfl (fun _ _ => rfl),
   rfl, rfl⟩

/-- For contexts and surfaces the extra data is zero when the on-create hook is invoked, and
on return when no hook is set. -/
theorem context_and_surface_extra_data_zeroed {σ : Type} (T : Target) (E : Env σ) (w : σ) :
    (∀ cbs nC nS nF nI st, easy2d_create_context T E cbs nC nS nF nI w = .ok st →
      (∀ f call, Event.invoke f call ∈ st.trace →
        ∃ c, call = .on_create_context c ∧ ∀ b ∈ c.pExtraData, b = 0) ∧
      (cbs.on_create_context = none → ∀ c, st.ret = some c → ∀ b ∈ c.pExtraData, b = 0)) ∧
    (∀ pContext width height st, easy2d_create_surface T E pContext width height w = .ok st →
      (∀ f call, Event.invoke f call ∈ st.trace →
        ∃ s, call = .on_create_surface s width height ∧ ∀ b ∈ s.pExtraData, b = 0) ∧
      (∀ s, st.ret = some s → (∀ c, s.pContext = some c →
        c.drawingCallbacks.on_create_surface = none) → ∀ b ∈ s.pExtraData, b = 0)) := by
  constructor
  · intro cbs nC nS nF nI st h
    obtain ⟨h1, h2⟩ := create_context_inv T E cbs nC nS nF nI w st h
    constructor
    · intro f call hmem
      obtain ⟨_, hcall⟩ := h2 f call hmem
      refine ⟨_, hcall, ?_⟩
      intro b hb
      exact List.eq_of_mem_replicate hb
    · intro hcb c hc b hb
      obtain ⟨_, _, _, _, _, _, hz⟩ := h1 c hc
      rw [hz hcb] at hb
      exact List.eq_of_mem_replicate hb
  · intro pContext width height st h
    obtain ⟨h1, h2⟩ := create_surface_inv T E pContext width height w st h
    constructor
    · intro f call hmem
      obtain ⟨c, _, _, hcall⟩ := h2 f call hmem
      refine ⟨_, hcall, ?_⟩
      intro b hb
      exact List.eq_of_mem_replicate hb
    · intro s hs hcb b hb
      obtain ⟨c, _, hsc, _, _, _, hz⟩ := h1 s hs
      rw [hz (hcb c hsc)] at hb
      exact List.eq_of_mem_replicate hb

/-- C6, the code at the failing input: `easy2d_create_font` and `easy2d_create_image` hand
the block to the on-create hook as `malloc` returned it.  With an allocator that fills new
blocks with `0xCD`, the font and the image seen by the hook have extra data `0xCD, ...`, not
zero, and on a context without callbacks the font is returned with that extra data. -/
theorem create_font_and_image_leave_extra_data_unset :
    easy2d_create_font win64 env_ok (some ctx_full) none 12 .bold .italic 0 0 =
      .ok ⟨some ⟨some ctx_full, [], 12, .bold, .italic, 0, [0xAB, 0xAB, 0xAB]⟩, 1,
        [.malloc 162, .invoke 5 (.on_create_font
          ⟨some ctx_full, [], 12, .bold, .italic, 0, [0xCD, 0xCD, 0xCD]⟩)]⟩ ∧
    easy2d_create_image win64 env_ok (some ctx_full) 1 1 4 (some [0xFF0000FF]) 0 =
      .ok ⟨some ⟨some ctx_full, 1, 1, [0xAB, 0xAB, 0xAB, 0xAB]⟩, 1,
        [.malloc 27, .invoke 7 (.on_create_image
          ⟨some ctx_full, 1, 1, [0xCD, 0xCD, 0xCD, 0xCD]⟩ 4 [0xFF0000FF])]⟩ ∧
    easy2d_create_font win64 env_ok (some ctx_bare) none 12 .bold .italic 0 0 =
      .ok ⟨some ⟨some ctx_bare, [], 12, .bold, .italic, 0, [0xCD, 0xCD, 0xCD]⟩, 0,
        [.malloc 162]⟩ :=
  ⟨rfl, rfl, rfl⟩

/-- C7: `easy2d_create_image` returns `NULL` with an empty trace (no allocation, no hook)
whenever the context is null, the width is 0, the height is 0 or the pixel data is null;
`easy2d_create_surface` and `easy2d_create_font` do so when the context is null. -/
theorem create_rejects_invalid_arguments {σ : Type} (T : Target) (E : Env σ) (w : σ) :
    (∀ width height stride pData,
      easy2d_create_image T E none width height stride pData w = .ok ⟨none, w, []⟩) ∧
    (∀ pContext height stride pData,
      easy2d_create_image T E pContext 0 height stride pData w = .ok ⟨none, w, []⟩) ∧
    (∀ pContext width stride pData,
      easy2d_create_image T E pContext width 0 stride pData w = .ok ⟨none, w, []⟩) ∧
    (∀ pContext width height stride,
      easy2d_create_image T E pContext width height stride none w = .ok ⟨none, w, []⟩) ∧
    (∀ width height, easy2d_create_surface T E none width height w = .ok ⟨none, w, []⟩) ∧
    (∀ family size weight slant rotation,
      easy2d_create_font T E none family size weight slant rotation w = .ok ⟨none, w, []⟩) := by
  refine ⟨?_, ?_, ?_, ?_, ?_, ?_⟩
  · intro width height stride pData
    simp [easy2d_create_image]
  · intro pContext height stride pData
    cases pContext <;> cases pData <;> simp [easy2d_create_image]
  · intro pContext width stride pData
    cases pContext <;> cases pData <;> simp [easy2d_create_image]
  · intro pContext width height stride
    cases pContext <;> simp [easy2d_create_image]
  · intro width height
    rfl
  · intro family size weight slant rotation
    rfl

/-- C8, the code at the failing input: `easy2d_get_font_metrics` called with a non-null font
and a null output buffer invokes the `get_font_metrics` callback (entry 22) with the null
buffer and returns what it returns, here `true`; `easy2d_get_glyph_metrics` in the same
situation returns `false` without invoking anything. -/
theorem get_font_metrics_forwards_null_buffer :
    easy2d_get_font_metrics env_ok (some font_full) none 0 =
      .ok ⟨true, 1, [.invoke 22 (.get_font_metrics font_full none)]⟩ ∧
    easy2d_get_glyph_metrics env_ok (some font_full) 65 none 0 = .ok ⟨false, 0, []⟩ :=
  ⟨rfl, rfl⟩

/-! ### Binary32 rounding -/

/-! #### The nearest integer -/

theorem round_half_even_intCast (n : Int) : round_half_even (n : ℚ) = n := by
  unfold round_half_even
  simp

theorem round_half_even_ge_floor (q : ℚ) : ⌊q⌋ ≤ round_half_even q := by
  unfold round_half_even
  split_ifs <;> omega

theorem round_half_even_le_floor_succ (q : ℚ) : round_half_even q ≤ ⌊q⌋ + 1 := by
  unfold round_half_even
  split_ifs <;> omega

theorem round_half_even_mono {p q : ℚ} (h : p ≤ q) :
    round_half_even p ≤ round_half_even q := by
  have hf : ⌊p⌋ ≤ ⌊q⌋ := Int.floor_mono h
  rcases lt_or_eq_of_le hf with hlt | heq
  · calc round_half_even p ≤ ⌊p⌋ + 1 := round_half_even_le_floor_succ p
      _ ≤ ⌊q⌋ := hlt
      _ ≤ round_half_even q := round_half_even_ge_floor q
  · unfold round_half_even
    rw [← heq]
    have hpq : p - (⌊p⌋ : ℚ) ≤ q - (⌊p⌋ : ℚ) := by linarith
    split_ifs <;> first | omega | (exfalso; linarith)

theorem round_half_even_le_of_le {q : ℚ} {n : Int} (h : q ≤ n) : round_half_even q ≤ n := by
  have := round_half_even_mono h
  rwa [round_half_even_intCast] at this

theorem round_half_even_ge_of_ge {q : ℚ} {n : Int} (h : (n : ℚ) ≤ q) : n ≤ round_half_even q := by
  have := round_half_even_mono h
  rwa [round_half_even_intCast] at this

theorem round_half_even_near {q : ℚ} {n : Int} (h1 : (n : ℚ) - 1 / 2 < q)
    (h2 : q < (n : ℚ) + 1 / 2) : round_half_even q = n := by
  unfold round_half_even
  have hfl : (⌊q⌋ : ℚ) ≤ q := Int.floor_le q
  have hfu : q < (⌊q⌋ : ℚ) + 1 := Int.lt_floor_add_one q
  have hc : ⌊q⌋ = n ∨ ⌊q⌋ = n - 1 := by
    have a1 : n - 1 ≤ ⌊q⌋ := by
      rw [Int.le_floor]; push_cast; linarith
    have a2 : ⌊q⌋ < n + 1 := by
      rw [Int.floor_lt]; push_cast; linarith
    omega
  rcases hc with hc | hc
  · rw [hc]
    rw [if_pos (by linarith)]
  · rw [hc]
    have : ((n - 1 : Int) : ℚ) = (n : ℚ) - 1 := by push_cast; ring
    rw [this]
    rw [if_neg (by linarith), if_pos (by linarith)]
    ring

theorem round_half_even_tie_even {q : ℚ} {n : Int} (h : q = (n : ℚ) + 1 / 2)
    (he : n % 2 = 0) : round_half_even q = n := by
  unfold round_half_even
  have hfl : ⌊q⌋ = n := by
    rw [Int.floor_eq_iff]; constructor <;> linarith
  rw [hfl, h]
  rw [if_neg (by linarith), if_neg (by linarith), if_pos he]

theorem round_half_even_tie_odd {q : ℚ} {n : Int} (h : q = (n : ℚ) + 1 / 2)
    (ho : n % 2 = 1) : round_half_even q = n + 1 := by
  unfold round_half_even
  have hfl : ⌊q⌋ = n := by
    rw [Int.floor_eq_iff]; constructor <;> linarith
  rw [hfl, h]
  rw [if_neg (by linarith), if_neg (by linarith), if_neg (show ¬ n % 2 = 0 by omega)]

/-! #### The exponent -/

theorem f32_ulp_exponent_eq {x : ℚ} {e : Int} (he : -149 ≤ e)
    (h1 : (2 : ℚ) ^ (e + 23) ≤ x) (h2 : x < (2 : ℚ) ^ (e + 24)) :
    f32_ulp_exponent x = e := by
  have hx : 0 < x := lt_of_lt_of_le (by positivity) h1
  have hl : Int.log 2 x = e + 23 := by
    apply le_antisymm
    · have := (Int.lt_zpow_iff_log_lt (R := ℚ) (b := 2) (by norm_num) (x := e + 24) hx).1
        (by simpa using h2)
      omega
    · exact (Int.zpow_le_iff_le_log (R := ℚ) (b := 2) (by norm_num) hx).1 (by simpa using h1)
  unfold f32_ulp_exponent
  rw [hl]
  omega

theorem f32_ulp_exponent_ge (x : ℚ) : -149 ≤ f32_ulp_exponent x := le_max_right _ _

theorem f32_ulp_exponent_mono {x y : ℚ} (hx : 0 < x) (h : x ≤ y) :
    f32_ulp_exponent x ≤ f32_ulp_exponent y := by
  unfold f32_ulp_exponent
  have := Int.log_mono_right (b := 2) hx h
  omega

/-! #### Rounding of non-negative values -/

theorem f32_round_nonneg_of_exponent {x : ℚ} {e : Int} (he : f32_ulp_exponent x = e) :
    f32_round_nonneg x = (round_half_even (x / 2 ^ e) : ℚ) * 2 ^ e := by
  unfold f32_round_nonneg
  rw [he]

theorem f32_round_nonneg_nonneg {x : ℚ} (hx : 0 ≤ x) : 0 ≤ f32_round_nonneg x := by
  unfold f32_round_nonneg
  apply mul_nonneg
  · have : (0 : Int) ≤ round_half_even (x / 2 ^ f32_ulp_exponent x) :=
      round_half_even_ge_of_ge (by push_cast; positivity)
    exact_mod_cast this
  · positivity

theorem f32_round_nonneg_zero : f32_round_nonneg 0 = 0 := by
  unfold f32_round_nonneg
  simp [round_half_even]

/-- Below the top of the binade the quotient stays below `2 ^ 24`. -/
theorem f32_quotient_lt (x : ℚ) : x / 2 ^ f32_ulp_exponent x < 2 ^ (24 : Nat) := by
  have hpos : (0 : ℚ) < 2 ^ f32_ulp_exponent x := by positivity
  rw [div_lt_iff₀ hpos]
  have h1 : x < (2 : ℚ) ^ (Int.log 2 x + 1) := by
    simpa using Int.lt_zpow_succ_log_self (R := ℚ) (b := 2) (by norm_num) x
  have h2 : Int.log 2 x + 1 ≤ 24 + f32_ulp_exponent x := by
    unfold f32_ulp_exponent
    have := le_max_left (Int.log 2 x - 23) (-149)
    omega
  calc x < (2 : ℚ) ^ (Int.log 2 x + 1) := h1
    _ ≤ (2 : ℚ) ^ (24 + f32_ulp_exponent x) := zpow_le_zpow_right₀ (by norm_num) h2
    _ = 2 ^ (24 : Nat) * 2 ^ f32_ulp_exponent x := by
        rw [zpow_add₀ (by norm_num)]; norm_num

/-- In a normal binade the quotient is at least `2 ^ 23`. -/
theorem f32_quotient_ge {x : ℚ} (hx : 0 < x) (he : -149 < f32_ulp_exponent x) :
    (2 : ℚ) ^ (23 : Nat) ≤ x / 2 ^ f32_ulp_exponent x := by
  have hpos : (0 : ℚ) < 2 ^ f32_ulp_exponent x := by positivity
  rw [le_div_iff₀ hpos]
  have h1 : (2 : ℚ) ^ (Int.log 2 x) ≤ x := by
    simpa using Int.zpow_log_le_self (R := ℚ) (b := 2) (by norm_num) hx
  have h2 : f32_ulp_exponent x = Int.log 2 x - 23 := by
    unfold f32_ulp_exponent at he ⊢
    rcases max_cases (Int.log 2 x - 23) (-149) with h | h <;> omega
  calc (2 : ℚ) ^ (23 : Nat) * 2 ^ f32_ulp_exponent x
      = (2 : ℚ) ^ (23 + f32_ulp_exponent x) := by
        rw [zpow_add₀ (by norm_num)]; norm_num
    _ = (2 : ℚ) ^ (Int.log 2 x) := by rw [h2]; congr 1; ring
    _ ≤ x := h1

theorem f32_round_nonneg_mono {x y : ℚ} (hx : 0 ≤ x) (h : x ≤ y) :
    f32_round_nonneg x ≤ f32_round_nonneg y := by
  rcases eq_or_lt_of_le hx with h0 | hx0
  · rw [← h0, f32_round_nonneg_zero]
    exact f32_round_nonneg_nonneg (le_trans hx h)
  have hy0 : 0 < y := lt_of_lt_of_le hx0 h
  have hE := f32_ulp_exponent_mono hx0 h
  rcases eq_or_lt_of_le hE with heq | hlt
  · unfold f32_round_nonneg
    rw [← heq]
    have hpos : (0 : ℚ) < 2 ^ f32_ulp_exponent x := by positivity
    apply mul_le_mul_of_nonneg_right _ hpos.le
    have : round_half_even (x / 2 ^ f32_ulp_exponent x)
        ≤ round_half_even (y / 2 ^ f32_ulp_exponent x) :=
      round_half_even_mono (div_le_div_of_nonneg_right h hpos.le)
    exact_mod_cast this
  · have hey : -149 < f32_ulp_exponent y := lt_of_le_of_lt (f32_ulp_exponent_ge x) hlt
    have hqy := f32_quotient_ge hy0 hey
    have hqx := f32_quotient_lt x
    have hry : ((2 ^ 23 : Int)) ≤ round_half_even (y / 2 ^ f32_ulp_exponent y) :=
      round_half_even_ge_of_ge (by push_cast; exact hqy)
    have hrx : round_half_even (x / 2 ^ f32_ulp_exponent x) ≤ ((2 ^ 24 : Int)) :=
      round_half_even_le_of_le (by push_cast; exact hqx.le)
    have hry' : ((2 : ℚ) ^ (23 : Nat)) ≤ (round_half_even (y / 2 ^ f32_ulp_exponent y) : ℚ) := by
      exact_mod_cast hry
    have hrx' : (round_half_even (x / 2 ^ f32_ulp_exponent x) : ℚ) ≤ ((2 : ℚ) ^ (24 : Nat)) := by
      exact_mod_cast hrx
    unfold f32_round_nonneg
    have hpx : (0 : ℚ) < 2 ^ f32_ulp_exponent x := by positivity
    have hpy : (0 : ℚ) < 2 ^ f32_ulp_exponent y := by positivity
    calc (round_half_even (x / 2 ^ f32_ulp_exponent x) : ℚ) * 2 ^ f32_ulp_exponent x
        ≤ 2 ^ (24 : Nat) * 2 ^ f32_ulp_exponent x := mul_le_mul_of_nonneg_right hrx' hpx.le
      _ = 2 ^ (23 : Nat) * 2 ^ (f32_ulp_exponent x + 1) := by
          rw [zpow_add₀ (by norm_num)]; norm_num; ring
      _ ≤ 2 ^ (23 : Nat) * 2 ^ f32_ulp_exponent y := by
          apply mul_le_mul_of_nonneg_left _ (by positivity)
          exact zpow_le_zpow_right₀ (by norm_num) (by omega)
      _ ≤ (round_half_even (y / 2 ^ f32_ulp_exponent y) : ℚ) * 2 ^ f32_ulp_exponent y :=
          mul_le_mul_of_nonneg_right hry' hpy.le

/-! #### Rounding -/

theorem f32_round_neg (x : ℚ) : f32_round (-x) = - f32_round x := by
  unfold f32_round
  rcases lt_trichotomy x 0 with h | h | h
  · rw [if_pos (by linarith), if_neg (by linarith)]; simp
  · subst h; simp [f32_round_nonneg_zero]
  · rw [if_neg (by linarith), if_pos (by linarith)]; simp

theorem f32_round_of_nonneg {x : ℚ} (hx : 0 ≤ x) : f32_round x = f32_round_nonneg x := by
  unfold f32_round; rw [if_pos hx]

theorem f32_round_zero : f32_round 0 = 0 := by
  rw [f32_round_of_nonneg le_rfl, f32_round_nonneg_zero]

theorem f32_round_nonneg_of_nonneg {x : ℚ} (hx : 0 ≤ x) : 0 ≤ f32_round x := by
  rw [f32_round_of_nonneg hx]; exact f32_round_nonneg_nonneg hx

theorem f32_round_nonpos_of_nonpos {x : ℚ} (hx : x ≤ 0) : f32_round x ≤ 0 := by
  have := f32_round_nonneg_of_nonneg (x := -x) (by linarith)
  rw [f32_round_neg] at this
  linarith

/-- Rounding never reverses an order. -/
theorem f32_round_mono {x y : ℚ} (h : x ≤ y) : f32_round x ≤ f32_round y := by
  rcases le_or_lt 0 x with hx | hx
  · rw [f32_round_of_nonneg hx, f32_round_of_nonneg (le_trans hx h)]
    exact f32_round_nonneg_mono hx h
  · rcases le_or_lt 0 y with hy | hy
    · exact le_trans (f32_round_nonpos_of_nonpos hx.le) (f32_round_nonneg_of_nonneg hy)
    · have h1 := f32_round_nonneg_mono (x := -y) (y := -x) (by linarith) (by linarith)
      rw [← f32_round_of_nonneg (by linarith), ← f32_round_of_nonneg (by linarith),
        f32_round_neg, f32_round_neg] at h1
      linarith

/-- A value `m * 2 ^ k` with a significand below `2 ^ 24` is a binary32 value. -/
theorem f32_round_nonneg_dyadic_lt (m : Nat) (k : Int) (hm : m < 2 ^ 24) (hk : -149 ≤ k) :
    f32_round_nonneg ((m : ℚ) * 2 ^ k) = (m : ℚ) * 2 ^ k := by
  rcases Nat.eq_zero_or_pos m with h0 | hpos
  · subst h0; simp [f32_round_nonneg_zero]
  have hx : 0 < (m : ℚ) * 2 ^ k := by positivity
  have hE : f32_ulp_exponent ((m : ℚ) * 2 ^ k) ≤ k := by
    unfold f32_ulp_exponent
    have hlt : (m : ℚ) * 2 ^ k < (2 : ℚ) ^ (24 + k) := by
      rw [zpow_add₀ (by norm_num)]
      apply mul_lt_mul_of_pos_right _ (by positivity)
      exact_mod_cast hm
    have := (Int.lt_zpow_iff_log_lt (R := ℚ) (b := 2) (by norm_num) (x := 24 + k) hx).1
      (by simpa using hlt)
    omega
  unfold f32_round_nonneg
  generalize f32_ulp_exponent ((m : ℚ) * 2 ^ k) = E at hE
  obtain ⟨d, hd⟩ : ∃ d : Nat, k = E + d := ⟨(k - E).toNat, by omega⟩
  subst hd
  have hpos : (0 : ℚ) < 2 ^ E := by positivity
  have hq : (m : ℚ) * 2 ^ (E + (d : Int)) / 2 ^ E = (((m * 2 ^ d : Nat) : Int) : ℚ) := by
    rw [div_eq_iff hpos.ne', zpow_add₀ (by norm_num)]
    push_cast
    rw [zpow_natCast]
    ring
  rw [hq, round_half_even_intCast, zpow_add₀ (by norm_num : (2 : ℚ) ≠ 0)]
  push_cast
  rw [zpow_natCast]
  ring

theorem f32_round_nonneg_dyadic (m : Nat) (k : Int) (hm : m ≤ 2 ^ 24) (hk : -149 ≤ k) :
    f32_round_nonneg ((m : ℚ) * 2 ^ k) = (m : ℚ) * 2 ^ k := by
  rcases lt_or_eq_of_le hm with h | h
  · exact f32_round_nonneg_dyadic_lt m k h hk
  · have := f32_round_nonneg_dyadic_lt (2 ^ 23) (k + 1) (by norm_num) (by omega)
    have e : ((2 ^ 23 : Nat) : ℚ) * 2 ^ (k + 1) = (m : ℚ) * 2 ^ k := by
      rw [h, zpow_add₀ (by norm_num)]; push_cast; ring
    rwa [e] at this

/-- Binary32 values `m * 2 ^ k` with `|m| ≤ 2 ^ 24` round to themselves. -/
theorem f32_round_dyadic (m : Int) (k : Int) (h1 : -(2 ^ 24) ≤ m) (h2 : m ≤ 2 ^ 24)
    (hk : -149 ≤ k) : f32_round ((m : ℚ) * 2 ^ k) = (m : ℚ) * 2 ^ k := by
  rcases le_or_lt 0 m with hm | hm
  · obtain ⟨n, rfl⟩ := Int.eq_ofNat_of_zero_le hm
    rw [f32_round_of_nonneg (by positivity)]
    have := f32_round_nonneg_dyadic n k (by omega) hk
    simpa using this
  · obtain ⟨n, hn⟩ : ∃ n : Nat, m = -(n : Int) := ⟨(-m).toNat, by omega⟩
    subst hn
    have e : (((-(n : Int) : Int)) : ℚ) * 2 ^ k = -((n : ℚ) * 2 ^ k) := by push_cast; ring
    rw [e, f32_round_neg, f32_round_of_nonneg (by positivity)]
    rw [f32_round_nonneg_dyadic n k (by omega) hk]

theorem f32_round_int (n : Int) (h1 : -(2 ^ 24) ≤ n) (h2 : n ≤ 2 ^ 24) :
    f32_round (n : ℚ) = (n : ℚ) := by
  have := f32_round_dyadic n 0 h1 h2 (by norm_num)
  simpa using this

theorem f32_round_half_int (n : Int) (h1 : -(2 ^ 24) ≤ n) (h2 : n ≤ 2 ^ 24) :
    f32_round ((n : ℚ) / 2) = (n : ℚ) / 2 := by
  have := f32_round_dyadic n (-1) h1 h2 (by norm_num)
  have e : (n : ℚ) * 2 ^ (-1 : Int) = (n : ℚ) / 2 := by
    rw [zpow_neg, zpow_one]; ring
  rwa [e] at this

/-- Evaluation of a rounding in a known binade. -/
theorem f32_round_eval {x : ℚ} (e : Int) (n : Int) (he : -149 ≤ e)
    (h1 : (2 : ℚ) ^ (e + 23) ≤ x) (h2 : x < (2 : ℚ) ^ (e + 24))
    (hn : round_half_even (x / 2 ^ e) = n) : f32_round x = (n : ℚ) * 2 ^ e := by
  have hx : 0 < x := lt_of_lt_of_le (by positivity) h1
  rw [f32_round_of_nonneg hx.le, f32_round_nonneg_of_exponent (f32_ulp_exponent_eq he h1 h2), hn]

/-! #### Values that no operation rounds -/

theorem f32_round_of_int_eq (x : ℚ) (n : Int) (h : x = (n : ℚ)) (h1 : -(2 ^ 24) ≤ n)
    (h2 : n ≤ 2 ^ 24) : f32_round x = x := by
  rw [h]
  exact f32_round_int n h1 h2

theorem f32_round_of_half_eq (x : ℚ) (n : Int) (h : x = (n : ℚ) / 2) (h1 : -(2 ^ 24) ≤ n)
    (h2 : n ≤ 2 ^ 24) : f32_round x = x := by
  rw [h]
  exact f32_round_half_int n h1 h2

theorem f32_of_int_exact (n : Int) (h1 : -(2 ^ 24) ≤ n) (h2 : n ≤ 2 ^ 24) :
    f32_of_int n = (n : ℚ) :=
  f32_round_int n h1 h2

theorem small_int_intCast (B : Int) (n : Int) (h1 : -B ≤ n) (h2 : n ≤ B) :
    small_int B (n : ℚ) :=
  ⟨n, rfl, h1, h2⟩

theorem small_int_mono {B C : Int} {x : ℚ} (h : small_int B x) (hBC : B ≤ C) :
    small_int C x := by
  obtain ⟨n, hn, h1, h2⟩ := h
  exact ⟨n, hn, by omega, by omega⟩

theorem small_int_add {B C : Int} {x y : ℚ} (hx : small_int B x) (hy : small_int C y) :
    small_int (B + C) (x + y) := by
  obtain ⟨m, hm, m1, m2⟩ := hx
  obtain ⟨n, hn, n1, n2⟩ := hy
  exact ⟨m + n, by rw [hm, hn]; push_cast; ring, by omega, by omega⟩

theorem small_int_sub {B C : Int} {x y : ℚ} (hx : small_int B x) (hy : small_int C y) :
    small_int (B + C) (x - y) := by
  obtain ⟨m, hm, m1, m2⟩ := hx
  obtain ⟨n, hn, n1, n2⟩ := hy
  exact ⟨m - n, by rw [hm, hn]; push_cast; ring, by omega, by omega⟩

theorem f32_round_small {B : Int} {x : ℚ} (h : small_int B x) (hB : B ≤ 2 ^ 24) :
    f32_round x = x := by
  obtain ⟨n, hn, h1, h2⟩ := h
  exact f32_round_of_int_eq x n hn (by omega) (by omega)

theorem f32_add_small {B C : Int} {x y : ℚ} (hx : small_int B x) (hy : small_int C y)
    (h : B + C ≤ 2 ^ 24) : f32_add x y = x + y :=
  f32_round_small (small_int_add hx hy) h

theorem f32_sub_small {B C : Int} {x y : ℚ} (hx : small_int B x) (hy : small_int C y)
    (h : B + C ≤ 2 ^ 24) : f32_sub x y = x - y :=
  f32_round_small (small_int_sub hx hy) h

/-- The centre `b + (w - d) / 2` of integers of magnitude at most `2 ^ 22` is computed
exactly. -/
theorem f32_center_small {b w d : ℚ} (hb : small_int (2 ^ 22) b) (hw : small_int (2 ^ 22) w)
    (hd : small_int (2 ^ 22) d) :
    f32_add b (f32_div (f32_sub w d) 2) = b + (w - d) / 2 := by
  rw [f32_sub_small hw hd (by norm_num)]
  obtain ⟨nb, hnb, b1, b2⟩ := hb
  obtain ⟨nw, hnw, w1, w2⟩ := hw
  obtain ⟨nd, hnd, d1, d2⟩ := hd
  have e1 : f32_div (w - d) 2 = (w - d) / 2 := by
    unfold f32_div
    exact f32_round_of_half_eq _ (nw - nd) (by rw [hnw, hnd]; push_cast; ring) (by omega)
      (by omega)
  rw [e1]
  unfold f32_add
  exact f32_round_of_half_eq _ (2 * nb + (nw - nd))
    (by rw [hnb, hnw, hnd]; push_cast; ring) (by omega) (by omega)

theorem small_int_rects_intro (B : Int) (a : easy2d_draw_image_args)
    (x y w h sx sy sw sh bx by0 bw bh : Int)
    (hf : a.dstX = (x : ℚ) ∧ a.dstY = (y : ℚ) ∧ a.dstWidth = (w : ℚ) ∧ a.dstHeight = (h : ℚ) ∧
      a.srcX = (sx : ℚ) ∧ a.srcY = (sy : ℚ) ∧ a.srcWidth = (sw : ℚ) ∧ a.srcHeight = (sh : ℚ) ∧
      a.dstBoundsX = (bx : ℚ) ∧ a.dstBoundsY = (by0 : ℚ) ∧ a.dstBoundsWidth = (bw : ℚ) ∧
      a.dstBoundsHeight = (bh : ℚ))
    (hb : (-B ≤ x ∧ x ≤ B) ∧ (-B ≤ y ∧ y ≤ B) ∧ (-B ≤ w ∧ w ≤ B) ∧ (-B ≤ h ∧ h ≤ B) ∧
      (-B ≤ sx ∧ sx ≤ B) ∧ (-B ≤ sy ∧ sy ≤ B) ∧ (-B ≤ sw ∧ sw ≤ B) ∧ (-B ≤ sh ∧ sh ≤ B) ∧
      (-B ≤ bx ∧ bx ≤ B) ∧ (-B ≤ by0 ∧ by0 ≤ B) ∧ (-B ≤ bw ∧ bw ≤ B) ∧ (-B ≤ bh ∧ bh ≤ B)) :
    small_int_rects B a := by
  obtain ⟨f1, f2, f3, f4, f5, f6, f7, f8, f9, f10, f11, f12⟩ := hf
  obtain ⟨b1, b2, b3, b4, b5, b6, b7, b8, b9, b10, b11, b12⟩ := hb
  exact ⟨⟨x, f1, b1⟩, ⟨y, f2, b2⟩, ⟨w, f3, b3⟩, ⟨h, f4, b4⟩, ⟨sx, f5, b5⟩, ⟨sy, f6, b6⟩,
    ⟨sw, f7, b7⟩, ⟨sh, f8, b8⟩, ⟨bx, f9, b9⟩, ⟨by0, f10, b10⟩, ⟨bw, f11, b11⟩, ⟨bh, f12, b12⟩⟩

/-! ### The clip steps on small integers -/

theorem clip_left_eq_exact (a : easy2d_draw_image_args) (B M : Int)
    (hB : 2 * B + M ≤ 2 ^ 24)
    (hx : small_int B a.dstX) (hbx : small_int B a.dstBoundsX)
    (hw : small_int M a.dstWidth) (hsx : small_int M a.srcX) (hsw : small_int M a.srcWidth) :
    clip_left a = exact_clip_left a := by
  have d := small_int_sub hbx hx
  have hB0 : 0 ≤ B := by obtain ⟨n, _, h1, h2⟩ := hx; omega
  have hM0 : 0 ≤ M := by obtain ⟨n, _, h1, h2⟩ := hw; omega
  have e1 : f32_sub a.dstBoundsX a.dstX = a.dstBoundsX - a.dstX :=
    f32_sub_small hbx hx (by omega)
  unfold clip_left exact_clip_left
  rw [e1, f32_sub_small hsw d (by omega), f32_add_small hsx d (by omega),
    f32_sub_small hw d (by omega)]

theorem clip_top_eq_exact (a : easy2d_draw_image_args) (B M : Int)
    (hB : 2 * B + M ≤ 2 ^ 24)
    (hy : small_int B a.dstY) (hby : small_int B a.dstBoundsY)
    (hh : small_int M a.dstHeight) (hsy : small_int M a.srcY) (hsh : small_int M a.srcHeight) :
    clip_top a = exact_clip_top a := by
  have d := small_int_sub hby hy
  have hB0 : 0 ≤ B := by obtain ⟨n, _, h1, h2⟩ := hy; omega
  have hM0 : 0 ≤ M := by obtain ⟨n, _, h1, h2⟩ := hh; omega
  have e1 : f32_sub a.dstBoundsY a.dstY = a.dstBoundsY - a.dstY :=
    f32_sub_small hby hy (by omega)
  unfold clip_top exact_clip_top
  rw [e1, f32_sub_small hsh d (by omega), f32_add_small hsy d (by omega),
    f32_sub_small hh d (by omega)]

theorem clip_right_eq_exact (a : easy2d_draw_image_args) (B M : Int)
    (hB : 3 * B + 2 * M ≤ 2 ^ 24)
    (hx : small_int B a.dstX) (hbx : small_int B a.dstBoundsX)
    (hbw : small_int B a.dstBoundsWidth)
    (hw : small_int M a.dstWidth) (hsw : small_int M a.srcWidth) :
    clip_right a = exact_clip_right a := by
  have hB0 : 0 ≤ B := by obtain ⟨n, _, h1, h2⟩ := hx; omega
  have hM0 : 0 ≤ M := by obtain ⟨n, _, h1, h2⟩ := hw; omega
  have s1 := small_int_add hx hw
  have s2 := small_int_add hbx hbw
  have d := small_int_sub s1 s2
  have e1 : f32_add a.dstX a.dstWidth = a.dstX + a.dstWidth := f32_add_small hx hw (by omega)
  have e2 : f32_add a.dstBoundsX a.dstBoundsWidth = a.dstBoundsX + a.dstBoundsWidth :=
    f32_add_small hbx hbw (by omega)
  unfold clip_right exact_clip_right
  rw [e1, e2, f32_sub_small s1 s2 (by omega), f32_sub_small hsw d (by omega),
    f32_sub_small hw d (by omega)]

theorem clip_bottom_eq_exact (a : easy2d_draw_image_args) (B M : Int)
    (hB : 3 * B + 2 * M ≤ 2 ^ 24)
    (hy : small_int B a.dstY) (hby : small_int B a.dstBoundsY)
    (hbh : small_int B a.dstBoundsHeight)
    (hh : small_int M a.dstHeight) (hsh : small_int M a.srcHeight) :
    clip_bottom a = exact_clip_bottom a := by
  have hB0 : 0 ≤ B := by obtain ⟨n, _, h1, h2⟩ := hy; omega
  have hM0 : 0 ≤ M := by obtain ⟨n, _, h1, h2⟩ := hh; omega
  have s1 := small_int_add hy hh
  have s2 := small_int_add hby hbh
  have d := small_int_sub s1 s2
  have e1 : f32_add a.dstY a.dstHeight = a.dstY + a.dstHeight := f32_add_small hy hh (by omega)
  have e2 : f32_add a.dstBoundsY a.dstBoundsHeight = a.dstBoundsY + a.dstBoundsHeight :=
    f32_add_small hby hbh (by omega)
  unfold clip_bottom exact_clip_bottom
  rw [e1, e2, f32_sub_small s1 s2 (by omega), f32_sub_small hsh d (by omega),
    f32_sub_small hh d (by omega)]

/-- What `exact_clip_left` leaves of a rectangle of small integers. -/
theorem exact_clip_left_small (a : easy2d_draw_image_args) (B : Int)
    (hx : small_int B a.dstX) (hbx : small_int B a.dstBoundsX)
    (hw : small_int B a.dstWidth) (hsx : small_int B a.srcX) (hsw : small_int B a.srcWidth) :
    small_int B (exact_clip_left a).dstX ∧ small_int (3 * B) (exact_clip_left a).dstWidth ∧
    small_int (3 * B) (exact_clip_left a).srcX ∧
    small_int (3 * B) (exact_clip_left a).srcWidth ∧
    (exact_clip_left a).dstY = a.dstY ∧ (exact_clip_left a).dstHeight = a.dstHeight ∧
    (exact_clip_left a).srcY = a.srcY ∧ (exact_clip_left a).srcHeight = a.srcHeight ∧
    (exact_clip_left a).dstBoundsX = a.dstBoundsX ∧
    (exact_clip_left a).dstBoundsY = a.dstBoundsY ∧
    (exact_clip_left a).dstBoundsWidth = a.dstBoundsWidth ∧
    (exact_clip_left a).dstBoundsHeight = a.dstBoundsHeight := by
  have hB0 : 0 ≤ B := by obtain ⟨n, _, h1, h2⟩ := hx; omega
  have d := small_int_sub hbx hx
  unfold exact_clip_left
  split_ifs
  · exact ⟨hbx, small_int_mono (small_int_sub hw d) (by omega),
      small_int_mono (small_int_add hsx d) (by omega),
      small_int_mono (small_int_sub hsw d) (by omega), rfl, rfl, rfl, rfl, rfl, rfl, rfl, rfl⟩
  · exact ⟨hx, small_int_mono hw (by omega), small_int_mono hsx (by omega),
      small_int_mono hsw (by omega), rfl, rfl, rfl, rfl, rfl, rfl, rfl, rfl⟩

/-- What `exact_clip_top` leaves of a rectangle of small integers. -/
theorem exact_clip_top_small (a : easy2d_draw_image_args) (B : Int)
    (hy : small_int B a.dstY) (hby : small_int B a.dstBoundsY)
    (hh : small_int B a.dstHeight) (hsy : small_int B a.srcY) (hsh : small_int B a.srcHeight) :
    small_int B (exact_clip_top a).dstY ∧ small_int (3 * B) (exact_clip_top a).dstHeight ∧
    small_int (3 * B) (exact_clip_top a).srcY ∧
    small_int (3 * B) (exact_clip_top a).srcHeight ∧
    (exact_clip_top a).dstX = a.dstX ∧ (exact_clip_top a).dstWidth = a.dstWidth ∧
    (exact_clip_top a).srcX = a.srcX ∧ (exact_clip_top a).srcWidth = a.srcWidth ∧
    (exact_clip_top a).dstBoundsX = a.dstBoundsX ∧
    (exact_clip_top a).dstBoundsY = a.dstBoundsY ∧
    (exact_clip_top a).dstBoundsWidth = a.dstBoundsWidth ∧
    (exact_clip_top a).dstBoundsHeight = a.dstBoundsHeight := by
  have hB0 : 0 ≤ B := by obtain ⟨n, _, h1, h2⟩ := hy; omega
  have d := small_int_sub hby hy
  unfold exact_clip_top
  split_ifs
  · exact ⟨hby, small_int_mono (small_int_sub hh d) (by omega),
      small_int_mono (small_int_add hsy d) (by omega),
      small_int_mono (small_int_sub hsh d) (by omega), rfl, rfl, rfl, rfl, rfl, rfl, rfl, rfl⟩
  · exact ⟨hy, small_int_mono hh (by omega), small_int_mono hsy (by omega),
      small_int_mono hsh (by omega), rfl, rfl, rfl, rfl, rfl, rfl, rfl, rfl⟩

/-- The right-edge adjustment leaves the vertical fields and the bounds as they were. -/
theorem exact_clip_right_frame (a : easy2d_draw_image_args) :
    (exact_clip_right a).dstY = a.dstY ∧ (exact_clip_right a).dstHeight = a.dstHeight ∧
    (exact_clip_right a).srcY = a.srcY ∧ (exact_clip_right a).srcHeight = a.srcHeight ∧
    (exact_clip_right a).dstBoundsY = a.dstBoundsY ∧
    (exact_clip_right a).dstBoundsHeight = a.dstBoundsHeight := by
  unfold exact_clip_right
  split_ifs <;> exact ⟨rfl, rfl, rfl, rfl, rfl, rfl⟩

/-- On rectangles whose coordinates and sizes are integers of magnitude at most `2 ^ 20`
none of the operations of the four edge adjustments rounds. -/
theorem clip_steps_eq_exact (a : easy2d_draw_image_args) (h : small_int_rects (2 ^ 20) a) :
    clip_bottom (clip_right (clip_top (clip_left a)))
      = exact_clip_bottom (exact_clip_right (exact_clip_top (exact_clip_left a))) := by
  obtain ⟨hx, hy, hw, hh, hsx, hsy, hsw, hsh, hbx, hby, hbw, hbh⟩ := h
  rw [clip_left_eq_exact a (2 ^ 20) (2 ^ 20) (by norm_num) hx hbx hw hsx hsw]
  obtain ⟨l1, l2, l3, l4, l5, l6, l7, l8, l9, l10, l11, l12⟩ :=
    exact_clip_left_small a (2 ^ 20) hx hbx hw hsx hsw
  rw [clip_top_eq_exact (exact_clip_left a) (2 ^ 20) (2 ^ 20) (by norm_num)
    (by rw [l5]; exact hy) (by rw [l10]; exact hby) (by rw [l6]; exact hh)
    (by rw [l7]; exact hsy) (by rw [l8]; exact hsh)]
  obtain ⟨t1, t2, t3, t4, t5, t6, t7, t8, t9, t10, t11, t12⟩ :=
    exact_clip_top_small (exact_clip_left a) (2 ^ 20)
      (by rw [l5]; exact hy) (by rw [l10]; exact hby) (by rw [l6]; exact hh)
      (by rw [l7]; exact hsy) (by rw [l8]; exact hsh)
  rw [clip_right_eq_exact (exact_clip_top (exact_clip_left a)) (2 ^ 20) (3 * 2 ^ 20)
    (by norm_num) (by rw [t5]; exact l1) (by rw [t9, l9]; exact hbx)
    (by rw [t11, l11]; exact hbw) (by rw [t6]; exact l2) (by rw [t8]; exact l4)]
  obtain ⟨r1, r2, r3, r4, r5, r6⟩ := exact_clip_right_frame (exact_clip_top (exact_clip_left a))
  rw [clip_bottom_eq_exact (exact_clip_right (exact_clip_top (exact_clip_left a))) (2 ^ 20)
    (3 * 2 ^ 20) (by norm_num) (by rw [r1]; exact t1) (by rw [r5, t10, l10]; exact hby)
    (by rw [r6, t12, l12]; exact hbh) (by rw [r2]; exact t2) (by rw [r4]; exact t4)]

/-- On rectangles of small integers the test of the clip block is the exact one. -/
theorem partly_outside_small (a : easy2d_draw_image_args) (h : small_int_rects (2 ^ 20) a) :
    f32_add a.dstX a.dstWidth = a.dstX + a.dstWidth ∧
    f32_add a.dstBoundsX a.dstBoundsWidth = a.dstBoundsX + a.dstBoundsWidth ∧
    f32_add a.dstY a.dstHeight = a.dstY + a.dstHeight ∧
    f32_add a.dstBoundsY a.dstBoundsHeight = a.dstBoundsY + a.dstBoundsHeight := by
  obtain ⟨hx, hy, hw, hh, hsx, hsy, hsw, hsh, hbx, hby, hbw, hbh⟩ := h
  exact ⟨f32_add_small hx hw (by norm_num), f32_add_small hbx hbw (by norm_num),
    f32_add_small hy hh (by norm_num), f32_add_small hby hbh (by norm_num)⟩

/-- The clip block on rectangles of small integers, in exact arithmetic. -/
theorem clip_image_small (R : gdi_replies) (s : gdi_surface_data) (a : easy2d_draw_image_args)
    (h : small_int_rects (2 ^ 20) a) :
    clip_image R s a =
      if a.options &&& EASY2D_IMAGE_CLIP_BOUNDS ≠ 0 then
        if a.dstX < a.dstBoundsX ∨ a.dstX + a.dstWidth > a.dstBoundsX + a.dstBoundsWidth ∨
            a.dstY < a.dstBoundsY ∨
            a.dstY + a.dstHeight > a.dstBoundsY + a.dstBoundsHeight then
          if a.dstWidth ≠ a.srcWidth ∨ a.dstHeight ≠ a.srcHeight then
            .proceed a R.SaveDC [.SaveDC s.hDC]
          else if (exact_clip_bottom (exact_clip_right (exact_clip_top
                (exact_clip_left a)))).dstWidth ≤ 0 ∨
              (exact_clip_bottom (exact_clip_right (exact_clip_top
                (exact_clip_left a)))).dstHeight ≤ 0 then
            .abandoned (exact_clip_bottom (exact_clip_right (exact_clip_top
              (exact_clip_left a))))
          else
            .proceed (exact_clip_bottom (exact_clip_right (exact_clip_top
              (exact_clip_left a)))) 0 []
        else .proceed a 0 []
      else .proceed a 0 [] := by
  obtain ⟨e1, e2, e3, e4⟩ := partly_outside_small a h
  unfold clip_image
  rw [e1, e2, e3, e4, clip_steps_eq_exact a h]


/-! ### Roundings at particular values -/

theorem f32_round_16777217 : f32_round 16777217 = 16777216 := by
  rw [f32_round_eval 1 8388608 (by norm_num) (by norm_num) (by norm_num)
    (round_half_even_tie_even (by norm_num) (by norm_num))]
  norm_num

theorem f32_round_16777219 : f32_round 16777219 = 16777220 := by
  rw [f32_round_eval 1 8388610 (by norm_num) (by norm_num) (by norm_num)
    (by rw [show (8388610 : Int) = 8388609 + 1 by norm_num]
        exact round_half_even_tie_odd (by norm_num) (by norm_num))]
  norm_num

theorem f32_round_16777221 : f32_round 16777221 = 16777220 := by
  rw [f32_round_eval 1 8388610 (by norm_num) (by norm_num) (by norm_num)
    (round_half_even_tie_even (by norm_num) (by norm_num))]
  norm_num

theorem f32_round_33554435_half : f32_round (33554435 / 2) = 16777218 := by
  rw [f32_round_eval 1 8388609 (by norm_num) (by norm_num) (by norm_num)
    (round_half_even_near (by norm_num) (by norm_num))]
  norm_num

/-! ### The image pipeline of the GDI backend -/

/-- A destination of positive size that lies entirely outside the bounds has non-positive
width or height after the four edge adjustments in exact arithmetic. -/
theorem clip_outside_is_empty (a : easy2d_draw_image_args)
    (hpw : 0 < a.dstWidth) (hph : 0 < a.dstHeight)
    (hout : a.dstX + a.dstWidth ≤ a.dstBoundsX ∨ a.dstBoundsX + a.dstBoundsWidth ≤ a.dstX ∨
      a.dstY + a.dstHeight ≤ a.dstBoundsY ∨ a.dstBoundsY + a.dstBoundsHeight ≤ a.dstY) :
    (exact_clip_bottom (exact_clip_right (exact_clip_top (exact_clip_left a)))).dstWidth ≤ 0 ∨
    (exact_clip_bottom (exact_clip_right (exact_clip_top (exact_clip_left a)))).dstHeight ≤ 0 := by
  unfold exact_clip_bottom exact_clip_right exact_clip_top exact_clip_left
  rcases hout with h | h | h | h <;> split_ifs <;> (try dsimp only at *) <;>
    first
    | (left; linarith)
    | (right; linarith)

theorem center_image_frame (a : easy2d_draw_image_args) :
    (center_image a).dstWidth = a.dstWidth ∧ (center_image a).dstHeight = a.dstHeight ∧
    (center_image a).srcX = a.srcX ∧ (center_image a).srcY = a.srcY ∧
    (center_image a).srcWidth = a.srcWidth ∧ (center_image a).srcHeight = a.srcHeight ∧
    (center_image a).dstBoundsX = a.dstBoundsX ∧ (center_image a).dstBoundsY = a.dstBoundsY ∧
    (center_image a).dstBoundsWidth = a.dstBoundsWidth ∧
    (center_image a).dstBoundsHeight = a.dstBoundsHeight ∧
    (center_image a).foregroundTint = a.foregroundTint ∧
    (center_image a).backgroundColor = a.backgroundColor ∧
    (center_image a).boundsColor = a.boundsColor ∧ (center_image a).options = a.options := by
  unfold center_image
  split_ifs <;> simp

theorem composite_image_frame (im : gdi_image) (a : easy2d_draw_image_args) :
    (composite_image im a).args.dstX = a.dstX ∧ (composite_image im a).args.dstY = a.dstY ∧
    (composite_image im a).args.dstWidth = a.dstWidth ∧
    (composite_image im a).args.dstHeight = a.dstHeight ∧
    (composite_image im a).args.srcX = a.srcX ∧ (composite_image im a).args.srcY = a.srcY ∧
    (composite_image im a).args.srcWidth = a.srcWidth ∧
    (composite_image im a).args.srcHeight = a.srcHeight ∧
    (composite_image im a).args.dstBoundsX = a.dstBoundsX ∧
    (composite_image im a).args.dstBoundsY = a.dstBoundsY ∧
    (composite_image im a).args.dstBoundsWidth = a.dstBoundsWidth ∧
    (composite_image im a).args.dstBoundsHeight = a.dstBoundsHeight ∧
    (composite_image im a).args.foregroundTint = a.foregroundTint ∧
    (composite_image im a).args.backgroundColor = a.backgroundColor ∧
    (composite_image im a).args.boundsColor = a.boundsColor := by
  unfold composite_image
  split_ifs <;> simp

theorem draw_image_of_proceed (R : gdi_replies) (s : gdi_surface_data) (im : gdi_image)
    (a b : easy2d_draw_image_args) (prevDC : Int) (clipOps : List GdiOp)
    (h : clip_image R s (center_image a) = .proceed b prevDC clipOps) :
    easy2d_draw_image_gdi R (some s) (some im) a =
      { args := (composite_image im b).args
        image := some (composite_image im b).image
        ops := clipOps ++ (composite_image im b).ops ++ draw_bounds s (composite_image im b).args
          ++ blit_image R s (composite_image im b).args (composite_image im b).hSrcBitmap
            prevDC } := by
  unfold easy2d_draw_image_gdi
  simp only [h]

theorem draw_image_of_abandoned (R : gdi_replies) (s : gdi_surface_data) (im : gdi_image)
    (a b : easy2d_draw_image_args)
    (h : clip_image R s (center_image a) = .abandoned b) :
    easy2d_draw_image_gdi R (some s) (some im) a = { args := b, image := some im, ops := [] } := by
  unfold easy2d_draw_image_gdi
  simp only [h]

theorem draw_image_ops_ne_nil (R : gdi_replies) (s : gdi_surface_data) (im : gdi_image)
    (a b : easy2d_draw_image_args) (prevDC : Int) (clipOps : List GdiOp)
    (h : clip_image R s (center_image a) = .proceed b prevDC clipOps) :
    (easy2d_draw_image_gdi R (some s) (some im) a).ops ≠ [] := by
  rw [draw_image_of_proceed R s im a b prevDC clipOps h]
  simp [blit_image]

theorem clip_image_of_flag_unset (R : gdi_replies) (s : gdi_surface_data)
    (b : easy2d_draw_image_args) (h : b.options &&& EASY2D_IMAGE_CLIP_BOUNDS = 0) :
    clip_image R s b = .proceed b 0 [] := by
  unfold clip_image
  rw [if_neg (by simp [h])]

/-- A draw without clip-to-bounds goes through with the rectangle the centering block left,
and ends with the blit of that rectangle. -/
theorem draw_image_unclipped (R : gdi_replies) (s : gdi_surface_data) (im : gdi_image)
    (a : easy2d_draw_image_args) (h : a.options &&& EASY2D_IMAGE_CLIP_BOUNDS = 0) :
    (easy2d_draw_image_gdi R (some s) (some im) a).args.dstX = (center_image a).dstX ∧
    (easy2d_draw_image_gdi R (some s) (some im) a).args.dstY = (center_image a).dstY ∧
    (easy2d_draw_image_gdi R (some s) (some im) a).args.dstWidth = a.dstWidth ∧
    (easy2d_draw_image_gdi R (some s) (some im) a).args.dstHeight = a.dstHeight ∧
    ∃ pre hSrcBitmap, (easy2d_draw_image_gdi R (some s) (some im) a).ops =
      pre ++ blit_image R s (easy2d_draw_image_gdi R (some s) (some im) a).args hSrcBitmap 0 := by
  obtain ⟨cw, ch, _, _, _, _, _, _, _, _, _, _, _, copt⟩ := center_image_frame a
  have hc : clip_image R s (center_image a) = .proceed (center_image a) 0 [] :=
    clip_image_of_flag_unset R s _ (by rw [copt]; exact h)
  rw [draw_image_of_proceed R s im a _ 0 [] hc]
  obtain ⟨fx, fy, fw, fh, _⟩ := composite_image_frame im (center_image a)
  exact ⟨fx, fy, fw.trans cw, fh.trans ch, _, _, rfl⟩

theorem center_image_large_dstX : (center_image args_center_large).dstX = 16777218 := by
  unfold center_image
  rw [if_pos (by decide)]
  show f32_add args_center_large.dstBoundsX
    (f32_div (f32_sub args_center_large.dstBoundsWidth args_center_large.dstWidth) 2)
    = 16777218
  have e1 : f32_sub args_center_large.dstBoundsWidth args_center_large.dstWidth = 3 := by
    unfold f32_sub
    exact (f32_round_of_int_eq _ 3 (by norm_num [args_center_large]) (by norm_num)
      (by norm_num)).trans (by norm_num [args_center_large])
  have e2 : f32_div 3 2 = 3 / 2 := by
    unfold f32_div
    exact f32_round_of_half_eq _ 3 (by norm_num) (by norm_num) (by norm_num)
  rw [e1, e2]
  unfold f32_add
  rw [show args_center_large.dstBoundsX + 3 / 2 = (33554435 / 2 : ℚ) by
    norm_num [args_center_large]]
  exact f32_round_33554435_half

/-- C9, counterexample: with center-align set, bounds 13 wide at x = 16777216 and a
destination 10 wide, the claimed position is 16777217.5, with margins of 1.5 on either side;
the call leaves `dstX = 16777218`, the `float` nearest to it, and the margins are 2 on the
left and 1 on the right. -/
theorem center_align_rounds_position :
    args_center_large.options &&& EASY2D_IMAGE_ALIGN_CENTER ≠ 0 ∧
    args_center_large.dstBoundsX
      + (args_center_large.dstBoundsWidth - args_center_large.dstWidth) / 2 = 33554435 / 2 ∧
    (easy2d_draw_image_gdi gdi_replies_1 (some gdi_surface_1) (some gdi_image_2x2)
      args_center_large).args.dstX = 16777218 ∧
    (easy2d_draw_image_gdi gdi_replies_1 (some gdi_surface_1) (some gdi_image_2x2)
      args_center_large).args.dstX - args_center_large.dstBoundsX = 2 ∧
    (args_center_large.dstBoundsX + args_center_large.dstBoundsWidth)
      - ((easy2d_draw_image_gdi gdi_replies_1 (some gdi_surface_1) (some gdi_image_2x2)
          args_center_large).args.dstX
        + (easy2d_draw_image_gdi gdi_replies_1 (some gdi_surface_1) (some gdi_image_2x2)
          args_center_large).args.dstWidth) = 1 := by
  obtain ⟨hx, _, hw, _, _⟩ := draw_image_unclipped gdi_replies_1 gdi_surface_1 gdi_image_2x2
    args_center_large (by decide)
  have hcx := center_image_large_dstX
  rw [hx, hw, hcx]
  refine ⟨by decide, ?_, rfl, ?_, ?_⟩ <;> norm_num [args_center_large]

/-- C9, amended: when the center-align option is set, the centering step sets
`dstX = dstBoundsX + (dstBoundsWidth - dstWidth) / 2` and
`dstY = dstBoundsY + (dstBoundsHeight - dstHeight) / 2`, each operation rounded to `float`.
When the bounds and sizes on an axis are integers of magnitude at most `2 ^ 22` nothing is
rounded: the position is exactly that value and the margins on either side of the destination
inside the bounds are equal.  The step changes neither `dstWidth` nor `dstHeight`; without
clip-to-bounds the rectangle it leaves is the one in the argument struct after the call and
the one blitted; and the `dstX`, `dstY` supplied by the caller have no influence: a call with
any other `dstX`, `dstY` issues the same GDI calls and leaves the same argument struct and
image. -/
theorem center_align_overrides_position (R : gdi_replies) (s : gdi_surface_data)
    (im : gdi_image) (a : easy2d_draw_image_args)
    (hc : a.options &&& EASY2D_IMAGE_ALIGN_CENTER ≠ 0) :
    (center_image a).dstX
      = f32_add a.dstBoundsX (f32_div (f32_sub a.dstBoundsWidth a.dstWidth) 2) ∧
    (center_image a).dstY
      = f32_add a.dstBoundsY (f32_div (f32_sub a.dstBoundsHeight a.dstHeight) 2) ∧
    (small_int (2 ^ 22) a.dstBoundsX → small_int (2 ^ 22) a.dstBoundsWidth →
      small_int (2 ^ 22) a.dstWidth →
      (center_image a).dstX = a.dstBoundsX + (a.dstBoundsWidth - a.dstWidth) / 2 ∧
      (center_image a).dstX - a.dstBoundsX
        = (a.dstBoundsX + a.dstBoundsWidth)
          - ((center_image a).dstX + (center_image a).dstWidth)) ∧
    (small_int (2 ^ 22) a.dstBoundsY → small_int (2 ^ 22) a.dstBoundsHeight →
      small_int (2 ^ 22) a.dstHeight →
      (center_image a).dstY = a.dstBoundsY + (a.dstBoundsHeight - a.dstHeight) / 2 ∧
      (center_image a).dstY - a.dstBoundsY
        = (a.dstBoundsY + a.dstBoundsHeight)
          - ((center_image a).dstY + (center_image a).dstHeight)) ∧
    (center_image a).dstWidth = a.dstWidth ∧ (center_image a).dstHeight = a.dstHeight ∧
    (a.options &&& EASY2D_IMAGE_CLIP_BOUNDS = 0 →
      (easy2d_draw_image_gdi R (some s) (some im) a).args.dstX = (center_image a).dstX ∧
      (easy2d_draw_image_gdi R (some s) (some im) a).args.dstY = (center_image a).dstY ∧
      (easy2d_draw_image_gdi R (some s) (some im) a).args.dstWidth = a.dstWidth ∧
      (easy2d_draw_image_gdi R (some s) (some im) a).args.dstHeight = a.dstHeight ∧
      ∃ pre hSrcBitmap, (easy2d_draw_image_gdi R (some s) (some im) a).ops =
        pre ++ blit_image R s (easy2d_draw_image_gdi R (some s) (some im) a).args
          hSrcBitmap 0) ∧
    ∀ x y, easy2d_draw_image_gdi R (some s) (some im) { a with dstX := x, dstY := y }
      = easy2d_draw_image_gdi R (some s) (some im) a := by
  have hca : center_image a = { a with
      dstX := f32_add a.dstBoundsX (f32_div (f32_sub a.dstBoundsWidth a.dstWidth) 2)
      dstY := f32_add a.dstBoundsY (f32_div (f32_sub a.dstBoundsHeight a.dstHeight) 2) } := by
    unfold center_image
    rw [if_pos hc]
  refine ⟨?_, ?_, ?_, ?_, ?_, ?_, ?_, ?_⟩
  · rw [hca]
  · rw [hca]
  · intro hb hw hd
    rw [hca]
    simp only
    rw [f32_center_small hb hw hd]
    exact ⟨rfl, by ring⟩
  · intro hb hw hd
    rw [hca]
    simp only
    rw [f32_center_small hb hw hd]
    exact ⟨rfl, by ring⟩
  · rw [hca]
  · rw [hca]
  · intro hclip
    exact draw_image_unclipped R s im a hclip
  · intro x y
    have h2 : center_image { a with dstX := x, dstY := y } = center_image a := by
      unfold center_image
      rw [if_pos hc, if_pos hc]
    unfold easy2d_draw_image_gdi
    simp only [h2]

/-- C9, witness: the 10 x 10 destination given at (3, 4) is centered in the 100 x 50 bounds
at (45, 20), where the call leaves it and blits it, and drawing it from (1000, -7) instead
gives the same result. -/
theorem center_align_overrides_position_witness :
    args_centered.options &&& EASY2D_IMAGE_ALIGN_CENTER ≠ 0 ∧
    (center_image args_centered).dstX = 45 ∧ (center_image args_centered).dstY = 20 ∧
    (easy2d_draw_image_gdi gdi_replies_1 (some gdi_surface_1) (some gdi_image_2x2)
      args_centered).args.dstX = 45 ∧
    (easy2d_draw_image_gdi gdi_replies_1 (some gdi_surface_1) (some gdi_image_2x2)
      args_centered).args.dstY = 20 ∧
    easy2d_draw_image_gdi gdi_replies_1 (some gdi_surface_1) (some gdi_image_2x2)
        { args_centered with dstX := 1000, dstY := -7 }
      = easy2d_draw_image_gdi gdi_replies_1 (some gdi_surface_1) (some gdi_image_2x2)
        args_centered := by
  have h := center_align_overrides_position gdi_replies_1 gdi_surface_1 gdi_image_2x2
    args_centered (by decide)
  have hx : (center_image args_centered).dstX = 45 :=
    (h.2.2.1 ⟨0, by norm_num [args_centered], by norm_num, by norm_num⟩
      ⟨100, by norm_num [args_centered], by norm_num, by norm_num⟩
      ⟨10, by norm_num [args_centered], by norm_num, by norm_num⟩).1.trans
      (by norm_num [args_centered])
  have hy : (center_image args_centered).dstY = 20 :=
    (h.2.2.2.1 ⟨0, by norm_num [args_centered], by norm_num, by norm_num⟩
      ⟨50, by norm_num [args_centered], by norm_num, by norm_num⟩
      ⟨10, by norm_num [args_centered], by norm_num, by norm_num⟩).1.trans
      (by norm_num [args_centered])
  have hd := h.2.2.2.2.2.2.1 (by decide)
  exact ⟨by decide, hx, hy, hd.1.trans hx, hd.2.1.trans hy, h.2.2.2.2.2.2.2 1000 (-7)⟩

/-- The clip block on the 1 x 1 destination at x = 16777220 and the bounds that end at
16777219: both right edges round to 16777220, so the test finds nothing outside. -/
theorem clip_image_right_large :
    clip_image gdi_replies_1 gdi_surface_1 args_right_large
      = .proceed args_right_large 0 [] := by
  have e1 : f32_add args_right_large.dstX args_right_large.dstWidth = 16777220 := by
    unfold f32_add
    rw [show args_right_large.dstX + args_right_large.dstWidth = (16777221 : ℚ) by
      norm_num [args_right_large]]
    exact f32_round_16777221
  have e2 : f32_add args_right_large.dstBoundsX args_right_large.dstBoundsWidth
      = 16777220 := by
    unfold f32_add
    rw [show args_right_large.dstBoundsX + args_right_large.dstBoundsWidth = (16777219 : ℚ) by
      norm_num [args_right_large]]
    exact f32_round_16777219
  have e3 : f32_add args_right_large.dstY args_right_large.dstHeight = 1 := by
    unfold f32_add
    exact (f32_round_of_int_eq _ 1 (by norm_num [args_right_large]) (by norm_num)
      (by norm_num)).trans (by norm_num [args_right_large])
  have e4 : f32_add args_right_large.dstBoundsY args_right_large.dstBoundsHeight = 10 := by
    unfold f32_add
    exact (f32_round_of_int_eq _ 10 (by norm_num [args_right_large]) (by norm_num)
      (by norm_num)).trans (by norm_num [args_right_large])
  unfold clip_image
  rw [if_pos (by decide), e1, e2, e3, e4, if_neg (by norm_num [args_right_large])]

/-- A draw on the fast path without bounds whose clip block changes nothing: the GDI calls
are those of the blit. -/
theorem draw_image_plain_blit (R : gdi_replies) (s : gdi_surface_data) (im : gdi_image)
    (a : easy2d_draw_image_args)
    (hcen : a.options &&& EASY2D_IMAGE_ALIGN_CENTER = 0)
    (hfast : a.options &&& EASY2D_IMAGE_DRAW_BACKGROUND = 0 ∧ a.foregroundTint.r = 255 ∧
      a.foregroundTint.g = 255 ∧ a.foregroundTint.b = 255)
    (hbounds : a.options &&& EASY2D_IMAGE_DRAW_BOUNDS = 0)
    (hclip : clip_image R s a = .proceed a 0 []) :
    easy2d_draw_image_gdi R (some s) (some im) a =
      { args := a, image := some im, ops := blit_image R s a im.data.hSrcBitmap 0 } := by
  have hc : center_image a = a := by
    unfold center_image
    rw [if_neg (by simp [hcen])]
  rw [draw_image_of_proceed R s im a a 0 [] (by rw [hc]; exact hclip)]
  have hcomp : composite_image im a
      = { args := a, image := im, hSrcBitmap := im.data.hSrcBitmap, ops := [] } := by
    unfold composite_image
    rw [if_pos hfast]
  have hb : draw_bounds s a = [] := by
    unfold draw_bounds
    rw [if_neg (by simp [hbounds])]
  rw [hcomp]
  simp only [hb, List.nil_append, List.append_nil]

/-- C10, counterexample: the unscaled 1 x 1 destination at x = 16777220 lies entirely right
of the bounds, which end at 16777219, and every condition of the claim holds; yet the call
blits it, at x = 16777220. -/
theorem clip_without_overlap_may_blit :
    args_right_large.options &&& EASY2D_IMAGE_CLIP_BOUNDS ≠ 0 ∧
    args_right_large.options &&& EASY2D_IMAGE_ALIGN_CENTER = 0 ∧
    args_right_large.srcWidth = args_right_large.dstWidth ∧
    args_right_large.srcHeight = args_right_large.dstHeight ∧
    0 < args_right_large.dstWidth ∧ 0 < args_right_large.dstHeight ∧
    args_right_large.dstBoundsX + args_right_large.dstBoundsWidth ≤ args_right_large.dstX ∧
    (easy2d_draw_image_gdi gdi_replies_1 (some gdi_surface_1) (some gdi_image_2x2)
      args_right_large).ops =
      [.SelectObject 102 201,
       .AlphaBlend 101 16777220 0 1 1 102 0 0 1 1 ⟨AC_SRC_OVER, 0, 255, AC_SRC_ALPHA⟩,
       .SelectObject 102 203] := by
  refine ⟨by decide, by decide, rfl, rfl, by norm_num [args_right_large],
    by norm_num [args_right_large], by norm_num [args_right_large], ?_⟩
  rw [draw_image_plain_blit gdi_replies_1 gdi_surface_1 gdi_image_2x2 args_right_large
    (by decide) (by decide) (by decide) clip_image_right_large]
  have h4 : ¬ (args_right_large.options &&& EASY2D_IMAGE_HINT_NO_ALPHA ≠ 0) := by decide
  show blit_image gdi_replies_1 gdi_surface_1 args_right_large 201 0 = _
  unfold blit_image
  rw [if_neg h4]
  norm_num [args_right_large, c_int, gdi_surface_1, gdi_replies_1]

/-- C10, amended: on the non-scaled clip path (clip-to-bounds set, center-align unset, source
and destination sizes equal), for rectangles whose coordinates and sizes are integers of
magnitude at most `2 ^ 20`, a destination rectangle of positive width and height that lies
entirely left of, right of, above or below the bounds rectangle makes
`easy2d_draw_image_gdi` return without issuing any GDI call (no bounds fill, no blit) and
with the image, in particular its intermediate bitmap, as it was. -/
theorem clip_without_overlap_draws_nothing (R : gdi_replies) (s : gdi_surface_data)
    (im : gdi_image) (a : easy2d_draw_image_args)
    (hsmall : small_int_rects (2 ^ 20) a)
    (hclip : a.options &&& EASY2D_IMAGE_CLIP_BOUNDS ≠ 0)
    (hcen : a.options &&& EASY2D_IMAGE_ALIGN_CENTER = 0)
    (hw : a.srcWidth = a.dstWidth) (hh : a.srcHeight = a.dstHeight)
    (hpw : 0 < a.dstWidth) (hph : 0 < a.dstHeight)
    (hout : a.dstX + a.dstWidth ≤ a.dstBoundsX ∨ a.dstBoundsX + a.dstBoundsWidth ≤ a.dstX ∨
      a.dstY + a.dstHeight ≤ a.dstBoundsY ∨ a.dstBoundsY + a.dstBoundsHeight ≤ a.dstY) :
    (easy2d_draw_image_gdi R (some s) (some im) a).ops = [] ∧
    (easy2d_draw_image_gdi R (some s) (some im) a).image = some im := by
  have hca : center_image a = a := by
    simp [center_image, hcen]
  have hpart : a.dstX < a.dstBoundsX ∨ a.dstX + a.dstWidth > a.dstBoundsX + a.dstBoundsWidth ∨
      a.dstY < a.dstBoundsY ∨ a.dstY + a.dstHeight > a.dstBoundsY + a.dstBoundsHeight := by
    rcases hout with h | h | h | h
    · exact Or.inl (by linarith)
    · exact Or.inr (Or.inl (by linarith))
    · exact Or.inr (Or.inr (Or.inl (by linarith)))
    · exact Or.inr (Or.inr (Or.inr (by linarith)))
  have hscale : ¬ (a.dstWidth ≠ a.srcWidth ∨ a.dstHeight ≠ a.srcHeight) := by
    simp [hw, hh]
  have hempty := clip_outside_is_empty a hpw hph hout
  have hclipped : clip_image R s a = .abandoned
      (exact_clip_bottom (exact_clip_right (exact_clip_top (exact_clip_left a)))) := by
    rw [clip_image_small R s a hsmall, if_pos hclip, if_pos hpart, if_neg hscale,
      if_pos hempty]
  rw [draw_image_of_abandoned R s im a _ (by rw [hca]; exact hclipped)]
  exact ⟨rfl, rfl⟩

/-- C10, witness: the unscaled 10 x 10 destination at (0, 0) lies entirely left of the
bounds at (20, 0); drawing it issues no GDI call and leaves the image untouched. -/
theorem clip_without_overlap_draws_nothing_witness :
    args_outside.dstX + args_outside.dstWidth ≤ args_outside.dstBoundsX ∧
    (easy2d_draw_image_gdi gdi_replies_1 (some gdi_surface_1) (some gdi_image_2x2)
      args_outside).ops = [] ∧
    (easy2d_draw_image_gdi gdi_replies_1 (some gdi_surface_1) (some gdi_image_2x2)
      args_outside).image = some gdi_image_2x2 :=
  ⟨by norm_num [args_outside],
   clip_without_overlap_draws_nothing gdi_replies_1 gdi_surface_1 gdi_image_2x2 args_outside
    (small_int_rects_intro (2 ^ 20) args_outside 0 0 10 10 0 0 10 10 20 0 10 10
      (by norm_num [args_outside]) (by norm_num))
    (by decide) (by decide) rfl rfl (by norm_num [args_outside]) (by norm_num [args_outside])
    (Or.inl (by norm_num [args_outside]))⟩

/-! ### The non-scaled clip path -/

/-- The non-scaled clip, in exact arithmetic, of a rectangle that straddles only the left
edge. -/
theorem clip_steps_left_straddle (b : easy2d_draw_image_args) (k : c_float)
    (hk : 0 < k) (hx : b.dstX = b.dstBoundsX - k)
    (hr : b.dstX + b.dstWidth ≤ b.dstBoundsX + b.dstBoundsWidth)
    (ht : b.dstBoundsY ≤ b.dstY)
    (hb : b.dstY + b.dstHeight ≤ b.dstBoundsY + b.dstBoundsHeight) :
    exact_clip_bottom (exact_clip_right (exact_clip_top (exact_clip_left b))) =
      { b with
        srcWidth := b.srcWidth - k
        srcX := b.srcX + k
        dstWidth := b.dstWidth - k
        dstX := b.dstBoundsX } := by
  have h1 : exact_clip_left b = { b with
        srcWidth := b.srcWidth - k
        srcX := b.srcX + k
        dstWidth := b.dstWidth - k
        dstX := b.dstBoundsX } := by
    have hlt : b.dstX < b.dstBoundsX := by linarith
    have hk' : b.dstBoundsX - b.dstX = k := by linarith
    simp [exact_clip_left, hlt, hk']
  rw [h1]
  have h2 : ∀ c : easy2d_draw_image_args, ¬ c.dstY < c.dstBoundsY → exact_clip_top c = c := by
    intro c hc
    simp [exact_clip_top, hc]
  have h3 : ∀ c : easy2d_draw_image_args,
      ¬ c.dstX + c.dstWidth > c.dstBoundsX + c.dstBoundsWidth → exact_clip_right c = c := by
    intro c hc
    simp [exact_clip_right, hc]
  have h4 : ∀ c : easy2d_draw_image_args,
      ¬ c.dstY + c.dstHeight > c.dstBoundsY + c.dstBoundsHeight → exact_clip_bottom c = c := by
    intro c hc
    simp [exact_clip_bottom, hc]
  rw [h2 _ (by simp only; linarith), h3 _ (by simp only; linarith),
    h4 _ (by simp only; linarith)]

theorem clip_steps_postcondition (b : easy2d_draw_image_args)
    (hw : b.srcWidth = b.dstWidth) (hh : b.srcHeight = b.dstHeight) :
    b.dstBoundsX ≤ (exact_clip_bottom (exact_clip_right (exact_clip_top
      (exact_clip_left b)))).dstX ∧
    (exact_clip_bottom (exact_clip_right (exact_clip_top (exact_clip_left b)))).dstX
      + (exact_clip_bottom (exact_clip_right (exact_clip_top (exact_clip_left b)))).dstWidth
      ≤ b.dstBoundsX + b.dstBoundsWidth ∧
    b.dstBoundsY ≤ (exact_clip_bottom (exact_clip_right (exact_clip_top
      (exact_clip_left b)))).dstY ∧
    (exact_clip_bottom (exact_clip_right (exact_clip_top (exact_clip_left b)))).dstY
      + (exact_clip_bottom (exact_clip_right (exact_clip_top (exact_clip_left b)))).dstHeight
      ≤ b.dstBoundsY + b.dstBoundsHeight ∧
    (exact_clip_bottom (exact_clip_right (exact_clip_top (exact_clip_left b)))).srcWidth
      = (exact_clip_bottom (exact_clip_right (exact_clip_top (exact_clip_left b)))).dstWidth ∧
    (exact_clip_bottom (exact_clip_right (exact_clip_top (exact_clip_left b)))).srcHeight
      = (exact_clip_bottom (exact_clip_right (exact_clip_top (exact_clip_left b)))).dstHeight ∧
    (exact_clip_bottom (exact_clip_right (exact_clip_top (exact_clip_left b)))).srcX - b.srcX
      = (exact_clip_bottom (exact_clip_right (exact_clip_top (exact_clip_left b)))).dstX
        - b.dstX ∧
    (exact_clip_bottom (exact_clip_right (exact_clip_top (exact_clip_left b)))).srcY - b.srcY
      = (exact_clip_bottom (exact_clip_right (exact_clip_top (exact_clip_left b)))).dstY
        - b.dstY := by
  unfold exact_clip_bottom exact_clip_right exact_clip_top exact_clip_left
  split_ifs <;> (try dsimp only at *) <;>
    refine ⟨?_, ?_, ?_, ?_, ?_, ?_, ?_, ?_⟩ <;> linarith

/-- The clip block on a non-scaled rectangle of small integers and positive height that
straddles only the left edge of the bounds, by `k` with `k` less than the width. -/
theorem clip_image_left_straddle (R : gdi_replies) (s : gdi_surface_data)
    (b : easy2d_draw_image_args) (k : c_float)
    (hsmall : small_int_rects (2 ^ 20) b)
    (hclip : b.options &&& EASY2D_IMAGE_CLIP_BOUNDS ≠ 0)
    (hw : b.srcWidth = b.dstWidth) (hh : b.srcHeight = b.dstHeight)
    (hk : 0 < k) (hkw : k < b.dstWidth) (hpos : 0 < b.dstHeight)
    (hx : b.dstX = b.dstBoundsX - k)
    (hr : b.dstX + b.dstWidth ≤ b.dstBoundsX + b.dstBoundsWidth)
    (ht : b.dstBoundsY ≤ b.dstY)
    (hb : b.dstY + b.dstHeight ≤ b.dstBoundsY + b.dstBoundsHeight) :
    clip_image R s b = .proceed
      { b with
        srcWidth := b.srcWidth - k
        srcX := b.srcX + k
        dstWidth := b.dstWidth - k
        dstX := b.dstBoundsX } 0 [] := by
  have hsteps := clip_steps_left_straddle b k hk hx hr ht hb
  have hpart : b.dstX < b.dstBoundsX ∨ b.dstX + b.dstWidth > b.dstBoundsX + b.dstBoundsWidth ∨
      b.dstY < b.dstBoundsY ∨ b.dstY + b.dstHeight > b.dstBoundsY + b.dstBoundsHeight :=
    Or.inl (by linarith)
  have hscale : ¬ (b.dstWidth ≠ b.srcWidth ∨ b.dstHeight ≠ b.srcHeight) := by
    simp [hw, hh]
  have hne : ¬ ((exact_clip_bottom (exact_clip_right (exact_clip_top
        (exact_clip_left b)))).dstWidth ≤ 0
      ∨ (exact_clip_bottom (exact_clip_right (exact_clip_top
        (exact_clip_left b)))).dstHeight ≤ 0) := by
    rw [hsteps]
    simp only [not_or, not_le]
    exact ⟨by linarith, hpos⟩
  rw [clip_image_small R s b hsmall, if_pos hclip, if_pos hpart, if_neg hscale, if_neg hne,
    hsteps]

/-- The clip block on the destination that straddles the left edge of the bounds by
16777217: the `float` difference of the two left edges is 16777216. -/
theorem clip_image_straddle_large :
    clip_image gdi_replies_1 gdi_surface_1 args_straddle_large
      = .proceed { args_straddle_large with
          srcWidth := 2, srcX := 16777216, dstWidth := 2, dstX := 1 } 0 [] := by
  have hscale : ¬ (args_straddle_large.dstWidth ≠ args_straddle_large.srcWidth ∨
      args_straddle_large.dstHeight ≠ args_straddle_large.srcHeight) := by
    simp [args_straddle_large]
  have ed : f32_sub args_straddle_large.dstBoundsX args_straddle_large.dstX = 16777216 := by
    unfold f32_sub
    rw [show args_straddle_large.dstBoundsX - args_straddle_large.dstX = (16777217 : ℚ) by
      norm_num [args_straddle_large]]
    exact f32_round_16777217
  have hl : clip_left args_straddle_large = { args_straddle_large with
      srcWidth := 2, srcX := 16777216, dstWidth := 2, dstX := 1 } := by
    unfold clip_left
    rw [if_pos (by norm_num [args_straddle_large]), ed]
    have e1 : f32_sub args_straddle_large.srcWidth 16777216 = 2 := by
      unfold f32_sub
      exact (f32_round_of_int_eq _ 2 (by norm_num [args_straddle_large]) (by norm_num)
        (by norm_num)).trans (by norm_num [args_straddle_large])
    have e2 : f32_add args_straddle_large.srcX 16777216 = 16777216 := by
      unfold f32_add
      exact (f32_round_of_int_eq _ 16777216 (by norm_num [args_straddle_large]) (by norm_num)
        (by norm_num)).trans (by norm_num [args_straddle_large])
    have e3 : f32_sub args_straddle_large.dstWidth 16777216 = 2 := by
      unfold f32_sub
      exact (f32_round_of_int_eq _ 2 (by norm_num [args_straddle_large]) (by norm_num)
        (by norm_num)).trans (by norm_num [args_straddle_large])
    rw [e1, e2, e3]
    rfl
  have ht : ∀ c : easy2d_draw_image_args, ¬ c.dstY < c.dstBoundsY → clip_top c = c := by
    intro c hc
    simp [clip_top, hc]
  have hr : ∀ c : easy2d_draw_image_args,
      ¬ f32_add c.dstX c.dstWidth > f32_add c.dstBoundsX c.dstBoundsWidth →
      clip_right c = c := by
    intro c hc
    simp [clip_right, hc]
  have hb : ∀ c : easy2d_draw_image_args,
      ¬ f32_add c.dstY c.dstHeight > f32_add c.dstBoundsY c.dstBoundsHeight →
      clip_bottom c = c := by
    intro c hc
    simp [clip_bottom, hc]
  have a1 : f32_add (1 : ℚ) 2 = 3 := by
    unfold f32_add
    exact (f32_round_of_int_eq _ 3 (by norm_num) (by norm_num) (by norm_num)).trans
      (by norm_num)
  have a2 : f32_add (1 : ℚ) 100 = 101 := by
    unfold f32_add
    exact (f32_round_of_int_eq _ 101 (by norm_num) (by norm_num) (by norm_num)).trans
      (by norm_num)
  have a3 : f32_add (0 : ℚ) 10 = 10 := by
    unfold f32_add
    exact (f32_round_of_int_eq _ 10 (by norm_num) (by norm_num) (by norm_num)).trans
      (by norm_num)
  have hchain : clip_bottom (clip_right (clip_top (clip_left args_straddle_large)))
      = { args_straddle_large with
          srcWidth := 2, srcX := 16777216, dstWidth := 2, dstX := 1 } := by
    rw [hl, ht _ (by norm_num [args_straddle_large]),
      hr _ (by
        show ¬ f32_add (1 : ℚ) 2 > f32_add (1 : ℚ) 100
        rw [a1, a2]; norm_num),
      hb _ (by
        show ¬ f32_add (0 : ℚ) 10 > f32_add (0 : ℚ) 10
        rw [a3]; norm_num)]
  unfold clip_image
  rw [if_pos (by decide), if_pos (Or.inl (by norm_num [args_straddle_large])), if_neg hscale]
  simp only
  rw [hchain, if_neg (by norm_num [args_straddle_large])]

/-- C11, counterexample: the unscaled destination of width 16777218 at x = -16777216 has its
left edge k = 16777217 left of the bounds' left edge at x = 1, with k less than its width and
its other edges inside the bounds; after the call `dstWidth` and `srcWidth` are 2, not
16777218 - k = 1, and `srcX` is 16777216, not k. -/
theorem clip_left_straddle_rounds_k :
    args_straddle_large.options &&& EASY2D_IMAGE_CLIP_BOUNDS ≠ 0 ∧
    args_straddle_large.srcWidth = args_straddle_large.dstWidth ∧
    args_straddle_large.srcHeight = args_straddle_large.dstHeight ∧
    args_straddle_large.dstX = args_straddle_large.dstBoundsX - 16777217 ∧
    (16777217 : c_float) < args_straddle_large.dstWidth ∧
    args_straddle_large.dstX + args_straddle_large.dstWidth
      ≤ args_straddle_large.dstBoundsX + args_straddle_large.dstBoundsWidth ∧
    args_straddle_large.dstBoundsY ≤ args_straddle_large.dstY ∧
    args_straddle_large.dstY + args_straddle_large.dstHeight
      ≤ args_straddle_large.dstBoundsY + args_straddle_large.dstBoundsHeight ∧
    (easy2d_draw_image_gdi gdi_replies_1 (some gdi_surface_1) (some gdi_image_2x2)
      args_straddle_large).args.dstWidth = 2 ∧
    (easy2d_draw_image_gdi gdi_replies_1 (some gdi_surface_1) (some gdi_image_2x2)
      args_straddle_large).args.srcWidth = 2 ∧
    (easy2d_draw_image_gdi gdi_replies_1 (some gdi_surface_1) (some gdi_image_2x2)
      args_straddle_large).args.srcX = 16777216 ∧
    args_straddle_large.dstWidth - 16777217 = 1 ∧
    (easy2d_draw_image_gdi gdi_replies_1 (some gdi_surface_1) (some gdi_image_2x2)
      args_straddle_large).ops ≠ [] := by
  have hc : center_image args_straddle_large = args_straddle_large := if_neg (by decide)
  have hp : clip_image gdi_replies_1 gdi_surface_1 (center_image args_straddle_large)
      = .proceed { args_straddle_large with
          srcWidth := 2, srcX := 16777216, dstWidth := 2, dstX := 1 } 0 [] := by
    rw [hc]; exact clip_image_straddle_large
  have hne := draw_image_ops_ne_nil gdi_replies_1 gdi_surface_1 gdi_image_2x2
    args_straddle_large _ 0 [] hp
  rw [draw_image_of_proceed gdi_replies_1 gdi_surface_1 gdi_image_2x2 args_straddle_large _ 0
    [] hp] at hne ⊢
  obtain ⟨_, _, fw, _, fsx, _, fsw, _⟩ := composite_image_frame gdi_image_2x2
    { args_straddle_large with srcWidth := 2, srcX := 16777216, dstWidth := 2, dstX := 1 }
  refine ⟨by decide, rfl, rfl, by norm_num [args_straddle_large],
    by norm_num [args_straddle_large], by norm_num [args_straddle_large],
    by norm_num [args_straddle_large], by norm_num [args_straddle_large], fw, fsw, fsx,
    by norm_num [args_straddle_large], hne⟩

/-- C11, amended: on the non-scaled clip path (clip-to-bounds set, source and destination
sizes equal), for rectangles whose coordinates and sizes are integers of magnitude at most
`2 ^ 20`: when the destination rectangle that enters the clip step (the caller's, unless
center-align replaced its position) has its left edge `k > 0` left of the bounds' left edge,
`dstX = dstBoundsX - k` with `k < dstWidth`, and its other three edges inside the bounds, the
arguments after the call have `srcWidth` and `dstWidth` each reduced by exactly `k`, `srcX`
increased by exactly `k`, `dstX` equal to `dstBoundsX`, and `dstY`, both heights and `srcY`
unchanged; and when the height is positive these are the arguments of the blit, which ends
the GDI calls. -/
theorem clip_left_straddle_shrinks_by_k (R : gdi_replies)
    (s : gdi_surface_data) (im : gdi_image) (a : easy2d_draw_image_args) (k : c_float)
    (hsmall : small_int_rects (2 ^ 20) (center_image a))
    (hclip : a.options &&& EASY2D_IMAGE_CLIP_BOUNDS ≠ 0)
    (hw : a.srcWidth = a.dstWidth) (hh : a.srcHeight = a.dstHeight)
    (hk : 0 < k) (hkw : k < a.dstWidth)
    (hx : (center_image a).dstX = a.dstBoundsX - k)
    (hr : (center_image a).dstX + a.dstWidth ≤ a.dstBoundsX + a.dstBoundsWidth)
    (ht : a.dstBoundsY ≤ (center_image a).dstY)
    (hb : (center_image a).dstY + a.dstHeight ≤ a.dstBoundsY + a.dstBoundsHeight) :
    (easy2d_draw_image_gdi R (some s) (some im) a).args.srcWidth = a.srcWidth - k ∧
    (easy2d_draw_image_gdi R (some s) (some im) a).args.dstWidth = a.dstWidth - k ∧
    (easy2d_draw_image_gdi R (some s) (some im) a).args.srcX = a.srcX + k ∧
    (easy2d_draw_image_gdi R (some s) (some im) a).args.dstX = a.dstBoundsX ∧
    (easy2d_draw_image_gdi R (some s) (some im) a).args.dstY = (center_image a).dstY ∧
    (easy2d_draw_image_gdi R (some s) (some im) a).args.dstHeight = a.dstHeight ∧
    (easy2d_draw_image_gdi R (some s) (some im) a).args.srcHeight = a.srcHeight ∧
    (easy2d_draw_image_gdi R (some s) (some im) a).args.srcY = a.srcY ∧
    (0 < a.dstHeight → ∃ pre hSrcBitmap,
      (easy2d_draw_image_gdi R (some s) (some im) a).ops =
        pre ++ blit_image R s (easy2d_draw_image_gdi R (some s) (some im) a).args
          hSrcBitmap 0) := by
  obtain ⟨cw, ch, csx, csy, csw, csh, cbx, cby, cbw, cbh, _, _, _, copt⟩ := center_image_frame a
  have hsteps := clip_steps_left_straddle (center_image a) k hk (by rw [cbx]; exact hx)
    (by rw [cw, cbx, cbw]; exact hr) (by rw [cby]; exact ht)
    (by rw [ch, cby, cbh]; exact hb)
  have hpart : (center_image a).dstX < (center_image a).dstBoundsX ∨
      (center_image a).dstX + (center_image a).dstWidth
        > (center_image a).dstBoundsX + (center_image a).dstBoundsWidth ∨
      (center_image a).dstY < (center_image a).dstBoundsY ∨
      (center_image a).dstY + (center_image a).dstHeight
        > (center_image a).dstBoundsY + (center_image a).dstBoundsHeight :=
    Or.inl (by rw [cbx]; linarith)
  have hscale : ¬ ((center_image a).dstWidth ≠ (center_image a).srcWidth ∨
      (center_image a).dstHeight ≠ (center_image a).srcHeight) := by
    simp [cw, ch, csw, csh, hw, hh]
  have hclip' : (center_image a).options &&& EASY2D_IMAGE_CLIP_BOUNDS ≠ 0 := by
    rw [copt]; exact hclip
  by_cases hpos : 0 < a.dstHeight
  · have hne : ¬ ((exact_clip_bottom (exact_clip_right (exact_clip_top
          (exact_clip_left (center_image a))))).dstWidth ≤ 0
        ∨ (exact_clip_bottom (exact_clip_right (exact_clip_top
          (exact_clip_left (center_image a))))).dstHeight ≤ 0) := by
      rw [hsteps]
      simp only [not_or, not_le]
      exact ⟨by rw [cw]; linarith, by rw [ch]; exact hpos⟩
    have hc : clip_image R s (center_image a) = .proceed
        (exact_clip_bottom (exact_clip_right (exact_clip_top
          (exact_clip_left (center_image a))))) 0 [] := by
      rw [clip_image_small R s _ hsmall, if_pos hclip', if_pos hpart, if_neg hscale,
        if_neg hne]
    rw [draw_image_of_proceed R s im a _ 0 [] hc]
    obtain ⟨fx, fy, fw, fh, fsx, fsy, fsw, fsh, _⟩ := composite_image_frame im
      (exact_clip_bottom (exact_clip_right (exact_clip_top (exact_clip_left (center_image a)))))
    simp only [fx, fy, fw, fh, fsx, fsy, fsw, fsh]
    rw [hsteps]
    simp only [cw, ch, csx, csy, csw, csh, cbx]
    refine ⟨trivial, trivial, trivial, trivial, trivial, trivial, trivial, trivial, ?_⟩
    intro _
    exact ⟨_, _, rfl⟩
  · have he : (exact_clip_bottom (exact_clip_right (exact_clip_top
          (exact_clip_left (center_image a))))).dstWidth ≤ 0
        ∨ (exact_clip_bottom (exact_clip_right (exact_clip_top
          (exact_clip_left (center_image a))))).dstHeight ≤ 0 := by
      rw [hsteps]
      right
      simp only [ch]
      linarith
    have hc : clip_image R s (center_image a) = .abandoned
        (exact_clip_bottom (exact_clip_right (exact_clip_top
          (exact_clip_left (center_image a))))) := by
      rw [clip_image_small R s _ hsmall, if_pos hclip', if_pos hpart, if_neg hscale,
        if_pos he]
    rw [draw_image_of_abandoned R s im a _ hc]
    simp only
    rw [hsteps]
    simp only [cw, ch, csx, csy, csw, csh, cbx]
    refine ⟨trivial, trivial, trivial, trivial, trivial, trivial, trivial, trivial, ?_⟩
    intro h
    exact absurd h hpos

theorem small_int_rects_straddle : small_int_rects (2 ^ 20) args_straddle :=
  small_int_rects_intro (2 ^ 20) args_straddle 15 2 10 10 0 0 10 10 20 0 100 50
    (by norm_num [args_straddle]) (by norm_num)

/-- C11, witness: the unscaled 10 x 10 destination at (15, 2) straddles the left edge of the
bounds at (20, 0) by 5; after the call the widths are 5, `srcX` is 5 and `dstX` is 20. -/
theorem clip_left_straddle_shrinks_by_k_witness :
    args_straddle.dstX = args_straddle.dstBoundsX - 5 ∧
    (easy2d_draw_image_gdi gdi_replies_1 (some gdi_surface_1) (some gdi_image_2x2)
      args_straddle).args.srcWidth = 5 ∧
    (easy2d_draw_image_gdi gdi_replies_1 (some gdi_surface_1) (some gdi_image_2x2)
      args_straddle).args.dstWidth = 5 ∧
    (easy2d_draw_image_gdi gdi_replies_1 (some gdi_surface_1) (some gdi_image_2x2)
      args_straddle).args.srcX = 5 ∧
    (easy2d_draw_image_gdi gdi_replies_1 (some gdi_surface_1) (some gdi_image_2x2)
      args_straddle).args.dstX = 20 := by
  have hc : center_image args_straddle = args_straddle := if_neg (by decide)
  have h := clip_left_straddle_shrinks_by_k gdi_replies_1 gdi_surface_1 gdi_image_2x2
    args_straddle 5 (by rw [hc]; exact small_int_rects_straddle) (by decide) rfl rfl
    (by norm_num) (by norm_num [args_straddle])
    (by rw [hc]; norm_num [args_straddle]) (by rw [hc]; norm_num [args_straddle])
    (by rw [hc]; norm_num [args_straddle]) (by rw [hc]; norm_num [args_straddle])
  refine ⟨by norm_num [args_straddle], h.1.trans (by norm_num [args_straddle]),
    h.2.1.trans (by norm_num [args_straddle]), h.2.2.1.trans (by norm_num [args_straddle]),
    h.2.2.2.1.trans (by norm_num [args_straddle])⟩

/-- The clip block on the 1 x 1 destination at x = 16777216 and the bounds that end there:
the destination's right edge rounds to 16777216, so the test finds nothing outside. -/
theorem clip_image_edge_large :
    clip_image gdi_replies_1 gdi_surface_1 args_edge_large
      = .proceed args_edge_large 0 [] := by
  have e1 : f32_add args_edge_large.dstX args_edge_large.dstWidth = 16777216 := by
    unfold f32_add
    rw [show args_edge_large.dstX + args_edge_large.dstWidth = (16777217 : ℚ) by
      norm_num [args_edge_large]]
    exact f32_round_16777217
  have e2 : f32_add args_edge_large.dstBoundsX args_edge_large.dstBoundsWidth
      = 16777216 := by
    unfold f32_add
    exact (f32_round_of_int_eq _ 16777216 (by norm_num [args_edge_large]) (by norm_num)
      (by norm_num)).trans (by norm_num [args_edge_large])
  have e3 : f32_add args_edge_large.dstY args_edge_large.dstHeight = 1 := by
    unfold f32_add
    exact (f32_round_of_int_eq _ 1 (by norm_num [args_edge_large]) (by norm_num)
      (by norm_num)).trans (by norm_num [args_edge_large])
  have e4 : f32_add args_edge_large.dstBoundsY args_edge_large.dstBoundsHeight = 10 := by
    unfold f32_add
    exact (f32_round_of_int_eq _ 10 (by norm_num [args_edge_large]) (by norm_num)
      (by norm_num)).trans (by norm_num [args_edge_large])
  unfold clip_image
  rw [if_pos (by decide), e1, e2, e3, e4, if_neg (by norm_num [args_edge_large])]

/-- C12, counterexample: the unscaled 1 x 1 destination at x = 16777216 with bounds that end
at 16777216 is drawn, not abandoned, with its rectangle unchanged: the blit covers
16777216 to 16777217, outside the bounds. -/
theorem clip_may_leave_destination_outside_bounds :
    args_edge_large.options &&& EASY2D_IMAGE_CLIP_BOUNDS ≠ 0 ∧
    args_edge_large.srcWidth = args_edge_large.dstWidth ∧
    args_edge_large.srcHeight = args_edge_large.dstHeight ∧
    (easy2d_draw_image_gdi gdi_replies_1 (some gdi_surface_1) (some gdi_image_2x2)
      args_edge_large).ops =
      [.SelectObject 102 201,
       .AlphaBlend 101 16777216 0 1 1 102 0 0 1 1 ⟨AC_SRC_OVER, 0, 255, AC_SRC_ALPHA⟩,
       .SelectObject 102 203] ∧
    (easy2d_draw_image_gdi gdi_replies_1 (some gdi_surface_1) (some gdi_image_2x2)
      args_edge_large).args = args_edge_large ∧
    args_edge_large.dstX + args_edge_large.dstWidth
      > args_edge_large.dstBoundsX + args_edge_large.dstBoundsWidth := by
  rw [draw_image_plain_blit gdi_replies_1 gdi_surface_1 gdi_image_2x2 args_edge_large
    (by decide) (by decide) (by decide) clip_image_edge_large]
  refine ⟨by decide, rfl, rfl, ?_, rfl, by norm_num [args_edge_large]⟩
  have h4 : ¬ (args_edge_large.options &&& EASY2D_IMAGE_HINT_NO_ALPHA ≠ 0) := by decide
  show blit_image gdi_replies_1 gdi_surface_1 args_edge_large 201 0 = _
  unfold blit_image
  rw [if_neg h4]
  norm_num [args_edge_large, c_int, gdi_surface_1, gdi_replies_1]

/-- C12, amended: on the non-scaled clip path (clip-to-bounds set, source and destination
sizes equal), for rectangles whose coordinates and sizes, as they enter the clip step, are
integers of magnitude at most `2 ^ 20`: whenever the draw is not abandoned (some GDI call is
issued) the destination rectangle after the call, which is the one used for the blit, lies
inside the bounds rectangle on all four sides, the source and destination sizes are still
equal, and the source origin has moved by exactly as much as the destination origin has moved
from where it entered the clip step. -/
theorem clip_leaves_destination_inside_bounds (R : gdi_replies)
    (s : gdi_surface_data) (im : gdi_image) (a : easy2d_draw_image_args)
    (hsmall : small_int_rects (2 ^ 20) (center_image a))
    (hclip : a.options &&& EASY2D_IMAGE_CLIP_BOUNDS ≠ 0)
    (hw : a.srcWidth = a.dstWidth) (hh : a.srcHeight = a.dstHeight)
    (hdraw : (easy2d_draw_image_gdi R (some s) (some im) a).ops ≠ []) :
    a.dstBoundsX ≤ (easy2d_draw_image_gdi R (some s) (some im) a).args.dstX ∧
    (easy2d_draw_image_gdi R (some s) (some im) a).args.dstX
      + (easy2d_draw_image_gdi R (some s) (some im) a).args.dstWidth
      ≤ a.dstBoundsX + a.dstBoundsWidth ∧
    a.dstBoundsY ≤ (easy2d_draw_image_gdi R (some s) (some im) a).args.dstY ∧
    (easy2d_draw_image_gdi R (some s) (some im) a).args.dstY
      + (easy2d_draw_image_gdi R (some s) (some im) a).args.dstHeight
      ≤ a.dstBoundsY + a.dstBoundsHeight ∧
    (easy2d_draw_image_gdi R (some s) (some im) a).args.srcWidth
      = (easy2d_draw_image_gdi R (some s) (some im) a).args.dstWidth ∧
    (easy2d_draw_image_gdi R (some s) (some im) a).args.srcHeight
      = (easy2d_draw_image_gdi R (some s) (some im) a).args.dstHeight ∧
    (easy2d_draw_image_gdi R (some s) (some im) a).args.srcX - a.srcX
      = (easy2d_draw_image_gdi R (some s) (some im) a).args.dstX - (center_image a).dstX ∧
    (easy2d_draw_image_gdi R (some s) (some im) a).args.srcY - a.srcY
      = (easy2d_draw_image_gdi R (some s) (some im) a).args.dstY - (center_image a).dstY := by
  obtain ⟨cw, ch, csx, csy, csw, csh, cbx, cby, cbw, cbh, _, _, _, copt⟩ := center_image_frame a
  have hclip' : (center_image a).options &&& EASY2D_IMAGE_CLIP_BOUNDS ≠ 0 := by
    rw [copt]; exact hclip
  have hscale : ¬ ((center_image a).dstWidth ≠ (center_image a).srcWidth ∨
      (center_image a).dstHeight ≠ (center_image a).srcHeight) := by
    simp [cw, ch, csw, csh, hw, hh]
  by_cases hpart : (center_image a).dstX < (center_image a).dstBoundsX ∨
      (center_image a).dstX + (center_image a).dstWidth
        > (center_image a).dstBoundsX + (center_image a).dstBoundsWidth ∨
      (center_image a).dstY < (center_image a).dstBoundsY ∨
      (center_image a).dstY + (center_image a).dstHeight
        > (center_image a).dstBoundsY + (center_image a).dstBoundsHeight
  · by_cases he : (exact_clip_bottom (exact_clip_right (exact_clip_top
          (exact_clip_left (center_image a))))).dstWidth ≤ 0
        ∨ (exact_clip_bottom (exact_clip_right (exact_clip_top
          (exact_clip_left (center_image a))))).dstHeight ≤ 0
    · have hc : clip_image R s (center_image a) = .abandoned
          (exact_clip_bottom (exact_clip_right (exact_clip_top
            (exact_clip_left (center_image a))))) := by
        rw [clip_image_small R s _ hsmall, if_pos hclip', if_pos hpart, if_neg hscale,
          if_pos he]
      rw [draw_image_of_abandoned R s im a _ hc] at hdraw
      exact absurd rfl hdraw
    · have hc : clip_image R s (center_image a) = .proceed
          (exact_clip_bottom (exact_clip_right (exact_clip_top
            (exact_clip_left (center_image a))))) 0 [] := by
        rw [clip_image_small R s _ hsmall, if_pos hclip', if_pos hpart, if_neg hscale,
          if_neg he]
      rw [draw_image_of_proceed R s im a _ 0 [] hc]
      obtain ⟨fx, fy, fw, fh, fsx, fsy, fsw, fsh, _⟩ := composite_image_frame im
        (exact_clip_bottom (exact_clip_right (exact_clip_top
          (exact_clip_left (center_image a)))))
      simp only [fx, fy, fw, fh, fsx, fsy, fsw, fsh]
      have hpost := clip_steps_postcondition (center_image a) (by rw [csw, cw]; exact hw)
        (by rw [csh, ch]; exact hh)
      rw [cbx, cby, cbw, cbh, csx, csy] at hpost
      exact hpost
  · have hc : clip_image R s (center_image a) = .proceed (center_image a) 0 [] := by
      rw [clip_image_small R s _ hsmall, if_pos hclip', if_neg hpart]
    rw [draw_image_of_proceed R s im a _ 0 [] hc]
    obtain ⟨fx, fy, fw, fh, fsx, fsy, fsw, fsh, _⟩ := composite_image_frame im (center_image a)
    simp only [fx, fy, fw, fh, fsx, fsy, fsw, fsh]
    simp only [not_or, not_lt, gt_iff_lt] at hpart
    obtain ⟨p1, p2, p3, p4⟩ := hpart
    rw [cbx, cw, cbw] at p2
    rw [cby, ch, cbh] at p4
    rw [cbx] at p1
    rw [cby] at p3
    refine ⟨p1, ?_, p3, ?_, ?_, ?_, ?_, ?_⟩
    · rw [cw]; exact p2
    · rw [ch]; exact p4
    · rw [csw, cw]; exact hw
    · rw [csh, ch]; exact hh
    · rw [csx]; ring
    · rw [csy]; ring

/-- C12, witness: the draw of the straddling 10 x 10 destination is not abandoned, and the
rectangle after the call starts at the bounds' left edge. -/
theorem clip_leaves_destination_inside_bounds_witness :
    (easy2d_draw_image_gdi gdi_replies_1 (some gdi_surface_1) (some gdi_image_2x2)
      args_straddle).ops ≠ [] ∧
    args_straddle.dstBoundsX ≤
      (easy2d_draw_image_gdi gdi_replies_1 (some gdi_surface_1) (some gdi_image_2x2)
        args_straddle).args.dstX := by
  have hc : center_image args_straddle = args_straddle := if_neg (by decide)
  have hd : (easy2d_draw_image_gdi gdi_replies_1 (some gdi_surface_1) (some gdi_image_2x2)
      args_straddle).ops ≠ [] := by
    apply draw_image_ops_ne_nil gdi_replies_1 gdi_surface_1 gdi_image_2x2 args_straddle _ 0 []
    rw [hc]
    exact clip_image_left_straddle gdi_replies_1 gdi_surface_1 args_straddle 5
      small_int_rects_straddle (by decide) rfl
      rfl (by norm_num) (by norm_num [args_straddle]) (by norm_num [args_straddle])
      (by norm_num [args_straddle]) (by norm_num [args_straddle])
      (by norm_num [args_straddle]) (by norm_num [args_straddle])
  exact ⟨hd, (clip_leaves_destination_inside_bounds gdi_replies_1 gdi_surface_1 gdi_image_2x2
    args_straddle (by rw [hc]; exact small_int_rects_straddle) (by decide) rfl rfl hd).1⟩

/-! ### Texels and the compositing loop -/

theorem mask_testBit (k j : Nat) : ((2 ^ 8 - 1) <<< k).testBit (k + j) = decide (j < 8) := by
  rw [Nat.testBit_shiftLeft, Nat.add_sub_cancel_left, Nat.testBit_two_pow_sub_one]
  simp

theorem texel_alpha_eq (t : Nat) : texel_alpha t = t / 2 ^ 24 % 2 ^ 8 := by
  apply Nat.eq_of_testBit_eq
  intro j
  have hm : (0xFF000000 : Nat) = (2 ^ 8 - 1) <<< 24 := by decide
  rw [texel_alpha, hm, Nat.testBit_shiftRight, Nat.testBit_and, mask_testBit,
    Nat.testBit_mod_two_pow, ← Nat.shiftRight_eq_div_pow, Nat.testBit_shiftRight, Bool.and_comm]

theorem texel_red_eq (t : Nat) : texel_red t = t / 2 ^ 16 % 2 ^ 8 := by
  apply Nat.eq_of_testBit_eq
  intro j
  have hm : (0x00FF0000 : Nat) = (2 ^ 8 - 1) <<< 16 := by decide
  rw [texel_red, hm, Nat.testBit_shiftRight, Nat.testBit_and, mask_testBit,
    Nat.testBit_mod_two_pow, ← Nat.shiftRight_eq_div_pow, Nat.testBit_shiftRight, Bool.and_comm]

theorem texel_green_eq (t : Nat) : texel_green t = t / 2 ^ 8 % 2 ^ 8 := by
  apply Nat.eq_of_testBit_eq
  intro j
  have hm : (0x0000FF00 : Nat) = (2 ^ 8 - 1) <<< 8 := by decide
  rw [texel_green, hm, Nat.testBit_shiftRight, Nat.testBit_and, mask_testBit,
    Nat.testBit_mod_two_pow, ← Nat.shiftRight_eq_div_pow, Nat.testBit_shiftRight, Bool.and_comm]

theorem texel_blue_eq (t : Nat) : texel_blue t = t % 2 ^ 8 := by
  have hm : (0x000000FF : Nat) = 2 ^ 8 - 1 := by decide
  rw [texel_blue, hm, Nat.and_pow_two_sub_one_eq_mod]
  rfl

theorem texel_pack_eq (r g b a : Nat) (hr : r < 256) (hg : g < 256) (hb : b < 256)
    (ha : a < 256) : texel_pack r g b a = a * 2 ^ 24 + r * 2 ^ 16 + g * 2 ^ 8 + b := by
  have h3 : 2 ^ 8 * g + b = 2 ^ 8 * g ||| b := Nat.mul_add_lt_is_or (by omega) g
  have h2 : 2 ^ 16 * r + (2 ^ 8 * g + b) = 2 ^ 16 * r ||| (2 ^ 8 * g + b) :=
    Nat.mul_add_lt_is_or (by omega) r
  have h1 : 2 ^ 24 * a + (2 ^ 16 * r + (2 ^ 8 * g + b))
      = 2 ^ 24 * a ||| (2 ^ 16 * r + (2 ^ 8 * g + b)) :=
    Nat.mul_add_lt_is_or (by omega) a
  have hlt : 2 ^ 24 * a + (2 ^ 16 * r + (2 ^ 8 * g + b)) < 2 ^ 32 := by omega
  have hor : (r <<< 16) ||| (g <<< 8) ||| (b <<< 0) ||| (a <<< 24)
      = 2 ^ 24 * a + (2 ^ 16 * r + (2 ^ 8 * g + b)) := by
    rw [h1, h2, h3]
    simp only [Nat.shiftLeft_eq, Nat.pow_zero, Nat.mul_one]
    apply Nat.eq_of_testBit_eq
    intro j
    simp only [Nat.testBit_or, Nat.mul_comm _ (2 ^ _)]
    cases Nat.testBit (2 ^ 16 * r) j <;> cases Nat.testBit (2 ^ 8 * g) j <;>
      cases Nat.testBit b j <;> cases Nat.testBit (2 ^ 24 * a) j <;> rfl
  unfold texel_pack
  rw [hor, Nat.mod_eq_of_lt hlt]
  omega

theorem c_uint_byte_scale (c t : Nat) :
    c_uint ((c : c_float) * ((t : c_float) / 255)) = c * t / 255 := by
  unfold c_uint
  have h : (c : c_float) * ((t : c_float) / 255) = ((c * t : Nat) : c_float) / ((255 : Nat) : c_float) := by
    push_cast
    ring
  rw [h, Nat.floor_div_eq_div]

theorem clamp_eq_min (x : Nat) : (if x > 255 then 255 else x) = min 255 x := by
  split_ifs with h
  · omega
  · omega

theorem composite_texel_eq_reference (a : easy2d_draw_image_args) (t : Nat) :
    composite_texel a t = reference_texel a t := by
  unfold composite_texel reference_texel reference_channel texel_pack texel_red texel_green
    texel_blue texel_alpha
  simp only [c_uint_byte_scale, clamp_eq_min]
  by_cases hbg : a.options &&& EASY2D_IMAGE_DRAW_BACKGROUND ≠ 0
  · simp [hbg]
  · simp [hbg]

theorem row_fold_length (g : Nat → Nat) (base : Nat) (m : Nat) (L : List Nat) :
    ((List.range m).foldl (fun dst iCol => dst.set (base + iCol) (g (base + iCol))) L).length
      = L.length := by
  induction m with
  | zero => simp
  | succ m ih => simp [List.range_succ, List.foldl_append, ih]

theorem row_fold_get (g : Nat → Nat) (base : Nat) (m : Nat) (L : List Nat) (j : Nat) :
    ((List.range m).foldl (fun dst iCol => dst.set (base + iCol) (g (base + iCol))) L)[j]?
      = if base ≤ j ∧ j < base + m ∧ j < L.length then some (g j) else L[j]? := by
  induction m with
  | zero =>
    have : ¬ (base ≤ j ∧ j < base + 0 ∧ j < L.length) := by omega
    rw [List.range_zero, List.foldl_nil, if_neg this]
  | succ m ih =>
    rw [List.range_succ, List.foldl_append, List.foldl_cons, List.foldl_nil, List.getElem?_set,
      row_fold_length, ih]
    by_cases h1 : base + m = j
    · subst h1
      by_cases h2 : base + m < L.length
      · have : base ≤ base + m ∧ base + m < base + (m + 1) ∧ base + m < L.length := by omega
        simp [h2, this]
      · have h3 : ¬ (base ≤ base + m ∧ base + m < base + (m + 1) ∧ base + m < L.length) := by
          omega
        have h4 : L[base + m]? = none := List.getElem?_eq_none (by omega)
        simp [h2, h3, h4]
    · by_cases h2 : base ≤ j ∧ j < base + m ∧ j < L.length
      · have : base ≤ j ∧ j < base + (m + 1) ∧ j < L.length := by omega
        simp [h1, h2, this]
      · have : ¬ (base ≤ j ∧ j < base + (m + 1) ∧ j < L.length) := by omega
        simp [h1, h2, this]

theorem bitmap_fold_length (g : Nat → Nat) (w : Nat) (h : Nat) (L : List Nat) :
    ((List.range h).foldl
      (fun dst iRow =>
        (List.range w).foldl
          (fun dst iCol =>
            dst.set ((iRow * w) % 2 ^ 32 + iCol) (g ((iRow * w) % 2 ^ 32 + iCol)))
          dst) L).length = L.length := by
  induction h with
  | zero => simp
  | succ h ih =>
    rw [List.range_succ, List.foldl_append, List.foldl_cons, List.foldl_nil, row_fold_length, ih]

theorem bitmap_fold_get (g : Nat → Nat) (w : Nat) (h : Nat) (L : List Nat) (j : Nat)
    (hsz : h * w ≤ 2 ^ 32) :
    ((List.range h).foldl
      (fun dst iRow =>
        (List.range w).foldl
          (fun dst iCol =>
            dst.set ((iRow * w) % 2 ^ 32 + iCol) (g ((iRow * w) % 2 ^ 32 + iCol)))
          dst) L)[j]?
      = if j < h * w ∧ j < L.length then some (g j) else L[j]? := by
  induction h with
  | zero => simp
  | succ h ih =>
    have hmul : (h + 1) * w = h * w + w := Nat.succ_mul h w
    rw [List.range_succ, List.foldl_append, List.foldl_cons, List.foldl_nil, row_fold_get,
      bitmap_fold_length, ih (by omega)]
    by_cases hw : w = 0
    · subst hw
      simp
    · have hbase : (h * w) % 2 ^ 32 = h * w := Nat.mod_eq_of_lt (by omega)
      rw [hbase, hmul]
      by_cases h1 : j < L.length
      · by_cases h2 : j < h * w
        · have h3 : ¬ (h * w ≤ j ∧ j < h * w + w ∧ j < L.length) := by omega
          have h4 : j < h * w + w ∧ j < L.length := by omega
          simp [h1, h2, h3, h4]
        · by_cases h5 : j < h * w + w
          · have h3 : h * w ≤ j ∧ j < h * w + w ∧ j < L.length := by omega
            simp [h1, h3, h5]
          · have h3 : ¬ (h * w ≤ j ∧ j < h * w + w ∧ j < L.length) := by omega
            simp [h1, h2, h3, h5]
      · simp [h1]

theorem composite_bitmap_eq (a : easy2d_draw_image_args) (width height : Nat)
    (src dst : List Nat) (hlen : dst.length = width * height)
    (hsz : width * height ≤ 2 ^ 32) :
    composite_bitmap a width height src dst
      = (List.range (width * height)).map (fun i => composite_texel a (src.getD i 0)) := by
  apply List.ext_getElem?
  intro j
  unfold composite_bitmap
  rw [bitmap_fold_get (fun i => composite_texel a (src.getD i 0)) width height dst j
    (by rw [Nat.mul_comm]; exact hsz), List.getElem?_map]
  by_cases hj : j < width * height
  · have h2 : j < height * width ∧ j < dst.length := by
      rw [hlen, Nat.mul_comm height width]
      exact ⟨hj, hj⟩
    rw [if_pos h2, List.getElem?_range hj]
    rfl
  · have h2 : ¬ (j < height * width ∧ j < dst.length) := by
      rw [hlen, Nat.mul_comm height width]
      exact fun h => hj h.1
    rw [if_neg h2, List.getElem?_eq_none (by omega), List.getElem?_eq_none (by simp; omega)]
    rfl

/-! ### The GDI calls of a draw -/

theorem clip_steps_frame (b : easy2d_draw_image_args) :
    (clip_bottom (clip_right (clip_top (clip_left b)))).options = b.options ∧
    (clip_bottom (clip_right (clip_top (clip_left b)))).foregroundTint = b.foregroundTint ∧
    (clip_bottom (clip_right (clip_top (clip_left b)))).backgroundColor = b.backgroundColor ∧
    (clip_bottom (clip_right (clip_top (clip_left b)))).boundsColor = b.boundsColor := by
  unfold clip_bottom clip_right clip_top clip_left
  split_ifs <;> exact ⟨rfl, rfl, rfl, rfl⟩

/-- The three ways the clip block can end.  Whenever it does not abandon the draw, the
options and the three colours are those it was given. -/
theorem clip_image_cases (R : gdi_replies) (s : gdi_surface_data)
    (b0 : easy2d_draw_image_args) :
    (∃ b, clip_image R s b0 = .abandoned b) ∨
    (∃ b, clip_image R s b0 = .proceed b 0 [] ∧ b.options = b0.options ∧
      b.foregroundTint = b0.foregroundTint ∧ b.backgroundColor = b0.backgroundColor ∧
      b.boundsColor = b0.boundsColor) ∨
    clip_image R s b0 = .proceed b0 R.SaveDC [.SaveDC s.hDC] := by
  unfold clip_image
  by_cases h1 : b0.options &&& EASY2D_IMAGE_CLIP_BOUNDS ≠ 0
  · rw [if_pos h1]
    by_cases h2 : b0.dstX < b0.dstBoundsX ∨
        f32_add b0.dstX b0.dstWidth > f32_add b0.dstBoundsX b0.dstBoundsWidth ∨
        b0.dstY < b0.dstBoundsY ∨
        f32_add b0.dstY b0.dstHeight > f32_add b0.dstBoundsY b0.dstBoundsHeight
    · rw [if_pos h2]
      by_cases h3 : b0.dstWidth ≠ b0.srcWidth ∨ b0.dstHeight ≠ b0.srcHeight
      · rw [if_pos h3]
        exact Or.inr (Or.inr rfl)
      · rw [if_neg h3]
        simp only
        by_cases h4 : (clip_bottom (clip_right (clip_top (clip_left b0)))).dstWidth ≤ 0 ∨
            (clip_bottom (clip_right (clip_top (clip_left b0)))).dstHeight ≤ 0
        · rw [if_pos h4]
          exact Or.inl ⟨_, rfl⟩
        · rw [if_neg h4]
          exact Or.inr (Or.inl ⟨_, rfl, clip_steps_frame b0⟩)
    · rw [if_neg h2]
      exact Or.inr (Or.inl ⟨_, rfl, rfl, rfl, rfl, rfl⟩)
  · rw [if_neg h1]
    exact Or.inr (Or.inl ⟨_, rfl, rfl, rfl, rfl, rfl⟩)

theorem composite_texel_congr (a b : easy2d_draw_image_args)
    (h1 : b.options = a.options) (h2 : b.foregroundTint = a.foregroundTint)
    (h3 : b.backgroundColor = a.backgroundColor) :
    composite_texel b = composite_texel a := by
  funext t
  unfold composite_texel
  rw [h1, h2, h3]

theorem composite_bitmap_congr (a b : easy2d_draw_image_args)
    (h1 : b.options = a.options) (h2 : b.foregroundTint = a.foregroundTint)
    (h3 : b.backgroundColor = a.backgroundColor) (width height : Nat) (src dst : List Nat) :
    composite_bitmap b width height src dst = composite_bitmap a width height src dst := by
  unfold composite_bitmap
  rw [composite_texel_congr a b h1 h2 h3]

theorem composite_image_congr_fast (im : gdi_image) (a b : easy2d_draw_image_args)
    (h1 : b.options = a.options) (h2 : b.foregroundTint = a.foregroundTint)
    (hfast : a.options &&& EASY2D_IMAGE_DRAW_BACKGROUND = 0 ∧ a.foregroundTint.r = 255 ∧
      a.foregroundTint.g = 255 ∧ a.foregroundTint.b = 255) :
    composite_image im b
      = { args := b, image := im, hSrcBitmap := im.data.hSrcBitmap, ops := [] } := by
  unfold composite_image
  rw [h1, h2, if_pos hfast]

theorem composite_image_slow (im : gdi_image) (a b : easy2d_draw_image_args)
    (h1 : b.options = a.options) (h2 : b.foregroundTint = a.foregroundTint)
    (h3 : b.backgroundColor = a.backgroundColor)
    (hslow : ¬ (a.options &&& EASY2D_IMAGE_DRAW_BACKGROUND = 0 ∧ a.foregroundTint.r = 255 ∧
      a.foregroundTint.g = 255 ∧ a.foregroundTint.b = 255)) :
    (composite_image im b).image.data.pIntermediateBitmapData =
      composite_bitmap a im.width im.height im.data.pSrcBitmapData
        im.data.pIntermediateBitmapData ∧
    (composite_image im b).hSrcBitmap = im.data.hIntermediateBitmap ∧
    (composite_image im b).ops = [.GdiFlush] := by
  unfold composite_image
  rw [h1, h2, if_neg hslow]
  simp only
  rw [composite_bitmap_congr a b h1 h2 h3]
  refine ⟨?_, ?_, ?_⟩ <;> first | rfl | trivial

theorem composite_image_ops_cases (im : gdi_image) (b : easy2d_draw_image_args) :
    (composite_image im b).ops = [] ∨ (composite_image im b).ops = [.GdiFlush] := by
  unfold composite_image
  by_cases hc : b.options &&& EASY2D_IMAGE_DRAW_BACKGROUND = 0 ∧ b.foregroundTint.r = 255 ∧
      b.foregroundTint.g = 255 ∧ b.foregroundTint.b = 255
  · rw [if_pos hc]
    exact Or.inl rfl
  · rw [if_neg hc]
    exact Or.inr rfl

/-- The compositing block never touches the header of the image, its source bitmap or the
two bitmap handles. -/
theorem composite_image_keeps_source (im : gdi_image) (b : easy2d_draw_image_args) :
    (composite_image im b).image.pContext = im.pContext ∧
    (composite_image im b).image.width = im.width ∧
    (composite_image im b).image.height = im.height ∧
    (composite_image im b).image.data.hSrcBitmap = im.data.hSrcBitmap ∧
    (composite_image im b).image.data.pSrcBitmapData = im.data.pSrcBitmapData ∧
    (composite_image im b).image.data.hIntermediateBitmap = im.data.hIntermediateBitmap := by
  unfold composite_image
  by_cases hc : b.options &&& EASY2D_IMAGE_DRAW_BACKGROUND = 0 ∧ b.foregroundTint.r = 255 ∧
      b.foregroundTint.g = 255 ∧ b.foregroundTint.b = 255
  · rw [if_pos hc]
    exact ⟨rfl, rfl, rfl, rfl, rfl, rfl⟩
  · rw [if_neg hc]
    exact ⟨rfl, rfl, rfl, rfl, rfl, rfl⟩

theorem draw_bounds_cases (s : gdi_surface_data) (a : easy2d_draw_image_args) :
    draw_bounds s a = [] ∨
    ∃ pPoints polyCount, draw_bounds s a =
      [.SelectObject s.hDC s.hStockNullPen, .SelectObject s.hDC s.hStockDCBrush,
       .SetDCBrushColor s.hDC a.boundsColor.r a.boundsColor.g a.boundsColor.b,
       .PolyPolygon s.hDC pPoints polyCount] := by
  unfold draw_bounds
  by_cases h1 : a.options &&& EASY2D_IMAGE_DRAW_BOUNDS ≠ 0
  · rw [if_pos h1]
    simp only
    by_cases h2 : (bounds_left a ++ bounds_right a ++ bounds_top a ++ bounds_bottom a).length / 4
        > 0
    · rw [if_pos h2]
      exact Or.inr ⟨_, _, rfl⟩
    · rw [if_neg h2]
      exact Or.inl rfl
  · rw [if_neg h1]
    exact Or.inl rfl

theorem draw_bounds_no_clip_no_blit (s : gdi_surface_data) (a : easy2d_draw_image_args) :
    (draw_bounds s a).any is_clip_op = false ∧ (draw_bounds s a).filter is_blit = [] ∧
    GdiOp.GdiFlush ∉ draw_bounds s a := by
  rcases draw_bounds_cases s a with h | ⟨pPoints, polyCount, h⟩
  · rw [h]
    simp
  · rw [h]
    simp [is_clip_op, is_blit]

theorem hint_no_alpha_set (x : Nat) :
    (x ||| EASY2D_IMAGE_HINT_NO_ALPHA) &&& EASY2D_IMAGE_HINT_NO_ALPHA ≠ 0 := by
  intro h
  have h4 := congrArg (fun n => Nat.testBit n 4) h
  have h16 : Nat.testBit 16 4 = true := by decide
  simp [EASY2D_IMAGE_HINT_NO_ALPHA, h16] at h4

/-- The options after the call in a draw that is not abandoned: the no-alpha hint is set
exactly when the caller set it or asked for the background. -/
theorem composite_image_hint (im : gdi_image) (a b : easy2d_draw_image_args)
    (h1 : b.options = a.options) :
    ((composite_image im b).args.options &&& EASY2D_IMAGE_HINT_NO_ALPHA ≠ 0) ↔
      (a.options &&& EASY2D_IMAGE_HINT_NO_ALPHA ≠ 0 ∨
        a.options &&& EASY2D_IMAGE_DRAW_BACKGROUND ≠ 0) := by
  unfold composite_image
  rw [h1]
  by_cases hbg : a.options &&& EASY2D_IMAGE_DRAW_BACKGROUND ≠ 0
  · have hn : ¬ (a.options &&& EASY2D_IMAGE_DRAW_BACKGROUND = 0 ∧ b.foregroundTint.r = 255 ∧
        b.foregroundTint.g = 255 ∧ b.foregroundTint.b = 255) := fun h => hbg h.1
    rw [if_neg hn]
    simp only
    rw [if_pos hbg]
    simp only
    exact ⟨fun _ => Or.inr hbg, fun _ => hint_no_alpha_set a.options⟩
  · by_cases hc : a.options &&& EASY2D_IMAGE_DRAW_BACKGROUND = 0 ∧ b.foregroundTint.r = 255 ∧
        b.foregroundTint.g = 255 ∧ b.foregroundTint.b = 255
    · rw [if_pos hc]
      simp only
      rw [h1]
      exact ⟨fun h => Or.inl h, fun h => h.resolve_right hbg⟩
    · rw [if_neg hc]
      simp only
      rw [if_neg hbg, h1]
      exact ⟨fun h => Or.inl h, fun h => h.resolve_right hbg⟩

theorem c_int_intCast (z : Int) : c_int ((z : Int) : c_float) = z := by
  unfold c_int
  split_ifs
  · exact Int.floor_intCast z
  · exact Int.ceil_intCast z

/-! ### Text cursor hit-testing -/

theorem cursor_scan_succ (L : List Int) (maxWidth X : c_float) (m : Nat) :
    cursor_scan L maxWidth X (m + 1)
      = cursor_step L maxWidth X (cursor_scan L maxWidth X m) m := by
  unfold cursor_scan
  rw [List.range_succ, List.foldl_append, List.foldl_cons, List.foldl_nil]

theorem cursor_scan_no_hit (L : List Int) (maxWidth X : c_float) (m : Nat)
    (h : ∀ k, k < m → ¬ (X ≥ char_bounds_left L k ∧ X ≤ char_bounds_right L maxWidth k)) :
    cursor_scan L maxWidth X m = { characterIndex := 0, textCursorPosX := 0 } := by
  induction m with
  | zero => rfl
  | succ m ih =>
    rw [cursor_scan_succ, ih (fun k hk => h k (by omega))]
    unfold cursor_step
    simp only
    rw [if_neg (h m (by omega))]

theorem cursor_scan_last_hit (L : List Int) (maxWidth X : c_float) (m j : Nat) (hj : j < m)
    (hhit : X ≥ char_bounds_left L j ∧ X ≤ char_bounds_right L maxWidth j)
    (hlast : ∀ k, j < k → k < m →
      ¬ (X ≥ char_bounds_left L k ∧ X ≤ char_bounds_right L maxWidth k)) :
    cursor_scan L maxWidth X m =
      if X ≤ f32_add (char_bounds_left L j)
          (c_ceilf (f32_div (f32_sub (char_bounds_right L maxWidth j)
            (char_bounds_left L j)) 2)) then
        { characterIndex := j, textCursorPosX := char_bounds_left L j }
      else
        { characterIndex := j + 1, textCursorPosX := char_bounds_right L maxWidth j } := by
  induction m with
  | zero => omega
  | succ m ih =>
    rw [cursor_scan_succ]
    by_cases hjm : j = m
    · subst hjm
      unfold cursor_step
      simp only
      rw [if_pos hhit]
    · have hne := hlast m (by omega) (by omega)
      rw [ih (by omega) (fun k h1 h2 => hlast k h1 (by omega))]
      unfold cursor_step
      simp only
      rw [if_neg hne]

theorem to_wchar_hDC (W : win32_text) (c : gdi_context_data) (text : Option (List Nat))
    (n : Nat) (out : Option Nat) :
    ((easy2d_to_wchar_gdi W (some c) text n out).ctx.getD c).hDC = c.hDC := by
  unfold easy2d_to_wchar_gdi
  cases text with
  | none => rfl
  | some txt =>
    simp only
    split_ifs <;> rfl

theorem from_point_of_layout (W : win32_text) (font : gdi_font_data) (c : gdi_context_data)
    (text : Option (List Nat)) (n : Nat) (maxWidth X : c_float) (px : Option c_float)
    (pi : Option Nat) (textW : List Nat) (g : Nat → Nat) (carets : List Int)
    (hconv : (easy2d_to_wchar_gdi W (some c) text n (some 0)).ret = some textW)
    (hmalloc : W.malloc (sizeof_int * uint_of_size_t n) = some g)
    (hlayout : W.GetCharacterPlacementW c.hDC font.hFont textW (uint_of_size_t n)
      (c_int maxWidth) (GCP_MAXEXTENT ||| GCP_USEKERNING) = some carets) :
    easy2d_get_text_cursor_position_from_point_gdi W (some font) c text n maxWidth X px pi =
      .ok ⟨true, px.map (fun _ => (cursor_scan carets maxWidth X carets.length).textCursorPosX),
        pi.map (fun _ => (cursor_scan carets maxWidth X carets.length).characterIndex),
        (easy2d_to_wchar_gdi W (some c) text n (some 0)).ctx.getD c⟩ := by
  unfold easy2d_get_text_cursor_position_from_point_gdi
  simp only [hconv, hmalloc, to_wchar_hDC, hlayout]

/-! ### The draw as a whole -/

theorem blit_image_no_clip (R : gdi_replies) (s : gdi_surface_data)
    (a : easy2d_draw_image_args) (hSrcBitmap : Handle) (prevDC : Int) :
    (blit_image R s a hSrcBitmap prevDC).any is_clip_op = false ∧
    GdiOp.GdiFlush ∉ blit_image R s a hSrcBitmap prevDC := by
  unfold blit_image
  split_ifs <;> simp [is_clip_op]

/-- Every draw either issues no GDI call and leaves the image as it was, or passes the clip
block with the caller's options and colours, having issued at most a `SaveDC`. -/
theorem draw_image_cases (R : gdi_replies) (s : gdi_surface_data) (im : gdi_image)
    (a : easy2d_draw_image_args) :
    ((easy2d_draw_image_gdi R (some s) (some im) a).ops = [] ∧
      (easy2d_draw_image_gdi R (some s) (some im) a).image = some im) ∨
    ∃ b prevDC clipOps, clip_image R s (center_image a) = .proceed b prevDC clipOps ∧
      b.options = a.options ∧ b.foregroundTint = a.foregroundTint ∧
      b.backgroundColor = a.backgroundColor ∧ (clipOps = [] ∨ clipOps = [.SaveDC s.hDC]) := by
  obtain ⟨_, _, _, _, _, _, _, _, _, _, ct, cb, _, copt⟩ := center_image_frame a
  rcases clip_image_cases R s (center_image a) with ⟨b, h⟩ | ⟨b, h, h1, h2, h3, _⟩ | h
  · left
    rw [draw_image_of_abandoned R s im a b h]
    exact ⟨rfl, rfl⟩
  · right
    exact ⟨b, 0, [], h, h1.trans copt, h2.trans ct, h3.trans cb, Or.inl rfl⟩
  · right
    exact ⟨_, _, _, h, copt, ct, cb, Or.inr rfl⟩

theorem blit_image_filter (R : gdi_replies) (s : gdi_surface_data)
    (a : easy2d_draw_image_args) (hSrcBitmap : Handle) (prevDC : Int) :
    (blit_image R s a hSrcBitmap prevDC).filter is_blit =
      if a.options &&& EASY2D_IMAGE_HINT_NO_ALPHA ≠ 0 then
        [.StretchBlt s.hDC (c_int a.dstX) (c_int a.dstY) (c_int a.dstWidth) (c_int a.dstHeight)
          s.hIntermediateDC (c_int a.srcX) (c_int a.srcY) (c_int a.srcWidth)
          (c_int a.srcHeight) SRCCOPY]
      else
        [.AlphaBlend s.hDC (c_int a.dstX) (c_int a.dstY) (c_int a.dstWidth) (c_int a.dstHeight)
          s.hIntermediateDC (c_int a.srcX) (c_int a.srcY) (c_int a.srcWidth)
          (c_int a.srcHeight)
          { BlendOp := AC_SRC_OVER, BlendFlags := 0, SourceConstantAlpha := 255,
            AlphaFormat := AC_SRC_ALPHA }] := by
  unfold blit_image
  split_ifs <;> simp [is_blit]

/-- The GDI calls of a draw that passed the clip block, filtered to the blits. -/
theorem draw_image_blits (R : gdi_replies) (s : gdi_surface_data) (im : gdi_image)
    (a b : easy2d_draw_image_args) (prevDC : Int) (clipOps : List GdiOp)
    (h : clip_image R s (center_image a) = .proceed b prevDC clipOps)
    (hc : clipOps = [] ∨ clipOps = [.SaveDC s.hDC]) :
    (easy2d_draw_image_gdi R (some s) (some im) a).ops.filter is_blit =
      (blit_image R s (easy2d_draw_image_gdi R (some s) (some im) a).args
        (composite_image im b).hSrcBitmap prevDC).filter is_blit := by
  rw [draw_image_of_proceed R s im a b prevDC clipOps h]
  simp only [List.filter_append, (draw_bounds_no_clip_no_blit s _).2.1, List.append_nil]
  have h1 : clipOps.filter is_blit = [] := by
    rcases hc with hc | hc <;> rw [hc] <;> rfl
  have h2 : (composite_image im b).ops.filter is_blit = [] := by
    rcases composite_image_ops_cases im b with hc | hc <;> rw [hc] <;> rfl
  rw [h1, h2]
  rfl

theorem map_range_getD (f : Nat → Nat) (l : List Nat) (n : Nat) (h : l.length = n) :
    (List.range n).map (fun i => f (l.getD i 0)) = l.map f := by
  subst h
  apply List.ext_getElem?
  intro j
  rw [List.getElem?_map, List.getElem?_map]
  by_cases hj : j < l.length
  · rw [List.getElem?_range hj, List.getElem?_eq_getElem hj]
    simp [List.getD_eq_getElem?_getD, List.getElem?_eq_getElem hj]
  · rw [List.getElem?_eq_none (by simp; omega), List.getElem?_eq_none (by omega)]
    rfl

/-- The slow path of a draw that is not abandoned stores, in the intermediate bitmap, the
composited source texels. -/
theorem draw_image_slow_intermediate (R : gdi_replies) (s : gdi_surface_data)
    (im : gdi_image) (a : easy2d_draw_image_args)
    (hslow : ¬ (a.options &&& EASY2D_IMAGE_DRAW_BACKGROUND = 0 ∧ a.foregroundTint.r = 255 ∧
      a.foregroundTint.g = 255 ∧ a.foregroundTint.b = 255))
    (hdraw : (easy2d_draw_image_gdi R (some s) (some im) a).ops ≠ [])
    (hsrc : im.data.pSrcBitmapData.length = im.width * im.height)
    (hdst : im.data.pIntermediateBitmapData.length = im.width * im.height)
    (hsz : im.width * im.height ≤ 2 ^ 32) :
    ∃ im1, (easy2d_draw_image_gdi R (some s) (some im) a).image = some im1 ∧
      im1.data.pIntermediateBitmapData = im.data.pSrcBitmapData.map (composite_texel a) ∧
      GdiOp.GdiFlush ∈ (easy2d_draw_image_gdi R (some s) (some im) a).ops := by
  rcases draw_image_cases R s im a with ⟨h, _⟩ | ⟨b, prevDC, clipOps, h, h1, h2, h3, _⟩
  · exact absurd h hdraw
  · rw [draw_image_of_proceed R s im a b prevDC clipOps h]
    obtain ⟨e1, _, e3⟩ := composite_image_slow im a b h1 h2 h3 hslow
    refine ⟨_, rfl, ?_, ?_⟩
    · rw [e1, composite_bitmap_eq a im.width im.height _ _ hdst hsz,
        map_range_getD (composite_texel a) _ _ hsrc]
    · simp [e3]

/-- The per-texel transform under the tint (128, 0, 0) without background. -/
theorem composite_texel_tint_red (a : easy2d_draw_image_args) (t : Nat)
    (hr : a.foregroundTint.r = 128) (hg : a.foregroundTint.g = 0)
    (hb : a.foregroundTint.b = 0) (hbg : a.options &&& EASY2D_IMAGE_DRAW_BACKGROUND = 0) :
    texel_red (composite_texel a t) = texel_red t * 128 / 255 ∧
    texel_green (composite_texel a t) = 0 ∧ texel_blue (composite_texel a t) = 0 ∧
    texel_alpha (composite_texel a t) = texel_alpha t := by
  rw [composite_texel_eq_reference]
  unfold reference_texel reference_channel
  simp only [hbg, hr, hg, hb, ne_eq, not_true_eq_false, decide_False, if_false,
    Bool.false_eq_true, Nat.add_zero]
  have e1 := texel_red_eq t
  have e4 := texel_alpha_eq t
  have k1 : min 255 (texel_red t * 128 / 255) = texel_red t * 128 / 255 := by omega
  have k2 : min 255 (texel_green t * 0 / 255) = 0 := by omega
  have k3 : min 255 (texel_blue t * 0 / 255) = 0 := by omega
  have hq : texel_red t * 128 / 255 < 256 := by omega
  have hA : texel_alpha t < 256 := by omega
  rw [k1, k2, k3]
  clear e1 e4 k1 k2 k3
  generalize texel_red t * 128 / 255 = q at hq ⊢
  generalize texel_alpha t = A at hA ⊢
  rw [texel_pack_eq q 0 0 A hq (by omega) (by omega) hA, texel_red_eq, texel_green_eq,
    texel_blue_eq, texel_alpha_eq]
  omega

/-! ### Clipping, compositing and the blit -/

/-- C13, the code on the scaled clip path: no call of `easy2d_draw_image_gdi` installs a clip
region, whatever the arguments.  At the failing input (a 10 x 10 source stretched to 20 x 20 at
(-5, 0), clip-to-bounds set, bounds 10 x 10 at (0, 0)) the GDI calls are `SaveDC`, the
selection of the source bitmap, the blit to the whole destination rectangle (-5, 0, 20, 20),
the selection of the previous bitmap and `RestoreDC`: nothing restricts the blit to the
bounds. -/
theorem scaled_clip_installs_no_clip_region (R : gdi_replies) (s : gdi_surface_data)
    (im : gdi_image) (a : easy2d_draw_image_args) :
    (easy2d_draw_image_gdi R (some s) (some im) a).ops.any is_clip_op = false ∧
    (easy2d_draw_image_gdi gdi_replies_1 (some gdi_surface_1) (some gdi_image_2x2)
        args_scaled).ops =
      [.SaveDC 101, .SelectObject 102 201,
        .AlphaBlend 101 (-5) 0 20 20 102 0 0 10 10
          { BlendOp := AC_SRC_OVER, BlendFlags := 0, SourceConstantAlpha := 255,
            AlphaFormat := AC_SRC_ALPHA },
        .SelectObject 102 203, .RestoreDC 101 1] := by
  constructor
  · rcases clip_image_cases R s (center_image a) with ⟨b, h⟩ | ⟨b, h, _⟩ | h
    · rw [draw_image_of_abandoned R s im a b h]
      rfl
    · rw [draw_image_of_proceed R s im a b 0 [] h]
      simp only [List.any_append, List.nil_append, (draw_bounds_no_clip_no_blit s _).1,
        (blit_image_no_clip R s _ _ _).1, Bool.or_false]
      rcases composite_image_ops_cases im b with hc | hc <;> rw [hc] <;> rfl
    · rw [draw_image_of_proceed R s im a _ _ _ h]
      simp only [List.any_append, (draw_bounds_no_clip_no_blit s _).1,
        (blit_image_no_clip R s _ _ _).1, Bool.or_false]
      rcases composite_image_ops_cases im (center_image a) with hc | hc <;> rw [hc] <;> rfl
  · have hc : center_image args_scaled = args_scaled := if_neg (by decide)
    have hclip : clip_image gdi_replies_1 gdi_surface_1 (center_image args_scaled)
        = .proceed args_scaled 1 [.SaveDC 101] := by
      rw [hc]
      unfold clip_image
      rw [if_pos (by decide), if_pos (Or.inl (by norm_num [args_scaled])),
        if_pos (Or.inl (by norm_num [args_scaled]))]
      rfl
    have hfast := composite_image_congr_fast gdi_image_2x2 args_scaled args_scaled rfl rfl
      ⟨by decide, rfl, rfl, rfl⟩
    have hb : draw_bounds gdi_surface_1 args_scaled = [] := by
      unfold draw_bounds
      rw [if_neg (by decide)]
    have e1 : c_int args_scaled.dstX = -5 := by
      have := c_int_intCast (-5)
      simpa [args_scaled] using this
    have e2 : c_int args_scaled.dstY = 0 := by
      have := c_int_intCast 0
      simpa [args_scaled] using this
    have e3 : c_int args_scaled.dstWidth = 20 := by
      have := c_int_intCast 20
      simpa [args_scaled] using this
    have e4 : c_int args_scaled.dstHeight = 20 := by
      have := c_int_intCast 20
      simpa [args_scaled] using this
    have e5 : c_int args_scaled.srcX = 0 := by
      have := c_int_intCast 0
      simpa [args_scaled] using this
    have e6 : c_int args_scaled.srcY = 0 := by
      have := c_int_intCast 0
      simpa [args_scaled] using this
    have e7 : c_int args_scaled.srcWidth = 10 := by
      have := c_int_intCast 10
      simpa [args_scaled] using this
    have e8 : c_int args_scaled.srcHeight = 10 := by
      have := c_int_intCast 10
      simpa [args_scaled] using this
    rw [draw_image_of_proceed _ _ _ _ _ _ _ hclip, hfast]
    simp only [hb]
    unfold blit_image
    rw [if_neg (by decide), if_pos (by decide), e1, e2, e3, e4, e5, e6, e7, e8]
    rfl

/-- C15, counterexample: under the tint (128, 0, 0) without background, the 2 x 2 image of
four opaque texels (red, green, blue, white) is composited to (half red, black, black, half
red).  The opaque green texel has green 255 before and green 0 after: green is not left
untouched. -/
theorem tint_zeroes_green_and_blue :
    (easy2d_draw_image_gdi gdi_replies_1 (some gdi_surface_1) (some gdi_image_2x2)
      args_tint).image.map (fun im => im.data.pIntermediateBitmapData)
      = some [0xFF800000, 0xFF000000, 0xFF000000, 0xFF800000] ∧
    gdi_image_2x2.data.pSrcBitmapData.getD 1 0 = 0xFF00FF00 ∧
    texel_alpha 0xFF00FF00 = 255 ∧ texel_green 0xFF00FF00 = 255 ∧
    texel_green 0xFF000000 = 0 := by
  have hd : (easy2d_draw_image_gdi gdi_replies_1 (some gdi_surface_1) (some gdi_image_2x2)
      args_tint).ops ≠ [] :=
    draw_image_ops_ne_nil gdi_replies_1 gdi_surface_1 gdi_image_2x2 args_tint _ 0 []
      (clip_image_of_flag_unset gdi_replies_1 gdi_surface_1 _ (by decide))
  obtain ⟨im1, h1, h2, _⟩ := draw_image_slow_intermediate gdi_replies_1 gdi_surface_1
    gdi_image_2x2 args_tint (by decide) hd rfl rfl (by decide)
  refine ⟨?_, rfl, by decide, by decide, by decide⟩
  rw [h1, Option.map_some', h2,
    List.map_congr_left (fun t _ => composite_texel_eq_reference args_tint t)]
  decide

/-- C15, amended: a draw with tint (128, 0, 0) and draw-background unset that is not
abandoned maps every fully opaque texel of the source bitmap to a texel of the intermediate
bitmap whose red channel is `trunc(red * 128 / 255)` (within 1 of `red * 128 / 255`), whose
green and blue channels are 0, and which is fully opaque. -/
theorem tint_scales_red_and_zeroes_green_blue (R : gdi_replies) (s : gdi_surface_data)
    (im : gdi_image) (a : easy2d_draw_image_args)
    (hr : a.foregroundTint.r = 128) (hg : a.foregroundTint.g = 0)
    (hb : a.foregroundTint.b = 0) (hbg : a.options &&& EASY2D_IMAGE_DRAW_BACKGROUND = 0)
    (hdraw : (easy2d_draw_image_gdi R (some s) (some im) a).ops ≠ [])
    (hsrc : im.data.pSrcBitmapData.length = im.width * im.height)
    (hdst : im.data.pIntermediateBitmapData.length = im.width * im.height)
    (hsz : im.width * im.height ≤ 2 ^ 32) :
    ∃ im1, (easy2d_draw_image_gdi R (some s) (some im) a).image = some im1 ∧
      im1.data.pIntermediateBitmapData.length = im.data.pSrcBitmapData.length ∧
      ∀ i, i < im.data.pSrcBitmapData.length →
        texel_alpha (im.data.pSrcBitmapData.getD i 0) = 255 →
        texel_red (im1.data.pIntermediateBitmapData.getD i 0)
          = texel_red (im.data.pSrcBitmapData.getD i 0) * 128 / 255 ∧
        ((texel_red (im1.data.pIntermediateBitmapData.getD i 0) : ℚ)
          ≤ (texel_red (im.data.pSrcBitmapData.getD i 0) : ℚ) * 128 / 255) ∧
        ((texel_red (im.data.pSrcBitmapData.getD i 0) : ℚ) * 128 / 255
          < (texel_red (im1.data.pIntermediateBitmapData.getD i 0) : ℚ) + 1) ∧
        texel_green (im1.data.pIntermediateBitmapData.getD i 0) = 0 ∧
        texel_blue (im1.data.pIntermediateBitmapData.getD i 0) = 0 ∧
        texel_alpha (im1.data.pIntermediateBitmapData.getD i 0) = 255 := by
  have hslow : ¬ (a.options &&& EASY2D_IMAGE_DRAW_BACKGROUND = 0 ∧ a.foregroundTint.r = 255 ∧
      a.foregroundTint.g = 255 ∧ a.foregroundTint.b = 255) := by
    rw [hr]
    exact fun h => absurd h.2.1 (by decide)
  obtain ⟨im1, h1, h2, _⟩ := draw_image_slow_intermediate R s im a hslow hdraw hsrc hdst hsz
  refine ⟨im1, h1, by rw [h2, List.length_map], ?_⟩
  intro i hi hopaque
  have hget : im1.data.pIntermediateBitmapData.getD i 0
      = composite_texel a (im.data.pSrcBitmapData.getD i 0) := by
    rw [h2, List.getD_eq_getElem?_getD, List.getD_eq_getElem?_getD, List.getElem?_map,
      List.getElem?_eq_getElem hi]
    rfl
  obtain ⟨c1, c2, c3, c4⟩ := composite_texel_tint_red a (im.data.pSrcBitmapData.getD i 0)
    hr hg hb hbg
  rw [hget]
  refine ⟨c1, ?_, ?_, c2, c3, c4.trans hopaque⟩
  · rw [c1, le_div_iff₀ (by norm_num)]
    exact_mod_cast Nat.div_mul_le_self _ 255
  · rw [c1, div_lt_iff₀ (by norm_num)]
    have := Nat.lt_div_mul_add (a := texel_red (im.data.pSrcBitmapData.getD i 0) * 128)
      (b := 255) (by norm_num)
    exact_mod_cast (by linarith : texel_red (im.data.pSrcBitmapData.getD i 0) * 128
      < (texel_red (im.data.pSrcBitmapData.getD i 0) * 128 / 255 + 1) * 255)

/-- C15, amended, witness: the tinted draw of the 2 x 2 opaque image; its first texel, pure
red, gets red 128 and green 0. -/
theorem tint_scales_red_and_zeroes_green_blue_witness :
    ∃ im1, (easy2d_draw_image_gdi gdi_replies_1 (some gdi_surface_1) (some gdi_image_2x2)
        args_tint).image = some im1 ∧
      texel_red (im1.data.pIntermediateBitmapData.getD 0 0) = 128 ∧
      texel_green (im1.data.pIntermediateBitmapData.getD 0 0) = 0 := by
  have hd : (easy2d_draw_image_gdi gdi_replies_1 (some gdi_surface_1) (some gdi_image_2x2)
      args_tint).ops ≠ [] :=
    draw_image_ops_ne_nil gdi_replies_1 gdi_surface_1 gdi_image_2x2 args_tint _ 0 []
      (clip_image_of_flag_unset gdi_replies_1 gdi_surface_1 _ (by decide))
  obtain ⟨im1, h1, _, h3⟩ := tint_scales_red_and_zeroes_green_blue gdi_replies_1
    gdi_surface_1 gdi_image_2x2 args_tint rfl rfl rfl (by decide) hd rfl rfl (by decide)
  obtain ⟨k1, _, _, k4, _⟩ := h3 0 (by decide) (by decide)
  exact ⟨im1, h1, k1.trans (by decide), k4⟩

/-- C16: on the slow path (tint not pure white, or draw-background set) the compositing
block stores in the intermediate bitmap, at every offset `row * width + col` with
`row < height` and `col < width`, the reference texel of the source texel at the same offset:
each of R, G, B is `min(255, trunc(channel * tint / 255))`, plus
`trunc(background * (255 - srcAlpha) / 255)` when draw-background is set; alpha is 255 when
draw-background is set and the source alpha otherwise.  The intermediate bitmap after the
call is the source bitmap mapped through the reference texel, so it does not depend on what
the intermediate bitmap held before; and when draw-background is set the options after the
call carry the no-alpha hint.  The draw is one that is not abandoned, on bitmaps of
`width * height` texels. -/
theorem slow_path_matches_reference (R : gdi_replies) (s : gdi_surface_data)
    (im : gdi_image) (a : easy2d_draw_image_args)
    (hslow : ¬ (a.options &&& EASY2D_IMAGE_DRAW_BACKGROUND = 0 ∧ a.foregroundTint.r = 255 ∧
      a.foregroundTint.g = 255 ∧ a.foregroundTint.b = 255))
    (hdraw : (easy2d_draw_image_gdi R (some s) (some im) a).ops ≠ [])
    (hsrc : im.data.pSrcBitmapData.length = im.width * im.height)
    (hdst : im.data.pIntermediateBitmapData.length = im.width * im.height)
    (hsz : im.width * im.height ≤ 2 ^ 32) :
    ∃ im1, (easy2d_draw_image_gdi R (some s) (some im) a).image = some im1 ∧
      im1.data.pIntermediateBitmapData = im.data.pSrcBitmapData.map (reference_texel a) ∧
      (∀ row col, row < im.height → col < im.width →
        im1.data.pIntermediateBitmapData.getD (row * im.width + col) 0
          = reference_texel a (im.data.pSrcBitmapData.getD (row * im.width + col) 0)) ∧
      (a.options &&& EASY2D_IMAGE_DRAW_BACKGROUND ≠ 0 →
        (easy2d_draw_image_gdi R (some s) (some im) a).args.options
          &&& EASY2D_IMAGE_HINT_NO_ALPHA ≠ 0) := by
  obtain ⟨im1, h1, h2, _⟩ := draw_image_slow_intermediate R s im a hslow hdraw hsrc hdst hsz
  have hmap : im1.data.pIntermediateBitmapData
      = im.data.pSrcBitmapData.map (reference_texel a) := by
    rw [h2]
    exact List.map_congr_left (fun t _ => composite_texel_eq_reference a t)
  refine ⟨im1, h1, hmap, ?_, ?_⟩
  · intro row col hrow hcol
    have hlt : row * im.width + col < im.data.pSrcBitmapData.length := by
      rw [hsrc]
      calc row * im.width + col < row * im.width + im.width := by omega
        _ = im.width * (row + 1) := by ring
        _ ≤ im.width * im.height := Nat.mul_le_mul_left _ hrow
    rw [hmap, List.getD_eq_getElem?_getD, List.getD_eq_getElem?_getD, List.getElem?_map,
      List.getElem?_eq_getElem hlt]
    rfl
  · intro hbgset
    rcases draw_image_cases R s im a with ⟨h, _⟩ | ⟨b, prevDC, clipOps, h, hb1, _, _, _⟩
    · exact absurd h hdraw
    · rw [draw_image_of_proceed R s im a b prevDC clipOps h]
      exact (composite_image_hint im a b hb1).mpr (Or.inr hbgset)

/-- C16, witness: the background (10, 20, 30) drawn behind a half-transparent dark red texel
and a fully transparent texel; what the intermediate bitmap held before does not appear in
the result. -/
theorem slow_path_matches_reference_witness :
    ∃ im1, (easy2d_draw_image_gdi gdi_replies_1 (some gdi_surface_1)
        (some gdi_image_translucent) args_background).image = some im1 ∧
      im1.data.pIntermediateBitmapData = [0xFF44090E, 0xFF0A141E] ∧
      (easy2d_draw_image_gdi gdi_replies_1 (some gdi_surface_1)
        (some gdi_image_translucent) args_background).args.options
          &&& EASY2D_IMAGE_HINT_NO_ALPHA ≠ 0 := by
  have hd : (easy2d_draw_image_gdi gdi_replies_1 (some gdi_surface_1)
      (some gdi_image_translucent) args_background).ops ≠ [] :=
    draw_image_ops_ne_nil gdi_replies_1 gdi_surface_1 gdi_image_translucent args_background
      _ 0 [] (clip_image_of_flag_unset gdi_replies_1 gdi_surface_1 _ (by decide))
  obtain ⟨im1, h1, h2, _, h4⟩ := slow_path_matches_reference gdi_replies_1 gdi_surface_1
    gdi_image_translucent args_background (by decide) hd rfl rfl (by decide)
  exact ⟨im1, h1, h2.trans (by decide), h4 (by decide)⟩

/-- C17: whatever the arguments, `easy2d_draw_image_gdi` leaves the image's context, width,
height, source bitmap handle, source texels and intermediate bitmap handle as they were; the
only field of the image that can differ after the call is the intermediate bitmap's texels.
With no image there is no image after the call either. -/
theorem draw_never_modifies_source (R : gdi_replies) (pSurface : Option gdi_surface_data)
    (im : gdi_image) (a : easy2d_draw_image_args) :
    (easy2d_draw_image_gdi R pSurface none a).image = none ∧
    ∃ im1, (easy2d_draw_image_gdi R pSurface (some im) a).image = some im1 ∧
      im1.data.pSrcBitmapData = im.data.pSrcBitmapData ∧
      im1.width = im.width ∧ im1.height = im.height ∧ im1.pContext = im.pContext ∧
      im1.data.hSrcBitmap = im.data.hSrcBitmap ∧
      im1.data.hIntermediateBitmap = im.data.hIntermediateBitmap := by
  refine ⟨rfl, ?_⟩
  cases pSurface with
  | none => exact ⟨im, rfl, rfl, rfl, rfl, rfl, rfl, rfl⟩
  | some s =>
    rcases draw_image_cases R s im a with ⟨_, h⟩ | ⟨b, prevDC, clipOps, h, _⟩
    · exact ⟨im, h, rfl, rfl, rfl, rfl, rfl, rfl⟩
    · rw [draw_image_of_proceed R s im a b prevDC clipOps h]
      obtain ⟨k1, k2, k3, k4, k5, k6⟩ := composite_image_keeps_source im b
      exact ⟨_, rfl, k5, k2, k3, k1, k4, k6⟩

/-- C18: in a draw that is not abandoned (some GDI call is issued) exactly one blit is
issued, on the rectangles left in the argument struct.  It is the opaque scaled copy
(`StretchBlt` with `SRCCOPY`) if the caller's options contain the no-alpha hint or the
draw-background option, and otherwise the source-over alpha blend with per-pixel alpha and a
global opacity of 255. -/
theorem blit_is_copy_iff_no_alpha_or_background (R : gdi_replies) (s : gdi_surface_data)
    (im : gdi_image) (a : easy2d_draw_image_args)
    (hdraw : (easy2d_draw_image_gdi R (some s) (some im) a).ops ≠ []) :
    ((a.options &&& EASY2D_IMAGE_HINT_NO_ALPHA ≠ 0 ∨
        a.options &&& EASY2D_IMAGE_DRAW_BACKGROUND ≠ 0) →
      (easy2d_draw_image_gdi R (some s) (some im) a).ops.filter is_blit =
        [.StretchBlt s.hDC
          (c_int (easy2d_draw_image_gdi R (some s) (some im) a).args.dstX)
          (c_int (easy2d_draw_image_gdi R (some s) (some im) a).args.dstY)
          (c_int (easy2d_draw_image_gdi R (some s) (some im) a).args.dstWidth)
          (c_int (easy2d_draw_image_gdi R (some s) (some im) a).args.dstHeight)
          s.hIntermediateDC
          (c_int (easy2d_draw_image_gdi R (some s) (some im) a).args.srcX)
          (c_int (easy2d_draw_image_gdi R (some s) (some im) a).args.srcY)
          (c_int (easy2d_draw_image_gdi R (some s) (some im) a).args.srcWidth)
          (c_int (easy2d_draw_image_gdi R (some s) (some im) a).args.srcHeight)
          SRCCOPY]) ∧
    (¬ (a.options &&& EASY2D_IMAGE_HINT_NO_ALPHA ≠ 0 ∨
        a.options &&& EASY2D_IMAGE_DRAW_BACKGROUND ≠ 0) →
      (easy2d_draw_image_gdi R (some s) (some im) a).ops.filter is_blit =
        [.AlphaBlend s.hDC
          (c_int (easy2d_draw_image_gdi R (some s) (some im) a).args.dstX)
          (c_int (easy2d_draw_image_gdi R (some s) (some im) a).args.dstY)
          (c_int (easy2d_draw_image_gdi R (some s) (some im) a).args.dstWidth)
          (c_int (easy2d_draw_image_gdi R (some s) (some im) a).args.dstHeight)
          s.hIntermediateDC
          (c_int (easy2d_draw_image_gdi R (some s) (some im) a).args.srcX)
          (c_int (easy2d_draw_image_gdi R (some s) (some im) a).args.srcY)
          (c_int (easy2d_draw_image_gdi R (some s) (some im) a).args.srcWidth)
          (c_int (easy2d_draw_image_gdi R (some s) (some im) a).args.srcHeight)
          { BlendOp := AC_SRC_OVER, BlendFlags := 0, SourceConstantAlpha := 255,
            AlphaFormat := AC_SRC_ALPHA }]) := by
  rcases draw_image_cases R s im a with ⟨h, _⟩ | ⟨b, prevDC, clipOps, h, h1, _, _, hc⟩
  · exact absurd h hdraw
  · have hhint := composite_image_hint im a b h1
    have hargs : (easy2d_draw_image_gdi R (some s) (some im) a).args
        = (composite_image im b).args := by
      rw [draw_image_of_proceed R s im a b prevDC clipOps h]
    rw [draw_image_blits R s im a b prevDC clipOps h hc, blit_image_filter, hargs]
    constructor
    · intro hopt
      rw [if_pos (hhint.mpr hopt)]
    · intro hopt
      rw [if_neg (fun hn => hopt (hhint.mp hn))]

/-- C18, witness: the draw with the background drawn is not abandoned, and its only blit is a
`StretchBlt` with `SRCCOPY` from the intermediate DC to the surface. -/
theorem blit_is_copy_iff_no_alpha_or_background_witness :
    (easy2d_draw_image_gdi gdi_replies_1 (some gdi_surface_1) (some gdi_image_2x2)
      args_background).ops ≠ [] ∧
    ∃ x y w h sx sy sw sh,
      (easy2d_draw_image_gdi gdi_replies_1 (some gdi_surface_1) (some gdi_image_2x2)
        args_background).ops.filter is_blit
        = [.StretchBlt 101 x y w h 102 sx sy sw sh SRCCOPY] := by
  have hd : (easy2d_draw_image_gdi gdi_replies_1 (some gdi_surface_1) (some gdi_image_2x2)
      args_background).ops ≠ [] :=
    draw_image_ops_ne_nil gdi_replies_1 gdi_surface_1 gdi_image_2x2 args_background _ 0 []
      (clip_image_of_flag_unset gdi_replies_1 gdi_surface_1 _ (by decide))
  exact ⟨hd, _, _, _, _, _, _, _, _,
    (blit_is_copy_iff_no_alpha_or_background gdi_replies_1 gdi_surface_1 gdi_image_2x2
      args_background hd).1 (Or.inr (by decide))⟩

/-! ### Cursor position from a point -/

/-- The caret positions of a strictly increasing layout, at two indices in order. -/
theorem pairwise_getD_lt (L : List Int) (h : L.Pairwise (fun x y => x < y)) (j k : Nat)
    (hjk : j < k) (hk : k < L.length) : L.getD j 0 < L.getD k 0 := by
  have hj : j < L.length := by omega
  rw [List.getD_eq_getElem?_getD, List.getD_eq_getElem?_getD, List.getElem?_eq_getElem hj,
    List.getElem?_eq_getElem hk]
  exact (List.pairwise_iff_getElem.mp h) j k hj hk hjk

theorem getD_caret_bound (carets : List Int)
    (hcb : ∀ x ∈ carets, -(2 ^ 24) ≤ x ∧ x ≤ 2 ^ 24) (k : Nat) :
    -(2 ^ 24) ≤ carets.getD k 0 ∧ carets.getD k 0 ≤ 2 ^ 24 := by
  by_cases hk : k < carets.length
  · rw [List.getD_eq_getElem?_getD, List.getElem?_eq_getElem hk]
    exact hcb _ (List.getElem_mem ..)
  · rw [List.getD_eq_getElem?_getD, List.getElem?_eq_none (by omega)]
    exact ⟨by norm_num, by norm_num⟩

/-- A caret position of magnitude at most `2 ^ 24` is converted to `float` exactly. -/
theorem char_bounds_left_exact (carets : List Int)
    (hcb : ∀ x ∈ carets, -(2 ^ 24) ≤ x ∧ x ≤ 2 ^ 24) (k : Nat) :
    char_bounds_left carets k = ((carets.getD k 0 : Int) : c_float) :=
  f32_of_int_exact _ (getD_caret_bound carets hcb k).1 (getD_caret_bound carets hcb k).2

theorem char_bounds_right_exact (carets : List Int) (maxWidth : c_float)
    (hcb : ∀ x ∈ carets, -(2 ^ 24) ≤ x ∧ x ≤ 2 ^ 24) (i : Nat) (hi : i < carets.length - 1) :
    char_bounds_right carets maxWidth i = ((carets.getD (i + 1) 0 : Int) : c_float) := by
  unfold char_bounds_right
  rw [if_pos hi]
  exact f32_of_int_exact _ (getD_caret_bound carets hcb _).1 (getD_caret_bound carets hcb _).2

theorem char_bounds_right_last (carets : List Int) (maxWidth : c_float) (i : Nat)
    (hi : ¬ i < carets.length - 1) : char_bounds_right carets maxWidth i = maxWidth := by
  unfold char_bounds_right
  rw [if_neg hi]

theorem c_ceilf_nonneg (x : c_float) (h : 0 ≤ x) : 0 ≤ c_ceilf x := by
  unfold c_ceilf
  exact_mod_cast Int.ceil_nonneg h

/-- The threshold `left + ceilf((right - left) / 2)` is not left of a `float` left edge that is
not right of the right edge. -/
theorem cursor_half_ge_left (l r : c_float) (hl : f32_round l = l) (hlr : l ≤ r) :
    l ≤ f32_add l (c_ceilf (f32_div (f32_sub r l) 2)) := by
  have h1 : 0 ≤ f32_sub r l := by
    unfold f32_sub
    exact f32_round_nonneg_of_nonneg (by linarith)
  have h2 : 0 ≤ f32_div (f32_sub r l) 2 := by
    unfold f32_div
    exact f32_round_nonneg_of_nonneg (div_nonneg h1 (by norm_num))
  have h3 := c_ceilf_nonneg _ h2
  unfold f32_add
  calc l = f32_round l := hl.symm
    _ ≤ f32_round (l + c_ceilf (f32_div (f32_sub r l) 2)) := f32_round_mono (by linarith)

/-- For edges that are integers of magnitude at most `2 ^ 23` the threshold is computed
exactly. -/
theorem cursor_half_exact (l r : Int) (hl1 : -(2 ^ 23) ≤ l) (hl2 : l ≤ 2 ^ 23)
    (hr1 : -(2 ^ 23) ≤ r) (hr2 : r ≤ 2 ^ 23) :
    f32_add (l : c_float) (c_ceilf (f32_div (f32_sub (r : c_float) (l : c_float)) 2))
      = (l : c_float) + c_ceilf (((r : c_float) - (l : c_float)) / 2) := by
  have e1 : f32_sub (r : c_float) (l : c_float) = (r : c_float) - (l : c_float) := by
    unfold f32_sub
    exact f32_round_of_int_eq _ (r - l) (by push_cast; ring) (by omega) (by omega)
  have e2 : f32_div ((r : c_float) - (l : c_float)) 2 = ((r : c_float) - (l : c_float)) / 2 := by
    unfold f32_div
    exact f32_round_of_half_eq _ (r - l) (by push_cast; ring) (by omega) (by omega)
  rw [e1, e2]
  have hq1 : ((r : ℚ) - (l : ℚ)) / 2 ≤ ((2 ^ 23 : Int) : ℚ) := by
    have : ((r - l : Int) : ℚ) ≤ ((2 ^ 24 : Int) : ℚ) := by exact_mod_cast (by omega : r - l ≤ 2 ^ 24)
    push_cast at this ⊢
    linarith
  have hq2 : ((-(2 ^ 23) - 1 : Int) : ℚ) < ((r : ℚ) - (l : ℚ)) / 2 := by
    have : ((-(2 ^ 24) : Int) : ℚ) ≤ ((r - l : Int) : ℚ) := by
      exact_mod_cast (by omega : -(2 ^ 24) ≤ r - l)
    push_cast at this ⊢
    linarith
  have hc1 : ⌈((r : ℚ) - (l : ℚ)) / 2⌉ ≤ 2 ^ 23 := Int.ceil_le.mpr hq1
  have hc2 : -(2 ^ 23) - 1 < ⌈((r : ℚ) - (l : ℚ)) / 2⌉ := Int.lt_ceil.mpr hq2
  unfold c_ceilf f32_add
  exact f32_round_of_int_eq _ (l + ⌈((r : ℚ) - (l : ℚ)) / 2⌉) (by push_cast; ring) (by omega)
    (by omega)


/-- C19, counterexample: two ASCII characters laid out with carets 0 and 5 and max width 10.
The input X = 3 is strictly inside the bounds (0, 5) of character 0 and right of their
midpoint 5 / 2, yet the function reports index 0 and cursor X 0 (the left edge), not index 1
and cursor X 5. -/
theorem point_right_of_midpoint_snaps_left :
    easy2d_get_text_cursor_position_from_point_gdi (win32_text_mono 5) (some gdi_font_1)
        gdi_context_1 (some [97, 98]) 2 10 3 (some 7) (some 9) =
      .ok ⟨true, some 0, some 0,
        { hDC := 100, wcharBuffer := some [97, 98, 0xCDCD], wcharBufferLength := 3 }⟩ ∧
    mono_carets 2 5 = [0, 5] ∧
    char_bounds_left [0, 5] 0 < 3 ∧ (3 : c_float) < char_bounds_right [0, 5] 10 0 ∧
    (char_bounds_left [0, 5] 0 + char_bounds_right [0, 5] 10 0) / 2 < 3 := by
  have hconv : (easy2d_to_wchar_gdi (win32_text_mono 5) (some gdi_context_1)
      (some [97, 98]) 2 (some 0)).ret = some [97, 98, 0xCDCD] := by decide
  have hctx : (easy2d_to_wchar_gdi (win32_text_mono 5) (some gdi_context_1)
      (some [97, 98]) 2 (some 0)).ctx.getD gdi_context_1 =
      { hDC := 100, wcharBuffer := some [97, 98, 0xCDCD], wcharBufferLength := 3 } := by
    decide
  have hl : char_bounds_left [0, 5] 0 = ((0 : Int) : c_float) :=
    f32_of_int_exact 0 (by norm_num) (by norm_num)
  have hr : char_bounds_right [0, 5] 10 0 = ((5 : Int) : c_float) :=
    f32_of_int_exact 5 (by norm_num) (by norm_num)
  have hl1 : char_bounds_left [0, 5] 1 = ((5 : Int) : c_float) :=
    f32_of_int_exact 5 (by norm_num) (by norm_num)
  have hc : c_ceilf ((((5 : Int) : c_float) - ((0 : Int) : c_float)) / 2) = 3 := by
    unfold c_ceilf
    have h3 : ⌈(((5 : Int) : c_float) - ((0 : Int) : c_float)) / 2⌉ = 3 := by
      rw [Int.ceil_eq_iff]
      norm_num
    rw [h3]
    norm_num
  have hscan : cursor_scan [0, 5] 10 3 2 = { characterIndex := 0, textCursorPosX := 0 } := by
    rw [cursor_scan_last_hit [0, 5] 10 3 2 0 (by decide) (by rw [hl, hr]; norm_num)
      (by
        intro k h1 h2
        have hk : k = 1 := by omega
        subst hk
        rw [hl1]
        norm_num), hl, hr,
      cursor_half_exact 0 5 (by norm_num) (by norm_num) (by norm_num) (by norm_num),
      if_pos (by rw [hc]; norm_num)]
    norm_num
  have h := from_point_of_layout (win32_text_mono 5) gdi_font_1 gdi_context_1
    (some [97, 98]) 2 10 3 (some 7) (some 9) [97, 98, 0xCDCD] (fun _ => 0xCDCD) [0, 5]
    hconv rfl (by decide)
  rw [hctx] at h
  have hlen : ([0, 5] : List Int).length = 2 := rfl
  rw [hlen, hscan] at h
  refine ⟨h, by decide, by rw [hl]; norm_num, by rw [hr]; norm_num, by rw [hl, hr]; norm_num⟩

/-- C19, amended: for strictly increasing caret positions of magnitude at most `2 ^ 24`, which
the conversion to `float` keeps, character `i` with bounds from `caret[i]` to `caret[i+1]` (to
`maxWidth` for the last character), and an input X strictly inside those bounds, the function
(once the text is converted and laid out) succeeds, and: if X is at or left of
`left + ceilf((right - left) / 2)`, evaluated in `float` arithmetic, it reports index `i` and
cursor X = left edge; otherwise it reports index `i + 1` and cursor X = right edge.  When
both edges are integers of magnitude at most `2 ^ 23` that threshold is exactly the left edge
plus the half width rounded up to an integer. -/
theorem point_to_index_rounded_half_rule (W : win32_text) (font : gdi_font_data)
    (c : gdi_context_data) (text : Option (List Nat)) (size : Nat) (maxWidth X : c_float)
    (px : Option c_float) (pi : Option Nat) (textW : List Nat) (g : Nat → Nat)
    (carets : List Int) (i : Nat)
    (hconv : (easy2d_to_wchar_gdi W (some c) text size (some 0)).ret = some textW)
    (hmalloc : W.malloc (sizeof_int * uint_of_size_t size) = some g)
    (hlayout : W.GetCharacterPlacementW c.hDC font.hFont textW (uint_of_size_t size)
      (c_int maxWidth) (GCP_MAXEXTENT ||| GCP_USEKERNING) = some carets)
    (hmono : carets.Pairwise (fun x y => x < y))
    (hcb : ∀ x ∈ carets, -(2 ^ 24) ≤ x ∧ x ≤ 2 ^ 24)
    (hi : i < carets.length)
    (hleft : ((carets.getD i 0 : Int) : c_float) < X)
    (hright : X < char_bounds_right carets maxWidth i) :
    char_bounds_left carets i = ((carets.getD i 0 : Int) : c_float) ∧
    (i < carets.length - 1 →
      char_bounds_right carets maxWidth i = ((carets.getD (i + 1) 0 : Int) : c_float)) ∧
    (¬ i < carets.length - 1 → char_bounds_right carets maxWidth i = maxWidth) ∧
    (X ≤ f32_add (char_bounds_left carets i)
          (c_ceilf (f32_div (f32_sub (char_bounds_right carets maxWidth i)
            (char_bounds_left carets i)) 2)) →
      easy2d_get_text_cursor_position_from_point_gdi W (some font) c text size maxWidth X
          px pi =
        .ok ⟨true, px.map (fun _ => char_bounds_left carets i), pi.map (fun _ => i),
          (easy2d_to_wchar_gdi W (some c) text size (some 0)).ctx.getD c⟩) ∧
    (¬ X ≤ f32_add (char_bounds_left carets i)
          (c_ceilf (f32_div (f32_sub (char_bounds_right carets maxWidth i)
            (char_bounds_left carets i)) 2)) →
      easy2d_get_text_cursor_position_from_point_gdi W (some font) c text size maxWidth X
          px pi =
        .ok ⟨true, px.map (fun _ => char_bounds_right carets maxWidth i),
          pi.map (fun _ => i + 1),
          (easy2d_to_wchar_gdi W (some c) text size (some 0)).ctx.getD c⟩) ∧
    (∀ r : Int, char_bounds_right carets maxWidth i = (r : c_float) →
      -(2 ^ 23) ≤ carets.getD i 0 → carets.getD i 0 ≤ 2 ^ 23 → -(2 ^ 23) ≤ r → r ≤ 2 ^ 23 →
      f32_add (char_bounds_left carets i)
          (c_ceilf (f32_div (f32_sub (char_bounds_right carets maxWidth i)
            (char_bounds_left carets i)) 2))
        = ((carets.getD i 0 : Int) : c_float)
          + c_ceilf (((r : c_float) - ((carets.getD i 0 : Int) : c_float)) / 2)) := by
  have hbl := char_bounds_left_exact carets hcb
  have hscan := cursor_scan_last_hit carets maxWidth X carets.length i hi
    ⟨by rw [hbl]; exact hleft.le, hright.le⟩
    (by
      intro k hik hk hhit
      have hi1 : i < carets.length - 1 := by omega
      have hr := char_bounds_right_exact carets maxWidth hcb i hi1
      have hle : carets.getD (i + 1) 0 ≤ carets.getD k 0 := by
        rcases Nat.eq_or_lt_of_le (show i + 1 ≤ k by omega) with e | e
        · rw [e]
        · exact (pairwise_getD_lt carets hmono (i + 1) k e hk).le
      have hleq : ((carets.getD (i + 1) 0 : Int) : c_float) ≤ ((carets.getD k 0 : Int) : c_float) := by
        exact_mod_cast hle
      have h1 := hhit.1
      rw [hbl] at h1
      rw [hr] at hright
      linarith)
  rw [from_point_of_layout W font c text size maxWidth X px pi textW g carets hconv hmalloc
    hlayout, hscan]
  refine ⟨hbl i, char_bounds_right_exact carets maxWidth hcb i,
    char_bounds_right_last carets maxWidth i, ?_, ?_, ?_⟩
  · intro hhalf
    rw [if_pos hhalf]
  · intro hhalf
    rw [if_neg hhalf]
  · intro r hr l1 l2 r1 r2
    rw [hbl, hr]
    exact cursor_half_exact _ r l1 l2 r1 r2

/-- C19, amended, witness: carets 0 and 5, max width 10; X = 4 is strictly inside character
0 and right of 0 + ceil(5 / 2) = 3, so the function reports index 1 and cursor X 5. -/
theorem point_to_index_rounded_half_rule_witness :
    easy2d_get_text_cursor_position_from_point_gdi (win32_text_mono 5) (some gdi_font_1)
        gdi_context_1 (some [97, 98]) 2 10 4 (some 7) (some 9) =
      .ok ⟨true, some 5, some 1,
        { hDC := 100, wcharBuffer := some [97, 98, 0xCDCD], wcharBufferLength := 3 }⟩ := by
  have hconv : (easy2d_to_wchar_gdi (win32_text_mono 5) (some gdi_context_1)
      (some [97, 98]) 2 (some 0)).ret = some [97, 98, 0xCDCD] := by decide
  have hctx : (easy2d_to_wchar_gdi (win32_text_mono 5) (some gdi_context_1)
      (some [97, 98]) 2 (some 0)).ctx.getD gdi_context_1 =
      { hDC := 100, wcharBuffer := some [97, 98, 0xCDCD], wcharBufferLength := 3 } := by
    decide
  have hl : char_bounds_left [0, 5] 0 = ((0 : Int) : c_float) :=
    f32_of_int_exact 0 (by norm_num) (by norm_num)
  have hr : char_bounds_right [0, 5] 10 0 = ((5 : Int) : c_float) :=
    f32_of_int_exact 5 (by norm_num) (by norm_num)
  have hc : c_ceilf ((((5 : Int) : c_float) - ((0 : Int) : c_float)) / 2) = 3 := by
    unfold c_ceilf
    have h3 : ⌈(((5 : Int) : c_float) - ((0 : Int) : c_float)) / 2⌉ = 3 := by
      rw [Int.ceil_eq_iff]
      norm_num
    rw [h3]
    norm_num
  have h := (point_to_index_rounded_half_rule (win32_text_mono 5) gdi_font_1 gdi_context_1
    (some [97, 98]) 2 10 4 (some 7) (some 9) [97, 98, 0xCDCD] (fun _ => 0xCDCD) [0, 5] 0
    hconv rfl (by decide) (by decide) (by decide) (by decide)
    (by norm_num) (by rw [hr]; norm_num)).2.2.2.2.1
    (by
      rw [hl, hr, cursor_half_exact 0 5 (by norm_num) (by norm_num) (by norm_num)
        (by norm_num), hc]
      norm_num)
  rw [hctx, hr] at h
  norm_num at h
  exact h

/-! ### A monospaced run -/

theorem mono_carets_bound (n w : Nat) (hb : n * w ≤ 2 ^ 24) :
    ∀ x ∈ mono_carets n w, -(2 ^ 24) ≤ x ∧ x ≤ 2 ^ 24 := by
  intro x hx
  unfold mono_carets at hx
  rw [List.mem_map] at hx
  obtain ⟨i, hi, rfl⟩ := hx
  rw [List.mem_range] at hi
  have h1 : i * w ≤ n * w := Nat.mul_le_mul_right w hi.le
  constructor <;> omega

theorem mono_left (n w k : Nat) (hk : k < n) (hb : n * w ≤ 2 ^ 24) :
    char_bounds_left (mono_carets n w) k = ((k * w : Nat) : c_float) := by
  rw [char_bounds_left_exact _ (mono_carets_bound n w hb)]
  unfold mono_carets
  rw [List.getD_eq_getElem?_getD, List.getElem?_map, List.getElem?_range hk]
  simp

theorem mono_right (n w k : Nat) (hk : k < n) (hb : n * w ≤ 2 ^ 24) :
    char_bounds_right (mono_carets n w) ((n * w : Nat) : c_float) k
      = (((k + 1) * w : Nat) : c_float) := by
  have hlen : (mono_carets n w).length = n := by simp [mono_carets]
  by_cases h : k < n - 1
  · rw [char_bounds_right_exact _ _ (mono_carets_bound n w hb) k (by rw [hlen]; exact h)]
    have h2 : k + 1 < n := by omega
    unfold mono_carets
    rw [List.getD_eq_getElem?_getD, List.getElem?_map, List.getElem?_range h2]
    simp
  · rw [char_bounds_right_last _ _ k (by rw [hlen]; exact h)]
    have h2 : k + 1 = n := by omega
    rw [h2]

theorem mono_scan (n h i : Nat) (X : c_float) (hh : 1 ≤ h) (hi : i < n)
    (hb : n * (2 * h) ≤ 2 ^ 24) :
    ((((i * (2 * h) : Nat) : c_float) ≤ X ∧ X ≤ ((i * (2 * h) : Nat) : c_float) + (h : c_float)) →
      cursor_scan (mono_carets n (2 * h)) ((n * (2 * h) : Nat) : c_float) X n
        = { characterIndex := i, textCursorPosX := ((i * (2 * h) : Nat) : c_float) }) ∧
    ((((i * (2 * h) : Nat) : c_float) + (h : c_float) < X ∧
        X ≤ (((i + 1) * (2 * h) : Nat) : c_float)) →
      cursor_scan (mono_carets n (2 * h)) ((n * (2 * h) : Nat) : c_float) X n
        = { characterIndex := i + 1,
            textCursorPosX := (((i + 1) * (2 * h) : Nat) : c_float) }) := by
  have hhq : (1 : c_float) ≤ (h : c_float) := by exact_mod_cast hh
  have hstep : ∀ k : Nat, (((k + 1) * (2 * h) : Nat) : c_float)
      = ((k * (2 * h) : Nat) : c_float) + 2 * (h : c_float) := by
    intro k
    push_cast
    ring
  have hhalf : ∀ k : Nat, k < n →
      f32_add (char_bounds_left (mono_carets n (2 * h)) k)
        (c_ceilf (f32_div (f32_sub
          (char_bounds_right (mono_carets n (2 * h)) ((n * (2 * h) : Nat) : c_float) k)
          (char_bounds_left (mono_carets n (2 * h)) k)) 2))
      = ((k * (2 * h) : Nat) : c_float) + (h : c_float) := by
    intro k hk
    rw [mono_left n (2 * h) k hk hb, mono_right n (2 * h) k hk hb, hstep k]
    have hkb : (k + 1) * (2 * h) ≤ n * (2 * h) := Nat.mul_le_mul_right _ (by omega)
    have hkn : (k + 1) * (2 * h) = k * (2 * h) + 2 * h := by ring
    have e1 : f32_sub (((k * (2 * h) : Nat) : c_float) + 2 * (h : c_float))
        ((k * (2 * h) : Nat) : c_float) = (((2 * h : Nat) : Int) : c_float) := by
      unfold f32_sub
      have e : ((k * (2 * h) : Nat) : c_float) + 2 * (h : c_float)
          - ((k * (2 * h) : Nat) : c_float) = (((2 * h : Nat) : Int) : c_float) := by
        push_cast
        ring
      rw [e]
      exact f32_round_int _ (by omega) (by omega)
    have e2 : f32_div ((((2 * h : Nat) : Int)) : c_float) 2 = (((h : Nat) : Int) : c_float) := by
      unfold f32_div
      have e : ((((2 * h : Nat) : Int)) : c_float) / 2 = (((h : Nat) : Int) : c_float) := by
        push_cast
        ring
      rw [e]
      exact f32_round_int _ (by omega) (by omega)
    rw [e1, e2]
    unfold c_ceilf
    rw [Int.ceil_intCast]
    unfold f32_add
    have e3 : ((k * (2 * h) : Nat) : c_float) + (((h : Nat) : Int) : c_float)
        = (((k * (2 * h) + h : Nat) : Int) : c_float) := by
      push_cast
      ring
    rw [e3]
    rw [f32_round_int _ (by omega) (by omega)]
    push_cast
    ring
  -- the scan when the last character hit is `j`
  have hscan : ∀ j : Nat, j < n →
      ((j * (2 * h) : Nat) : c_float) ≤ X → X ≤ (((j + 1) * (2 * h) : Nat) : c_float) →
      (j + 1 < n → X < (((j + 1) * (2 * h) : Nat) : c_float)) →
      cursor_scan (mono_carets n (2 * h)) ((n * (2 * h) : Nat) : c_float) X n =
        if X ≤ ((j * (2 * h) : Nat) : c_float) + (h : c_float) then
          { characterIndex := j, textCursorPosX := ((j * (2 * h) : Nat) : c_float) }
        else
          { characterIndex := j + 1,
            textCursorPosX := (((j + 1) * (2 * h) : Nat) : c_float) } := by
    intro j hj h1 h2 h3
    have := cursor_scan_last_hit (mono_carets n (2 * h)) ((n * (2 * h) : Nat) : c_float) X n j
      hj (by rw [mono_left n (2 * h) j hj hb, mono_right n (2 * h) j hj hb]; exact ⟨h1, h2⟩)
      (by
        intro k hjk hkn hk
        rw [mono_left n (2 * h) k hkn hb] at hk
        have hlt := h3 (by omega)
        have hm2 : (((j + 1) * (2 * h) : Nat) : c_float) ≤ ((k * (2 * h) : Nat) : c_float) := by exact_mod_cast Nat.mul_le_mul_right (2 * h) (show j + 1 ≤ k by omega)
        linarith [hk.1, hm2])
    rw [this, hhalf j hj, mono_left n (2 * h) j hj hb, mono_right n (2 * h) j hj hb]
  constructor
  · rintro ⟨h1, h2⟩
    have hlt : X < (((i + 1) * (2 * h) : Nat) : c_float) := by
      rw [hstep i]
      linarith
    rw [hscan i hi h1 hlt.le (fun _ => hlt), if_pos h2]
  · rintro ⟨h1, h2⟩
    by_cases hX : X < (((i + 1) * (2 * h) : Nat) : c_float)
    · rw [hscan i hi (by linarith) h2 (fun _ => hX), if_neg (not_le.mpr h1)]
    · have hXe : X = (((i + 1) * (2 * h) : Nat) : c_float) := le_antisymm h2 (not_lt.mp hX)
      by_cases hn : i + 1 < n
      · rw [hscan (i + 1) hn (by rw [hXe]) (by rw [hXe, hstep (i + 1)]; linarith)
          (fun _ => by rw [hXe, hstep (i + 1)]; linarith), if_pos (by rw [hXe]; linarith)]
      · rw [hscan i hi (by rw [hXe, hstep i]; linarith) h2 (fun hc => absurd hc hn),
          if_neg (not_le.mpr h1)]

theorem f32_round_50331654 : f32_round 50331654 = 50331656 := by
  rw [f32_round_eval 2 12582914 (by norm_num) (by norm_num) (by norm_num)
    (by rw [show (12582914 : Int) = 12582913 + 1 by norm_num]
        exact round_half_even_tie_odd (by norm_num) (by norm_num))]
  norm_num

theorem f32_round_41943046 : f32_round 41943046 = 41943048 := by
  rw [f32_round_eval 2 10485762 (by norm_num) (by norm_num) (by norm_num)
    (by rw [show (10485762 : Int) = 10485761 + 1 by norm_num]
        exact round_half_even_tie_odd (by norm_num) (by norm_num))]
  norm_num

theorem f32_round_33554436 : f32_round 33554436 = 33554436 := by
  have h := f32_round_dyadic 8388609 2 (by norm_num) (by norm_num) (by norm_num)
  norm_num at h
  exact h

theorem f32_round_16777220 : f32_round 16777220 = 16777220 := by
  have h := f32_round_dyadic 4194305 2 (by norm_num) (by norm_num) (by norm_num)
  norm_num at h
  exact h

/-- C20, counterexample: four characters of advance w = 16777218, carets 0, 16777218,
33554436, 50331654, max width 4 w.  The input X = 41943048 is right of 2 w + w / 2 = 41943045
and not right of 3 w, so the claim gives index 3 and cursor X 3 w = 50331654; the function
reports index 2 and cursor X 33554436. -/
theorem monospaced_point_to_index_rounds :
    mono_carets 4 16777218 = [0, 16777218, 33554436, 50331654] ∧
    (2 * 16777218 + 16777218 / 2 : c_float) < 41943048 ∧
    (41943048 : c_float) ≤ 3 * 16777218 ∧
    easy2d_get_text_cursor_position_from_point_gdi (win32_text_mono 16777218)
        (some gdi_font_1) gdi_context_1 (some [97, 98, 99, 100]) 4 67108872 41943048
        (some 0) (some 0) =
      .ok ⟨true, some 33554436, some 2,
        { hDC := 100, wcharBuffer := some [97, 98, 99, 100, 0xCDCD],
          wcharBufferLength := 5 }⟩ := by
  have hconv : (easy2d_to_wchar_gdi (win32_text_mono 16777218) (some gdi_context_1)
      (some [97, 98, 99, 100]) 4 (some 0)).ret = some [97, 98, 99, 100, 0xCDCD] := by decide
  have hctx : (easy2d_to_wchar_gdi (win32_text_mono 16777218) (some gdi_context_1)
      (some [97, 98, 99, 100]) 4 (some 0)).ctx.getD gdi_context_1 =
      { hDC := 100, wcharBuffer := some [97, 98, 99, 100, 0xCDCD],
        wcharBufferLength := 5 } := by
    decide
  have hl2 : char_bounds_left [0, 16777218, 33554436, 50331654] 2 = 33554436 := by
    show f32_round ((33554436 : Int) : ℚ) = 33554436
    rw [show ((33554436 : Int) : ℚ) = 33554436 by norm_num]
    exact f32_round_33554436
  have hr2 : char_bounds_right [0, 16777218, 33554436, 50331654] 67108872 2 = 50331656 := by
    unfold char_bounds_right
    rw [if_pos (by decide)]
    show f32_round ((50331654 : Int) : ℚ) = 50331656
    rw [show ((50331654 : Int) : ℚ) = 50331654 by norm_num]
    exact f32_round_50331654
  have hl3 : char_bounds_left [0, 16777218, 33554436, 50331654] 3 = 50331656 := by
    show f32_round ((50331654 : Int) : ℚ) = 50331656
    rw [show ((50331654 : Int) : ℚ) = 50331654 by norm_num]
    exact f32_round_50331654
  have hhalf : f32_add (33554436 : c_float)
      (c_ceilf (f32_div (f32_sub (50331656 : c_float) 33554436) 2)) = 41943048 := by
    have e1 : f32_sub (50331656 : c_float) 33554436 = 16777220 := by
      unfold f32_sub
      rw [show (50331656 : c_float) - 33554436 = 16777220 by norm_num]
      exact f32_round_16777220
    have e2 : f32_div (16777220 : c_float) 2 = 8388610 := by
      unfold f32_div
      exact (f32_round_of_int_eq _ 8388610 (by norm_num) (by norm_num) (by norm_num)).trans
        (by norm_num)
    have e3 : c_ceilf (8388610 : c_float) = 8388610 := by
      unfold c_ceilf
      rw [show (8388610 : c_float) = ((8388610 : Int) : c_float) by norm_num, Int.ceil_intCast]
    rw [e1, e2, e3]
    unfold f32_add
    rw [show (33554436 : c_float) + 8388610 = 41943046 by norm_num]
    exact f32_round_41943046
  have hscan : cursor_scan [0, 16777218, 33554436, 50331654] 67108872 41943048 4
      = { characterIndex := 2, textCursorPosX := 33554436 } := by
    rw [cursor_scan_last_hit [0, 16777218, 33554436, 50331654] 67108872 41943048 4 2
      (by decide) (by rw [hl2, hr2]; norm_num)
      (by
        intro k h1 h2
        have hk : k = 3 := by omega
        subst hk
        rw [hl3]
        norm_num), hl2, hr2, hhalf, if_pos (le_refl _)]
  have h := from_point_of_layout (win32_text_mono 16777218) gdi_font_1 gdi_context_1
    (some [97, 98, 99, 100]) 4 67108872 41943048 (some 0) (some 0) [97, 98, 99, 100, 0xCDCD]
    (fun _ => 0xCDCD) [0, 16777218, 33554436, 50331654] hconv rfl (by decide)
  rw [hctx] at h
  have hlen : ([0, 16777218, 33554436, 50331654] : List Int).length = 4 := rfl
  rw [hlen, hscan] at h
  exact ⟨by decide, by norm_num, by norm_num, h⟩

/-- C20, amended: on a monospaced run of `n >= 1` characters with caret positions
`caret[i] = i * w` for an even advance `w = 2 * h >= 2` and max width `n * w` at most `2 ^ 24`,
once the text is converted and laid out the function succeeds, and for every character
`i < n`: an input X with `i * w <= X <= i * w + w / 2` gives index `i` and cursor X `i * w`;
an input X with `i * w + w / 2 < X <= (i + 1) * w` gives index `i + 1` and cursor X
`(i + 1) * w`; and X = max width gives index `n`. -/
theorem monospaced_point_to_index (W : win32_text) (font : gdi_font_data)
    (c : gdi_context_data) (text : Option (List Nat)) (size : Nat) (n h i : Nat)
    (X : c_float) (px : Option c_float) (pi : Option Nat) (textW : List Nat) (g : Nat → Nat)
    (hh : 1 ≤ h) (hi : i < n) (hb : n * (2 * h) ≤ 2 ^ 24)
    (hconv : (easy2d_to_wchar_gdi W (some c) text size (some 0)).ret = some textW)
    (hmalloc : W.malloc (sizeof_int * uint_of_size_t size) = some g)
    (hlayout : W.GetCharacterPlacementW c.hDC font.hFont textW (uint_of_size_t size)
      (c_int ((n * (2 * h) : Nat) : c_float)) (GCP_MAXEXTENT ||| GCP_USEKERNING)
      = some (mono_carets n (2 * h))) :
    ((((i * (2 * h) : Nat) : c_float) ≤ X ∧ X ≤ ((i * (2 * h) : Nat) : c_float) + (h : c_float)) →
      easy2d_get_text_cursor_position_from_point_gdi W (some font) c text size
          ((n * (2 * h) : Nat) : c_float) X px pi =
        .ok ⟨true, px.map (fun _ => ((i * (2 * h) : Nat) : c_float)), pi.map (fun _ => i),
          (easy2d_to_wchar_gdi W (some c) text size (some 0)).ctx.getD c⟩) ∧
    ((((i * (2 * h) : Nat) : c_float) + (h : c_float) < X ∧
        X ≤ (((i + 1) * (2 * h) : Nat) : c_float)) →
      easy2d_get_text_cursor_position_from_point_gdi W (some font) c text size
          ((n * (2 * h) : Nat) : c_float) X px pi =
        .ok ⟨true, px.map (fun _ => (((i + 1) * (2 * h) : Nat) : c_float)),
          pi.map (fun _ => i + 1),
          (easy2d_to_wchar_gdi W (some c) text size (some 0)).ctx.getD c⟩) ∧
    easy2d_get_text_cursor_position_from_point_gdi W (some font) c text size
        ((n * (2 * h) : Nat) : c_float) ((n * (2 * h) : Nat) : c_float) px pi =
      .ok ⟨true, px.map (fun _ => ((n * (2 * h) : Nat) : c_float)), pi.map (fun _ => n),
        (easy2d_to_wchar_gdi W (some c) text size (some 0)).ctx.getD c⟩ := by
  have hlen : (mono_carets n (2 * h)).length = n := by simp [mono_carets]
  have hrun : ∀ Y : c_float,
      easy2d_get_text_cursor_position_from_point_gdi W (some font) c text size
          ((n * (2 * h) : Nat) : c_float) Y px pi =
        .ok ⟨true,
          px.map (fun _ => (cursor_scan (mono_carets n (2 * h)) ((n * (2 * h) : Nat) : c_float)
            Y n).textCursorPosX),
          pi.map (fun _ => (cursor_scan (mono_carets n (2 * h)) ((n * (2 * h) : Nat) : c_float)
            Y n).characterIndex),
          (easy2d_to_wchar_gdi W (some c) text size (some 0)).ctx.getD c⟩ := by
    intro Y
    have := from_point_of_layout W font c text size ((n * (2 * h) : Nat) : c_float) Y px pi
      textW g (mono_carets n (2 * h)) hconv hmalloc hlayout
    rw [hlen] at this
    exact this
  refine ⟨?_, ?_, ?_⟩
  · intro hX
    rw [hrun X, (mono_scan n h i X hh hi hb).1 hX]
  · intro hX
    rw [hrun X, (mono_scan n h i X hh hi hb).2 hX]
  · have hn : n - 1 + 1 = n := by omega
    have hhq : (1 : c_float) ≤ (h : c_float) := by exact_mod_cast hh
    have hX : ((((n - 1) * (2 * h) : Nat) : c_float) + (h : c_float)
          < ((n * (2 * h) : Nat) : c_float) ∧
        ((n * (2 * h) : Nat) : c_float) ≤ ((((n - 1) + 1) * (2 * h) : Nat) : c_float)) := by
      rw [hn]
      refine ⟨?_, le_refl _⟩
      have e : ((n * (2 * h) : Nat) : c_float)
          = (((n - 1) * (2 * h) : Nat) : c_float) + 2 * (h : c_float) := by
        conv_lhs => rw [← hn]
        push_cast
        ring
      rw [e]
      linarith
    have hs := (mono_scan n h (n - 1) ((n * (2 * h) : Nat) : c_float) hh (by omega) hb).2 hX
    rw [hn] at hs
    rw [hrun _, hs]

/-- C20, witness: the three ASCII characters "abc" in a monospaced font of advance 10, carets
0, 10, 20, max width 30: X = 4 gives index 0 at cursor 0, X = 9 gives index 1 at cursor 10,
X = 30 gives index 3 at cursor 30. -/
theorem monospaced_point_to_index_witness :
    easy2d_get_text_cursor_position_from_point_gdi (win32_text_mono 10) (some gdi_font_1)
        gdi_context_1 (some [97, 98, 99]) 3 30 4 (some 0) (some 0) =
      .ok ⟨true, some 0, some 0,
        { hDC := 100, wcharBuffer := some [97, 98, 99, 0xCDCD], wcharBufferLength := 4 }⟩ ∧
    easy2d_get_text_cursor_position_from_point_gdi (win32_text_mono 10) (some gdi_font_1)
        gdi_context_1 (some [97, 98, 99]) 3 30 9 (some 0) (some 0) =
      .ok ⟨true, some 10, some 1,
        { hDC := 100, wcharBuffer := some [97, 98, 99, 0xCDCD], wcharBufferLength := 4 }⟩ ∧
    easy2d_get_text_cursor_position_from_point_gdi (win32_text_mono 10) (some gdi_font_1)
        gdi_context_1 (some [97, 98, 99]) 3 30 30 (some 0) (some 0) =
      .ok ⟨true, some 30, some 3,
        { hDC := 100, wcharBuffer := some [97, 98, 99, 0xCDCD], wcharBufferLength := 4 }⟩ := by
  have hconv : (easy2d_to_wchar_gdi (win32_text_mono 10) (some gdi_context_1)
      (some [97, 98, 99]) 3 (some 0)).ret = some [97, 98, 99, 0xCDCD] := by decide
  have hctx : (easy2d_to_wchar_gdi (win32_text_mono 10) (some gdi_context_1)
      (some [97, 98, 99]) 3 (some 0)).ctx.getD gdi_context_1 =
      { hDC := 100, wcharBuffer := some [97, 98, 99, 0xCDCD], wcharBufferLength := 4 } := by
    decide
  have h0 := (monospaced_point_to_index (win32_text_mono 10) gdi_font_1 gdi_context_1
    (some [97, 98, 99]) 3 3 5 0 4 (some 0) (some 0) [97, 98, 99, 0xCDCD] (fun _ => 0xCDCD)
    (by decide) (by decide) (by norm_num) hconv rfl rfl).1 (by norm_num)
  have h1 := (monospaced_point_to_index (win32_text_mono 10) gdi_font_1 gdi_context_1
    (some [97, 98, 99]) 3 3 5 0 9 (some 0) (some 0) [97, 98, 99, 0xCDCD] (fun _ => 0xCDCD)
    (by decide) (by decide) (by norm_num) hconv rfl rfl).2.1 (by norm_num)
  have h2 := (monospaced_point_to_index (win32_text_mono 10) gdi_font_1 gdi_context_1
    (some [97, 98, 99]) 3 3 5 0 30 (some 0) (some 0) [97, 98, 99, 0xCDCD] (fun _ => 0xCDCD)
    (by decide) (by decide) (by norm_num) hconv rfl rfl).2.2
  rw [hctx] at h0 h1 h2
  norm_num at h0 h1 h2
  exact ⟨h0, h1, h2⟩

/-! ### The caret of a character -/

theorem from_char_of_layout (W : win32_text) (font : gdi_font_data) (c : gdi_context_data)
    (text : Option (List Nat)) (i : Nat) (px0 : c_float) (textW : List Nat) (g : Nat → Nat)
    (carets : List Int) (hi : i + 1 < 2 ^ 32)
    (hconv : (easy2d_to_wchar_gdi W (some c) text (size_t_of_int (int_of_uint (i + 1)))
      (some 0)).ret = some textW)
    (hmalloc : W.malloc (sizeof_int * (i + 1)) = some g)
    (hlayout : W.GetCharacterPlacementW c.hDC font.hFont textW (i + 1) 0 GCP_USEKERNING
      = some carets) :
    easy2d_get_text_cursor_position_from_char_gdi W (some font) c text i (some px0) =
      .ok ⟨true, some (f32_of_int ((carets[i]?).getD (int_of_uint (g i)))),
        (easy2d_to_wchar_gdi W (some c) text (size_t_of_int (int_of_uint (i + 1)))
          (some 0)).ctx.getD c⟩ := by
  unfold easy2d_get_text_cursor_position_from_char_gdi
  have hm : (i + 1) % 2 ^ 32 = i + 1 := Nat.mod_eq_of_lt hi
  simp only [hm, hconv, hmalloc, to_wchar_hDC, hlayout]
  rw [if_pos (by omega)]

/-- The right bound of a character of a strictly increasing layout of carets of magnitude at
most `2 ^ 24` that lies within the max width is not left of its left bound. -/
theorem char_bounds_ordered (carets : List Int) (maxWidth : c_float) (i : Nat)
    (hmono : carets.Pairwise (fun x y => x < y))
    (hcb : ∀ x ∈ carets, -(2 ^ 24) ≤ x ∧ x ≤ 2 ^ 24) (hi : i < carets.length)
    (hfit : ((carets.getD (carets.length - 1) 0 : Int) : c_float) ≤ maxWidth) :
    char_bounds_left carets i ≤ char_bounds_right carets maxWidth i := by
  rw [char_bounds_left_exact carets hcb]
  by_cases h : i < carets.length - 1
  · rw [char_bounds_right_exact carets maxWidth hcb i h]
    exact_mod_cast (pairwise_getD_lt carets hmono i (i + 1) (by omega) (by omega)).le
  · rw [char_bounds_right_last carets maxWidth i h]
    have e : i = carets.length - 1 := by omega
    rw [e]
    exact hfit

/-- In a strictly increasing layout of carets of magnitude at most `2 ^ 24` the characters
after `i` start right of the left bound of character `i`. -/
theorem no_hit_after (carets : List Int) (maxWidth : c_float) (i : Nat)
    (hmono : carets.Pairwise (fun x y => x < y))
    (hcb : ∀ x ∈ carets, -(2 ^ 24) ≤ x ∧ x ≤ 2 ^ 24) (k : Nat) (hik : i < k)
    (hk : k < carets.length) :
    ¬ (char_bounds_left carets i ≥ char_bounds_left carets k ∧
      char_bounds_left carets i ≤ char_bounds_right carets maxWidth k) := by
  intro h
  have hlt : ((carets.getD i 0 : Int) : c_float) < ((carets.getD k 0 : Int) : c_float) := by
    exact_mod_cast pairwise_getD_lt carets hmono i k hik hk
  have h1 := h.1
  rw [char_bounds_left_exact carets hcb, char_bounds_left_exact carets hcb] at h1
  linarith

/-- C21: when the input X lies within the bounds (tested inclusively on both ends) of
character `j` and of no character after `j`, the reported index and cursor X are those
computed from character `j`, whichever earlier characters also contain X: index `j` at the
left edge of `j` when X is at or left of `left + ceilf((right - left) / 2)`, index `j + 1` at
its right edge otherwise.  The bounds are the `float` values the code compares X with, and
the threshold is evaluated in `float` arithmetic. -/
theorem last_matching_character_wins (W : win32_text) (font : gdi_font_data)
    (c : gdi_context_data) (text : Option (List Nat)) (size : Nat) (maxWidth X : c_float)
    (px : Option c_float) (pi : Option Nat) (textW : List Nat) (g : Nat → Nat)
    (carets : List Int) (j : Nat)
    (hconv : (easy2d_to_wchar_gdi W (some c) text size (some 0)).ret = some textW)
    (hmalloc : W.malloc (sizeof_int * uint_of_size_t size) = some g)
    (hlayout : W.GetCharacterPlacementW c.hDC font.hFont textW (uint_of_size_t size)
      (c_int maxWidth) (GCP_MAXEXTENT ||| GCP_USEKERNING) = some carets)
    (hj : j < carets.length)
    (hhit : X ≥ char_bounds_left carets j ∧ X ≤ char_bounds_right carets maxWidth j)
    (hlast : ∀ k, j < k → k < carets.length →
      ¬ (X ≥ char_bounds_left carets k ∧ X ≤ char_bounds_right carets maxWidth k)) :
    (X ≤ f32_add (char_bounds_left carets j)
          (c_ceilf (f32_div (f32_sub (char_bounds_right carets maxWidth j)
            (char_bounds_left carets j)) 2)) →
      easy2d_get_text_cursor_position_from_point_gdi W (some font) c text size maxWidth X
          px pi =
        .ok ⟨true, px.map (fun _ => char_bounds_left carets j), pi.map (fun _ => j),
          (easy2d_to_wchar_gdi W (some c) text size (some 0)).ctx.getD c⟩) ∧
    (¬ X ≤ f32_add (char_bounds_left carets j)
          (c_ceilf (f32_div (f32_sub (char_bounds_right carets maxWidth j)
            (char_bounds_left carets j)) 2)) →
      easy2d_get_text_cursor_position_from_point_gdi W (some font) c text size maxWidth X
          px pi =
        .ok ⟨true, px.map (fun _ => char_bounds_right carets maxWidth j),
          pi.map (fun _ => j + 1),
          (easy2d_to_wchar_gdi W (some c) text size (some 0)).ctx.getD c⟩) := by
  rw [from_point_of_layout W font c text size maxWidth X px pi textW g carets hconv hmalloc
    hlayout, cursor_scan_last_hit carets maxWidth X carets.length j hj hhit hlast]
  constructor
  · intro hhalf
    rw [if_pos hhalf]
  · intro hhalf
    rw [if_neg hhalf]

/-- C21, witness: two characters with carets 0 and 0 (the first has zero width) and max width
10.  X = 0 lies within the bounds of both; character 0 alone would give index 0, and the
function reports index 1, computed from character 1. -/
theorem last_matching_character_wins_witness :
    ((0 : c_float) ≥ char_bounds_left [0, 0] 0 ∧
      (0 : c_float) ≤ char_bounds_right [0, 0] 10 0) ∧
    cursor_step [0, 0] 10 0 { characterIndex := 0, textCursorPosX := 0 } 0
      = { characterIndex := 0, textCursorPosX := 0 } ∧
    easy2d_get_text_cursor_position_from_point_gdi (win32_text_mono 0) (some gdi_font_1)
        gdi_context_1 (some [97, 98]) 2 10 0 (some 7) (some 9) =
      .ok ⟨true, some 0, some 1,
        { hDC := 100, wcharBuffer := some [97, 98, 0xCDCD], wcharBufferLength := 3 }⟩ := by
  have hz : f32_round 0 = 0 := f32_round_zero
  have hl0 : char_bounds_left [0, 0] 0 = 0 :=
    (f32_of_int_exact 0 (by norm_num) (by norm_num)).trans (by norm_num)
  have hr0 : char_bounds_right [0, 0] 10 0 = 0 :=
    (f32_of_int_exact 0 (by norm_num) (by norm_num)).trans (by norm_num)
  refine ⟨by rw [hl0, hr0]; norm_num, ?_, ?_⟩
  · unfold cursor_step
    simp only [hl0, hr0]
    have hh := cursor_half_ge_left 0 0 hz (le_refl _)
    rw [if_pos (by norm_num), if_pos hh]
  have hconv : (easy2d_to_wchar_gdi (win32_text_mono 0) (some gdi_context_1)
      (some [97, 98]) 2 (some 0)).ret = some [97, 98, 0xCDCD] := by decide
  have hctx : (easy2d_to_wchar_gdi (win32_text_mono 0) (some gdi_context_1)
      (some [97, 98]) 2 (some 0)).ctx.getD gdi_context_1 =
      { hDC := 100, wcharBuffer := some [97, 98, 0xCDCD], wcharBufferLength := 3 } := by
    decide
  have hl : char_bounds_left [0, 0] 1 = 0 :=
    (f32_of_int_exact 0 (by norm_num) (by norm_num)).trans (by norm_num)
  have hr : char_bounds_right [0, 0] 10 1 = 10 := rfl
  have h := (last_matching_character_wins (win32_text_mono 0) gdi_font_1 gdi_context_1
    (some [97, 98]) 2 10 0 (some 7) (some 9) [97, 98, 0xCDCD] (fun _ => 0xCDCD) [0, 0] 1
    hconv rfl (by decide) (by decide) (by rw [hl, hr]; norm_num)
    (fun k h1 h2 => absurd h2 (by simp; omega))).1
    (by rw [hl, hr]; exact cursor_half_ge_left 0 10 hz (by norm_num))
  rw [hctx, hl] at h
  exact h

/-- C22, counterexample.  First: two characters with carets 16777216 and 16777217, max width
16777218.  The character query for index 0 returns X = 16777216, but the point query at
X = 16777216 reports index 1: converted to `float` the second caret is 16777216 too, so X
lies within the bounds of character 1 as well.  Second: a layout that reports carets 0 and 1
for a max width of 0; the point query at X = caret[1] = 1 reports index 0 and cursor X 0,
because X is right of the max width, which is the right bound of the last character. -/
theorem char_query_does_not_invert_point_query :
    easy2d_get_text_cursor_position_from_char_gdi (win32_text_carets [16777216, 16777217])
        (some gdi_font_1) gdi_context_1 (some [97, 98]) 0 (some 0) =
      .ok ⟨true, some 16777216,
        { hDC := 100, wcharBuffer := some [97, 98, 0xCDCD], wcharBufferLength := 3 }⟩ ∧
    easy2d_get_text_cursor_position_from_point_gdi (win32_text_carets [16777216, 16777217])
        (some gdi_font_1) gdi_context_1 (some [97, 98]) 2 16777218 16777216 (some 0) (some 0) =
      .ok ⟨true, some 16777216, some 1,
        { hDC := 100, wcharBuffer := some [97, 98, 0xCDCD], wcharBufferLength := 3 }⟩ ∧
    easy2d_get_text_cursor_position_from_point_gdi (win32_text_carets [0, 1])
        (some gdi_font_1) gdi_context_1 (some [97, 98]) 2 0 1 (some 7) (some 9) =
      .ok ⟨true, some 0, some 0,
        { hDC := 100, wcharBuffer := some [97, 98, 0xCDCD], wcharBufferLength := 3 }⟩ := by
  refine ⟨?_, ?_, ?_⟩
  · have hconv : (easy2d_to_wchar_gdi (win32_text_carets [16777216, 16777217])
        (some gdi_context_1) (some [97, 98]) (size_t_of_int (int_of_uint (0 + 1)))
        (some 0)).ret = some [97, 98, 0xCDCD] := by decide
    have hctx : (easy2d_to_wchar_gdi (win32_text_carets [16777216, 16777217])
        (some gdi_context_1) (some [97, 98]) (size_t_of_int (int_of_uint (0 + 1)))
        (some 0)).ctx.getD gdi_context_1 =
        { hDC := 100, wcharBuffer := some [97, 98, 0xCDCD], wcharBufferLength := 3 } := by
      decide
    have h := from_char_of_layout (win32_text_carets [16777216, 16777217]) gdi_font_1
      gdi_context_1 (some [97, 98]) 0 0 [97, 98, 0xCDCD] (fun _ => 0xCDCD) [16777216]
      (by decide) hconv rfl (by decide)
    rw [hctx] at h
    rw [h]
    have e : f32_of_int (([16777216] : List Int)[0]?.getD (int_of_uint 0xCDCD)) = 16777216 :=
      (f32_of_int_exact 16777216 (by norm_num) (by norm_num)).trans (by norm_num)
    rw [e]
  · have hconv : (easy2d_to_wchar_gdi (win32_text_carets [16777216, 16777217])
        (some gdi_context_1) (some [97, 98]) 2 (some 0)).ret = some [97, 98, 0xCDCD] := by
      decide
    have hctx : (easy2d_to_wchar_gdi (win32_text_carets [16777216, 16777217])
        (some gdi_context_1) (some [97, 98]) 2 (some 0)).ctx.getD gdi_context_1 =
        { hDC := 100, wcharBuffer := some [97, 98, 0xCDCD], wcharBufferLength := 3 } := by
      decide
    have hl1 : char_bounds_left [16777216, 16777217] 1 = 16777216 := by
      show f32_round ((16777217 : Int) : ℚ) = 16777216
      rw [show ((16777217 : Int) : ℚ) = 16777217 by norm_num]
      exact f32_round_16777217
    have hr1 : char_bounds_right [16777216, 16777217] 16777218 1 = 16777218 := rfl
    have hhalf : f32_add (16777216 : c_float)
        (c_ceilf (f32_div (f32_sub (16777218 : c_float) 16777216) 2)) = 16777216 := by
      have e1 : f32_sub (16777218 : c_float) 16777216 = 2 := by
        unfold f32_sub
        exact (f32_round_of_int_eq _ 2 (by norm_num) (by norm_num) (by norm_num)).trans
          (by norm_num)
      have e2 : f32_div (2 : c_float) 2 = 1 := by
        unfold f32_div
        exact (f32_round_of_int_eq _ 1 (by norm_num) (by norm_num) (by norm_num)).trans
          (by norm_num)
      have e3 : c_ceilf (1 : c_float) = 1 := by
        unfold c_ceilf
        rw [show (1 : c_float) = ((1 : Int) : c_float) by norm_num, Int.ceil_intCast]
      rw [e1, e2, e3]
      unfold f32_add
      rw [show (16777216 : c_float) + 1 = 16777217 by norm_num]
      exact f32_round_16777217
    have hscan : cursor_scan [16777216, 16777217] 16777218 16777216 2
        = { characterIndex := 1, textCursorPosX := 16777216 } := by
      rw [cursor_scan_last_hit [16777216, 16777217] 16777218 16777216 2 1 (by decide)
        (by rw [hl1, hr1]; norm_num) (fun k h1 h2 => absurd h2 (by omega)), hl1, hr1, hhalf,
        if_pos (le_refl _)]
    have h := from_point_of_layout (win32_text_carets [16777216, 16777217]) gdi_font_1
      gdi_context_1 (some [97, 98]) 2 16777218 16777216 (some 0) (some 0) [97, 98, 0xCDCD]
      (fun _ => 0xCDCD) [16777216, 16777217] hconv rfl (by decide)
    rw [hctx] at h
    have hlen : ([16777216, 16777217] : List Int).length = 2 := rfl
    rw [hlen, hscan] at h
    exact h
  · have hconv : (easy2d_to_wchar_gdi (win32_text_carets [0, 1])
        (some gdi_context_1) (some [97, 98]) 2 (some 0)).ret = some [97, 98, 0xCDCD] := by
      decide
    have hctx : (easy2d_to_wchar_gdi (win32_text_carets [0, 1])
        (some gdi_context_1) (some [97, 98]) 2 (some 0)).ctx.getD gdi_context_1 =
        { hDC := 100, wcharBuffer := some [97, 98, 0xCDCD], wcharBufferLength := 3 } := by
      decide
    have hl0 : char_bounds_left [0, 1] 0 = ((0 : Int) : c_float) :=
      f32_of_int_exact 0 (by norm_num) (by norm_num)
    have hr0 : char_bounds_right [0, 1] 0 0 = ((1 : Int) : c_float) :=
      f32_of_int_exact 1 (by norm_num) (by norm_num)
    have hr1 : char_bounds_right [0, 1] 0 1 = 0 := rfl
    have hc : c_ceilf ((((1 : Int) : c_float) - ((0 : Int) : c_float)) / 2) = 1 := by
      unfold c_ceilf
      have h3 : ⌈(((1 : Int) : c_float) - ((0 : Int) : c_float)) / 2⌉ = 1 := by
        rw [Int.ceil_eq_iff]
        norm_num
      rw [h3]
      norm_num
    have hscan : cursor_scan [0, 1] 0 1 2 = { characterIndex := 0, textCursorPosX := 0 } := by
      rw [cursor_scan_last_hit [0, 1] 0 1 2 0 (by decide) (by rw [hl0, hr0]; norm_num)
        (by
          intro k h1 h2
          have hk : k = 1 := by omega
          subst hk
          rw [hr1]
          norm_num), hl0, hr0,
        cursor_half_exact 0 1 (by norm_num) (by norm_num) (by norm_num) (by norm_num),
        if_pos (by rw [hc]; norm_num)]
      norm_num
    have h := from_point_of_layout (win32_text_carets [0, 1]) gdi_font_1
      gdi_context_1 (some [97, 98]) 2 0 1 (some 7) (some 9) [97, 98, 0xCDCD]
      (fun _ => 0xCDCD) [0, 1] hconv rfl (by decide)
    rw [hctx] at h
    have hlen : ([0, 1] : List Int).length = 2 := rfl
    rw [hlen, hscan] at h
    exact h

/-- C22, amended: for a text whose layout yields strictly increasing caret positions of
magnitude at most `2 ^ 24`, which the conversion to `float` keeps, all within the max width,
and whose first `i + 1` characters lay out to the same caret positions, for every `i` below
the number of carets: the point query with input X = `caret[i]` reports index `i` and cursor
X = `caret[i]`, and the character query for index `i`, which lays out the first `i + 1`
characters only, returns that same X = `caret[i]`. -/
theorem char_query_inverts_point_query (W : win32_text) (font : gdi_font_data)
    (c c2 : gdi_context_data) (text : Option (List Nat)) (size : Nat) (maxWidth : c_float)
    (px : Option c_float) (pi : Option Nat) (px2 : c_float) (textW textW2 : List Nat)
    (g g2 : Nat → Nat) (carets carets2 : List Int) (i : Nat)
    (hconv : (easy2d_to_wchar_gdi W (some c) text size (some 0)).ret = some textW)
    (hmalloc : W.malloc (sizeof_int * uint_of_size_t size) = some g)
    (hlayout : W.GetCharacterPlacementW c.hDC font.hFont textW (uint_of_size_t size)
      (c_int maxWidth) (GCP_MAXEXTENT ||| GCP_USEKERNING) = some carets)
    (hmono : carets.Pairwise (fun x y => x < y))
    (hcb : ∀ x ∈ carets, -(2 ^ 24) ≤ x ∧ x ≤ 2 ^ 24)
    (hfit : ((carets.getD (carets.length - 1) 0 : Int) : c_float) ≤ maxWidth)
    (hi : i < carets.length) (hindex : i + 1 < 2 ^ 32)
    (hconv2 : (easy2d_to_wchar_gdi W (some c2) text (size_t_of_int (int_of_uint (i + 1)))
      (some 0)).ret = some textW2)
    (hmalloc2 : W.malloc (sizeof_int * (i + 1)) = some g2)
    (hlayout2 : W.GetCharacterPlacementW c2.hDC font.hFont textW2 (i + 1) 0 GCP_USEKERNING
      = some carets2)
    (hsame : carets2 = carets.take (i + 1)) :
    easy2d_get_text_cursor_position_from_point_gdi W (some font) c text size maxWidth
        ((carets.getD i 0 : Int) : c_float) px pi =
      .ok ⟨true, px.map (fun _ => ((carets.getD i 0 : Int) : c_float)), pi.map (fun _ => i),
        (easy2d_to_wchar_gdi W (some c) text size (some 0)).ctx.getD c⟩ ∧
    easy2d_get_text_cursor_position_from_char_gdi W (some font) c2 text i (some px2) =
      .ok ⟨true, some ((carets.getD i 0 : Int) : c_float),
        (easy2d_to_wchar_gdi W (some c2) text (size_t_of_int (int_of_uint (i + 1)))
          (some 0)).ctx.getD c2⟩ := by
  have hbl := char_bounds_left_exact carets hcb
  have hb := getD_caret_bound carets hcb i
  constructor
  · have hord := char_bounds_ordered carets maxWidth i hmono hcb hi hfit
    have hscan := cursor_scan_last_hit carets maxWidth ((carets.getD i 0 : Int) : c_float)
      carets.length i hi ⟨by rw [hbl], by rw [← hbl]; exact hord⟩
      (fun k hik hk => by
        have := no_hit_after carets maxWidth i hmono hcb k hik hk
        rw [hbl i] at this
        exact this)
    have hhalf : ((carets.getD i 0 : Int) : c_float) ≤ f32_add (char_bounds_left carets i)
        (c_ceilf (f32_div (f32_sub (char_bounds_right carets maxWidth i)
          (char_bounds_left carets i)) 2)) := by
      have := cursor_half_ge_left (char_bounds_left carets i)
        (char_bounds_right carets maxWidth i)
        (by rw [hbl]; exact f32_round_int _ hb.1 hb.2) hord
      rw [hbl i] at this ⊢
      exact this
    rw [if_pos hhalf] at hscan
    rw [from_point_of_layout W font c text size maxWidth _ px pi textW g carets hconv hmalloc
      hlayout, hscan, hbl]
  · rw [from_char_of_layout W font c2 text i px2 textW2 g2 carets2 hindex hconv2 hmalloc2
      hlayout2, hsame]
    have hget : (carets.take (i + 1))[i]? = carets[i]? := by
      rw [List.getElem?_take]
      simp
    rw [hget]
    have e : (carets[i]?).getD (int_of_uint (g2 i)) = carets.getD i 0 := by
      rw [List.getD_eq_getElem?_getD, List.getElem?_eq_getElem hi]
      rfl
    rw [e, f32_of_int_exact _ hb.1 hb.2]

/-- C22, witness: "abc" in a monospaced font of advance 10, max width 30.  The point query at
X = 10 reports index 1 at cursor 10, and the character query for index 1 returns 10. -/
theorem char_query_inverts_point_query_witness :
    easy2d_get_text_cursor_position_from_point_gdi (win32_text_mono 10) (some gdi_font_1)
        gdi_context_1 (some [97, 98, 99]) 3 30 10 (some 0) (some 0) =
      .ok ⟨true, some 10, some 1,
        { hDC := 100, wcharBuffer := some [97, 98, 99, 0xCDCD], wcharBufferLength := 4 }⟩ ∧
    easy2d_get_text_cursor_position_from_char_gdi (win32_text_mono 10) (some gdi_font_1)
        gdi_context_1 (some [97, 98, 99]) 1 (some 0) =
      .ok ⟨true, some 10,
        { hDC := 100, wcharBuffer := some [97, 98, 99, 0xCDCD], wcharBufferLength := 4 }⟩ := by
  have hconv : (easy2d_to_wchar_gdi (win32_text_mono 10) (some gdi_context_1)
      (some [97, 98, 99]) 3 (some 0)).ret = some [97, 98, 99, 0xCDCD] := by decide
  have hctx : (easy2d_to_wchar_gdi (win32_text_mono 10) (some gdi_context_1)
      (some [97, 98, 99]) 3 (some 0)).ctx.getD gdi_context_1 =
      { hDC := 100, wcharBuffer := some [97, 98, 99, 0xCDCD], wcharBufferLength := 4 } := by
    decide
  have hconv2 : (easy2d_to_wchar_gdi (win32_text_mono 10) (some gdi_context_1)
      (some [97, 98, 99]) (size_t_of_int (int_of_uint (1 + 1))) (some 0)).ret
      = some [97, 98, 99, 0xCDCD] := by decide
  have hctx2 : (easy2d_to_wchar_gdi (win32_text_mono 10) (some gdi_context_1)
      (some [97, 98, 99]) (size_t_of_int (int_of_uint (1 + 1))) (some 0)).ctx.getD
        gdi_context_1 =
      { hDC := 100, wcharBuffer := some [97, 98, 99, 0xCDCD], wcharBufferLength := 4 } := by
    decide
  have h := char_query_inverts_point_query (win32_text_mono 10) gdi_font_1 gdi_context_1
    gdi_context_1 (some [97, 98, 99]) 3 30 (some 0) (some 0) 0 [97, 98, 99, 0xCDCD]
    [97, 98, 99, 0xCDCD] (fun _ => 0xCDCD) (fun _ => 0xCDCD) [0, 10, 20] [0, 10] 1
    hconv rfl (by decide) (by decide) (by decide) (by norm_num) (by decide)
    (by decide) hconv2 rfl (by decide) (by decide)
  rw [hctx, hctx2] at h
  norm_num at h
  exact h

/-! ### Save, restore and the bounds border -/

theorem clip_image_scaled (R : gdi_replies) (s : gdi_surface_data)
    (b : easy2d_draw_image_args) (h : scaled_clip_case b) :
    clip_image R s b = .proceed b R.SaveDC [.SaveDC s.hDC] := by
  have hp : b.dstX < b.dstBoundsX ∨
      f32_add b.dstX b.dstWidth > f32_add b.dstBoundsX b.dstBoundsWidth ∨
      b.dstY < b.dstBoundsY ∨
      f32_add b.dstY b.dstHeight > f32_add b.dstBoundsY b.dstBoundsHeight := h.2.1
  unfold clip_image
  rw [if_pos h.1, if_pos hp, if_pos h.2.2]

theorem clip_image_unscaled (R : gdi_replies) (s : gdi_surface_data)
    (b : easy2d_draw_image_args) (h : unscaled_clip_case b) :
    clip_image R s b =
      if (clip_bottom (clip_right (clip_top (clip_left b)))).dstWidth ≤ 0 ∨
          (clip_bottom (clip_right (clip_top (clip_left b)))).dstHeight ≤ 0 then
        .abandoned (clip_bottom (clip_right (clip_top (clip_left b))))
      else .proceed (clip_bottom (clip_right (clip_top (clip_left b)))) 0 [] := by
  have hp : b.dstX < b.dstBoundsX ∨
      f32_add b.dstX b.dstWidth > f32_add b.dstBoundsX b.dstBoundsWidth ∨
      b.dstY < b.dstBoundsY ∨
      f32_add b.dstY b.dstHeight > f32_add b.dstBoundsY b.dstBoundsHeight := h.2.1
  unfold clip_image
  rw [if_pos h.1, if_pos hp, if_neg h.2.2]

theorem clip_image_plain (R : gdi_replies) (s : gdi_surface_data)
    (b : easy2d_draw_image_args) (h1 : ¬ scaled_clip_case b) (h2 : ¬ unscaled_clip_case b) :
    clip_image R s b = .proceed b 0 [] := by
  unfold clip_image
  by_cases hc : b.options &&& EASY2D_IMAGE_CLIP_BOUNDS ≠ 0
  · rw [if_pos hc]
    by_cases hp : b.dstX < b.dstBoundsX ∨
        f32_add b.dstX b.dstWidth > f32_add b.dstBoundsX b.dstBoundsWidth ∨
        b.dstY < b.dstBoundsY ∨
        f32_add b.dstY b.dstHeight > f32_add b.dstBoundsY b.dstBoundsHeight
    · by_cases hs : b.dstWidth ≠ b.srcWidth ∨ b.dstHeight ≠ b.srcHeight
      · exact absurd ⟨hc, hp, hs⟩ h1
      · exact absurd ⟨hc, hp, hs⟩ h2
    · rw [if_neg hp]
  · rw [if_neg hc]

theorem clip_steps_bounds (b : easy2d_draw_image_args) :
    (clip_bottom (clip_right (clip_top (clip_left b)))).dstBoundsX = b.dstBoundsX ∧
    (clip_bottom (clip_right (clip_top (clip_left b)))).dstBoundsY = b.dstBoundsY ∧
    (clip_bottom (clip_right (clip_top (clip_left b)))).dstBoundsWidth = b.dstBoundsWidth ∧
    (clip_bottom (clip_right (clip_top (clip_left b)))).dstBoundsHeight = b.dstBoundsHeight := by
  unfold clip_bottom clip_right clip_top clip_left
  split_ifs <;> exact ⟨rfl, rfl, rfl, rfl⟩

theorem or_hint_and_flag (x flag : Nat) (h : EASY2D_IMAGE_HINT_NO_ALPHA &&& flag = 0) :
    (x ||| EASY2D_IMAGE_HINT_NO_ALPHA) &&& flag = x &&& flag := by
  apply Nat.eq_of_testBit_eq
  intro j
  have hj := congrArg (fun n => Nat.testBit n j) h
  simp only [Nat.testBit_and, Nat.testBit_or, Nat.zero_testBit] at hj ⊢
  cases hx : x.testBit j <;> cases hn : EASY2D_IMAGE_HINT_NO_ALPHA.testBit j <;>
    cases hf : flag.testBit j <;> simp_all

theorem composite_image_options (im : gdi_image) (b : easy2d_draw_image_args) :
    (composite_image im b).args.options =
      if b.options &&& EASY2D_IMAGE_DRAW_BACKGROUND ≠ 0 then
        b.options ||| EASY2D_IMAGE_HINT_NO_ALPHA
      else b.options := by
  unfold composite_image
  by_cases hbg : b.options &&& EASY2D_IMAGE_DRAW_BACKGROUND ≠ 0
  · have hn : ¬ (b.options &&& EASY2D_IMAGE_DRAW_BACKGROUND = 0 ∧ b.foregroundTint.r = 255 ∧
        b.foregroundTint.g = 255 ∧ b.foregroundTint.b = 255) := fun h => hbg h.1
    rw [if_neg hn]
    simp only
    rw [if_pos hbg, if_pos hbg]
  · by_cases hc : b.options &&& EASY2D_IMAGE_DRAW_BACKGROUND = 0 ∧ b.foregroundTint.r = 255 ∧
        b.foregroundTint.g = 255 ∧ b.foregroundTint.b = 255
    · rw [if_pos hc]
      exact (if_neg hbg).symm
    · rw [if_neg hc]
      simp only
      rw [if_neg hbg, if_neg hbg]

theorem composite_ops_plain (im : gdi_image) (b : easy2d_draw_image_args) :
    (composite_image im b).ops.any is_save = false ∧
    (composite_image im b).ops.any is_restore = false ∧
    (composite_image im b).ops.any is_blit = false ∧
    (composite_image im b).ops.any is_fill = false := by
  rcases composite_image_ops_cases im b with h | h <;> rw [h] <;> exact ⟨rfl, rfl, rfl, rfl⟩

theorem draw_bounds_plain (s : gdi_surface_data) (a : easy2d_draw_image_args) :
    (draw_bounds s a).any is_save = false ∧ (draw_bounds s a).any is_restore = false ∧
    (draw_bounds s a).any is_blit = false := by
  rcases draw_bounds_cases s a with h | ⟨pPoints, polyCount, h⟩ <;> rw [h] <;>
    exact ⟨rfl, rfl, rfl⟩

/-- The blit block: the selection of the bitmap, one blit, the selection of the previous
bitmap, and the restore when `prevDC` is not 0. -/
theorem blit_image_shape (R : gdi_replies) (s : gdi_surface_data)
    (a : easy2d_draw_image_args) (hSrcBitmap : Handle) (prevDC : Int) :
    ∃ blit, is_blit blit = true ∧ is_save blit = false ∧ is_restore blit = false ∧
      is_fill blit = false ∧
      blit_image R s a hSrcBitmap prevDC =
        .SelectObject s.hIntermediateDC hSrcBitmap :: blit ::
          .SelectObject s.hIntermediateDC R.hPrevBitmap ::
          (if prevDC ≠ 0 then [.RestoreDC s.hDC prevDC] else []) := by
  unfold blit_image
  by_cases h : a.options &&& EASY2D_IMAGE_HINT_NO_ALPHA ≠ 0
  · rw [if_pos h]
    refine ⟨_, ?_, ?_, ?_, ?_, rfl⟩ <;> rfl
  · rw [if_neg h]
    refine ⟨_, ?_, ?_, ?_, ?_, rfl⟩ <;> rfl

/-- In the scaled clip case the draw is never abandoned: its calls are the `SaveDC`, then
calls that neither save, nor restore, nor blit, then the blit and the selection of the
previous bitmap, and last, when `SaveDC` did not return 0, one `RestoreDC`. -/
theorem draw_image_scaled_clip_ops (R : gdi_replies) (s : gdi_surface_data) (im : gdi_image)
    (a : easy2d_draw_image_args) (hsc : scaled_clip_case (center_image a)) :
    ∃ mid blit, is_blit blit = true ∧ mid.any is_save = false ∧
      mid.any is_restore = false ∧ mid.any is_blit = false ∧
      (easy2d_draw_image_gdi R (some s) (some im) a).ops =
        .SaveDC s.hDC :: (mid ++ blit :: .SelectObject s.hIntermediateDC R.hPrevBitmap ::
          (if R.SaveDC ≠ 0 then [.RestoreDC s.hDC R.SaveDC] else [])) := by
  have hclip := clip_image_scaled R s (center_image a) hsc
  rw [draw_image_of_proceed R s im a _ _ _ hclip]
  obtain ⟨blit, hb, _, _, _, hshape⟩ := blit_image_shape R s
    (composite_image im (center_image a)).args
    (composite_image im (center_image a)).hSrcBitmap R.SaveDC
  obtain ⟨c1, c2, c3, _⟩ := composite_ops_plain im (center_image a)
  obtain ⟨d1, d2, d3⟩ := draw_bounds_plain s (composite_image im (center_image a)).args
  refine ⟨(composite_image im (center_image a)).ops
      ++ draw_bounds s (composite_image im (center_image a)).args
      ++ [.SelectObject s.hIntermediateDC (composite_image im (center_image a)).hSrcBitmap],
    blit, hb, ?_, ?_, ?_, ?_⟩
  · simp [List.any_append, c1, d1, is_save]
  · simp [List.any_append, c2, d2, is_restore]
  · simp [List.any_append, c3, d3, is_blit]
  · simp only [hshape]
    simp

/-- Outside the scaled clip case the draw issues neither a save nor a restore. -/
theorem draw_image_no_save (R : gdi_replies) (s : gdi_surface_data) (im : gdi_image)
    (a : easy2d_draw_image_args) (hsc : ¬ scaled_clip_case (center_image a)) :
    (easy2d_draw_image_gdi R (some s) (some im) a).ops.any is_save = false ∧
    (easy2d_draw_image_gdi R (some s) (some im) a).ops.any is_restore = false := by
  have hs1 : ∀ h1 h2, is_save (.SelectObject h1 h2) = false := fun _ _ => rfl
  have hr1 : ∀ h1 h2, is_restore (.SelectObject h1 h2) = false := fun _ _ => rfl
  by_cases hun : unscaled_clip_case (center_image a)
  · have hclip := clip_image_unscaled R s (center_image a) hun
    by_cases he : (clip_bottom (clip_right (clip_top (clip_left (center_image a))))).dstWidth
        ≤ 0 ∨
        (clip_bottom (clip_right (clip_top (clip_left (center_image a))))).dstHeight ≤ 0
    · rw [if_pos he] at hclip
      rw [draw_image_of_abandoned R s im a _ hclip]
      exact ⟨rfl, rfl⟩
    · rw [if_neg he] at hclip
      rw [draw_image_of_proceed R s im a _ _ _ hclip]
      obtain ⟨blit, _, hb2, hb3, _, hshape⟩ := blit_image_shape R s
        (composite_image im
          (clip_bottom (clip_right (clip_top (clip_left (center_image a)))))).args
        (composite_image im
          (clip_bottom (clip_right (clip_top (clip_left (center_image a)))))).hSrcBitmap 0
      obtain ⟨c1, c2, _, _⟩ := composite_ops_plain im
        (clip_bottom (clip_right (clip_top (clip_left (center_image a)))))
      obtain ⟨d1, d2, _⟩ := draw_bounds_plain s (composite_image im
        (clip_bottom (clip_right (clip_top (clip_left (center_image a)))))).args
      simp only [hshape]
      simp [List.any_append, c1, c2, d1, d2, hb2, hb3, hs1, hr1]
  · have hclip := clip_image_plain R s (center_image a) hsc hun
    rw [draw_image_of_proceed R s im a _ _ _ hclip]
    obtain ⟨blit, _, hb2, hb3, _, hshape⟩ := blit_image_shape R s
      (composite_image im (center_image a)).args
      (composite_image im (center_image a)).hSrcBitmap 0
    obtain ⟨c1, c2, _, _⟩ := composite_ops_plain im (center_image a)
    obtain ⟨d1, d2, _⟩ := draw_bounds_plain s (composite_image im (center_image a)).args
    simp only [hshape]
    simp [List.any_append, c1, c2, d1, d2, hb2, hb3, hs1, hr1]

/-- A destination that the test of the clip block finds partly outside the bounds is partly
outside them: a `float` sum that exceeds another is the rounding of a greater exact sum. -/
theorem partly_outside_exact (b : easy2d_draw_image_args) (h : partly_outside b) :
    b.dstX < b.dstBoundsX ∨ b.dstX + b.dstWidth > b.dstBoundsX + b.dstBoundsWidth ∨
    b.dstY < b.dstBoundsY ∨ b.dstY + b.dstHeight > b.dstBoundsY + b.dstBoundsHeight := by
  have hmono : ∀ x y : ℚ, f32_round x > f32_round y → x > y := by
    intro x y hxy
    by_contra hle
    exact absurd (f32_round_mono (not_lt.mp hle)) (not_le.mpr hxy)
  rcases h with h | h | h | h
  · exact Or.inl h
  · exact Or.inr (Or.inl (hmono _ _ h))
  · exact Or.inr (Or.inr (Or.inl h))
  · exact Or.inr (Or.inr (Or.inr (hmono _ _ h)))

/-- C23: a draw saves the state of the surface's DC only in the scaled clip case:
clip-to-bounds set, source and destination sizes different, and the destination that enters
the clip block (the caller's, unless center-align replaced its position) partly outside the
bounds, by the code's test and in exact arithmetic.  A draw that saves is never abandoned: its
calls are the `SaveDC`, then calls that neither save, nor restore, nor blit, then the blit and
the selection of the previous bitmap, and last, when the save succeeded (`SaveDC` did not
return 0), exactly one `RestoreDC` of the saved state.  A draw that does not save issues no
restore.  And in the scaled clip case, when none of the sums of the code's test overflows,
the draw does save. -/
theorem save_restore_balanced (R : gdi_replies) (s : gdi_surface_data) (im : gdi_image)
    (a : easy2d_draw_image_args) :
    ((easy2d_draw_image_gdi R (some s) (some im) a).ops.any is_save = true →
      a.options &&& EASY2D_IMAGE_CLIP_BOUNDS ≠ 0 ∧
      (a.dstWidth ≠ a.srcWidth ∨ a.dstHeight ≠ a.srcHeight) ∧
      partly_outside (center_image a) ∧
      ((center_image a).dstX < a.dstBoundsX ∨
        (center_image a).dstX + a.dstWidth > a.dstBoundsX + a.dstBoundsWidth ∨
        (center_image a).dstY < a.dstBoundsY ∨
        (center_image a).dstY + a.dstHeight > a.dstBoundsY + a.dstBoundsHeight)) ∧
    ((easy2d_draw_image_gdi R (some s) (some im) a).ops.any is_save = true →
      ∃ mid blit, is_blit blit = true ∧ mid.any is_save = false ∧
        mid.any is_restore = false ∧ mid.any is_blit = false ∧
        (easy2d_draw_image_gdi R (some s) (some im) a).ops =
          .SaveDC s.hDC :: (mid ++ blit :: .SelectObject s.hIntermediateDC R.hPrevBitmap ::
            (if R.SaveDC ≠ 0 then [.RestoreDC s.hDC R.SaveDC] else []))) ∧
    ((easy2d_draw_image_gdi R (some s) (some im) a).ops.any is_save = false →
      (easy2d_draw_image_gdi R (some s) (some im) a).ops.any is_restore = false) ∧
    (scaled_clip_case (center_image a) → sums_finite (center_image a) →
      (easy2d_draw_image_gdi R (some s) (some im) a).ops.any is_save = true) := by
  obtain ⟨cw, ch, _, _, csw, csh, cbx, cby, cbw, cbh, _, _, _, copt⟩ := center_image_frame a
  have hscaled : (easy2d_draw_image_gdi R (some s) (some im) a).ops.any is_save = true →
      scaled_clip_case (center_image a) := by
    intro hsave
    by_contra hsc
    rw [(draw_image_no_save R s im a hsc).1] at hsave
    exact absurd hsave (by decide)
  have hsaves : scaled_clip_case (center_image a) →
      (easy2d_draw_image_gdi R (some s) (some im) a).ops.any is_save = true := by
    intro hsc
    obtain ⟨mid, blit, _, _, _, _, hops⟩ := draw_image_scaled_clip_ops R s im a hsc
    rw [hops]
    rfl
  refine ⟨?_, ?_, ?_, ?_⟩
  · intro hsave
    obtain ⟨h1, h2, h3⟩ := hscaled hsave
    have h4 := partly_outside_exact (center_image a) h2
    rw [cw, ch, cbx, cby, cbw, cbh] at h4
    rw [cw, ch, csw, csh] at h3
    rw [copt] at h1
    exact ⟨h1, h3, h2, h4⟩
  · intro hsave
    exact draw_image_scaled_clip_ops R s im a (hscaled hsave)
  · intro hsave
    by_cases hsc : scaled_clip_case (center_image a)
    · rw [hsaves hsc] at hsave
      exact absurd hsave (by decide)
    · exact (draw_image_no_save R s im a hsc).2
  · intro hsc _
    exact hsaves hsc

theorem f32_add_of_int_eq (x y : ℚ) (n : Int) (h : x + y = (n : ℚ)) (h1 : -(2 ^ 24) ≤ n)
    (h2 : n ≤ 2 ^ 24) : f32_add x y = (n : ℚ) := by
  unfold f32_add
  rw [h]
  exact f32_round_int n h1 h2

/-- C23, witness: the scaled, clipped draw saves the DC first and restores the saved state 1
last. -/
theorem save_restore_balanced_witness :
    scaled_clip_case (center_image args_scaled) ∧
    (easy2d_draw_image_gdi gdi_replies_1 (some gdi_surface_1) (some gdi_image_2x2)
      args_scaled).ops.any is_save = true ∧
    ∃ mid blit, is_blit blit = true ∧ mid.any is_save = false ∧
      mid.any is_restore = false ∧ mid.any is_blit = false ∧
      (easy2d_draw_image_gdi gdi_replies_1 (some gdi_surface_1) (some gdi_image_2x2)
        args_scaled).ops =
        .SaveDC 101 :: (mid ++ blit :: .SelectObject 102 203 :: [.RestoreDC 101 1]) := by
  have hc : center_image args_scaled = args_scaled := if_neg (by decide)
  have hs : scaled_clip_case (center_image args_scaled) := by
    rw [hc]
    exact ⟨by decide, Or.inl (by norm_num [args_scaled]), Or.inl (by norm_num [args_scaled])⟩
  have hfin : sums_finite (center_image args_scaled) := by
    rw [hc]
    unfold sums_finite
    rw [f32_add_of_int_eq _ _ 15 (by norm_num [args_scaled]) (by norm_num) (by norm_num),
      f32_add_of_int_eq _ _ 10 (by norm_num [args_scaled]) (by norm_num) (by norm_num),
      f32_add_of_int_eq _ _ 20 (by norm_num [args_scaled]) (by norm_num) (by norm_num),
      f32_add_of_int_eq _ _ 10 (by norm_num [args_scaled]) (by norm_num) (by norm_num)]
    norm_num [abs_lt]
  have h := save_restore_balanced gdi_replies_1 gdi_surface_1 gdi_image_2x2 args_scaled
  have hsave := h.2.2.2 hs hfin
  exact ⟨hs, hsave, h.2.1 hsave⟩

/-- A draw that issues some GDI call passed the clip block with the caller's options and
bounds colour, having issued at most a `SaveDC`. -/
theorem draw_image_proceeds (R : gdi_replies) (s : gdi_surface_data) (im : gdi_image)
    (a : easy2d_draw_image_args)
    (hdraw : (easy2d_draw_image_gdi R (some s) (some im) a).ops ≠ []) :
    ∃ b prevDC clipOps, clip_image R s (center_image a) = .proceed b prevDC clipOps ∧
      b.options = a.options ∧ b.boundsColor = a.boundsColor ∧
      (clipOps = [] ∨ clipOps = [.SaveDC s.hDC]) := by
  obtain ⟨_, _, _, _, _, _, _, _, _, _, _, _, cc, copt⟩ := center_image_frame a
  rcases clip_image_cases R s (center_image a) with ⟨b, h⟩ | ⟨b, h, h1, _, _, h4⟩ | h
  · rw [draw_image_of_abandoned R s im a b h] at hdraw
    exact absurd rfl hdraw
  · exact ⟨b, 0, [], h, h1.trans copt, h4.trans cc, Or.inl rfl⟩
  · exact ⟨_, _, _, h, copt, cc, Or.inr rfl⟩

/-- Each quad of the bounds has four points, and is there exactly when the test of the
bounds block for its side holds. -/
theorem bounds_quads_length (a : easy2d_draw_image_args) :
    ((bounds_left a).length = if a.dstBoundsX < a.dstX then 4 else 0) ∧
    ((bounds_right a).length =
      if f32_add a.dstBoundsX a.dstBoundsWidth > f32_add a.dstX a.dstWidth then 4 else 0) ∧
    ((bounds_top a).length = if a.dstBoundsY < a.dstY then 4 else 0) ∧
    ((bounds_bottom a).length =
      if f32_add a.dstBoundsY a.dstBoundsHeight > f32_add a.dstY a.dstHeight then 4 else 0) := by
  unfold bounds_left bounds_right bounds_top bounds_bottom
  simp only
  refine ⟨?_, ?_, ?_, ?_⟩ <;> split_ifs <;> rfl

theorem bounds_points_length (a : easy2d_draw_image_args) :
    (bounds_left a ++ bounds_right a ++ bounds_top a ++ bounds_bottom a).length
      = 4 * bounds_sides a ∧ bounds_sides a ≤ 4 := by
  obtain ⟨h1, h2, h3, h4⟩ := bounds_quads_length a
  rw [List.length_append, List.length_append, List.length_append, h1, h2, h3, h4]
  unfold bounds_sides
  split_ifs <;> exact ⟨rfl, by omega⟩

/-- C24: in a draw that is not abandoned, with the rectangles as they are after centering and
clipping and with `boundsRight`, `boundsBottom`, `imageRight`, `imageBottom` the `float` sums
the code stores, none of which overflows: a quad of four points is written for a side exactly
when the bounds rectangle extends strictly past the destination rectangle on that side
(`boundsLeft < imageLeft`, `boundsRight > imageRight`, `boundsTop < imageTop`,
`boundsBottom > imageBottom`); the quads number as many as such sides, at most 4, so at most
16 points are written.  When draw-bounds is set and some side qualifies, one `PolyPolygon`
fills these quads with the bounds colour selected, before the only blit; otherwise no fill is
issued. -/
theorem bounds_border_quads (R : gdi_replies) (s : gdi_surface_data) (im : gdi_image)
    (a : easy2d_draw_image_args)
    (hdraw : (easy2d_draw_image_gdi R (some s) (some im) a).ops ≠ [])
    (_hfinite : sums_finite (easy2d_draw_image_gdi R (some s) (some im) a).args) :
    let r := easy2d_draw_image_gdi R (some s) (some im) a
    let quads := bounds_left r.args ++ bounds_right r.args ++ bounds_top r.args
      ++ bounds_bottom r.args
    ((bounds_left r.args).length = if r.args.dstBoundsX < r.args.dstX then 4 else 0) ∧
    ((bounds_right r.args).length =
      if f32_add r.args.dstBoundsX r.args.dstBoundsWidth
          > f32_add r.args.dstX r.args.dstWidth then 4
      else 0) ∧
    ((bounds_top r.args).length = if r.args.dstBoundsY < r.args.dstY then 4 else 0) ∧
    ((bounds_bottom r.args).length =
      if f32_add r.args.dstBoundsY r.args.dstBoundsHeight
          > f32_add r.args.dstY r.args.dstHeight then 4
      else 0) ∧
    quads.length = 4 * bounds_sides r.args ∧ bounds_sides r.args ≤ 4 ∧ quads.length ≤ 16 ∧
    ((a.options &&& EASY2D_IMAGE_DRAW_BOUNDS ≠ 0 ∧ 0 < bounds_sides r.args) →
      ∃ pre post, r.ops = pre ++
          [.SelectObject s.hDC s.hStockNullPen, .SelectObject s.hDC s.hStockDCBrush,
           .SetDCBrushColor s.hDC a.boundsColor.r a.boundsColor.g a.boundsColor.b,
           .PolyPolygon s.hDC quads (bounds_sides r.args)] ++ post ∧
        pre.any is_blit = false ∧ pre.any is_fill = false ∧ post.any is_fill = false ∧
        (post.filter is_blit).length = 1) ∧
    (¬ (a.options &&& EASY2D_IMAGE_DRAW_BOUNDS ≠ 0 ∧ 0 < bounds_sides r.args) →
      r.ops.any is_fill = false) := by
  intro r quads
  obtain ⟨b, prevDC, clipOps, hclip, hopt, hcol, hc⟩ := draw_image_proceeds R s im a hdraw
  have hr : r = _ := draw_image_of_proceed R s im a b prevDC clipOps hclip
  have hargs : r.args = (composite_image im b).args := by rw [hr]
  have hops : r.ops = clipOps ++ (composite_image im b).ops
      ++ draw_bounds s r.args
      ++ blit_image R s r.args (composite_image im b).hSrcBitmap prevDC := by rw [hr]
  obtain ⟨q1, q2, q3, q4⟩ := bounds_quads_length r.args
  obtain ⟨hlen, hle⟩ := bounds_points_length r.args
  have hflag : r.args.options &&& EASY2D_IMAGE_DRAW_BOUNDS
      = a.options &&& EASY2D_IMAGE_DRAW_BOUNDS := by
    rw [hargs, composite_image_options, hopt]
    split_ifs
    · exact or_hint_and_flag a.options EASY2D_IMAGE_DRAW_BOUNDS (by decide)
    · rfl
  have hcolour : r.args.boundsColor = a.boundsColor := by
    rw [hargs, (composite_image_frame im b).2.2.2.2.2.2.2.2.2.2.2.2.2.2, hcol]
  have hclipfill : clipOps.any is_fill = false ∧ clipOps.any is_blit = false := by
    rcases hc with hc | hc <;> rw [hc] <;> exact ⟨rfl, rfl⟩
  obtain ⟨c1, c2, c3, c4⟩ := composite_ops_plain im b
  obtain ⟨blit, hb1, _, _, hb4, hshape⟩ := blit_image_shape R s r.args
    (composite_image im b).hSrcBitmap prevDC
  have hpostfill : (blit_image R s r.args (composite_image im b).hSrcBitmap prevDC).any is_fill
      = false := by
    have hf1 : ∀ h1 h2, is_fill (.SelectObject h1 h2) = false := fun _ _ => rfl
    have hf2 : ∀ h1 n, is_fill (.RestoreDC h1 n) = false := fun _ _ => rfl
    rw [hshape]
    by_cases hp : prevDC ≠ 0
    · rw [if_pos hp]
      simp [hb4, hf1, hf2]
    · rw [if_neg hp]
      simp [hb4, hf1]
  have hpostblit : ((blit_image R s r.args (composite_image im b).hSrcBitmap prevDC).filter
      is_blit).length = 1 := by
    rw [blit_image_filter]
    split_ifs <;> rfl
  refine ⟨q1, q2, q3, q4, hlen, hle, by rw [hlen]; omega, ?_, ?_⟩
  · rintro ⟨hset, hpos⟩
    have hdb : draw_bounds s r.args =
        [.SelectObject s.hDC s.hStockNullPen, .SelectObject s.hDC s.hStockDCBrush,
         .SetDCBrushColor s.hDC a.boundsColor.r a.boundsColor.g a.boundsColor.b,
         .PolyPolygon s.hDC quads (bounds_sides r.args)] := by
      unfold draw_bounds
      rw [if_pos (by rw [hflag]; exact hset)]
      simp only
      have hdiv : (bounds_left r.args ++ bounds_right r.args ++ bounds_top r.args
          ++ bounds_bottom r.args).length / 4 = bounds_sides r.args := by
        rw [hlen]
        omega
      rw [hdiv, if_pos hpos, hcolour]
    refine ⟨clipOps ++ (composite_image im b).ops,
      blit_image R s r.args (composite_image im b).hSrcBitmap prevDC, ?_, ?_, ?_, hpostfill,
      hpostblit⟩
    · rw [hops, hdb]
    · rw [List.any_append, hclipfill.2, c3]
      rfl
    · rw [List.any_append, hclipfill.1, c4]
      rfl
  · intro hno
    have hdb : draw_bounds s r.args = [] := by
      unfold draw_bounds
      by_cases hset : r.args.options &&& EASY2D_IMAGE_DRAW_BOUNDS ≠ 0
      · rw [if_pos hset]
        simp only
        have hdiv : (bounds_left r.args ++ bounds_right r.args ++ bounds_top r.args
            ++ bounds_bottom r.args).length / 4 = bounds_sides r.args := by
          rw [hlen]
          omega
        rw [hdiv, if_neg (fun hpos => hno ⟨by rw [← hflag]; exact hset, hpos⟩)]
      · rw [if_neg hset]
    rw [hops, hdb, List.append_nil, List.any_append, List.any_append, hclipfill.1, c4,
      hpostfill]
    rfl

/-- C24, witness: a 10 x 10 image at (30, 20) inside the 100 x 50 bounds at (0, 0): all four
sides qualify, and the 16 points of four quads are filled in the bounds colour (1, 2, 3). -/
theorem bounds_border_quads_witness :
    (easy2d_draw_image_gdi gdi_replies_1 (some gdi_surface_1) (some gdi_image_2x2)
      args_border).ops ≠ [] ∧
    ∃ quads pre post,
      (easy2d_draw_image_gdi gdi_replies_1 (some gdi_surface_1) (some gdi_image_2x2)
        args_border).ops = pre ++
          [.SelectObject 101 104, .SelectObject 101 103, .SetDCBrushColor 101 1 2 3,
           .PolyPolygon 101 quads 4] ++ post ∧
      quads.length = 16 := by
  have hd : (easy2d_draw_image_gdi gdi_replies_1 (some gdi_surface_1) (some gdi_image_2x2)
      args_border).ops ≠ [] :=
    draw_image_ops_ne_nil gdi_replies_1 gdi_surface_1 gdi_image_2x2 args_border _ 0 []
      (clip_image_of_flag_unset gdi_replies_1 gdi_surface_1 _ (by decide))
  have hc : center_image args_border = args_border := if_neg (by decide)
  have hargs : (easy2d_draw_image_gdi gdi_replies_1 (some gdi_surface_1) (some gdi_image_2x2)
      args_border).args = args_border := by
    rw [draw_image_of_proceed gdi_replies_1 gdi_surface_1 gdi_image_2x2 args_border
      (center_image args_border) 0 []
      (clip_image_of_flag_unset gdi_replies_1 gdi_surface_1 _ (by decide)), hc,
      composite_image_congr_fast gdi_image_2x2 args_border args_border rfl rfl
        ⟨by decide, rfl, rfl, rfl⟩]
  have e1 : f32_add args_border.dstX args_border.dstWidth = ((40 : Int) : ℚ) :=
    f32_add_of_int_eq _ _ 40 (by norm_num [args_border]) (by norm_num) (by norm_num)
  have e2 : f32_add args_border.dstBoundsX args_border.dstBoundsWidth = ((100 : Int) : ℚ) :=
    f32_add_of_int_eq _ _ 100 (by norm_num [args_border]) (by norm_num) (by norm_num)
  have e3 : f32_add args_border.dstY args_border.dstHeight = ((30 : Int) : ℚ) :=
    f32_add_of_int_eq _ _ 30 (by norm_num [args_border]) (by norm_num) (by norm_num)
  have e4 : f32_add args_border.dstBoundsY args_border.dstBoundsHeight = ((50 : Int) : ℚ) :=
    f32_add_of_int_eq _ _ 50 (by norm_num [args_border]) (by norm_num) (by norm_num)
  have hfin : sums_finite (easy2d_draw_image_gdi gdi_replies_1 (some gdi_surface_1)
      (some gdi_image_2x2) args_border).args := by
    rw [hargs]
    unfold sums_finite
    rw [e1, e2, e3, e4]
    norm_num [abs_lt]
  have hsides : bounds_sides args_border = 4 := by
    unfold bounds_sides
    rw [e1, e2, e3, e4]
    norm_num [args_border]
  have h := bounds_border_quads gdi_replies_1 gdi_surface_1 gdi_image_2x2 args_border hd hfin
  simp only [hargs, hsides] at h
  obtain ⟨_, _, _, _, hlen, _, _, hfill, _⟩ := h
  obtain ⟨pre, post, hops, _⟩ := hfill ⟨by decide, by decide⟩
  exact ⟨hd, _, pre, post, hops, hlen⟩

/-! ### The scratch buffer for wide strings -/

/-- One call of `easy2d_to_wchar_gdi` never lowers the recorded length of the scratch
buffer. -/
theorem to_wchar_length_le (W : win32_text) (c : gdi_context_data) (text : Option (List Nat))
    (size : Nat) (out : Option Nat) :
    c.wcharBufferLength
      ≤ ((easy2d_to_wchar_gdi W (some c) text size out).ctx.getD c).wcharBufferLength := by
  unfold easy2d_to_wchar_gdi
  cases text with
  | none => exact le_refl _
  | some txt =>
    simp only
    split_ifs <;> simp only [Option.getD_some] <;> omega

theorem to_wchar_calls_append (W : win32_text) (c : gdi_context_data)
    (calls more : List to_wchar_call) :
    to_wchar_calls W c (calls ++ more) = to_wchar_calls W (to_wchar_calls W c calls) more := by
  unfold to_wchar_calls
  rw [List.foldl_append]

theorem to_wchar_calls_length_le (W : win32_text) (calls : List to_wchar_call) :
    ∀ c : gdi_context_data,
      c.wcharBufferLength ≤ (to_wchar_calls W c calls).wcharBufferLength := by
  induction calls with
  | nil => exact fun c => le_refl _
  | cons call rest ih =>
    intro c
    have h1 := to_wchar_length_le W c call.text call.textSizeInBytes call.characterCountOut
    have h2 := ih ((easy2d_to_wchar_gdi W (some c) call.text call.textSizeInBytes
      call.characterCountOut).ctx.getD c)
    exact le_trans h1 h2

/-- C25: across any sequence of calls of `easy2d_to_wchar_gdi` on one context the recorded
length of the scratch buffer never decreases: after any further calls it is at least what it
was after the calls before them.  After a call on a text that measures `wcharCount` UTF-16
units (`wcharCount` not 0) the recorded length is at least `wcharCount + 1`; and when
`wcharCount + 1` does not exceed the recorded length the call converts into the buffer it
found and leaves the recorded length as it was. -/
theorem wchar_buffer_only_grows (W : win32_text) (c : gdi_context_data) :
    (∀ calls more : List to_wchar_call,
      (to_wchar_calls W c calls).wcharBufferLength
        ≤ (to_wchar_calls W c (calls ++ more)).wcharBufferLength) ∧
    (∀ (txt : List Nat) (size : Nat) (out : Option Nat),
      (W.MultiByteToWideChar txt (int_of_size_t size) none 0).1 ≠ 0 →
      (W.MultiByteToWideChar txt (int_of_size_t size) none 0).1 + 1
        ≤ ((easy2d_to_wchar_gdi W (some c) (some txt) size out).ctx.getD c).wcharBufferLength) ∧
    (∀ (txt : List Nat) (size : Nat) (out : Option Nat),
      (W.MultiByteToWideChar txt (int_of_size_t size) none 0).1 ≠ 0 →
      (W.MultiByteToWideChar txt (int_of_size_t size) none 0).1 + 1 ≤ c.wcharBufferLength →
      ((easy2d_to_wchar_gdi W (some c) (some txt) size out).ctx.getD c).wcharBufferLength
        = c.wcharBufferLength ∧
      ((easy2d_to_wchar_gdi W (some c) (some txt) size out).ctx.getD c).wcharBuffer
        = (W.MultiByteToWideChar txt (int_of_size_t size) c.wcharBuffer
            c.wcharBufferLength).2) := by
  refine ⟨?_, ?_, ?_⟩
  · intro calls more
    rw [to_wchar_calls_append]
    exact to_wchar_calls_length_le W more _
  · intro txt size out h0
    unfold easy2d_to_wchar_gdi
    simp only
    rw [if_neg h0]
    split_ifs <;> simp only [Option.getD_some] <;> omega
  · intro txt size out h0 hfits
    unfold easy2d_to_wchar_gdi
    simp only
    have hlt : ¬ c.wcharBufferLength
        < (W.MultiByteToWideChar txt (int_of_size_t size) none 0).1 + 1 := by omega
    simp only [if_neg h0, if_neg hlt]
    split_ifs <;> exact ⟨rfl, rfl⟩

/-- C25, witness: on a context without a buffer, converting "abc" records the length 4, and
converting "a" afterwards leaves it at 4, the buffer being reused. -/
theorem wchar_buffer_only_grows_witness :
    (to_wchar_calls (win32_text_mono 10) gdi_context_1
      [⟨some [97, 98, 99], 3, none⟩]).wcharBufferLength = 4 ∧
    (to_wchar_calls (win32_text_mono 10) gdi_context_1
      [⟨some [97, 98, 99], 3, none⟩, ⟨some [97], 1, none⟩]).wcharBufferLength = 4 ∧
    (to_wchar_calls (win32_text_mono 10) gdi_context_1 [⟨some [97, 98, 99], 3, none⟩]
        ).wcharBufferLength
      ≤ (to_wchar_calls (win32_text_mono 10) gdi_context_1
        ([⟨some [97, 98, 99], 3, none⟩] ++ [⟨some [97], 1, none⟩])).wcharBufferLength ∧
    3 + 1 ≤ ((easy2d_to_wchar_gdi (win32_text_mono 10) (some gdi_context_1)
      (some [97, 98, 99]) 3 none).ctx.getD gdi_context_1).wcharBufferLength ∧
    ((easy2d_to_wchar_gdi (win32_text_mono 10)
        (some { hDC := 100, wcharBuffer := some [97, 98, 99, 0xCDCD], wcharBufferLength := 4 })
        (some [97]) 1 none).ctx.getD
          { hDC := 100, wcharBuffer := some [97, 98, 99, 0xCDCD],
            wcharBufferLength := 4 }).wcharBufferLength = 4 :=
  ⟨by decide, by decide,
    (wchar_buffer_only_grows (win32_text_mono 10) gdi_context_1).1
      [⟨some [97, 98, 99], 3, none⟩] [⟨some [97], 1, none⟩],
    (wchar_buffer_only_grows (win32_text_mono 10) gdi_context_1).2.1 [97, 98, 99] 3 none
      (by decide),
    ((wchar_buffer_only_grows (win32_text_mono 10)
      { hDC := 100, wcharBuffer := some [97, 98, 99, 0xCDCD], wcharBufferLength := 4 }).2.2
      [97] 1 none (by decide) (by decide)).1⟩

/-! ### Creating an image -/

theorem row_fold_val_length (v : Nat → Nat) (base : Nat) (m : Nat) (L : List Nat) :
    ((List.range m).foldl (fun dst iCol => dst.set (base + iCol) (v iCol)) L).length
      = L.length := by
  induction m with
  | zero => simp
  | succ m ih => simp [List.range_succ, List.foldl_append, ih]

theorem row_fold_val_get (v : Nat → Nat) (base : Nat) (m : Nat) (L : List Nat) (j : Nat) :
    ((List.range m).foldl (fun dst iCol => dst.set (base + iCol) (v iCol)) L)[j]?
      = if base ≤ j ∧ j < base + m ∧ j < L.length then some (v (j - base)) else L[j]? := by
  have h := row_fold_get (fun k => v (k - base)) base m L j
  simp only [Nat.add_sub_cancel_left] at h
  exact h

theorem grid_fold_length (f : Nat → Nat → Nat) (w : Nat) (h : Nat) (L : List Nat) :
    ((List.range h).foldl
      (fun dst iRow =>
        (List.range w).foldl
          (fun dst iCol => dst.set ((iRow * w) % 2 ^ 32 + iCol) (f iRow iCol))
          dst) L).length = L.length := by
  induction h with
  | zero => simp
  | succ h ih =>
    rw [List.range_succ, List.foldl_append, List.foldl_cons, List.foldl_nil,
      row_fold_val_length, ih]

/-- The two nested loops over a `w` x `h` grid: the texel at offset `j` is the one written
for row `j / w` and column `j % w`. -/
theorem grid_fold_get (f : Nat → Nat → Nat) (w : Nat) (h : Nat) (L : List Nat) (j : Nat)
    (hsz : h * w ≤ 2 ^ 32) :
    ((List.range h).foldl
      (fun dst iRow =>
        (List.range w).foldl
          (fun dst iCol => dst.set ((iRow * w) % 2 ^ 32 + iCol) (f iRow iCol))
          dst) L)[j]?
      = if j < h * w ∧ j < L.length then some (f (j / w) (j % w)) else L[j]? := by
  induction h with
  | zero => simp
  | succ h ih =>
    have hmul : (h + 1) * w = h * w + w := Nat.succ_mul h w
    rw [List.range_succ, List.foldl_append, List.foldl_cons, List.foldl_nil, row_fold_val_get,
      grid_fold_length, ih (by omega)]
    by_cases hw : w = 0
    · subst hw
      simp
    · have hbase : (h * w) % 2 ^ 32 = h * w := Nat.mod_eq_of_lt (by omega)
      have hwpos : 0 < w := Nat.pos_of_ne_zero hw
      rw [hbase, hmul]
      by_cases h1 : j < L.length
      · by_cases h2 : j < h * w
        · have h3 : ¬ (h * w ≤ j ∧ j < h * w + w ∧ j < L.length) := by omega
          have h4 : j < h * w + w ∧ j < L.length := by omega
          simp [h1, h2, h3, h4]
        · by_cases h5 : j < h * w + w
          · have h3 : h * w ≤ j ∧ j < h * w + w ∧ j < L.length := by omega
            have hdiv : j / w = h := by
              apply Nat.div_eq_of_lt_le
              · rw [Nat.mul_comm] at h2
                rw [Nat.mul_comm]
                omega
              · rw [Nat.succ_mul]
                exact h5
            have hmod : j % w = j - h * w := by
              have := Nat.div_add_mod j w
              rw [hdiv, Nat.mul_comm] at this
              omega
            simp [h1, h3, h5, hdiv, hmod]
          · have h3 : ¬ (h * w ≤ j ∧ j < h * w + w ∧ j < L.length) := by omega
            simp [h1, h2, h3, h5]
      · simp [h1]

/-- The source bitmap after the conversion loop, texel by texel. -/
theorem import_bitmap_get (width height stride : Nat) (pData dst : List Nat) (i j : Nat)
    (hi : i < height) (hj : j < width) (hdst : dst.length = width * height)
    (hwide : width ≤ stride / 4) (hsz : height * (stride / 4) ≤ 2 ^ 32) :
    (import_bitmap width height stride pData dst).length = width * height ∧
    (import_bitmap width height stride pData dst).getD (i * width + j) 0
      = import_texel (pData.getD ((height - 1 - i) * (stride / 4) + j) 0) := by
  have hgrid : height * width ≤ 2 ^ 32 :=
    le_trans (Nat.mul_le_mul_left height hwide) hsz
  have hlt : i * width + j < height * width := by
    calc i * width + j < i * width + width := by omega
      _ = (i + 1) * width := by ring
      _ ≤ height * width := Nat.mul_le_mul_right _ hi
  have hdiv : (i * width + j) / width = i := by
    rw [Nat.add_comm, Nat.add_mul_div_right _ _ (by omega), Nat.div_eq_of_lt hj, Nat.zero_add]
  have hmod : (i * width + j) % width = j := by
    rw [Nat.add_comm, Nat.add_mul_mod_self_right, Nat.mod_eq_of_lt hj]
  have hsrc : ((height - (i + 1)) * (stride / 4) + j) % 2 ^ 32
      = (height - 1 - i) * (stride / 4) + j := by
    have e : height - (i + 1) = height - 1 - i := by omega
    rw [e]
    apply Nat.mod_eq_of_lt
    calc (height - 1 - i) * (stride / 4) + j
        < (height - 1 - i) * (stride / 4) + stride / 4 := by omega
      _ = (height - 1 - i + 1) * (stride / 4) := by ring
      _ ≤ height * (stride / 4) := Nat.mul_le_mul_right _ (by omega)
      _ ≤ 2 ^ 32 := hsz
  constructor
  · unfold import_bitmap
    rw [grid_fold_length (fun iRow iCol => import_texel
      (pData.getD (((height - (iRow + 1)) * (stride / 4) + iCol) % 2 ^ 32) 0)) width height
      dst, hdst]
  · unfold import_bitmap
    rw [List.getD_eq_getElem?_getD, grid_fold_get (fun iRow iCol => import_texel
      (pData.getD (((height - (iRow + 1)) * (stride / 4) + iCol) % 2 ^ 32) 0)) width height
      dst (i * width + j) hgrid, if_pos ⟨hlt, by rw [hdst, Nat.mul_comm width height]; exact hlt⟩]
    simp only [hdiv, hmod, hsrc, Option.getD_some]

/-- The texel stored for a pixel, channel by channel. -/
theorem import_texel_eq_reference (p : Nat) : import_texel p = reference_import p := by
  have h := texel_pack_eq (p % 2 ^ 8 * (p / 2 ^ 24 % 2 ^ 8) / 255)
    (p / 2 ^ 8 % 2 ^ 8 * (p / 2 ^ 24 % 2 ^ 8) / 255)
    (p / 2 ^ 16 % 2 ^ 8 * (p / 2 ^ 24 % 2 ^ 8) / 255) (p / 2 ^ 24 % 2 ^ 8)
    (by
      have h1 : p % 2 ^ 8 * (p / 2 ^ 24 % 2 ^ 8) ≤ 255 * 255 :=
        Nat.mul_le_mul (by omega) (by omega)
      omega)
    (by
      have h1 : p / 2 ^ 8 % 2 ^ 8 * (p / 2 ^ 24 % 2 ^ 8) ≤ 255 * 255 :=
        Nat.mul_le_mul (by omega) (by omega)
      omega)
    (by
      have h1 : p / 2 ^ 16 % 2 ^ 8 * (p / 2 ^ 24 % 2 ^ 8) ≤ 255 * 255 :=
        Nat.mul_le_mul (by omega) (by omega)
      omega)
    (by omega)
  have ea := texel_alpha_eq p
  have er := texel_red_eq p
  have eg := texel_green_eq p
  have eb := texel_blue_eq p
  unfold texel_alpha at ea
  unfold texel_red at er
  unfold texel_green at eg
  unfold texel_blue at eb
  unfold texel_pack at h
  unfold import_texel reference_import
  simp only [c_uint_byte_scale, ea, er, eg, eb]
  rw [h]

/-- The channels of a word assembled from four bytes. -/
theorem texel_channels_of_bytes (r g b al : Nat) (hr : r < 256) (hg : g < 256) (hb : b < 256)
    (ha : al < 256) :
    texel_red (al * 2 ^ 24 + r * 2 ^ 16 + g * 2 ^ 8 + b) = r ∧
    texel_green (al * 2 ^ 24 + r * 2 ^ 16 + g * 2 ^ 8 + b) = g ∧
    texel_blue (al * 2 ^ 24 + r * 2 ^ 16 + g * 2 ^ 8 + b) = b ∧
    texel_alpha (al * 2 ^ 24 + r * 2 ^ 16 + g * 2 ^ 8 + b) = al := by
  rw [texel_red_eq, texel_green_eq, texel_blue_eq, texel_alpha_eq]
  omega

theorem scaled_byte_le (c k : Nat) (hk : k ≤ 255) : c * k / 255 ≤ c := by
  have h1 : c * k ≤ c * 255 := Nat.mul_le_mul_left c hk
  omega

/-- Every texel the conversion loop stores is premultiplied. -/
theorem import_texel_premultiplied (p : Nat) : premultiplied (import_texel p) := by
  rw [import_texel_eq_reference]
  unfold reference_import
  simp only
  have ha : p / 2 ^ 24 % 2 ^ 8 < 256 := by omega
  have h1 := scaled_byte_le (p / 2 ^ 24 % 2 ^ 8) (p % 2 ^ 8) (by omega)
  have h2 := scaled_byte_le (p / 2 ^ 24 % 2 ^ 8) (p / 2 ^ 8 % 2 ^ 8) (by omega)
  have h3 := scaled_byte_le (p / 2 ^ 24 % 2 ^ 8) (p / 2 ^ 16 % 2 ^ 8) (by omega)
  rw [Nat.mul_comm] at h1 h2 h3
  generalize p % 2 ^ 8 * (p / 2 ^ 24 % 2 ^ 8) / 255 = r at h1 ⊢
  generalize p / 2 ^ 8 % 2 ^ 8 * (p / 2 ^ 24 % 2 ^ 8) / 255 = g at h2 ⊢
  generalize p / 2 ^ 16 % 2 ^ 8 * (p / 2 ^ 24 % 2 ^ 8) / 255 = b at h3 ⊢
  generalize p / 2 ^ 24 % 2 ^ 8 = al at ha h1 h2 h3 ⊢
  obtain ⟨e1, e2, e3, e4⟩ := texel_channels_of_bytes r g b al (by omega) (by omega) (by omega)
    ha
  unfold premultiplied
  rw [e1, e2, e3, e4]
  exact ⟨h1, h2, h3⟩

/-- Every texel of the source bitmap after the conversion loop was stored by it. -/
theorem import_bitmap_mem (width height stride : Nat) (pData dst : List Nat)
    (hdst : dst.length = width * height) (hgrid : height * width ≤ 2 ^ 32) (t : Nat)
    (ht : t ∈ import_bitmap width height stride pData dst) :
    ∃ p, t = import_texel p := by
  obtain ⟨k, hk, hget⟩ := List.getElem_of_mem ht
  have hlen : (import_bitmap width height stride pData dst).length = dst.length := by
    unfold import_bitmap
    exact grid_fold_length (fun iRow iCol => import_texel
      (pData.getD (((height - (iRow + 1)) * (stride / 4) + iCol) % 2 ^ 32) 0)) width height dst
  have hk2 : k < dst.length := by rw [← hlen]; exact hk
  have h := grid_fold_get (fun iRow iCol => import_texel
      (pData.getD (((height - (iRow + 1)) * (stride / 4) + iCol) % 2 ^ 32) 0)) width height
      dst k hgrid
  rw [if_pos ⟨by rw [hdst, Nat.mul_comm width height] at hk2; exact hk2, hk2⟩] at h
  have h2 : (import_bitmap width height stride pData dst)[k]? = some t := by
    rw [List.getElem?_eq_getElem hk, hget]
  unfold import_bitmap at h2
  rw [h] at h2
  exact ⟨_, (Option.some.inj h2).symm⟩

/-- The slow path on a premultiplied texel, for colours that are bytes: no channel exceeds
255, and the stored texel holds the computed channels. -/
theorem composite_texel_channels (a : easy2d_draw_image_args) (t : Nat)
    (hpre : premultiplied t)
    (htint : a.foregroundTint.r ≤ 255 ∧ a.foregroundTint.g ≤ 255 ∧ a.foregroundTint.b ≤ 255)
    (hback : a.backgroundColor.r ≤ 255 ∧ a.backgroundColor.g ≤ 255 ∧
      a.backgroundColor.b ≤ 255) :
    (texel_red t * a.foregroundTint.r / 255 ≤ texel_red t ∧
      texel_green t * a.foregroundTint.g / 255 ≤ texel_green t ∧
      texel_blue t * a.foregroundTint.b / 255 ≤ texel_blue t) ∧
    (reference_channel (texel_red t) a.foregroundTint.r a.backgroundColor.r (texel_alpha t)
        (decide (a.options &&& EASY2D_IMAGE_DRAW_BACKGROUND ≠ 0)) ≤ 255 ∧
      reference_channel (texel_green t) a.foregroundTint.g a.backgroundColor.g (texel_alpha t)
        (decide (a.options &&& EASY2D_IMAGE_DRAW_BACKGROUND ≠ 0)) ≤ 255 ∧
      reference_channel (texel_blue t) a.foregroundTint.b a.backgroundColor.b (texel_alpha t)
        (decide (a.options &&& EASY2D_IMAGE_DRAW_BACKGROUND ≠ 0)) ≤ 255) ∧
    (texel_red (composite_texel a t) =
        reference_channel (texel_red t) a.foregroundTint.r a.backgroundColor.r (texel_alpha t)
          (decide (a.options &&& EASY2D_IMAGE_DRAW_BACKGROUND ≠ 0)) ∧
      texel_green (composite_texel a t) =
        reference_channel (texel_green t) a.foregroundTint.g a.backgroundColor.g
          (texel_alpha t) (decide (a.options &&& EASY2D_IMAGE_DRAW_BACKGROUND ≠ 0)) ∧
      texel_blue (composite_texel a t) =
        reference_channel (texel_blue t) a.foregroundTint.b a.backgroundColor.b
          (texel_alpha t) (decide (a.options &&& EASY2D_IMAGE_DRAW_BACKGROUND ≠ 0)) ∧
      texel_alpha (composite_texel a t) =
        if a.options &&& EASY2D_IMAGE_DRAW_BACKGROUND ≠ 0 then 255 else texel_alpha t) := by
  obtain ⟨p1, p2, p3⟩ := hpre
  have hal : texel_alpha t ≤ 255 := by
    rw [texel_alpha_eq]
    omega
  have t1 := scaled_byte_le (texel_red t) a.foregroundTint.r htint.1
  have t2 := scaled_byte_le (texel_green t) a.foregroundTint.g htint.2.1
  have t3 := scaled_byte_le (texel_blue t) a.foregroundTint.b htint.2.2
  have b1 := scaled_byte_le (255 - texel_alpha t) a.backgroundColor.r hback.1
  have b2 := scaled_byte_le (255 - texel_alpha t) a.backgroundColor.g hback.2.1
  have b3 := scaled_byte_le (255 - texel_alpha t) a.backgroundColor.b hback.2.2
  rw [Nat.mul_comm] at b1 b2 b3
  have hR : reference_channel (texel_red t) a.foregroundTint.r a.backgroundColor.r
      (texel_alpha t) (decide (a.options &&& EASY2D_IMAGE_DRAW_BACKGROUND ≠ 0)) ≤ 255 := by
    unfold reference_channel
    split_ifs <;> omega
  have hG : reference_channel (texel_green t) a.foregroundTint.g a.backgroundColor.g
      (texel_alpha t) (decide (a.options &&& EASY2D_IMAGE_DRAW_BACKGROUND ≠ 0)) ≤ 255 := by
    unfold reference_channel
    split_ifs <;> omega
  have hB : reference_channel (texel_blue t) a.foregroundTint.b a.backgroundColor.b
      (texel_alpha t) (decide (a.options &&& EASY2D_IMAGE_DRAW_BACKGROUND ≠ 0)) ≤ 255 := by
    unfold reference_channel
    split_ifs <;> omega
  refine ⟨⟨t1, t2, t3⟩, ⟨hR, hG, hB⟩, ?_⟩
  rw [composite_texel_eq_reference]
  unfold reference_texel
  simp only
  have hA : (if decide (a.options &&& EASY2D_IMAGE_DRAW_BACKGROUND ≠ 0) = true then 255
      else texel_alpha t) < 256 := by
    split_ifs <;> omega
  have hAeq : (if decide (a.options &&& EASY2D_IMAGE_DRAW_BACKGROUND ≠ 0) = true then 255
      else texel_alpha t)
      = if a.options &&& EASY2D_IMAGE_DRAW_BACKGROUND ≠ 0 then 255 else texel_alpha t := by
    by_cases h : a.options &&& EASY2D_IMAGE_DRAW_BACKGROUND ≠ 0
    · simp [h]
    · simp [h]
  rw [texel_pack_eq _ _ _ _ (by omega) (by omega) (by omega) hA]
  obtain ⟨e1, e2, e3, e4⟩ := texel_channels_of_bytes _ _ _ _ (Nat.lt_succ_of_le hR)
    (Nat.lt_succ_of_le hG) (Nat.lt_succ_of_le hB) hA
  exact ⟨e1, e2, e3, e4.trans hAeq⟩

/-- The run of `easy2d_on_create_image_gdi` when both DIB sections are created. -/
theorem on_create_image_run (G : gdi_create_replies) (im : gdi_image) (ctx : gdi_context_data)
    (stride : Nat) (pData : List Nat) (src inter : dib_section)
    (hsrc : G.srcSection = some src) (hinter : G.intermediateSection = some inter) :
    easy2d_on_create_image_gdi G (some im) (some ctx) stride pData =
      .ok ⟨true,
        { hSrcBitmap := src.hBitmap,
          pSrcBitmapData := import_bitmap im.width im.height stride pData src.bits,
          hIntermediateBitmap := inter.hBitmap, pIntermediateBitmapData := inter.bits },
        pData,
        [.CreateDIBSection ctx.hDC im.width im.height 32,
         .CreateDIBSection ctx.hDC im.width im.height 32, .GdiFlush]⟩ := by
  unfold easy2d_on_create_image_gdi
  simp only [hsrc, hinter]

/-- The index, in the caller's buffer read as 32-bit words, of the pixel at byte offset
`row * stride + 4 * col`, for a stride that is a multiple of 4. -/
theorem pixel_word_index (row col stride : Nat) (hstride : stride % 4 = 0) :
    (row * stride + 4 * col) / 4 = row * (stride / 4) + col := by
  have hq : stride = 4 * (stride / 4) := by omega
  have e : row * stride + 4 * col = 4 * (row * (stride / 4) + col) := by
    conv_lhs => rw [hq]
    ring
  rw [e, Nat.mul_div_cancel_left _ (by norm_num)]

/-- C26: for a premultiplied texel, as is every texel the creation of an image stores in the
source bitmap, and for every tint and background colour (bytes), tinting does not increase
a channel, so the clamp to 255 does not bind; each colour channel the slow path computes
is at most 255 even with the background term added; and the stored 32-bit texel holds
exactly the computed red, green, blue and alpha, with no carry between channels. -/
theorem composite_channels_fit_a_byte (G : gdi_create_replies) (im : gdi_image)
    (ctx : gdi_context_data) (stride : Nat) (pData : List Nat) (src inter : dib_section)
    (a : easy2d_draw_image_args)
    (hsrc : G.srcSection = some src) (hinter : G.intermediateSection = some inter)
    (hbits : src.bits.length = im.width * im.height)
    (hgrid : im.height * im.width ≤ 2 ^ 32)
    (htint : a.foregroundTint.r ≤ 255 ∧ a.foregroundTint.g ≤ 255 ∧ a.foregroundTint.b ≤ 255)
    (hback : a.backgroundColor.r ≤ 255 ∧ a.backgroundColor.g ≤ 255 ∧
      a.backgroundColor.b ≤ 255) :
    ∃ r, easy2d_on_create_image_gdi G (some im) (some ctx) stride pData = .ok r ∧
      ∀ t, t ∈ r.data.pSrcBitmapData →
        premultiplied t ∧
        (texel_red t * a.foregroundTint.r / 255 ≤ texel_red t ∧
          texel_green t * a.foregroundTint.g / 255 ≤ texel_green t ∧
          texel_blue t * a.foregroundTint.b / 255 ≤ texel_blue t) ∧
        (reference_channel (texel_red t) a.foregroundTint.r a.backgroundColor.r
            (texel_alpha t) (decide (a.options &&& EASY2D_IMAGE_DRAW_BACKGROUND ≠ 0)) ≤ 255 ∧
          reference_channel (texel_green t) a.foregroundTint.g a.backgroundColor.g
            (texel_alpha t) (decide (a.options &&& EASY2D_IMAGE_DRAW_BACKGROUND ≠ 0)) ≤ 255 ∧
          reference_channel (texel_blue t) a.foregroundTint.b a.backgroundColor.b
            (texel_alpha t) (decide (a.options &&& EASY2D_IMAGE_DRAW_BACKGROUND ≠ 0)) ≤ 255) ∧
        (texel_red (composite_texel a t) =
            reference_channel (texel_red t) a.foregroundTint.r a.backgroundColor.r
              (texel_alpha t) (decide (a.options &&& EASY2D_IMAGE_DRAW_BACKGROUND ≠ 0)) ∧
          texel_green (composite_texel a t) =
            reference_channel (texel_green t) a.foregroundTint.g a.backgroundColor.g
              (texel_alpha t) (decide (a.options &&& EASY2D_IMAGE_DRAW_BACKGROUND ≠ 0)) ∧
          texel_blue (composite_texel a t) =
            reference_channel (texel_blue t) a.foregroundTint.b a.backgroundColor.b
              (texel_alpha t) (decide (a.options &&& EASY2D_IMAGE_DRAW_BACKGROUND ≠ 0)) ∧
          texel_alpha (composite_texel a t) =
            if a.options &&& EASY2D_IMAGE_DRAW_BACKGROUND ≠ 0 then 255
            else texel_alpha t) := by
  refine ⟨_, on_create_image_run G im ctx stride pData src inter hsrc hinter, ?_⟩
  intro t ht
  obtain ⟨p, hp⟩ := import_bitmap_mem im.width im.height stride pData src.bits hbits hgrid t ht
  have hpre : premultiplied t := by
    rw [hp]
    exact import_texel_premultiplied p
  exact ⟨hpre, composite_texel_channels a t hpre htint hback⟩

/-- C26, witness: the half-transparent pixel 0x80FF8040 is stored as 0x80204080; drawn over
the background (10, 20, 30) its channels become 0x24, 0x49, 0x8E, each a byte. -/
theorem composite_channels_fit_a_byte_witness :
    ∃ r, easy2d_on_create_image_gdi gdi_create_replies_1 (some gdi_image_blank)
        (some gdi_context_1) 12 pixels_2x2 = .ok r ∧
      0x80204080 ∈ r.data.pSrcBitmapData ∧
      composite_texel args_background 0x80204080 = 0xFF24498E ∧
      texel_red (composite_texel args_background 0x80204080) =
        reference_channel (texel_red 0x80204080) 255 10 (texel_alpha 0x80204080) true := by
  obtain ⟨r, hr, hall⟩ := composite_channels_fit_a_byte gdi_create_replies_1 gdi_image_blank
    gdi_context_1 12 pixels_2x2 _ _ args_background rfl rfl rfl (by decide)
    ⟨by decide, by decide, by decide⟩ ⟨by decide, by decide, by decide⟩
  have hrun := on_create_image_run gdi_create_replies_1 gdi_image_blank gdi_context_1 12
    pixels_2x2 _ _ rfl rfl
  have hr2 := hr.symm.trans hrun
  have hdata : r.data.pSrcBitmapData
      = import_bitmap 2 2 12 pixels_2x2 [0, 0, 0, 0] := by
    rw [Except.ok.inj hr2]
    rfl
  have hmem : 0x80204080 ∈ r.data.pSrcBitmapData := by
    rw [hdata]
    have h := (import_bitmap_get 2 2 12 pixels_2x2 [0, 0, 0, 0] 1 0 (by decide) (by decide)
      rfl (by decide) (by decide)).2
    rw [import_texel_eq_reference] at h
    have hlen := (import_bitmap_get 2 2 12 pixels_2x2 [0, 0, 0, 0] 1 0 (by decide) (by decide)
      rfl (by decide) (by decide)).1
    have hv : reference_import (pixels_2x2.getD ((2 - 1 - 1) * (12 / 4) + 0) 0) = 0x80204080 := by
      decide
    rw [hv, List.getD_eq_getElem?_getD, List.getElem?_eq_getElem (by rw [hlen]; decide)] at h
    rw [← h]
    exact List.getElem_mem _
  obtain ⟨_, _, _, hch, _⟩ := hall 0x80204080 hmem
  refine ⟨r, hr, hmem, ?_, hch⟩
  rw [composite_texel_eq_reference]
  decide

/-- C27: for a `width` x `height` RGBA source whose stride is a multiple of 4 and at least
`4 * width`, held in a buffer of `height` rows of `stride` bytes, when both DIB sections are
created `easy2d_on_create_image_gdi` returns true, leaves the caller's buffer as it was, and
stores at destination (row `i`, column `j`), for every `i < height` and `j < width`, the
converted source pixel of (row `height - 1 - i`, column `j`): alpha kept in bits 24-31,
each colour channel replaced by `trunc(channel * alpha / 255)`, which is at most alpha,
source bits 0-7 (red) stored in bits 16-23, source bits 16-23 (blue) stored in bits 0-7 and
green in bits 8-15. -/
theorem image_import_flips_and_premultiplies (G : gdi_create_replies) (im : gdi_image)
    (ctx : gdi_context_data) (stride : Nat) (pData : List Nat) (src inter : dib_section)
    (hsrc : G.srcSection = some src) (hinter : G.intermediateSection = some inter)
    (hbits : src.bits.length = im.width * im.height)
    (hstride : stride % 4 = 0) (hwide : 4 * im.width ≤ stride)
    (hdata : im.height * (stride / 4) ≤ pData.length)
    (hsz : im.height * (stride / 4) ≤ 2 ^ 32) :
    ∃ r, easy2d_on_create_image_gdi G (some im) (some ctx) stride pData = .ok r ∧
      r.ret = true ∧ r.pData = pData ∧
      r.data.pSrcBitmapData.length = im.width * im.height ∧
      ∀ i j, i < im.height → j < im.width →
        ((im.height - 1 - i) * stride + 4 * j) / 4 < pData.length ∧
        r.data.pSrcBitmapData.getD (i * im.width + j) 0
          = reference_import (pData.getD (((im.height - 1 - i) * stride + 4 * j) / 4) 0) ∧
        r.data.pSrcBitmapData.getD (i * im.width + j) 0 / 2 ^ 24 % 2 ^ 8
          = pData.getD (((im.height - 1 - i) * stride + 4 * j) / 4) 0 / 2 ^ 24 % 2 ^ 8 ∧
        r.data.pSrcBitmapData.getD (i * im.width + j) 0 / 2 ^ 16 % 2 ^ 8
          = pData.getD (((im.height - 1 - i) * stride + 4 * j) / 4) 0 % 2 ^ 8
            * (pData.getD (((im.height - 1 - i) * stride + 4 * j) / 4) 0 / 2 ^ 24 % 2 ^ 8)
            / 255 ∧
        r.data.pSrcBitmapData.getD (i * im.width + j) 0 / 2 ^ 8 % 2 ^ 8
          = pData.getD (((im.height - 1 - i) * stride + 4 * j) / 4) 0 / 2 ^ 8 % 2 ^ 8
            * (pData.getD (((im.height - 1 - i) * stride + 4 * j) / 4) 0 / 2 ^ 24 % 2 ^ 8)
            / 255 ∧
        r.data.pSrcBitmapData.getD (i * im.width + j) 0 % 2 ^ 8
          = pData.getD (((im.height - 1 - i) * stride + 4 * j) / 4) 0 / 2 ^ 16 % 2 ^ 8
            * (pData.getD (((im.height - 1 - i) * stride + 4 * j) / 4) 0 / 2 ^ 24 % 2 ^ 8)
            / 255 ∧
        premultiplied (r.data.pSrcBitmapData.getD (i * im.width + j) 0) := by
  have hw : im.width ≤ stride / 4 := by omega
  refine ⟨_, on_create_image_run G im ctx stride pData src inter hsrc hinter, rfl, rfl, ?_, ?_⟩
  · show (import_bitmap im.width im.height stride pData src.bits).length = _
    unfold import_bitmap
    rw [grid_fold_length (fun iRow iCol => import_texel
      (pData.getD (((im.height - (iRow + 1)) * (stride / 4) + iCol) % 2 ^ 32) 0)) im.width
      im.height src.bits, hbits]
  · intro i j hi hj
    have hget := (import_bitmap_get im.width im.height stride pData src.bits i j hi hj hbits
      hw hsz).2
    have hidx := pixel_word_index (im.height - 1 - i) j stride hstride
    have hin : (im.height - 1 - i) * (stride / 4) + j < pData.length := by
      calc (im.height - 1 - i) * (stride / 4) + j
          < (im.height - 1 - i) * (stride / 4) + stride / 4 := by omega
        _ = (im.height - 1 - i + 1) * (stride / 4) := by ring
        _ ≤ im.height * (stride / 4) := Nat.mul_le_mul_right _ (by omega)
        _ ≤ pData.length := hdata
    show _ ∧ (import_bitmap im.width im.height stride pData src.bits).getD _ 0 = _ ∧ _
    rw [hidx, hget]
    refine ⟨hin, import_texel_eq_reference _, ?_⟩
    have hpre := import_texel_premultiplied
      (pData.getD ((im.height - 1 - i) * (stride / 4) + j) 0)
    rw [import_texel_eq_reference] at hpre ⊢
    generalize pData.getD ((im.height - 1 - i) * (stride / 4) + j) 0 = p at hpre ⊢
    refine ⟨?_, ?_, ?_, ?_, hpre⟩
    all_goals
      unfold reference_import
      simp only
      have ha : p / 2 ^ 24 % 2 ^ 8 < 256 := by omega
      have h1 := scaled_byte_le (p / 2 ^ 24 % 2 ^ 8) (p % 2 ^ 8) (by omega)
      have h2 := scaled_byte_le (p / 2 ^ 24 % 2 ^ 8) (p / 2 ^ 8 % 2 ^ 8) (by omega)
      have h3 := scaled_byte_le (p / 2 ^ 24 % 2 ^ 8) (p / 2 ^ 16 % 2 ^ 8) (by omega)
      rw [Nat.mul_comm] at h1 h2 h3
      generalize p % 2 ^ 8 * (p / 2 ^ 24 % 2 ^ 8) / 255 = r at h1 ⊢
      generalize p / 2 ^ 8 % 2 ^ 8 * (p / 2 ^ 24 % 2 ^ 8) / 255 = g at h2 ⊢
      generalize p / 2 ^ 16 % 2 ^ 8 * (p / 2 ^ 24 % 2 ^ 8) / 255 = b at h3 ⊢
      generalize p / 2 ^ 24 % 2 ^ 8 = al at ha h1 h2 h3 ⊢
      omega

/-- C27, witness: the 2 x 2 buffer with a stride of 12 bytes.  The stored bitmap is the
buffer's rows in reverse order, without the padding words, every pixel premultiplied and
with red and blue exchanged. -/
theorem image_import_flips_and_premultiplies_witness :
    ∃ r, easy2d_on_create_image_gdi gdi_create_replies_1 (some gdi_image_blank)
        (some gdi_context_1) 12 pixels_2x2 = .ok r ∧
      r.pData = pixels_2x2 ∧
      r.data.pSrcBitmapData.getD (0 * 2 + 0) 0 = 0xFF332211 ∧
      r.data.pSrcBitmapData.getD (1 * 2 + 0) 0 = 0x80204080 := by
  obtain ⟨r, hr, _, hp, _, hall⟩ := image_import_flips_and_premultiplies gdi_create_replies_1
    gdi_image_blank gdi_context_1 12 pixels_2x2 _ _ rfl rfl rfl (by decide) (by decide)
    (by decide) (by decide)
  have h00 := (hall 0 0 (by decide) (by decide)).2.1
  have h10 := (hall 1 0 (by decide) (by decide)).2.1
  exact ⟨r, hr, hp, h00.trans (by decide), h10.trans (by decide)⟩

/-! ### A point outside the run -/

/-- C28, counterexample.  First: one character with caret 16777217 and max width 16777218;
the input X = 16777216 is left of `caret[0]`, but converted to `float` the caret is 16777216,
so X lies within the bounds of character 0 and the cursor X reported is 16777216, not 0.
Second: a layout that reports carets 0 and 100 for a max width of 50; the input X = 60 is
right of the max width but within the bounds 0..100 of character 0, and index 1 with cursor X
100 is reported.  Third: a layout that reports carets 10 and 0; the input X = 5 is left of
`caret[0]` but within the bounds 0..20 of character 1, and index 1 is reported. -/
theorem point_outside_run_may_report_hit :
    ((16777216 : c_float) < ((([16777217] : List Int).getD 0 0 : Int) : c_float) ∧
      easy2d_get_text_cursor_position_from_point_gdi (win32_text_carets [16777217])
          (some gdi_font_1) gdi_context_1 (some [97]) 1 16777218 16777216 (some 7) (some 9) =
        .ok ⟨true, some 16777216, some 0,
          { hDC := 100, wcharBuffer := some [97, 0xCDCD], wcharBufferLength := 2 }⟩) ∧
    ((50 : c_float) < 60 ∧
      easy2d_get_text_cursor_position_from_point_gdi (win32_text_carets [0, 100])
          (some gdi_font_1) gdi_context_1 (some [97, 98]) 2 50 60 (some 7) (some 9) =
        .ok ⟨true, some 100, some 1,
          { hDC := 100, wcharBuffer := some [97, 98, 0xCDCD], wcharBufferLength := 3 }⟩) ∧
    ((5 : c_float) < ((([10, 0] : List Int).getD 0 0 : Int) : c_float) ∧
      easy2d_get_text_cursor_position_from_point_gdi (win32_text_carets [10, 0])
          (some gdi_font_1) gdi_context_1 (some [97, 98]) 2 20 5 (some 7) (some 9) =
        .ok ⟨true, some 0, some 1,
          { hDC := 100, wcharBuffer := some [97, 98, 0xCDCD], wcharBufferLength := 3 }⟩) := by
  refine ⟨⟨by norm_num, ?_⟩, ⟨by norm_num, ?_⟩, ⟨by norm_num, ?_⟩⟩
  · have hconv : (easy2d_to_wchar_gdi (win32_text_carets [16777217])
        (some gdi_context_1) (some [97]) 1 (some 0)).ret = some [97, 0xCDCD] := by decide
    have hctx : (easy2d_to_wchar_gdi (win32_text_carets [16777217])
        (some gdi_context_1) (some [97]) 1 (some 0)).ctx.getD gdi_context_1 =
        { hDC := 100, wcharBuffer := some [97, 0xCDCD], wcharBufferLength := 2 } := by
      decide
    have hl0 : char_bounds_left [16777217] 0 = 16777216 := by
      show f32_round ((16777217 : Int) : ℚ) = 16777216
      rw [show ((16777217 : Int) : ℚ) = 16777217 by norm_num]
      exact f32_round_16777217
    have hr0 : char_bounds_right [16777217] 16777218 0 = 16777218 := rfl
    have hhalf : f32_add (16777216 : c_float)
        (c_ceilf (f32_div (f32_sub (16777218 : c_float) 16777216) 2)) = 16777216 := by
      have e1 : f32_sub (16777218 : c_float) 16777216 = 2 := by
        unfold f32_sub
        exact (f32_round_of_int_eq _ 2 (by norm_num) (by norm_num) (by norm_num)).trans
          (by norm_num)
      have e2 : f32_div (2 : c_float) 2 = 1 := by
        unfold f32_div
        exact (f32_round_of_int_eq _ 1 (by norm_num) (by norm_num) (by norm_num)).trans
          (by norm_num)
      have e3 : c_ceilf (1 : c_float) = 1 := by
        unfold c_ceilf
        rw [show (1 : c_float) = ((1 : Int) : c_float) by norm_num, Int.ceil_intCast]
      rw [e1, e2, e3]
      unfold f32_add
      rw [show (16777216 : c_float) + 1 = 16777217 by norm_num]
      exact f32_round_16777217
    have hscan : cursor_scan [16777217] 16777218 16777216 1
        = { characterIndex := 0, textCursorPosX := 16777216 } := by
      rw [cursor_scan_last_hit [16777217] 16777218 16777216 1 0 (by decide)
        (by rw [hl0, hr0]; norm_num) (fun k h1 h2 => absurd h2 (by omega)), hl0, hr0, hhalf,
        if_pos (le_refl _)]
    have h := from_point_of_layout (win32_text_carets [16777217]) gdi_font_1
      gdi_context_1 (some [97]) 1 16777218 16777216 (some 7) (some 9) [97, 0xCDCD]
      (fun _ => 0xCDCD) [16777217] hconv rfl (by decide)
    rw [hctx] at h
    have hlen : ([16777217] : List Int).length = 1 := rfl
    rw [hlen, hscan] at h
    exact h
  · have hconv : (easy2d_to_wchar_gdi (win32_text_carets [0, 100])
        (some gdi_context_1) (some [97, 98]) 2 (some 0)).ret = some [97, 98, 0xCDCD] := by
      decide
    have hctx : (easy2d_to_wchar_gdi (win32_text_carets [0, 100])
        (some gdi_context_1) (some [97, 98]) 2 (some 0)).ctx.getD gdi_context_1 =
        { hDC := 100, wcharBuffer := some [97, 98, 0xCDCD], wcharBufferLength := 3 } := by
      decide
    have hl0 : char_bounds_left [0, 100] 0 = ((0 : Int) : c_float) :=
      f32_of_int_exact 0 (by norm_num) (by norm_num)
    have hr0 : char_bounds_right [0, 100] 50 0 = ((100 : Int) : c_float) :=
      f32_of_int_exact 100 (by norm_num) (by norm_num)
    have hl1 : char_bounds_left [0, 100] 1 = ((100 : Int) : c_float) :=
      f32_of_int_exact 100 (by norm_num) (by norm_num)
    have hc : c_ceilf ((((100 : Int) : c_float) - ((0 : Int) : c_float)) / 2) = 50 := by
      unfold c_ceilf
      have h3 : ⌈(((100 : Int) : c_float) - ((0 : Int) : c_float)) / 2⌉ = 50 := by
        rw [Int.ceil_eq_iff]
        norm_num
      rw [h3]
      norm_num
    have hscan : cursor_scan [0, 100] 50 60 2
        = { characterIndex := 1, textCursorPosX := 100 } := by
      rw [cursor_scan_last_hit [0, 100] 50 60 2 0 (by decide) (by rw [hl0, hr0]; norm_num)
        (by
          intro k h1 h2
          have hk : k = 1 := by omega
          subst hk
          rw [hl1]
          norm_num), hl0, hr0,
        cursor_half_exact 0 100 (by norm_num) (by norm_num) (by norm_num) (by norm_num), hc,
        if_neg (by norm_num)]
      norm_num
    have h := from_point_of_layout (win32_text_carets [0, 100]) gdi_font_1
      gdi_context_1 (some [97, 98]) 2 50 60 (some 7) (some 9) [97, 98, 0xCDCD]
      (fun _ => 0xCDCD) [0, 100] hconv rfl (by decide)
    rw [hctx] at h
    have hlen : ([0, 100] : List Int).length = 2 := rfl
    rw [hlen, hscan] at h
    exact h
  · have hconv : (easy2d_to_wchar_gdi (win32_text_carets [10, 0])
        (some gdi_context_1) (some [97, 98]) 2 (some 0)).ret = some [97, 98, 0xCDCD] := by
      decide
    have hctx : (easy2d_to_wchar_gdi (win32_text_carets [10, 0])
        (some gdi_context_1) (some [97, 98]) 2 (some 0)).ctx.getD gdi_context_1 =
        { hDC := 100, wcharBuffer := some [97, 98, 0xCDCD], wcharBufferLength := 3 } := by
      decide
    have hl1 : char_bounds_left [10, 0] 1 = ((0 : Int) : c_float) :=
      f32_of_int_exact 0 (by norm_num) (by norm_num)
    have hr1 : char_bounds_right [10, 0] 20 1 = ((20 : Int) : c_float) := by
      rw [char_bounds_right_last [10, 0] 20 1 (by decide)]
      norm_num
    have hc : c_ceilf ((((20 : Int) : c_float) - ((0 : Int) : c_float)) / 2) = 10 := by
      unfold c_ceilf
      have h3 : ⌈(((20 : Int) : c_float) - ((0 : Int) : c_float)) / 2⌉ = 10 := by
        rw [Int.ceil_eq_iff]
        norm_num
      rw [h3]
      norm_num
    have hscan : cursor_scan [10, 0] 20 5 2
        = { characterIndex := 1, textCursorPosX := 0 } := by
      rw [cursor_scan_last_hit [10, 0] 20 5 2 1 (by decide) (by rw [hl1, hr1]; norm_num)
        (fun k h1 h2 => absurd h2 (by omega)), hl1, hr1,
        cursor_half_exact 0 20 (by norm_num) (by norm_num) (by norm_num) (by norm_num), hc,
        if_pos (by norm_num)]
      norm_num
    have h := from_point_of_layout (win32_text_carets [10, 0]) gdi_font_1
      gdi_context_1 (some [97, 98]) 2 20 5 (some 7) (some 9) [97, 98, 0xCDCD]
      (fun _ => 0xCDCD) [10, 0] hconv rfl (by decide)
    rw [hctx] at h
    have hlen : ([10, 0] : List Int).length = 2 := rfl
    rw [hlen, hscan] at h
    exact h

/-- C28, amended: when the text is converted and laid out but the input X lies within no
character's bounds, as the code computes them (`charBoundsLeft` the caret converted to
`float`), the function still returns success and reports index 0 and cursor X 0.  This is so
in particular when X is left of `caret[0]` converted to `float` in a strictly increasing
layout, and when X is right of the max width in a layout whose carets, converted to `float`,
lie within the max width: a point past the end of the run is reported as the start of the
text. -/
theorem point_outside_run_reports_start (W : win32_text) (font : gdi_font_data)
    (c : gdi_context_data) (text : Option (List Nat)) (size : Nat) (maxWidth X : c_float)
    (px : Option c_float) (pi : Option Nat) (textW : List Nat) (g : Nat → Nat)
    (carets : List Int)
    (hconv : (easy2d_to_wchar_gdi W (some c) text size (some 0)).ret = some textW)
    (hmalloc : W.malloc (sizeof_int * uint_of_size_t size) = some g)
    (hlayout : W.GetCharacterPlacementW c.hDC font.hFont textW (uint_of_size_t size)
      (c_int maxWidth) (GCP_MAXEXTENT ||| GCP_USEKERNING) = some carets) :
    ((∀ k, k < carets.length →
        ¬ (X ≥ char_bounds_left carets k ∧ X ≤ char_bounds_right carets maxWidth k)) →
      easy2d_get_text_cursor_position_from_point_gdi W (some font) c text size maxWidth X
          px pi =
        .ok ⟨true, px.map (fun _ => 0), pi.map (fun _ => 0),
          (easy2d_to_wchar_gdi W (some c) text size (some 0)).ctx.getD c⟩) ∧
    (carets.Pairwise (fun x y => x < y) → X < f32_of_int (carets.getD 0 0) →
      easy2d_get_text_cursor_position_from_point_gdi W (some font) c text size maxWidth X
          px pi =
        .ok ⟨true, px.map (fun _ => 0), pi.map (fun _ => 0),
          (easy2d_to_wchar_gdi W (some c) text size (some 0)).ctx.getD c⟩) ∧
    ((∀ k, k < carets.length → f32_of_int (carets.getD k 0) ≤ maxWidth) → maxWidth < X →
      easy2d_get_text_cursor_position_from_point_gdi W (some font) c text size maxWidth X
          px pi =
        .ok ⟨true, px.map (fun _ => 0), pi.map (fun _ => 0),
          (easy2d_to_wchar_gdi W (some c) text size (some 0)).ctx.getD c⟩) := by
  have hgen : (∀ k, k < carets.length →
        ¬ (X ≥ char_bounds_left carets k ∧ X ≤ char_bounds_right carets maxWidth k)) →
      easy2d_get_text_cursor_position_from_point_gdi W (some font) c text size maxWidth X
          px pi =
        .ok ⟨true, px.map (fun _ => 0), pi.map (fun _ => 0),
          (easy2d_to_wchar_gdi W (some c) text size (some 0)).ctx.getD c⟩ := by
    intro hno
    rw [from_point_of_layout W font c text size maxWidth X px pi textW g carets hconv hmalloc
      hlayout, cursor_scan_no_hit carets maxWidth X carets.length hno]
  refine ⟨hgen, ?_, ?_⟩
  · intro hmono hX
    apply hgen
    intro k hk hhit
    have hle : f32_of_int (carets.getD 0 0) ≤ f32_of_int (carets.getD k 0) := by
      unfold f32_of_int
      apply f32_round_mono
      rcases Nat.eq_zero_or_pos k with e | e
      · rw [e]
      · exact_mod_cast (pairwise_getD_lt carets hmono 0 k e hk).le
    have h1 : X ≥ f32_of_int (carets.getD k 0) := hhit.1
    linarith
  · intro hfit hX
    apply hgen
    intro k hk hhit
    have h2 := hhit.2
    unfold char_bounds_right at h2
    by_cases h : k < carets.length - 1
    · rw [if_pos h] at h2
      have := hfit (k + 1) (by omega)
      linarith
    · rw [if_neg h] at h2
      linarith

/-- C28, witness: "abc" in a monospaced font of advance 10, max width 30: the input X = 31,
past the end of the run, is reported as index 0 at cursor 0. -/
theorem point_outside_run_reports_start_witness :
    easy2d_get_text_cursor_position_from_point_gdi (win32_text_mono 10) (some gdi_font_1)
        gdi_context_1 (some [97, 98, 99]) 3 30 31 (some 7) (some 9) =
      .ok ⟨true, some 0, some 0,
        { hDC := 100, wcharBuffer := some [97, 98, 99, 0xCDCD], wcharBufferLength := 4 }⟩ := by
  have hconv : (easy2d_to_wchar_gdi (win32_text_mono 10) (some gdi_context_1)
      (some [97, 98, 99]) 3 (some 0)).ret = some [97, 98, 99, 0xCDCD] := by decide
  have hctx : (easy2d_to_wchar_gdi (win32_text_mono 10) (some gdi_context_1)
      (some [97, 98, 99]) 3 (some 0)).ctx.getD gdi_context_1 =
      { hDC := 100, wcharBuffer := some [97, 98, 99, 0xCDCD], wcharBufferLength := 4 } := by
    decide
  have h := (point_outside_run_reports_start (win32_text_mono 10) gdi_font_1 gdi_context_1
    (some [97, 98, 99]) 3 30 31 (some 7) (some 9) [97, 98, 99, 0xCDCD] (fun _ => 0xCDCD)
    [0, 10, 20] hconv rfl (by decide)).2.2
    (by
      intro k hk
      have hk3 : k < 3 := hk
      interval_cases k
      · exact (f32_of_int_exact 0 (by norm_num) (by norm_num)).le.trans (by norm_num)
      · exact (f32_of_int_exact 10 (by norm_num) (by norm_num)).le.trans (by norm_num)
      · exact (f32_of_int_exact 20 (by norm_num) (by norm_num)).le.trans (by norm_num))
    (by norm_num)
  rw [hctx] at h
  exact h

/-! ### The caller's argument struct -/

/-- The argument struct after a draw, in the three ways the clip block can go. -/
theorem draw_image_args_cases (R : gdi_replies) (s : gdi_surface_data) (im : gdi_image)
    (a : easy2d_draw_image_args) :
    (unscaled_clip_case (center_image a) ∧
      (easy2d_draw_image_gdi R (some s) (some im) a).ops = [] ∧
      (easy2d_draw_image_gdi R (some s) (some im) a).args
        = clip_bottom (clip_right (clip_top (clip_left (center_image a))))) ∨
    (unscaled_clip_case (center_image a) ∧
      (easy2d_draw_image_gdi R (some s) (some im) a).ops ≠ [] ∧
      (easy2d_draw_image_gdi R (some s) (some im) a).args = (composite_image im
        (clip_bottom (clip_right (clip_top (clip_left (center_image a)))))).args) ∨
    (¬ unscaled_clip_case (center_image a) ∧
      (easy2d_draw_image_gdi R (some s) (some im) a).ops ≠ [] ∧
      (easy2d_draw_image_gdi R (some s) (some im) a).args
        = (composite_image im (center_image a)).args) := by
  by_cases hun : unscaled_clip_case (center_image a)
  · have hclip := clip_image_unscaled R s (center_image a) hun
    by_cases he : (clip_bottom (clip_right (clip_top (clip_left (center_image a))))).dstWidth
        ≤ 0 ∨
        (clip_bottom (clip_right (clip_top (clip_left (center_image a))))).dstHeight ≤ 0
    · rw [if_pos he] at hclip
      left
      rw [draw_image_of_abandoned R s im a _ hclip]
      exact ⟨hun, rfl, rfl⟩
    · rw [if_neg he] at hclip
      right
      left
      refine ⟨hun, draw_image_ops_ne_nil R s im a _ _ _ hclip, ?_⟩
      rw [draw_image_of_proceed R s im a _ _ _ hclip]
  · right
    right
    by_cases hsc : scaled_clip_case (center_image a)
    · have hclip := clip_image_scaled R s (center_image a) hsc
      refine ⟨hun, draw_image_ops_ne_nil R s im a _ _ _ hclip, ?_⟩
      rw [draw_image_of_proceed R s im a _ _ _ hclip]
    · have hclip := clip_image_plain R s (center_image a) hsc hun
      refine ⟨hun, draw_image_ops_ne_nil R s im a _ _ _ hclip, ?_⟩
      rw [draw_image_of_proceed R s im a _ _ _ hclip]

/-- The argument struct after a draw, field by field. -/
theorem draw_image_args_after (R : gdi_replies) (s : gdi_surface_data) (im : gdi_image)
    (a : easy2d_draw_image_args) :
    let r := easy2d_draw_image_gdi R (some s) (some im) a
    (r.args.dstBoundsX = a.dstBoundsX ∧ r.args.dstBoundsY = a.dstBoundsY ∧
      r.args.dstBoundsWidth = a.dstBoundsWidth ∧ r.args.dstBoundsHeight = a.dstBoundsHeight ∧
      r.args.foregroundTint = a.foregroundTint ∧ r.args.backgroundColor = a.backgroundColor ∧
      r.args.boundsColor = a.boundsColor) ∧
    (¬ unscaled_clip_case (center_image a) →
      r.args.dstX = (center_image a).dstX ∧ r.args.dstY = (center_image a).dstY ∧
      r.args.dstWidth = a.dstWidth ∧ r.args.dstHeight = a.dstHeight ∧
      r.args.srcX = a.srcX ∧ r.args.srcY = a.srcY ∧
      r.args.srcWidth = a.srcWidth ∧ r.args.srcHeight = a.srcHeight) ∧
    (a.options &&& EASY2D_IMAGE_ALIGN_CENTER = 0 → center_image a = a) ∧
    ((a.options &&& EASY2D_IMAGE_DRAW_BACKGROUND ≠ 0 ∧ r.ops ≠ []) →
      r.args.options = a.options ||| EASY2D_IMAGE_HINT_NO_ALPHA ∧
      r.args.options &&& EASY2D_IMAGE_HINT_NO_ALPHA ≠ 0) ∧
    (¬ (a.options &&& EASY2D_IMAGE_DRAW_BACKGROUND ≠ 0 ∧ r.ops ≠ []) →
      r.args.options = a.options) ∧
    (easy2d_draw_image_gdi R none (some im) a).args = a ∧
    (easy2d_draw_image_gdi R (some s) none a).args = a := by
  intro r
  obtain ⟨cw, ch, csx, csy, csw, csh, cbx, cby, cbw, cbh, ct, cb, cc, copt⟩ :=
    center_image_frame a
  have hcenter : a.options &&& EASY2D_IMAGE_ALIGN_CENTER = 0 → center_image a = a := by
    intro h
    unfold center_image
    rw [if_neg (by simp [h])]
  rcases draw_image_args_cases R s im a with ⟨hun, hops, hargs⟩ | ⟨hun, hops, hargs⟩ |
      ⟨hun, hops, hargs⟩
  · obtain ⟨k1, k2, k3, k4⟩ := clip_steps_frame (center_image a)
    obtain ⟨b1, b2, b3, b4⟩ := clip_steps_bounds (center_image a)
    refine ⟨?_, fun h => absurd hun h, hcenter, fun h => absurd hops h.2, ?_, rfl, rfl⟩
    · show (easy2d_draw_image_gdi R (some s) (some im) a).args.dstBoundsX = _ ∧ _
      rw [hargs]
      exact ⟨b1.trans cbx, b2.trans cby, b3.trans cbw, b4.trans cbh, k2.trans ct, k3.trans cb,
        k4.trans cc⟩
    · intro _
      show (easy2d_draw_image_gdi R (some s) (some im) a).args.options = _
      rw [hargs]
      exact k1.trans copt
  · obtain ⟨k1, k2, k3, k4⟩ := clip_steps_frame (center_image a)
    obtain ⟨b1, b2, b3, b4⟩ := clip_steps_bounds (center_image a)
    obtain ⟨_, _, _, _, _, _, _, _, f9, f10, f11, f12, f13, f14, f15⟩ := composite_image_frame im
      (clip_bottom (clip_right (clip_top (clip_left (center_image a)))))
    have hoptions := composite_image_options im
      (clip_bottom (clip_right (clip_top (clip_left (center_image a)))))
    rw [k1, copt] at hoptions
    refine ⟨?_, fun h => absurd hun h, hcenter, ?_, ?_, rfl, rfl⟩
    · show (easy2d_draw_image_gdi R (some s) (some im) a).args.dstBoundsX = _ ∧ _
      rw [hargs]
      exact ⟨(f9.trans b1).trans cbx, (f10.trans b2).trans cby, (f11.trans b3).trans cbw,
        (f12.trans b4).trans cbh, (f13.trans k2).trans ct, (f14.trans k3).trans cb,
        (f15.trans k4).trans cc⟩
    · intro h
      show (easy2d_draw_image_gdi R (some s) (some im) a).args.options = _ ∧ _
      rw [hargs, hoptions, if_pos h.1]
      exact ⟨rfl, hint_no_alpha_set a.options⟩
    · intro h
      show (easy2d_draw_image_gdi R (some s) (some im) a).args.options = _
      rw [hargs, hoptions, if_neg (fun hbg => h ⟨hbg, hops⟩)]
  · obtain ⟨f1, f2, f3, f4, f5, f6, f7, f8, f9, f10, f11, f12, f13, f14, f15⟩ :=
      composite_image_frame im (center_image a)
    have hoptions := composite_image_options im (center_image a)
    rw [copt] at hoptions
    refine ⟨?_, ?_, hcenter, ?_, ?_, rfl, rfl⟩
    · show (easy2d_draw_image_gdi R (some s) (some im) a).args.dstBoundsX = _ ∧ _
      rw [hargs]
      exact ⟨f9.trans cbx, f10.trans cby, f11.trans cbw, f12.trans cbh, f13.trans ct,
        f14.trans cb, f15.trans cc⟩
    · intro _
      show (easy2d_draw_image_gdi R (some s) (some im) a).args.dstX = _ ∧ _
      rw [hargs]
      exact ⟨f1, f2, f3.trans cw, f4.trans ch, f5.trans csx, f6.trans csy, f7.trans csw,
        f8.trans csh⟩
    · intro h
      show (easy2d_draw_image_gdi R (some s) (some im) a).args.options = _ ∧ _
      rw [hargs, hoptions, if_pos h.1]
      exact ⟨rfl, hint_no_alpha_set a.options⟩
    · intro h
      show (easy2d_draw_image_gdi R (some s) (some im) a).args.options = _
      rw [hargs, hoptions, if_neg (fun hbg => h ⟨hbg, hops⟩)]

/-- C29: `easy2d_draw_image_gdi` leaves in the caller's argument struct the bounds rectangle
and the tint, background and bounds colours it was given.  Outside the non-scaled clip case
(clip-to-bounds set, sizes equal, destination partly outside the bounds by the code's test) the
destination position is what the centering block left, which is the caller's when center-align
is unset, and the source rectangle and the destination size are the caller's.  The options
after the call are the caller's with the no-alpha hint set when draw-background is set and the
draw is not abandoned (some GDI call is issued), and the caller's otherwise.  With no image
or no surface the struct is as the caller gave it. -/
theorem draw_image_args_frame (R : gdi_replies) (s : gdi_surface_data) (im : gdi_image)
    (a : easy2d_draw_image_args) :
    let r := easy2d_draw_image_gdi R (some s) (some im) a
    (r.args.dstBoundsX = a.dstBoundsX ∧ r.args.dstBoundsY = a.dstBoundsY ∧
      r.args.dstBoundsWidth = a.dstBoundsWidth ∧ r.args.dstBoundsHeight = a.dstBoundsHeight ∧
      r.args.foregroundTint = a.foregroundTint ∧ r.args.backgroundColor = a.backgroundColor ∧
      r.args.boundsColor = a.boundsColor) ∧
    (¬ unscaled_clip_case (center_image a) →
      r.args.dstX = (center_image a).dstX ∧ r.args.dstY = (center_image a).dstY ∧
      r.args.dstWidth = a.dstWidth ∧ r.args.dstHeight = a.dstHeight ∧
      r.args.srcX = a.srcX ∧ r.args.srcY = a.srcY ∧
      r.args.srcWidth = a.srcWidth ∧ r.args.srcHeight = a.srcHeight) ∧
    (a.options &&& EASY2D_IMAGE_ALIGN_CENTER = 0 → center_image a = a) ∧
    (a.options &&& EASY2D_IMAGE_ALIGN_CENTER = 0 → ¬ unscaled_clip_case a →
      r.args.dstX = a.dstX ∧ r.args.dstY = a.dstY) ∧
    ((a.options &&& EASY2D_IMAGE_DRAW_BACKGROUND ≠ 0 ∧ r.ops ≠ []) →
      r.args.options = a.options ||| EASY2D_IMAGE_HINT_NO_ALPHA ∧
      r.args.options &&& EASY2D_IMAGE_HINT_NO_ALPHA ≠ 0) ∧
    (¬ (a.options &&& EASY2D_IMAGE_DRAW_BACKGROUND ≠ 0 ∧ r.ops ≠ []) →
      r.args.options = a.options) ∧
    (easy2d_draw_image_gdi R none (some im) a).args = a ∧
    (easy2d_draw_image_gdi R (some s) none a).args = a := by
  intro r
  obtain ⟨h1, h2, h3, h4, h5, h6, h7⟩ := draw_image_args_after R s im a
  refine ⟨h1, h2, h3, ?_, h4, h5, h6, h7⟩
  intro hc hun
  have hca := h3 hc
  rw [hca] at h2
  exact ⟨(h2 hun).1, (h2 hun).2.1⟩

/-- C29, witness: the draw with the background drawn is not abandoned and leaves the options
17, the caller's draw-background bit with the no-alpha hint added; and the centered draw in
the 13 x 10 bounds at (16777216, 0) leaves `dstX = 16777218` in the struct, the `float` the
centering block stored. -/
theorem draw_image_args_frame_witness :
    (easy2d_draw_image_gdi gdi_replies_1 (some gdi_surface_1) (some gdi_image_2x2)
      args_background).ops ≠ [] ∧
    (easy2d_draw_image_gdi gdi_replies_1 (some gdi_surface_1) (some gdi_image_2x2)
      args_background).args.options = 17 ∧
    ¬ unscaled_clip_case (center_image args_center_large) ∧
    (easy2d_draw_image_gdi gdi_replies_1 (some gdi_surface_1) (some gdi_image_2x2)
      args_center_large).args.dstX = 16777218 := by
  have hd : (easy2d_draw_image_gdi gdi_replies_1 (some gdi_surface_1) (some gdi_image_2x2)
      args_background).ops ≠ [] :=
    draw_image_ops_ne_nil gdi_replies_1 gdi_surface_1 gdi_image_2x2 args_background _ 0 []
      (clip_image_of_flag_unset gdi_replies_1 gdi_surface_1 _ (by decide))
  have hun : ¬ unscaled_clip_case (center_image args_center_large) := by
    intro h
    have h1 := h.1
    rw [(center_image_frame args_center_large).2.2.2.2.2.2.2.2.2.2.2.2.2] at h1
    exact absurd h1 (by decide)
  exact ⟨hd, ((draw_image_args_frame gdi_replies_1 gdi_surface_1 gdi_image_2x2
    args_background).2.2.2.2.1 ⟨by decide, hd⟩).1.trans (by decide), hun,
    ((draw_image_args_frame gdi_replies_1 gdi_surface_1 gdi_image_2x2
      args_center_large).2.1 hun).1.trans center_image_large_dstX⟩

/-! ### UTF-16 -/

theorem utf16_pair_decodes (utf32 : Nat) (h1 : 0x10000 ≤ utf32) (h2 : utf32 ≤ 0x10FFFF) :
    0xD800 ≤ c_ushort (0xD7C0 + c_ushort (utf32 >>> 10)) ∧
    c_ushort (0xD7C0 + c_ushort (utf32 >>> 10)) ≤ 0xDBFF ∧
    0xDC00 ≤ c_ushort (0xDC00 + c_ushort (utf32 &&& 0x3FF)) ∧
    c_ushort (0xDC00 + c_ushort (utf32 &&& 0x3FF)) ≤ 0xDFFF ∧
    0x10000 + ((c_ushort (0xD7C0 + c_ushort (utf32 >>> 10)) - 0xD800) <<< 10)
      + (c_ushort (0xDC00 + c_ushort (utf32 &&& 0x3FF)) - 0xDC00) = utf32 := by
  have hand : utf32 &&& 0x3FF = utf32 % 2 ^ 10 := Nat.and_pow_two_sub_one_eq_mod utf32 10
  unfold c_ushort
  rw [hand, Nat.shiftRight_eq_div_pow, Nat.shiftLeft_eq]
  omega

/-- C30: `easy2d_utf32_to_utf16` encodes UTF-16.  For a code point below 0xD800 or in
0xE000..0xFFFF it returns 1 with `utf16[0]` the code point and `utf16[1]` 0; for a code point
in 0x10000..0x10FFFF it returns 2 with `utf16[0]` in 0xD800..0xDBFF and `utf16[1]` in
0xDC00..0xDFFF such that `0x10000 + ((utf16[0] - 0xD800) << 10) + (utf16[1] - 0xDC00)` is the
code point; for every other value (0xD800..0xDFFF, or above 0x10FFFF) it returns 0; and it
returns 0 when the output array is null. -/
theorem utf32_to_utf16_encodes (utf32 : Nat) (cells : Nat × Nat) :
    ((utf32 < 0xD800 ∨ (0xE000 ≤ utf32 ∧ utf32 ≤ 0xFFFF)) →
      easy2d_utf32_to_utf16 utf32 (some cells) = { ret := 1, utf16 := some (utf32, 0) }) ∧
    ((0x10000 ≤ utf32 ∧ utf32 ≤ 0x10FFFF) →
      ∃ hi lo, easy2d_utf32_to_utf16 utf32 (some cells) = { ret := 2, utf16 := some (hi, lo) } ∧
        0xD800 ≤ hi ∧ hi ≤ 0xDBFF ∧ 0xDC00 ≤ lo ∧ lo ≤ 0xDFFF ∧
        0x10000 + ((hi - 0xD800) <<< 10) + (lo - 0xDC00) = utf32) ∧
    (((0xD800 ≤ utf32 ∧ utf32 ≤ 0xDFFF) ∨ 0x10FFFF < utf32) →
      (easy2d_utf32_to_utf16 utf32 (some cells)).ret = 0) ∧
    (easy2d_utf32_to_utf16 utf32 none).ret = 0 := by
  refine ⟨?_, ?_, ?_, rfl⟩
  · intro h
    unfold easy2d_utf32_to_utf16
    simp only
    rw [if_pos h]
    have : c_ushort utf32 = utf32 := by
      unfold c_ushort
      omega
    rw [this]
  · intro h
    unfold easy2d_utf32_to_utf16
    simp only
    rw [if_neg (by omega), if_pos h]
    exact ⟨_, _, rfl, utf16_pair_decodes utf32 h.1 h.2⟩
  · intro h
    unfold easy2d_utf32_to_utf16
    simp only
    rw [if_neg (by omega), if_neg (by omega)]

/-- C30, witness: U+1F600 is encoded as the surrogate pair 0xD83D, 0xDE00. -/
theorem utf32_to_utf16_encodes_witness :
    easy2d_utf32_to_utf16 0x1F600 (some (0xCDCD, 0xCDCD))
      = { ret := 2, utf16 := some (0xD83D, 0xDE00) } ∧
    ∃ hi lo, easy2d_utf32_to_utf16 0x1F600 (some (0xCDCD, 0xCDCD))
        = { ret := 2, utf16 := some (hi, lo) } ∧
      0xD800 ≤ hi ∧ hi ≤ 0xDBFF ∧ 0xDC00 ≤ lo ∧ lo ≤ 0xDFFF ∧
      0x10000 + ((hi - 0xD800) <<< 10) + (lo - 0xDC00) = 0x1F600 :=
  ⟨by decide, (utf32_to_utf16_encodes 0x1F600 (0xCDCD, 0xCDCD)).2.1 (by decide)⟩

end Easy2D
